import Mathlib

/-! # qfusion renderer command queue

A shallow embedding of `source/ref_gl/r_cmdque.c`: the per-frame command buffer
(encoders `RF_Issue*Cmd`, handlers `R_Handle*Cmd`, dispatcher `RF_RunCmdBufProc`).
The last section of the definitions embeds the server list of
`source/client/cl_serverlist.c` (`CL_ServerFindInList`, `CL_AddServerToList`).

Conventions of the embedding

* The target is an LP64 little-endian host: `int`, `unsigned` and `float` occupy four
  bytes, pointers and `size_t` eight, `bool` one.  A `float` is carried as its bit
  pattern, since the file only copies floats.
* Memory is a map from byte offsets to bytes.  `cmdbuf->buf` is such a map indexed from
  0, and `base` is the address of `buf[0]`, so that the pointer `cmdbuf->buf + k` has the
  value `base + k`.  Caller-owned memory is a separate map indexed by address.
* A struct value is its object representation, a list of bytes.  An encoder builds its
  record in a local variable `cmd` that it declares without an initialiser and copies
  whole; the padding bytes of `cmd` and the members that the encoder never assigns are
  indeterminate in C.  Here they are what `stack` holds, the content of the stack where
  the local lies when the encoder is entered, which is a parameter of every call.
* `size_t` arithmetic is arithmetic on `Nat` reduced modulo `2^64`.
* Calls into the renderer backend are recorded as a trace of `BackendCall` values.
-/

namespace RCmdQue

/-! ## Bytes, machine words and memory -/

abbrev Byte := Fin 256

/-- A 32-bit object: an `int`, an `unsigned` or the bit pattern of a `float`. -/
abbrev U32 := Fin 4294967296

/-- A 64-bit object: a pointer or a `size_t`. -/
abbrev U64 := Fin 18446744073709551616

/-- A byte store, indexed by offset or by address. -/
abbrev Mem := Nat → Byte

/-- The number of values of a `size_t`, 2^64. -/
def SIZE_MOD : Nat := 18446744073709551616

def U32.ofNat (n : Nat) : U32 := ⟨n % 4294967296, Nat.mod_lt _ (by decide)⟩

def U64.ofNat (n : Nat) : U64 := ⟨n % 18446744073709551616, Nat.mod_lt _ (by decide)⟩

/-- The value of a 32-bit object read as a two's complement `int`. -/
def toInt (w : U32) : Int :=
  if w.val < 2147483648 then (w.val : Int) else (w.val : Int) - 4294967296

/-- The 32-bit object holding the `int` value `i` (reduced modulo 2^32). -/
def ofInt (i : Int) : U32 := U32.ofNat (i % 4294967296).toNat

/-- Conversion of an `int` to `size_t`: sign extension to 64 bits. -/
def intToSize (w : U32) : Nat :=
  if w.val < 2147483648 then w.val else 18446744069414584320 + w.val

/-- Addition of two `size_t` values. -/
def szAdd (a b : Nat) : Nat := (a + b) % SIZE_MOD

/-- Multiplication of two `size_t` values. -/
def szMul (a b : Nat) : Nat := (a * b) % SIZE_MOD

/-- Modelled from the spec: the macro `ALIGN( x, a )`, defined in a header that is not
under src/.  It aligns the `size_t` value `x` up to the next multiple of `a`, a power of
two: `( x + ( a - 1 ) ) & ~( a - 1 )`. -/
def ALIGN (x a : Nat) : Nat := szAdd x (a - 1) / a * a

/-- The little-endian representation of the low `n` bytes of `v`. -/
def leBytes : Nat → Nat → List Byte
  | 0, _ => []
  | n + 1, v => ⟨v % 256, Nat.mod_lt _ (by decide)⟩ :: leBytes n (v / 256)

/-- The number whose little-endian representation is `bs`. -/
def fromLE : List Byte → Nat
  | [] => 0
  | b :: bs => b.val + 256 * fromLE bs

def U32.bytes (v : U32) : List Byte := leBytes 4 v.val

def U64.bytes (v : U64) : List Byte := leBytes 8 v.val

/-- The object representation of a `bool`. -/
def boolBytes (b : Bool) : List Byte := [if b then 1 else 0]

/-- Zero bytes: the content of an object that was cleared, by the initialiser `= { 0 }`
or by a zeroing allocator. -/
def padBytes (n : Nat) : List Byte := List.replicate n 0

/-- Read the 32-bit object at the head of `bs`. -/
def rdU32 (bs : List Byte) : U32 := U32.ofNat (fromLE (bs.take 4))

/-- Read the 64-bit object at the head of `bs`. -/
def rdU64 (bs : List Byte) : U64 := U64.ofNat (fromLE (bs.take 8))

/-- Read the `bool` at the head of `bs`. -/
def rdBool (bs : List Byte) : Bool := decide (bs.headD 0 ≠ 0)

/-- The C library `memcpy( m + dst, src, src.length )`. -/
def memcpy (m : Mem) (dst : Nat) (src : List Byte) : Mem :=
  fun i => if dst ≤ i ∧ i < dst + src.length then src.getD (i - dst) 0 else m i

/-- The `n` bytes of `m` from offset `a` on. -/
def readBytes (m : Mem) (a n : Nat) : List Byte := (List.range n).map (fun i => m (a + i))

/-- The 32-bit member at offset `off` of the struct value `s`. -/
def get32 (s : List Byte) (off : Nat) : U32 := rdU32 (s.drop off)

/-- The 64-bit member at offset `off` of the struct value `s`. -/
def get64 (s : List Byte) (off : Nat) : U64 := rdU64 (s.drop off)

/-- Assignment of `v` to the 64-bit member at offset `off` of the struct value `s`. -/
def set64 (s : List Byte) (off : Nat) (v : U64) : List Byte :=
  readBytes (memcpy (fun i => s.getD i 0) off v.bytes) 0 s.length

/-! ## Declarations that the source file takes from headers -/

/-- The layout facts that `r_cmdque.c` takes from `r_local.h` and the headers it pulls
in, none of which is under src/: the size of the buffer storage, the sizes of `poly_t`,
`entity_t`, `refdef_t` and `bonepose_t`, the offsets of the members the file touches,
and the flag `RDF_NOWORLDMODEL`. -/
structure Layout where
  /-- The value of `sizeof( cmdbuf->buf )`. -/
  sizeof_buf : Nat
  sizeof_poly_t : Nat
  poly_numverts : Nat
  poly_verts : Nat
  poly_stcoords : Nat
  poly_normals : Nat
  poly_colors : Nat
  poly_numelems : Nat
  poly_elems : Nat
  poly_shader : Nat
  sizeof_entity_t : Nat
  entity_model : Nat
  entity_boneposes : Nat
  entity_oldboneposes : Nat
  sizeof_refdef_t : Nat
  refdef_rdflags : Nat
  refdef_areabits : Nat
  sizeof_bonepose_t : Nat
  RDF_NOWORLDMODEL : U32

/-- Modelled from the spec: `sizeof( vec4_t )`, four floats; the typedef is in a header
that is not under src/. -/
def sizeof_vec4_t : Nat := 16

/-- Modelled from the spec: `sizeof( vec2_t )`, two floats; the typedef is in a header
that is not under src/. -/
def sizeof_vec2_t : Nat := 8

/-- Modelled from the spec: `sizeof( byte_vec4_t )`, four bytes; the typedef is in a
header that is not under src/. -/
def sizeof_byte_vec4_t : Nat := 4

/-- Modelled from the spec: `sizeof( elem_t )`, a 16-bit index; the typedef is in a
header that is not under src/. -/
def sizeof_elem_t : Nat := 2

/-- The value of `sizeof( float )`. -/
def sizeof_float : Nat := 4

/-- A `vec3_t`: three floats. -/
structure vec3_t where
  v0 : U32
  v1 : U32
  v2 : U32
deriving DecidableEq

/-- A `vec4_t`: four floats. -/
structure vec4_t where
  v0 : U32
  v1 : U32
  v2 : U32
  v3 : U32
deriving DecidableEq

def vec3_t.toBytes (v : vec3_t) : List Byte := v.v0.bytes ++ (v.v1.bytes ++ v.v2.bytes)

def vec3_t.ofBytes (bs : List Byte) : vec3_t :=
  { v0 := rdU32 bs, v1 := rdU32 (bs.drop 4), v2 := rdU32 (bs.drop 8) }

def vec4_t.toBytes (v : vec4_t) : List Byte :=
  v.v0.bytes ++ (v.v1.bytes ++ (v.v2.bytes ++ v.v3.bytes))

def vec4_t.ofBytes (bs : List Byte) : vec4_t :=
  { v0 := rdU32 bs, v1 := rdU32 (bs.drop 4), v2 := rdU32 (bs.drop 8), v3 := rdU32 (bs.drop 12) }

/-- The fields of the global `rsh` that the file reads, with `numareas` standing for
`rsh.worldBrushModel->numareas`. -/
structure rsh_t where
  registrationSequence : U32
  worldModelSequence : U32
  worldBrushModel : U64
  numareas : U32
deriving DecidableEq

/-- The identifiers `REF_CMD_*`.  The enum is declared in `r_cmdque.h`, which is not
under src/; the values are those the handler table of `RF_RunCmdBufProc` is indexed by
("must match the corresponding REF_CMD_ enums!"). -/
def REF_CMD_BEGIN_FRAME : U32 := 0
def REF_CMD_END_FRAME : U32 := 1
def REF_CMD_DRAW_STRETCH_PIC : U32 := 2
def REF_CMD_DRAW_STRETCH_POLY : U32 := 3
def REF_CMD_CLEAR_SCENE : U32 := 4
def REF_CMD_ADD_ENTITY_TO_SCENE : U32 := 5
def REF_CMD_ADD_LIGHT_TO_SCENE : U32 := 6
def REF_CMD_ADD_POLY_TO_SCENE : U32 := 7
def REF_CMD_ADD_LIGHT_STYLE_TO_SCENE : U32 := 8
def REF_CMD_RENDER_SCENE : U32 := 9
def REF_CMD_SET_SCISSOR : U32 := 10
def REF_CMD_RESET_SCISSOR : U32 := 11
def REF_CMD_DRAW_STRETCH_RAW : U32 := 12
def REF_CMD_DRAW_STRETCH_RAW_YUV : U32 := 13
def NUM_REF_CMDS : Nat := 14

/-! ## Command records -/

/-- The members `pad0` and `pad1` are the two padding bytes that end the struct. -/
structure refCmdBeginFrame_t where
  id : U32
  cameraSeparation : U32
  forceClear : Bool
  forceVsync : Bool
  pad0 : Byte
  pad1 : Byte
deriving DecidableEq

structure refCmdEndFrame_t where
  id : U32
deriving DecidableEq

structure refCmdDrawStretchPic_t where
  id : U32
  x : U32
  y : U32
  w : U32
  h : U32
  s1 : U32
  t1 : U32
  s2 : U32
  t2 : U32
  angle : U32
  color : vec4_t
  shader : U64
deriving DecidableEq

/-- The member `poly` is the object representation of a `poly_t`. -/
structure refCmdDrawStretchOrScenePoly_t where
  id : U32
  length : U32
  x_offset : U32
  y_offset : U32
  poly : List Byte
deriving DecidableEq

structure refCmdClearScene_t where
  id : U32
deriving DecidableEq

/-- The member `entity` is the object representation of an `entity_t`; the member `pad`
is the four padding bytes between `numBoneposes` and the pointer `boneposes`. -/
structure refCmdAddEntityToScene_t where
  id : U32
  length : U32
  entity : List Byte
  numBoneposes : U32
  pad : U32
  boneposes : U64
  oldboneposes : U64
deriving DecidableEq

structure refCmdAddLightToScene_t where
  id : U32
  origin : vec3_t
  intensity : U32
  r : U32
  g : U32
  b : U32
deriving DecidableEq

structure refCmdAddLightStyleToScene_t where
  id : U32
  style : U32
  r : U32
  g : U32
  b : U32
deriving DecidableEq

/-- The member `refdef` is the object representation of a `refdef_t`. -/
structure refCmdRenderScene_t where
  id : U32
  length : U32
  registrationSequence : U32
  worldModelSequence : U32
  refdef : List Byte
  areabits : U64
deriving DecidableEq

structure refCmdSetScissor_t where
  id : U32
  x : U32
  y : U32
  w : U32
  h : U32
deriving DecidableEq

structure refCmdResetScissor_t where
  id : U32
deriving DecidableEq

structure refCmdDrawStretchRaw_t where
  id : U32
  x : U32
  y : U32
  w : U32
  h : U32
  s1 : U32
  t1 : U32
  s2 : U32
  t2 : U32
deriving DecidableEq

/-! ### Sizes and object representations

Members sit at their natural LP64 offsets.  `poly_t`, `entity_t` and `refdef_t` contain
pointers, so they are eight-byte aligned and their sizes are multiples of eight. -/

def sizeof_refCmdBeginFrame_t : Nat := 12
def sizeof_refCmdEndFrame_t : Nat := 4
def sizeof_refCmdDrawStretchPic_t : Nat := 64
def sizeof_refCmdDrawStretchOrScenePoly_t (L : Layout) : Nat := 16 + L.sizeof_poly_t
def sizeof_refCmdClearScene_t : Nat := 4
def sizeof_refCmdAddEntityToScene_t (L : Layout) : Nat := 8 + L.sizeof_entity_t + 24
def sizeof_refCmdAddLightToScene_t : Nat := 32
def sizeof_refCmdAddLightStyleToScene_t : Nat := 20
def sizeof_refCmdRenderScene_t (L : Layout) : Nat := 16 + L.sizeof_refdef_t + 8
def sizeof_refCmdSetScissor_t : Nat := 20
def sizeof_refCmdResetScissor_t : Nat := 4
def sizeof_refCmdDrawStretchRaw_t : Nat := 36

def refCmdBeginFrame_t.toBytes (c : refCmdBeginFrame_t) : List Byte :=
  c.id.bytes ++ (c.cameraSeparation.bytes ++ (boolBytes c.forceClear ++
    (boolBytes c.forceVsync ++ [c.pad0, c.pad1])))

def refCmdBeginFrame_t.ofBytes (bs : List Byte) : refCmdBeginFrame_t :=
  { id := rdU32 bs, cameraSeparation := rdU32 (bs.drop 4),
    forceClear := rdBool (bs.drop 8), forceVsync := rdBool (bs.drop 9),
    pad0 := (bs.drop 10).headD 0, pad1 := (bs.drop 11).headD 0 }

def refCmdEndFrame_t.toBytes (c : refCmdEndFrame_t) : List Byte := c.id.bytes

def refCmdEndFrame_t.ofBytes (bs : List Byte) : refCmdEndFrame_t := { id := rdU32 bs }

def refCmdDrawStretchPic_t.toBytes (c : refCmdDrawStretchPic_t) : List Byte :=
  c.id.bytes ++ (c.x.bytes ++ (c.y.bytes ++ (c.w.bytes ++ (c.h.bytes ++ (c.s1.bytes ++
    (c.t1.bytes ++ (c.s2.bytes ++ (c.t2.bytes ++ (c.angle.bytes ++ (c.color.v0.bytes ++
    (c.color.v1.bytes ++ (c.color.v2.bytes ++ (c.color.v3.bytes ++ c.shader.bytes)))))))))))))

def refCmdDrawStretchPic_t.ofBytes (bs : List Byte) : refCmdDrawStretchPic_t :=
  { id := rdU32 bs, x := rdU32 (bs.drop 4), y := rdU32 (bs.drop 8), w := rdU32 (bs.drop 12),
    h := rdU32 (bs.drop 16), s1 := rdU32 (bs.drop 20), t1 := rdU32 (bs.drop 24),
    s2 := rdU32 (bs.drop 28), t2 := rdU32 (bs.drop 32), angle := rdU32 (bs.drop 36),
    color := { v0 := rdU32 (bs.drop 40), v1 := rdU32 (bs.drop 44), v2 := rdU32 (bs.drop 48),
               v3 := rdU32 (bs.drop 52) },
    shader := rdU64 (bs.drop 56) }

def refCmdDrawStretchOrScenePoly_t.toBytes (c : refCmdDrawStretchOrScenePoly_t) : List Byte :=
  c.id.bytes ++ (c.length.bytes ++ (c.x_offset.bytes ++ (c.y_offset.bytes ++ c.poly)))

def refCmdDrawStretchOrScenePoly_t.ofBytes (L : Layout) (bs : List Byte) :
    refCmdDrawStretchOrScenePoly_t :=
  { id := rdU32 bs, length := rdU32 (bs.drop 4), x_offset := rdU32 (bs.drop 8),
    y_offset := rdU32 (bs.drop 12), poly := (bs.drop 16).take L.sizeof_poly_t }

def refCmdClearScene_t.toBytes (c : refCmdClearScene_t) : List Byte := c.id.bytes

def refCmdClearScene_t.ofBytes (bs : List Byte) : refCmdClearScene_t := { id := rdU32 bs }

def refCmdAddEntityToScene_t.toBytes (c : refCmdAddEntityToScene_t) : List Byte :=
  c.id.bytes ++ (c.length.bytes ++ (c.entity ++ (c.numBoneposes.bytes ++ (c.pad.bytes ++
    (c.boneposes.bytes ++ c.oldboneposes.bytes)))))

def refCmdAddEntityToScene_t.ofBytes (L : Layout) (bs : List Byte) : refCmdAddEntityToScene_t :=
  { id := rdU32 bs, length := rdU32 (bs.drop 4),
    entity := (bs.drop 8).take L.sizeof_entity_t,
    numBoneposes := rdU32 ((bs.drop 8).drop L.sizeof_entity_t),
    pad := rdU32 (((bs.drop 8).drop L.sizeof_entity_t).drop 4),
    boneposes := rdU64 (((bs.drop 8).drop L.sizeof_entity_t).drop 8),
    oldboneposes := rdU64 (((bs.drop 8).drop L.sizeof_entity_t).drop 16) }

def refCmdAddLightToScene_t.toBytes (c : refCmdAddLightToScene_t) : List Byte :=
  c.id.bytes ++ (c.origin.v0.bytes ++ (c.origin.v1.bytes ++ (c.origin.v2.bytes ++
    (c.intensity.bytes ++ (c.r.bytes ++ (c.g.bytes ++ c.b.bytes))))))

def refCmdAddLightToScene_t.ofBytes (bs : List Byte) : refCmdAddLightToScene_t :=
  { id := rdU32 bs,
    origin := { v0 := rdU32 (bs.drop 4), v1 := rdU32 (bs.drop 8), v2 := rdU32 (bs.drop 12) },
    intensity := rdU32 (bs.drop 16), r := rdU32 (bs.drop 20), g := rdU32 (bs.drop 24),
    b := rdU32 (bs.drop 28) }

def refCmdAddLightStyleToScene_t.toBytes (c : refCmdAddLightStyleToScene_t) : List Byte :=
  c.id.bytes ++ (c.style.bytes ++ (c.r.bytes ++ (c.g.bytes ++ c.b.bytes)))

def refCmdAddLightStyleToScene_t.ofBytes (bs : List Byte) : refCmdAddLightStyleToScene_t :=
  { id := rdU32 bs, style := rdU32 (bs.drop 4), r := rdU32 (bs.drop 8), g := rdU32 (bs.drop 12),
    b := rdU32 (bs.drop 16) }

def refCmdRenderScene_t.toBytes (c : refCmdRenderScene_t) : List Byte :=
  c.id.bytes ++ (c.length.bytes ++ (c.registrationSequence.bytes ++
    (c.worldModelSequence.bytes ++ (c.refdef ++ c.areabits.bytes))))

def refCmdRenderScene_t.ofBytes (L : Layout) (bs : List Byte) : refCmdRenderScene_t :=
  { id := rdU32 bs, length := rdU32 (bs.drop 4), registrationSequence := rdU32 (bs.drop 8),
    worldModelSequence := rdU32 (bs.drop 12),
    refdef := (bs.drop 16).take L.sizeof_refdef_t,
    areabits := rdU64 ((bs.drop 16).drop L.sizeof_refdef_t) }

def refCmdSetScissor_t.toBytes (c : refCmdSetScissor_t) : List Byte :=
  c.id.bytes ++ (c.x.bytes ++ (c.y.bytes ++ (c.w.bytes ++ c.h.bytes)))

def refCmdSetScissor_t.ofBytes (bs : List Byte) : refCmdSetScissor_t :=
  { id := rdU32 bs, x := rdU32 (bs.drop 4), y := rdU32 (bs.drop 8), w := rdU32 (bs.drop 12),
    h := rdU32 (bs.drop 16) }

def refCmdResetScissor_t.toBytes (c : refCmdResetScissor_t) : List Byte := c.id.bytes

def refCmdResetScissor_t.ofBytes (bs : List Byte) : refCmdResetScissor_t := { id := rdU32 bs }

def refCmdDrawStretchRaw_t.toBytes (c : refCmdDrawStretchRaw_t) : List Byte :=
  c.id.bytes ++ (c.x.bytes ++ (c.y.bytes ++ (c.w.bytes ++ (c.h.bytes ++ (c.s1.bytes ++
    (c.t1.bytes ++ (c.s2.bytes ++ c.t2.bytes)))))))

def refCmdDrawStretchRaw_t.ofBytes (bs : List Byte) : refCmdDrawStretchRaw_t :=
  { id := rdU32 bs, x := rdU32 (bs.drop 4), y := rdU32 (bs.drop 8), w := rdU32 (bs.drop 12),
    h := rdU32 (bs.drop 16), s1 := rdU32 (bs.drop 20), t1 := rdU32 (bs.drop 24),
    s2 := rdU32 (bs.drop 28), t2 := rdU32 (bs.drop 32) }

/-! ## The renderer backend and the command buffer -/

/-- A call from a handler into the renderer backend, with the values of its arguments.
For an argument passed by address (`&cmd->poly`, `&cmd->entity`, `&cmd->refdef`) the
call carries the object representation of the pointee. -/
inductive BackendCall where
  | R_BeginFrame (cameraSeparation : U32) (forceClear forceVsync : Bool)
  | R_EndFrame
  | R_DrawRotatedStretchPic (x y w h s1 t1 s2 t2 angle : U32) (color : vec4_t) (shader : U64)
  | R_DrawStretchPoly (poly : List Byte) (x_offset y_offset : U32)
  | R_ClearScene
  | R_AddEntityToScene (entity : List Byte)
  | R_AddLightToScene (origin : vec3_t) (intensity r g b : U32)
  | R_AddPolyToScene (poly : List Byte)
  | R_AddLightStyleToScene (style r g b : U32)
  | R_RenderScene (refdef : List Byte)
  | R_Scissor (x y w h : U32)
  | R_ResetScissor
  | R_DrawStretchRaw (x y w h s1 t1 s2 t2 : U32)
  | R_DrawStretchRawYUV (x y w h s1 t1 s2 t2 : U32)
deriving DecidableEq

/-- The data members of `ref_cmdbuf_t`: the frame tag, the fill length and the storage
`buf`, of which the offsets below `sizeof( cmdbuf->buf )` exist in C.  `base` is the
address of `buf[0]`. -/
structure ref_cmdbuf_t where
  frameId : U32
  len : Nat
  base : Nat
  buf : Mem

/-- What the encoders read besides their arguments: caller-owned memory, the global
`rsh`, the backend function `R_SkeletalGetNumBones( model, NULL )`, and `stack`, the
content of the stack where the local `cmd` of the encoder lies when the encoder is
entered (offset 0 is the first byte of `cmd`). -/
structure Env where
  mem : Mem
  rsh : rsh_t
  R_SkeletalGetNumBones : U64 → U32
  stack : Mem

/-! ## Handlers

A handler receives the storage and the offset `pcmd` of its record, and yields the
backend calls it makes together with its return value. -/

def R_HandleBeginFrameCmd (buf : Mem) (pcmd : Nat) : List BackendCall × Nat :=
  let cmd := refCmdBeginFrame_t.ofBytes (readBytes buf pcmd sizeof_refCmdBeginFrame_t)
  ([.R_BeginFrame cmd.cameraSeparation cmd.forceClear cmd.forceVsync],
    sizeof_refCmdBeginFrame_t)

def R_HandleEndFrameCmd (_buf : Mem) (_pcmd : Nat) : List BackendCall × Nat :=
  ([.R_EndFrame], sizeof_refCmdEndFrame_t)

def R_HandleDrawStretchPicCmd (buf : Mem) (pcmd : Nat) : List BackendCall × Nat :=
  let cmd := refCmdDrawStretchPic_t.ofBytes (readBytes buf pcmd sizeof_refCmdDrawStretchPic_t)
  ([.R_DrawRotatedStretchPic cmd.x cmd.y cmd.w cmd.h cmd.s1 cmd.t1 cmd.s2 cmd.t2 cmd.angle
      cmd.color cmd.shader], sizeof_refCmdDrawStretchPic_t)

def R_HandleDrawStretchPolyCmd (L : Layout) (buf : Mem) (pcmd : Nat) : List BackendCall × Nat :=
  let cmd := refCmdDrawStretchOrScenePoly_t.ofBytes L
    (readBytes buf pcmd (sizeof_refCmdDrawStretchOrScenePoly_t L))
  ([.R_DrawStretchPoly cmd.poly cmd.x_offset cmd.y_offset], cmd.length.val)

def R_HandleClearSceneCmd (_buf : Mem) (_pcmd : Nat) : List BackendCall × Nat :=
  ([.R_ClearScene], sizeof_refCmdClearScene_t)

def R_HandleAddEntityToSceneCmd (L : Layout) (buf : Mem) (pcmd : Nat) : List BackendCall × Nat :=
  let cmd := refCmdAddEntityToScene_t.ofBytes L
    (readBytes buf pcmd (sizeof_refCmdAddEntityToScene_t L))
  ([.R_AddEntityToScene cmd.entity], cmd.length.val)

def R_HandleAddLightToSceneCmd (buf : Mem) (pcmd : Nat) : List BackendCall × Nat :=
  let cmd := refCmdAddLightToScene_t.ofBytes (readBytes buf pcmd sizeof_refCmdAddLightToScene_t)
  ([.R_AddLightToScene cmd.origin cmd.intensity cmd.r cmd.g cmd.b],
    sizeof_refCmdAddLightToScene_t)

def R_HandleAddPolyToSceneCmd (L : Layout) (buf : Mem) (pcmd : Nat) : List BackendCall × Nat :=
  let cmd := refCmdDrawStretchOrScenePoly_t.ofBytes L
    (readBytes buf pcmd (sizeof_refCmdDrawStretchOrScenePoly_t L))
  ([.R_AddPolyToScene cmd.poly], cmd.length.val)

def R_HandleAddLightStyleToSceneCmd (buf : Mem) (pcmd : Nat) : List BackendCall × Nat :=
  let cmd := refCmdAddLightStyleToScene_t.ofBytes
    (readBytes buf pcmd sizeof_refCmdAddLightStyleToScene_t)
  ([.R_AddLightStyleToScene cmd.style cmd.r cmd.g cmd.b], sizeof_refCmdAddLightStyleToScene_t)

def R_HandleRenderSceneCmd (L : Layout) (rsh : rsh_t) (buf : Mem) (pcmd : Nat) :
    List BackendCall × Nat :=
  let cmd := refCmdRenderScene_t.ofBytes L (readBytes buf pcmd (sizeof_refCmdRenderScene_t L))
  -- ignore scene render calls issued during registration
  if cmd.registrationSequence ≠ rsh.registrationSequence then
    ([], cmd.length.val)
  else if (get32 cmd.refdef L.refdef_rdflags).val &&& L.RDF_NOWORLDMODEL.val = 0
      ∧ cmd.worldModelSequence ≠ rsh.worldModelSequence then
    ([], cmd.length.val)
  else
    ([.R_RenderScene cmd.refdef], cmd.length.val)

def R_HandleSetScissorCmd (buf : Mem) (pcmd : Nat) : List BackendCall × Nat :=
  let cmd := refCmdSetScissor_t.ofBytes (readBytes buf pcmd sizeof_refCmdSetScissor_t)
  ([.R_Scissor cmd.x cmd.y cmd.w cmd.h], sizeof_refCmdSetScissor_t)

def R_HandleResetScissorCmd (_buf : Mem) (_pcmd : Nat) : List BackendCall × Nat :=
  ([.R_ResetScissor], sizeof_refCmdResetScissor_t)

def R_HandleDrawStretchRawCmd (buf : Mem) (pcmd : Nat) : List BackendCall × Nat :=
  let cmd := refCmdDrawStretchRaw_t.ofBytes (readBytes buf pcmd sizeof_refCmdDrawStretchRaw_t)
  ([.R_DrawStretchRaw cmd.x cmd.y cmd.w cmd.h cmd.s1 cmd.t1 cmd.s2 cmd.t2],
    sizeof_refCmdDrawStretchRaw_t)

def R_HandleDrawStretchRawYUVCmd (buf : Mem) (pcmd : Nat) : List BackendCall × Nat :=
  let cmd := refCmdDrawStretchRaw_t.ofBytes (readBytes buf pcmd sizeof_refCmdDrawStretchRaw_t)
  ([.R_DrawStretchRawYUV cmd.x cmd.y cmd.w cmd.h cmd.s1 cmd.t1 cmd.s2 cmd.t2],
    sizeof_refCmdDrawStretchRaw_t)

/-! ## Encoders -/

def RF_IssueBeginFrameCmd (L : Layout) (stack : Mem) (cmdbuf : ref_cmdbuf_t)
    (cameraSeparation : U32) (forceClear forceVsync : Bool) : ref_cmdbuf_t :=
  -- refCmdBeginFrame_t cmd;
  let cmd := refCmdBeginFrame_t.ofBytes (readBytes stack 0 sizeof_refCmdBeginFrame_t)
  let cmd : refCmdBeginFrame_t :=
    { cmd with id := REF_CMD_BEGIN_FRAME, cameraSeparation := cameraSeparation,
               forceClear := forceClear, forceVsync := forceVsync }
  let cmd_len := sizeof_refCmdBeginFrame_t
  if szAdd cmdbuf.len cmd_len > L.sizeof_buf then cmdbuf
  else { cmdbuf with buf := memcpy cmdbuf.buf cmdbuf.len cmd.toBytes,
                     len := szAdd cmdbuf.len cmd_len }

def RF_IssueEndFrameCmd (L : Layout) (cmdbuf : ref_cmdbuf_t) : ref_cmdbuf_t :=
  let cmd : refCmdEndFrame_t := { id := REF_CMD_END_FRAME }
  let cmd_len := sizeof_refCmdEndFrame_t
  if szAdd cmdbuf.len cmd_len > L.sizeof_buf then cmdbuf
  else { cmdbuf with buf := memcpy cmdbuf.buf cmdbuf.len cmd.toBytes,
                     len := szAdd cmdbuf.len cmd_len }

def RF_IssueDrawRotatedStretchPicCmd (L : Layout) (cmdbuf : ref_cmdbuf_t) (x y w h : U32)
    (s1 t1 s2 t2 angle : U32) (color : vec4_t) (shader : U64) : ref_cmdbuf_t :=
  let cmd : refCmdDrawStretchPic_t :=
    { id := REF_CMD_DRAW_STRETCH_PIC, x := x, y := y, w := w, h := h, s1 := s1, t1 := t1,
      s2 := s2, t2 := t2, angle := angle, shader := shader,
      color := { v0 := color.v0, v1 := color.v1, v2 := color.v2, v3 := color.v3 } }
  let cmd_len := sizeof_refCmdDrawStretchPic_t
  if szAdd cmdbuf.len cmd_len > L.sizeof_buf then cmdbuf
  else { cmdbuf with buf := memcpy cmdbuf.buf cmdbuf.len cmd.toBytes,
                     len := szAdd cmdbuf.len cmd_len }

/-- The nested struct of the local `cmd` whose pointer members are being redirected, the
storage, and the write cursor `pcmd` as an offset into the storage. -/
structure TailState where
  obj : List Byte
  buf : Mem
  pcmd : Nat

/-- One block
`if( present ) { cmd.obj.member = (void *)pcmd; memcpy( pcmd, src, n ); pcmd += n; }`
of an encoder with a variable tail. -/
def copyTail (mem : Mem) (base : Nat) (present : Bool) (member : Nat) (src : U64) (n : Nat)
    (s : TailState) : TailState :=
  if present then
    { obj := set64 s.obj member (U64.ofNat (base + s.pcmd)),
      buf := memcpy s.buf s.pcmd (readBytes mem src.val n),
      pcmd := s.pcmd + n }
  else s

/-- The value of `cmd_len` that `RF_IssueDrawStretchPolyOrAddPolyToSceneCmd` computes for
the `poly_t` value `p` (lines 314 and 327-337). -/
def polyCmdLen (L : Layout) (p : List Byte) : Nat :=
  let numverts := intToSize (get32 p L.poly_numverts)
  let cmd_len := sizeof_refCmdDrawStretchOrScenePoly_t L
  let cmd_len := if get64 p L.poly_verts ≠ 0 then
    szAdd cmd_len (szMul numverts sizeof_vec4_t) else cmd_len
  let cmd_len := if get64 p L.poly_stcoords ≠ 0 then
    szAdd cmd_len (szMul numverts sizeof_vec2_t) else cmd_len
  let cmd_len := if get64 p L.poly_normals ≠ 0 then
    szAdd cmd_len (szMul numverts sizeof_vec4_t) else cmd_len
  let cmd_len := if get64 p L.poly_colors ≠ 0 then
    szAdd cmd_len (szMul numverts sizeof_byte_vec4_t) else cmd_len
  let cmd_len := if get64 p L.poly_elems ≠ 0 then
    szAdd cmd_len (szMul (intToSize (get32 p L.poly_numelems)) sizeof_elem_t) else cmd_len
  ALIGN cmd_len sizeof_float

/-- The five tail-copying blocks of `RF_IssueDrawStretchPolyOrAddPolyToSceneCmd`
(lines 344-371), run on the `poly_t` value `p` with the cursor starting right after the
record header. -/
def polyTail (L : Layout) (mem : Mem) (cmdbuf : ref_cmdbuf_t) (p : List Byte) : TailState :=
  let numverts := intToSize (get32 p L.poly_numverts)
  let s : TailState :=
    { obj := p, buf := cmdbuf.buf, pcmd := cmdbuf.len + sizeof_refCmdDrawStretchOrScenePoly_t L }
  let s := copyTail mem cmdbuf.base (get64 p L.poly_verts ≠ 0) L.poly_verts
    (get64 p L.poly_verts) (szMul numverts sizeof_vec4_t) s
  let s := copyTail mem cmdbuf.base (get64 p L.poly_stcoords ≠ 0) L.poly_stcoords
    (get64 p L.poly_stcoords) (szMul numverts sizeof_vec2_t) s
  let s := copyTail mem cmdbuf.base (get64 p L.poly_normals ≠ 0) L.poly_normals
    (get64 p L.poly_normals) (szMul numverts sizeof_vec4_t) s
  let s := copyTail mem cmdbuf.base (get64 p L.poly_colors ≠ 0) L.poly_colors
    (get64 p L.poly_colors) (szMul numverts sizeof_byte_vec4_t) s
  copyTail mem cmdbuf.base (get64 p L.poly_elems ≠ 0) L.poly_elems
    (get64 p L.poly_elems) (szMul (intToSize (get32 p L.poly_numelems)) sizeof_elem_t) s

def RF_IssueDrawStretchPolyOrAddPolyToSceneCmd (L : Layout) (mem : Mem) (cmdbuf : ref_cmdbuf_t)
    (id : U32) (poly : Nat) (x_offset y_offset : U32) : ref_cmdbuf_t :=
  let p := readBytes mem poly L.sizeof_poly_t
  if get32 p L.poly_numverts = 0 ∨ get64 p L.poly_shader = 0 then cmdbuf
  else
    let cmd_len := polyCmdLen L p
    if szAdd cmdbuf.len cmd_len > L.sizeof_buf then cmdbuf
    else
      let s := polyTail L mem cmdbuf p
      let cmd : refCmdDrawStretchOrScenePoly_t :=
        { id := id, length := U32.ofNat cmd_len, x_offset := x_offset, y_offset := y_offset,
          poly := s.obj }
      { cmdbuf with buf := memcpy s.buf cmdbuf.len cmd.toBytes,
                    len := szAdd cmdbuf.len cmd_len }

def RF_IssueDrawStretchPolyCmd (L : Layout) (mem : Mem) (cmdbuf : ref_cmdbuf_t) (poly : Nat)
    (x_offset y_offset : U32) : ref_cmdbuf_t :=
  RF_IssueDrawStretchPolyOrAddPolyToSceneCmd L mem cmdbuf REF_CMD_DRAW_STRETCH_POLY poly
    x_offset y_offset

def RF_IssueClearSceneCmd (L : Layout) (cmdbuf : ref_cmdbuf_t) : ref_cmdbuf_t :=
  let cmd : refCmdClearScene_t := { id := REF_CMD_CLEAR_SCENE }
  let cmd_len := sizeof_refCmdClearScene_t
  if szAdd cmdbuf.len cmd_len > L.sizeof_buf then cmdbuf
  else { cmdbuf with buf := memcpy cmdbuf.buf cmdbuf.len cmd.toBytes,
                     len := szAdd cmdbuf.len cmd_len }

/-- The value of `cmd_len` that `RF_IssueAddEntityToSceneCmd` computes for the `entity_t`
value `e` (lines 400-414). -/
def entityCmdLen (L : Layout) (env : Env) (e : List Byte) : Nat :=
  let numBoneposes := env.R_SkeletalGetNumBones (get64 e L.entity_model)
  let bones_len := szMul (intToSize numBoneposes) L.sizeof_bonepose_t
  let cmd_len := sizeof_refCmdAddEntityToScene_t L
  let cmd_len := if numBoneposes ≠ 0 ∧ get64 e L.entity_boneposes ≠ 0 then
    szAdd cmd_len bones_len else cmd_len
  if numBoneposes ≠ 0 ∧ get64 e L.entity_oldboneposes ≠ 0 then
    szAdd cmd_len bones_len else cmd_len

/-- The two tail-copying blocks of `RF_IssueAddEntityToSceneCmd` (lines 420-433). -/
def entityTail (L : Layout) (env : Env) (cmdbuf : ref_cmdbuf_t) (e : List Byte) : TailState :=
  let numBoneposes := env.R_SkeletalGetNumBones (get64 e L.entity_model)
  let bones_len := szMul (intToSize numBoneposes) L.sizeof_bonepose_t
  let s : TailState :=
    { obj := e, buf := cmdbuf.buf, pcmd := cmdbuf.len + sizeof_refCmdAddEntityToScene_t L }
  let s := copyTail env.mem cmdbuf.base (numBoneposes ≠ 0 ∧ get64 e L.entity_boneposes ≠ 0)
    L.entity_boneposes (get64 e L.entity_boneposes) bones_len s
  copyTail env.mem cmdbuf.base (numBoneposes ≠ 0 ∧ get64 e L.entity_oldboneposes ≠ 0)
    L.entity_oldboneposes (get64 e L.entity_oldboneposes) bones_len s

def RF_IssueAddEntityToSceneCmd (L : Layout) (env : Env) (cmdbuf : ref_cmdbuf_t) (ent : Nat) :
    ref_cmdbuf_t :=
  let e := readBytes env.mem ent L.sizeof_entity_t
  let cmd_len := entityCmdLen L env e
  if szAdd cmdbuf.len cmd_len > L.sizeof_buf then cmdbuf
  else
    let s := entityTail L env cmdbuf e
    -- refCmdAddEntityToScene_t cmd; `cmd.boneposes` and `cmd.oldboneposes` are never
    -- assigned
    let cmd := refCmdAddEntityToScene_t.ofBytes L
      (readBytes env.stack 0 (sizeof_refCmdAddEntityToScene_t L))
    let cmd : refCmdAddEntityToScene_t :=
      { cmd with id := REF_CMD_ADD_ENTITY_TO_SCENE, length := U32.ofNat cmd_len,
                 entity := s.obj,
                 numBoneposes := env.R_SkeletalGetNumBones (get64 e L.entity_model) }
    { cmdbuf with buf := memcpy s.buf cmdbuf.len cmd.toBytes,
                  len := szAdd cmdbuf.len cmd_len }

def RF_IssueAddLightToSceneCmd (L : Layout) (cmdbuf : ref_cmdbuf_t) (org : vec3_t)
    (intensity r g b : U32) : ref_cmdbuf_t :=
  let cmd : refCmdAddLightToScene_t :=
    { id := REF_CMD_ADD_LIGHT_TO_SCENE,
      origin := { v0 := org.v0, v1 := org.v1, v2 := org.v2 },
      intensity := intensity, r := r, g := g, b := b }
  let cmd_len := sizeof_refCmdAddLightToScene_t
  if szAdd cmdbuf.len cmd_len > L.sizeof_buf then cmdbuf
  else { cmdbuf with buf := memcpy cmdbuf.buf cmdbuf.len cmd.toBytes,
                     len := szAdd cmdbuf.len cmd_len }

def RF_IssueAddPolyToSceneCmd (L : Layout) (mem : Mem) (cmdbuf : ref_cmdbuf_t) (poly : Nat) :
    ref_cmdbuf_t :=
  RF_IssueDrawStretchPolyOrAddPolyToSceneCmd L mem cmdbuf REF_CMD_ADD_POLY_TO_SCENE poly 0 0

def RF_IssueAddLightStyleToSceneCmd (L : Layout) (cmdbuf : ref_cmdbuf_t) (style r g b : U32) :
    ref_cmdbuf_t :=
  let cmd : refCmdAddLightStyleToScene_t :=
    { id := REF_CMD_ADD_LIGHT_STYLE_TO_SCENE, style := style, r := r, g := g, b := b }
  let cmd_len := sizeof_refCmdAddLightStyleToScene_t
  if szAdd cmdbuf.len cmd_len > L.sizeof_buf then cmdbuf
  else { cmdbuf with buf := memcpy cmdbuf.buf cmdbuf.len cmd.toBytes,
                     len := szAdd cmdbuf.len cmd_len }

/-- The value of `areabytes` that `RF_IssueRenderSceneCmd` computes for the `refdef_t`
value `r` (lines 486 and 493-494; the build has no `AREAPORTALS_MATRIX`): the `int`
expression `( numareas + 7 ) / 8` converted to `unsigned`. -/
def renderSceneAreabytes (L : Layout) (rsh : rsh_t) (r : List Byte) : U32 :=
  if get64 r L.refdef_areabits ≠ 0 ∧ rsh.worldBrushModel ≠ 0 then
    ofInt (Int.tdiv (toInt (ofInt (toInt rsh.numareas + 7))) 8)
  else 0

/-- The value of `cmd_len` that `RF_IssueRenderSceneCmd` computes (lines 484-499). -/
def renderSceneCmdLen (L : Layout) (rsh : rsh_t) (r : List Byte) : Nat :=
  if get64 r L.refdef_areabits ≠ 0 ∧ rsh.worldBrushModel ≠ 0 then
    ALIGN (szAdd (sizeof_refCmdRenderScene_t L) (renderSceneAreabytes L rsh r).val) sizeof_float
  else sizeof_refCmdRenderScene_t L

def RF_IssueRenderSceneCmd (L : Layout) (env : Env) (cmdbuf : ref_cmdbuf_t) (fd : Nat) :
    ref_cmdbuf_t :=
  let r := readBytes env.mem fd L.sizeof_refdef_t
  let areabytes := renderSceneAreabytes L env.rsh r
  let cmd_len := renderSceneCmdLen L env.rsh r
  if szAdd cmdbuf.len cmd_len > L.sizeof_buf then cmdbuf
  else
    let pcmd := cmdbuf.len + sizeof_refCmdRenderScene_t L
    let refdef := if areabytes.val > 0 then
      set64 r L.refdef_areabits (U64.ofNat (cmdbuf.base + pcmd)) else r
    let buf := if areabytes.val > 0 then
      memcpy cmdbuf.buf pcmd (readBytes env.mem (get64 r L.refdef_areabits).val areabytes.val)
      else cmdbuf.buf
    -- refCmdRenderScene_t cmd; `cmd.areabits` is never assigned
    let cmd := refCmdRenderScene_t.ofBytes L
      (readBytes env.stack 0 (sizeof_refCmdRenderScene_t L))
    let cmd : refCmdRenderScene_t :=
      { cmd with id := REF_CMD_RENDER_SCENE, length := U32.ofNat cmd_len,
                 registrationSequence := env.rsh.registrationSequence,
                 worldModelSequence := env.rsh.worldModelSequence, refdef := refdef }
    { cmdbuf with buf := memcpy buf cmdbuf.len cmd.toBytes, len := szAdd cmdbuf.len cmd_len }

def RF_IssueSetScissorCmd (L : Layout) (cmdbuf : ref_cmdbuf_t) (x y w h : U32) : ref_cmdbuf_t :=
  let cmd : refCmdSetScissor_t := { id := REF_CMD_SET_SCISSOR, x := x, y := y, w := w, h := h }
  let cmd_len := sizeof_refCmdSetScissor_t
  if szAdd cmdbuf.len cmd_len > L.sizeof_buf then cmdbuf
  else { cmdbuf with buf := memcpy cmdbuf.buf cmdbuf.len cmd.toBytes,
                     len := szAdd cmdbuf.len cmd_len }

def RF_IssueResetScissorCmd (L : Layout) (cmdbuf : ref_cmdbuf_t) : ref_cmdbuf_t :=
  let cmd : refCmdResetScissor_t := { id := REF_CMD_RESET_SCISSOR }
  let cmd_len := sizeof_refCmdResetScissor_t
  if szAdd cmdbuf.len cmd_len > L.sizeof_buf then cmdbuf
  else { cmdbuf with buf := memcpy cmdbuf.buf cmdbuf.len cmd.toBytes,
                     len := szAdd cmdbuf.len cmd_len }

def RF_IssueDrawStretchRawOrRawYUVCmd (L : Layout) (cmdbuf : ref_cmdbuf_t) (id : U32)
    (x y w h s1 t1 s2 t2 : U32) : ref_cmdbuf_t :=
  let cmd : refCmdDrawStretchRaw_t :=
    { id := id, x := x, y := y, w := w, h := h, s1 := s1, t1 := t1, s2 := s2, t2 := t2 }
  let cmd_len := sizeof_refCmdDrawStretchRaw_t
  if szAdd cmdbuf.len cmd_len > L.sizeof_buf then cmdbuf
  else { cmdbuf with buf := memcpy cmdbuf.buf cmdbuf.len cmd.toBytes,
                     len := szAdd cmdbuf.len cmd_len }

def RF_IssueDrawStretchRawCmd (L : Layout) (cmdbuf : ref_cmdbuf_t)
    (x y w h s1 t1 s2 t2 : U32) : ref_cmdbuf_t :=
  RF_IssueDrawStretchRawOrRawYUVCmd L cmdbuf REF_CMD_DRAW_STRETCH_RAW x y w h s1 t1 s2 t2

def RF_IssueDrawStretchRawYUVCmd (L : Layout) (cmdbuf : ref_cmdbuf_t)
    (x y w h s1 t1 s2 t2 : U32) : ref_cmdbuf_t :=
  RF_IssueDrawStretchRawOrRawYUVCmd L cmdbuf REF_CMD_DRAW_STRETCH_RAW_YUV x y w h s1 t1 s2 t2

/-! ## Dispatcher and buffer lifecycle -/

/-- The table `refCmdHandlers` of `RF_RunCmdBufProc`.  The dispatcher indexes it only
below `NUM_REF_CMDS`; the last line is outside the table. -/
def refCmdHandlers (L : Layout) (rsh : rsh_t) : Nat → Mem → Nat → List BackendCall × Nat
  | 0 => R_HandleBeginFrameCmd
  | 1 => R_HandleEndFrameCmd
  | 2 => R_HandleDrawStretchPicCmd
  | 3 => R_HandleDrawStretchPolyCmd L
  | 4 => R_HandleClearSceneCmd
  | 5 => R_HandleAddEntityToSceneCmd L
  | 6 => R_HandleAddLightToSceneCmd
  | 7 => R_HandleAddPolyToSceneCmd L
  | 8 => R_HandleAddLightStyleToSceneCmd
  | 9 => R_HandleRenderSceneCmd L rsh
  | 10 => R_HandleSetScissorCmd
  | 11 => R_HandleResetScissorCmd
  | 12 => R_HandleDrawStretchRawCmd
  | 13 => R_HandleDrawStretchRawYUVCmd
  | _ => fun _ _ => ([], 0)

/-- One handler invocation of a dispatch pass: the offset of the record, the backend
calls the handler made, and the length it returned. -/
structure Visit where
  offset : Nat
  calls : List BackendCall
  len : Nat
deriving DecidableEq

/-- What a dispatch pass did: its handler invocations in order and the offset `t` at
which the loop ended. -/
structure RunResult where
  log : List Visit
  t : Nat
deriving DecidableEq

/-- The `for` loop of `RF_RunCmdBufProc`, from offset `t`, with a bound on the number of
iterations; `none` when the bound is used up. -/
def RF_RunCmdBufProc.loop (L : Layout) (rsh : rsh_t) (cmdbuf : ref_cmdbuf_t) :
    Nat → Nat → Option RunResult
  | 0, _ => none
  | fuel + 1, t =>
    if t < cmdbuf.len then
      let id := rdU32 (readBytes cmdbuf.buf t 4)
      if toInt id < 0 ∨ toInt id ≥ NUM_REF_CMDS then some { log := [], t := t }
      else
        let r := refCmdHandlers L rsh id.val cmdbuf.buf t
        if r.2 = 0 then some { log := [{ offset := t, calls := r.1, len := 0 }], t := t }
        else (RF_RunCmdBufProc.loop L rsh cmdbuf fuel (szAdd t r.2)).map
          (fun res => { res with log := { offset := t, calls := r.1, len := r.2 } :: res.log })
    else some { log := [], t := t }

/-- The dispatcher.  Every iteration but the last advances `t` by at least one, so
`len + 1` iterations are enough whenever `t` does not wrap around. -/
def RF_RunCmdBufProc (L : Layout) (rsh : rsh_t) (cmdbuf : ref_cmdbuf_t) : Option RunResult :=
  RF_RunCmdBufProc.loop L rsh cmdbuf (cmdbuf.len + 1) 0

/-- The backend calls of a dispatch pass, in order. -/
def RunResult.trace (r : RunResult) : List BackendCall := r.log.flatMap (fun v => v.calls)

def RF_ClearCmdBuf (cmdbuf : ref_cmdbuf_t) : ref_cmdbuf_t := { cmdbuf with len := 0 }

def RF_SetCmdBufFrameId (cmdbuf : ref_cmdbuf_t) (frameId : U32) : ref_cmdbuf_t :=
  { cmdbuf with frameId := frameId }

def RF_GetCmdBufFrameId (cmdbuf : ref_cmdbuf_t) : U32 := cmdbuf.frameId

/-- The data members of the buffer that `RF_CreateCmdBuf` returns, allocated at an
address that puts `buf[0]` at `base`; `R_Malloc` hands out zeroed memory. -/
def RF_CreateCmdBuf (base : Nat) : ref_cmdbuf_t :=
  { frameId := 0, len := 0, base := base, buf := fun _ => 0 }

/-- A call of one of the encoder members that `RF_CreateCmdBuf` installs in the buffer
(`cmdbuf->BeginFrame`, ..., `cmdbuf->DrawStretchRawYUV`), with its arguments.  Structs
passed by address are given by their address in caller memory. -/
inductive FrameCmd where
  | BeginFrame (cameraSeparation : U32) (forceClear forceVsync : Bool)
  | EndFrame
  | DrawRotatedStretchPic (x y w h s1 t1 s2 t2 angle : U32) (color : vec4_t) (shader : U64)
  | DrawStretchPoly (poly : Nat) (x_offset y_offset : U32)
  | ClearScene
  | AddEntityToScene (ent : Nat)
  | AddLightToScene (org : vec3_t) (intensity r g b : U32)
  | AddPolyToScene (poly : Nat)
  | AddLightStyleToScene (style r g b : U32)
  | RenderScene (fd : Nat)
  | SetScissor (x y w h : U32)
  | ResetScissor
  | DrawStretchRaw (x y w h s1 t1 s2 t2 : U32)
  | DrawStretchRawYUV (x y w h s1 t1 s2 t2 : U32)
deriving DecidableEq

/-- The member-to-encoder assignment of `RF_CreateCmdBuf`. -/
def issue (L : Layout) (env : Env) (cmdbuf : ref_cmdbuf_t) : FrameCmd → ref_cmdbuf_t
  | .BeginFrame cs fc fv => RF_IssueBeginFrameCmd L env.stack cmdbuf cs fc fv
  | .EndFrame => RF_IssueEndFrameCmd L cmdbuf
  | .DrawRotatedStretchPic x y w h s1 t1 s2 t2 angle color shader =>
    RF_IssueDrawRotatedStretchPicCmd L cmdbuf x y w h s1 t1 s2 t2 angle color shader
  | .DrawStretchPoly poly x_offset y_offset =>
    RF_IssueDrawStretchPolyCmd L env.mem cmdbuf poly x_offset y_offset
  | .ClearScene => RF_IssueClearSceneCmd L cmdbuf
  | .AddEntityToScene ent => RF_IssueAddEntityToSceneCmd L env cmdbuf ent
  | .AddLightToScene org intensity r g b => RF_IssueAddLightToSceneCmd L cmdbuf org intensity r g b
  | .AddPolyToScene poly => RF_IssueAddPolyToSceneCmd L env.mem cmdbuf poly
  | .AddLightStyleToScene style r g b => RF_IssueAddLightStyleToSceneCmd L cmdbuf style r g b
  | .RenderScene fd => RF_IssueRenderSceneCmd L env cmdbuf fd
  | .SetScissor x y w h => RF_IssueSetScissorCmd L cmdbuf x y w h
  | .ResetScissor => RF_IssueResetScissorCmd L cmdbuf
  | .DrawStretchRaw x y w h s1 t1 s2 t2 => RF_IssueDrawStretchRawCmd L cmdbuf x y w h s1 t1 s2 t2
  | .DrawStretchRawYUV x y w h s1 t1 s2 t2 =>
    RF_IssueDrawStretchRawYUVCmd L cmdbuf x y w h s1 t1 s2 t2

/-- A sequence of encoder calls, each made in its own environment. -/
def issueAll (L : Layout) (cmdbuf : ref_cmdbuf_t) : List (Env × FrameCmd) → ref_cmdbuf_t
  | [] => cmdbuf
  | (env, c) :: rest => issueAll L (issue L env cmdbuf c) rest


/-! ## Vocabulary of the statements -/

/-- The bounds on the header constants under which no `size_t` computation of an encoder
wraps around and every accepted record length fits the `unsigned` member `length`. -/
def Layout.SizesOk (L : Layout) : Prop :=
  L.sizeof_buf < 4294967296 ∧ L.sizeof_poly_t < 4294967296 ∧ L.sizeof_entity_t < 4294967296 ∧
  L.sizeof_refdef_t < 4294967296 ∧ L.sizeof_bonepose_t < 4294967296

instance (L : Layout) : Decidable L.SizesOk := by
  unfold Layout.SizesOk
  infer_instance

/-- The identifier that the encoder behind an encoder call stores in its record. -/
def FrameCmd.ident : FrameCmd → U32
  | .BeginFrame .. => REF_CMD_BEGIN_FRAME
  | .EndFrame => REF_CMD_END_FRAME
  | .DrawRotatedStretchPic .. => REF_CMD_DRAW_STRETCH_PIC
  | .DrawStretchPoly .. => REF_CMD_DRAW_STRETCH_POLY
  | .ClearScene => REF_CMD_CLEAR_SCENE
  | .AddEntityToScene .. => REF_CMD_ADD_ENTITY_TO_SCENE
  | .AddLightToScene .. => REF_CMD_ADD_LIGHT_TO_SCENE
  | .AddPolyToScene .. => REF_CMD_ADD_POLY_TO_SCENE
  | .AddLightStyleToScene .. => REF_CMD_ADD_LIGHT_STYLE_TO_SCENE
  | .RenderScene .. => REF_CMD_RENDER_SCENE
  | .SetScissor .. => REF_CMD_SET_SCISSOR
  | .ResetScissor => REF_CMD_RESET_SCISSOR
  | .DrawStretchRaw .. => REF_CMD_DRAW_STRETCH_RAW
  | .DrawStretchRawYUV .. => REF_CMD_DRAW_STRETCH_RAW_YUV

/-- The total record size `cmd_len` that the encoder behind an encoder call computes. -/
def cmdLen (L : Layout) (env : Env) : FrameCmd → Nat
  | .BeginFrame .. => sizeof_refCmdBeginFrame_t
  | .EndFrame => sizeof_refCmdEndFrame_t
  | .DrawRotatedStretchPic .. => sizeof_refCmdDrawStretchPic_t
  | .DrawStretchPoly poly _ _ => polyCmdLen L (readBytes env.mem poly L.sizeof_poly_t)
  | .ClearScene => sizeof_refCmdClearScene_t
  | .AddEntityToScene ent => entityCmdLen L env (readBytes env.mem ent L.sizeof_entity_t)
  | .AddLightToScene .. => sizeof_refCmdAddLightToScene_t
  | .AddPolyToScene poly => polyCmdLen L (readBytes env.mem poly L.sizeof_poly_t)
  | .AddLightStyleToScene .. => sizeof_refCmdAddLightStyleToScene_t
  | .RenderScene fd => renderSceneCmdLen L env.rsh (readBytes env.mem fd L.sizeof_refdef_t)
  | .SetScissor .. => sizeof_refCmdSetScissor_t
  | .ResetScissor => sizeof_refCmdResetScissor_t
  | .DrawStretchRaw .. => sizeof_refCmdDrawStretchRaw_t
  | .DrawStretchRawYUV .. => sizeof_refCmdDrawStretchRaw_t

/-- The polygon at address `poly` has no vertices or no shader. -/
def polyDegenerate (L : Layout) (mem : Mem) (poly : Nat) : Prop :=
  get32 (readBytes mem poly L.sizeof_poly_t) L.poly_numverts = 0 ∨
  get64 (readBytes mem poly L.sizeof_poly_t) L.poly_shader = 0

/-- An encoder call whose polygon has no vertices or no shader. -/
def degenerate (L : Layout) (env : Env) : FrameCmd → Prop
  | .DrawStretchPoly poly _ _ => polyDegenerate L env.mem poly
  | .AddPolyToScene poly => polyDegenerate L env.mem poly
  | _ => False

/-- Valid input of an encoder call: a polygon has non-negative vertex and element
counts, the model of an entity has a non-negative bone count. -/
def ValidCmd (L : Layout) (env : Env) : FrameCmd → Prop
  | .DrawStretchPoly poly _ _ =>
    0 ≤ toInt (get32 (readBytes env.mem poly L.sizeof_poly_t) L.poly_numverts) ∧
    0 ≤ toInt (get32 (readBytes env.mem poly L.sizeof_poly_t) L.poly_numelems)
  | .AddPolyToScene poly =>
    0 ≤ toInt (get32 (readBytes env.mem poly L.sizeof_poly_t) L.poly_numverts) ∧
    0 ≤ toInt (get32 (readBytes env.mem poly L.sizeof_poly_t) L.poly_numelems)
  | .AddEntityToScene ent =>
    0 ≤ toInt (env.R_SkeletalGetNumBones
      (get64 (readBytes env.mem ent L.sizeof_entity_t) L.entity_model))
  | _ => True

/-- The `refdef_t` value that `RF_IssueRenderSceneCmd` stores in its record. -/
def refdefStored (L : Layout) (env : Env) (cmdbuf : ref_cmdbuf_t) (fd : Nat) : List Byte :=
  let r := readBytes env.mem fd L.sizeof_refdef_t
  if (renderSceneAreabytes L env.rsh r).val > 0 then
    set64 r L.refdef_areabits (U64.ofNat (cmdbuf.base + (cmdbuf.len + sizeof_refCmdRenderScene_t L)))
  else r

/-- A render-scene record encoded under the counters `enc` is executed under the
counters `rsh`: the test of `R_HandleRenderSceneCmd`. -/
def renderSceneRuns (L : Layout) (enc rsh : rsh_t) (refdef : List Byte) : Prop :=
  enc.registrationSequence = rsh.registrationSequence ∧
  ((get32 refdef L.refdef_rdflags).val &&& L.RDF_NOWORLDMODEL.val ≠ 0 ∨
    enc.worldModelSequence = rsh.worldModelSequence)

instance (L : Layout) (enc rsh : rsh_t) (refdef : List Byte) :
    Decidable (renderSceneRuns L enc rsh refdef) := by
  unfold renderSceneRuns
  infer_instance

/-- The backend calls that replaying the record of an encoder call makes, when the
record was appended to `cmdbuf` in the environment `env` and is dispatched under the
backend counters `rsh`. -/
def reply (L : Layout) (env : Env) (rsh : rsh_t) (cmdbuf : ref_cmdbuf_t) :
    FrameCmd → List BackendCall
  | .BeginFrame cs fc fv => [.R_BeginFrame cs fc fv]
  | .EndFrame => [.R_EndFrame]
  | .DrawRotatedStretchPic x y w h s1 t1 s2 t2 angle color shader =>
    [.R_DrawRotatedStretchPic x y w h s1 t1 s2 t2 angle color shader]
  | .DrawStretchPoly poly x_offset y_offset =>
    [.R_DrawStretchPoly
      (polyTail L env.mem cmdbuf (readBytes env.mem poly L.sizeof_poly_t)).obj x_offset y_offset]
  | .ClearScene => [.R_ClearScene]
  | .AddEntityToScene ent =>
    [.R_AddEntityToScene (entityTail L env cmdbuf (readBytes env.mem ent L.sizeof_entity_t)).obj]
  | .AddLightToScene org intensity r g b => [.R_AddLightToScene org intensity r g b]
  | .AddPolyToScene poly =>
    [.R_AddPolyToScene (polyTail L env.mem cmdbuf (readBytes env.mem poly L.sizeof_poly_t)).obj]
  | .AddLightStyleToScene style r g b => [.R_AddLightStyleToScene style r g b]
  | .RenderScene fd =>
    if renderSceneRuns L env.rsh rsh (refdefStored L env cmdbuf fd) then
      [.R_RenderScene (refdefStored L env cmdbuf fd)]
    else []
  | .SetScissor x y w h => [.R_Scissor x y w h]
  | .ResetScissor => [.R_ResetScissor]
  | .DrawStretchRaw x y w h s1 t1 s2 t2 => [.R_DrawStretchRaw x y w h s1 t1 s2 t2]
  | .DrawStretchRawYUV x y w h s1 t1 s2 t2 => [.R_DrawStretchRawYUV x y w h s1 t1 s2 t2]

/-- The handler invocations that a dispatch pass under `rsh` is expected to make on the
buffer built from `cmdbuf` by a sequence of encoder calls: one for each call that
changed `len`, at the offset `len` had before the call. -/
def expectedLog (L : Layout) (rsh : rsh_t) : ref_cmdbuf_t → List (Env × FrameCmd) → List Visit
  | _, [] => []
  | b, (env, c) :: rest =>
    (if (issue L env b c).len = b.len then []
     else [{ offset := b.len, calls := reply L env rsh b c, len := (issue L env b c).len - b.len }])
      ++ expectedLog L rsh (issue L env b c) rest

/-- The size of the struct that the handler at index `id` of `refCmdHandlers` reads. -/
def hdrSize (L : Layout) : Nat → Nat
  | 0 => sizeof_refCmdBeginFrame_t
  | 1 => sizeof_refCmdEndFrame_t
  | 2 => sizeof_refCmdDrawStretchPic_t
  | 3 => sizeof_refCmdDrawStretchOrScenePoly_t L
  | 4 => sizeof_refCmdClearScene_t
  | 5 => sizeof_refCmdAddEntityToScene_t L
  | 6 => sizeof_refCmdAddLightToScene_t
  | 7 => sizeof_refCmdDrawStretchOrScenePoly_t L
  | 8 => sizeof_refCmdAddLightStyleToScene_t
  | 9 => sizeof_refCmdRenderScene_t L
  | 10 => sizeof_refCmdSetScissor_t
  | 11 => sizeof_refCmdResetScissor_t
  | 12 => sizeof_refCmdDrawStretchRaw_t
  | 13 => sizeof_refCmdDrawStretchRaw_t
  | _ => 0

/-- The storage holds at offset `a` a record with a valid identifier whose handler
makes the calls `v.calls` and returns `v.len`, a length that covers the header. -/
def RecordAt (L : Layout) (rsh : rsh_t) (buf : Mem) (a : Nat) (v : Visit) : Prop :=
  v.offset = a ∧ (rdU32 (readBytes buf a 4)).val < NUM_REF_CMDS ∧
  refCmdHandlers L rsh (rdU32 (readBytes buf a 4)).val buf a = (v.calls, v.len) ∧
  4 ≤ v.len ∧ hdrSize L (rdU32 (readBytes buf a 4)).val ≤ v.len

/-- The storage holds a gapless run of records from offset `a` to offset `b`. -/
inductive Seg (L : Layout) (rsh : rsh_t) (buf : Mem) : Nat → Nat → List Visit → Prop
  | nil (a : Nat) : Seg L rsh buf a a []
  | cons {a b : Nat} {v : Visit} {vs : List Visit} :
      RecordAt L rsh buf a v → Seg L rsh buf (a + v.len) b vs → Seg L rsh buf a b (v :: vs)

/-- What an encoder call does to the buffer, when it turns `b` into `b'` and its record
has the computed size `n`: the address and the frame tag stay, the bytes below the old
length stay, the length stays within the storage, and either the length is unchanged or
it grew by `n` and the storage now holds, at the old length, a record that replays as
`calls` and reports the length `n`. -/
def IssueOk (L : Layout) (rsh : rsh_t) (b b' : ref_cmdbuf_t) (n : Nat)
    (calls : List BackendCall) : Prop :=
  b'.base = b.base ∧ b'.frameId = b.frameId ∧ (∀ i, i < b.len → b'.buf i = b.buf i) ∧
  b'.len ≤ L.sizeof_buf ∧
  (b'.len = b.len ∨
   (b'.len = b.len + n ∧ 4 ≤ n ∧
    RecordAt L rsh b'.buf b.len { offset := b.len, calls := calls, len := n }))

/-! ### Example values -/

/-- An assignment of the header constants with a 64 KiB buffer, used to instantiate the
theorems at concrete inputs. -/
def exampleLayout : Layout :=
  { sizeof_buf := 65536, sizeof_poly_t := 72, poly_numverts := 0, poly_verts := 8,
    poly_normals := 16, poly_stcoords := 24, poly_colors := 32, poly_numelems := 40,
    poly_elems := 48, poly_shader := 56, sizeof_entity_t := 32, entity_model := 0,
    entity_boneposes := 8, entity_oldboneposes := 16, sizeof_refdef_t := 16,
    refdef_rdflags := 0, refdef_areabits := 8, sizeof_bonepose_t := 32,
    RDF_NOWORLDMODEL := 1 }

/-- Backend counters used to instantiate the theorems at concrete inputs. -/
def exampleRsh : rsh_t :=
  { registrationSequence := 1, worldModelSequence := 1, worldBrushModel := 0, numareas := 0 }

/-- An environment with zeroed caller memory and models without bones. -/
def exampleEnv : Env :=
  { mem := fun _ => 0, rsh := exampleRsh, R_SkeletalGetNumBones := fun _ => 0,
    stack := fun _ => 0 }

/-- An operation of the buffer's member table: an encoder call, `Clear`, `SetFrameId`
or `RunCmds`. -/
inductive BufOp where
  | encode (env : Env) (c : FrameCmd)
  | Clear
  | SetFrameId (frameId : U32)
  | RunCmds (rsh : rsh_t)

/-- The buffer after an operation.  `RF_RunCmdBufProc` has no assignment to a member of
`*cmdbuf`, so `RunCmds` leaves the buffer as it is. -/
def applyOp (L : Layout) (cmdbuf : ref_cmdbuf_t) : BufOp → ref_cmdbuf_t
  | .encode env c => issue L env cmdbuf c
  | .Clear => RF_ClearCmdBuf cmdbuf
  | .SetFrameId frameId => RF_SetCmdBufFrameId cmdbuf frameId
  | .RunCmds _ => cmdbuf

/-- The buffer after a sequence of operations. -/
def applyOps (L : Layout) (cmdbuf : ref_cmdbuf_t) (ops : List BufOp) : ref_cmdbuf_t :=
  ops.foldl (applyOp L) cmdbuf

/-- The encoder turned `b` into `b'` by the all-or-nothing append of `record`, a record
of `n` bytes: when `len + n` is within the capacity, `len` grows by exactly `n`, the
bytes below the old length, the frame tag and the address stay, and the bytes from the
old length to the new one are `record`; otherwise nothing changes. -/
def AppendsRecord (L : Layout) (b b' : ref_cmdbuf_t) (record : List Byte) (n : Nat) : Prop :=
  record.length = n ∧
  (b.len + n ≤ L.sizeof_buf →
    b'.len = b.len + n ∧ (∀ i, i < b.len → b'.buf i = b.buf i) ∧
    readBytes b'.buf b.len n = record ∧ b'.frameId = b.frameId ∧ b'.base = b.base) ∧
  (L.sizeof_buf < b.len + n → b' = b)

/-- An environment whose caller memory holds, at address 0, a `refdef_t` of
`exampleLayout` with `rdflags = RDF_NOWORLDMODEL` and a null `areabits`. -/
def noWorldEnv : Env :=
  { mem := fun i => if i = 0 then 1 else 0, rsh := exampleRsh,
    R_SkeletalGetNumBones := fun _ => 0,
    stack := fun _ => 0 }

/-- The counters of `exampleRsh` after the world model changed. -/
def laterWorldRsh : rsh_t :=
  { registrationSequence := 1, worldModelSequence := 2, worldBrushModel := 0, numareas := 0 }

/-- The counters of `exampleRsh` after a new registration. -/
def laterRegistrationRsh : rsh_t :=
  { registrationSequence := 2, worldModelSequence := 1, worldBrushModel := 0, numareas := 0 }

/-- The offsets at which a sequence of encoder calls wrote records: for each call that
changed `len`, the value `len` had before the call. -/
def recordStarts (L : Layout) : ref_cmdbuf_t → List (Env × FrameCmd) → List Nat
  | _, [] => []
  | b, (env, c) :: rest =>
    (if (issue L env b c).len = b.len then [] else [b.len])
      ++ recordStarts L (issue L env b c) rest

instance (L : Layout) (env : Env) (c : FrameCmd) : Decidable (ValidCmd L env c) := by
  cases c <;> unfold ValidCmd <;> infer_instance

/-- The struct value `q` has the size of `s` and the same bytes, except possibly in the
eight-byte pointer members at the offsets `members`. -/
def EqOutside (s q : List Byte) (members : List Nat) : Prop :=
  q.length = s.length ∧
  ∀ i, (∀ m ∈ members, i < m ∨ m + 8 ≤ i) → q.getD i 0 = s.getD i 0

/-- The backend call `call` is the one that matches an encoder call, with the
parameters of the encoder call.  A struct passed by address is matched up to the array
pointers that the encoder redirects into the record. -/
def Matches (L : Layout) (env : Env) : FrameCmd → BackendCall → Prop
  | .BeginFrame cs fc fv, call => call = .R_BeginFrame cs fc fv
  | .EndFrame, call => call = .R_EndFrame
  | .DrawRotatedStretchPic x y w h s1 t1 s2 t2 angle color shader, call =>
    call = .R_DrawRotatedStretchPic x y w h s1 t1 s2 t2 angle color shader
  | .DrawStretchPoly poly x_offset y_offset, call =>
    ∃ q, call = .R_DrawStretchPoly q x_offset y_offset ∧
      EqOutside (readBytes env.mem poly L.sizeof_poly_t) q
        [L.poly_verts, L.poly_stcoords, L.poly_normals, L.poly_colors, L.poly_elems]
  | .ClearScene, call => call = .R_ClearScene
  | .AddEntityToScene ent, call =>
    ∃ q, call = .R_AddEntityToScene q ∧
      EqOutside (readBytes env.mem ent L.sizeof_entity_t) q
        [L.entity_boneposes, L.entity_oldboneposes]
  | .AddLightToScene org intensity r g b, call => call = .R_AddLightToScene org intensity r g b
  | .AddPolyToScene poly, call =>
    ∃ q, call = .R_AddPolyToScene q ∧
      EqOutside (readBytes env.mem poly L.sizeof_poly_t) q
        [L.poly_verts, L.poly_stcoords, L.poly_normals, L.poly_colors, L.poly_elems]
  | .AddLightStyleToScene style r g b, call => call = .R_AddLightStyleToScene style r g b
  | .RenderScene fd, call =>
    ∃ q, call = .R_RenderScene q ∧
      EqOutside (readBytes env.mem fd L.sizeof_refdef_t) q [L.refdef_areabits]
  | .SetScissor x y w h, call => call = .R_Scissor x y w h
  | .ResetScissor, call => call = .R_ResetScissor
  | .DrawStretchRaw x y w h s1 t1 s2 t2, call => call = .R_DrawStretchRaw x y w h s1 t1 s2 t2
  | .DrawStretchRawYUV x y w h s1 t1 s2 t2, call =>
    call = .R_DrawStretchRawYUV x y w h s1 t1 s2 t2

/-- A render-scene call whose record, appended to `cmdbuf` in the environment `env`, is
stale under the backend counters `rsh`: the handler skips it. -/
def stale (L : Layout) (env : Env) (rsh : rsh_t) (cmdbuf : ref_cmdbuf_t) : FrameCmd → Prop
  | .RenderScene fd => ¬ renderSceneRuns L env.rsh rsh (refdefStored L env cmdbuf fd)
  | _ => False

instance (L : Layout) (env : Env) (rsh : rsh_t) (cmdbuf : ref_cmdbuf_t) (c : FrameCmd) :
    Decidable (stale L env rsh cmdbuf c) := by
  cases c <;> unfold stale <;> infer_instance

/-- The encoder calls of a sequence that a dispatch pass under `rsh` replays: those that
changed `len` (their record was appended) and are not stale render-scene calls. -/
def replayed (L : Layout) (rsh : rsh_t) :
    ref_cmdbuf_t → List (Env × FrameCmd) → List (Env × FrameCmd)
  | _, [] => []
  | b, (env, c) :: rest =>
    (if (issue L env b c).len = b.len ∨ stale L env rsh b c then [] else [(env, c)])
      ++ replayed L rsh (issue L env b c) rest

/-- One tail-copying block of an encoder: its condition, the offset of the pointer
member it redirects, the source pointer and the number of bytes it copies. -/
structure TailBlock where
  present : Bool
  member : Nat
  src : U64
  n : Nat

/-- A run of tail-copying blocks. -/
def copyTails (mem : Mem) (base : Nat) (blocks : List TailBlock) (s : TailState) : TailState :=
  blocks.foldl (fun s k => copyTail mem base k.present k.member k.src k.n s) s

/-- The number of bytes that a run of tail-copying blocks writes. -/
def tailBytes : List TailBlock → Nat
  | [] => 0
  | k :: rest => (if k.present then k.n else 0) + tailBytes rest

/-- What a run of tail-copying blocks, started at the cursor `a` on the struct value
`orig`, leaves in the final state `f`: each block that ran has its pointer member set to
the address of the cursor it started at, where the storage now holds the bytes of its
source; the pointer member of a block that did not run is as in `orig`. -/
def Copied (mem : Mem) (base : Nat) (f : TailState) (orig : List Byte) :
    Nat → List TailBlock → Prop
  | _, [] => True
  | a, k :: rest =>
    (k.present = true →
      get64 f.obj k.member = U64.ofNat (base + a) ∧
      readBytes f.buf a k.n = readBytes mem k.src.val k.n) ∧
    (k.present = false → get64 f.obj k.member = get64 orig k.member) ∧
    Copied mem base f orig (a + if k.present then k.n else 0) rest

/-- The tail-copying blocks of `RF_IssueDrawStretchPolyOrAddPolyToSceneCmd` for the
`poly_t` value `p`, in program order. -/
def polyBlocks (L : Layout) (p : List Byte) : List TailBlock :=
  [{ present := get64 p L.poly_verts ≠ 0, member := L.poly_verts, src := get64 p L.poly_verts,
     n := szMul (intToSize (get32 p L.poly_numverts)) sizeof_vec4_t },
   { present := get64 p L.poly_stcoords ≠ 0, member := L.poly_stcoords,
     src := get64 p L.poly_stcoords,
     n := szMul (intToSize (get32 p L.poly_numverts)) sizeof_vec2_t },
   { present := get64 p L.poly_normals ≠ 0, member := L.poly_normals,
     src := get64 p L.poly_normals,
     n := szMul (intToSize (get32 p L.poly_numverts)) sizeof_vec4_t },
   { present := get64 p L.poly_colors ≠ 0, member := L.poly_colors,
     src := get64 p L.poly_colors,
     n := szMul (intToSize (get32 p L.poly_numverts)) sizeof_byte_vec4_t },
   { present := get64 p L.poly_elems ≠ 0, member := L.poly_elems, src := get64 p L.poly_elems,
     n := szMul (intToSize (get32 p L.poly_numelems)) sizeof_elem_t }]

/-- The tail-copying blocks of `RF_IssueAddEntityToSceneCmd` for the `entity_t` value
`e`, in program order. -/
def entityBlocks (L : Layout) (env : Env) (e : List Byte) : List TailBlock :=
  [{ present := env.R_SkeletalGetNumBones (get64 e L.entity_model) ≠ 0 ∧
       get64 e L.entity_boneposes ≠ 0,
     member := L.entity_boneposes, src := get64 e L.entity_boneposes,
     n := szMul (intToSize (env.R_SkeletalGetNumBones (get64 e L.entity_model)))
       L.sizeof_bonepose_t },
   { present := env.R_SkeletalGetNumBones (get64 e L.entity_model) ≠ 0 ∧
       get64 e L.entity_oldboneposes ≠ 0,
     member := L.entity_oldboneposes, src := get64 e L.entity_oldboneposes,
     n := szMul (intToSize (env.R_SkeletalGetNumBones (get64 e L.entity_model)))
       L.sizeof_bonepose_t }]

/-- The five array pointers of `poly_t` lie inside the struct and do not overlap. -/
def Layout.PolyPointersOk (L : Layout) : Prop :=
  (∀ m ∈ [L.poly_verts, L.poly_stcoords, L.poly_normals, L.poly_colors, L.poly_elems],
    m + 8 ≤ L.sizeof_poly_t) ∧
  [L.poly_verts, L.poly_stcoords, L.poly_normals, L.poly_colors, L.poly_elems].Pairwise
    (fun a b => a + 8 ≤ b ∨ b + 8 ≤ a)

instance (L : Layout) : Decidable L.PolyPointersOk := by
  unfold Layout.PolyPointersOk
  infer_instance

/-- The two bone-pose pointers of `entity_t` lie inside the struct and do not overlap. -/
def Layout.EntityPointersOk (L : Layout) : Prop :=
  (∀ m ∈ [L.entity_boneposes, L.entity_oldboneposes], m + 8 ≤ L.sizeof_entity_t) ∧
  [L.entity_boneposes, L.entity_oldboneposes].Pairwise (fun a b => a + 8 ≤ b ∨ b + 8 ≤ a)

instance (L : Layout) : Decidable L.EntityPointersOk := by
  unfold Layout.EntityPointersOk
  infer_instance

/-- The pointer member at offset `member` of the struct value `q` refers to a copy of
`bytes` that lies in the storage `buf`, whose first byte has the address `base`, between
the offsets `lo` and `hi`. -/
def ArrayIn (base : Nat) (buf : Mem) (lo hi : Nat) (q : List Byte) (member : Nat)
    (bytes : List Byte) : Prop :=
  ∃ a, (get64 q member).val = base + a ∧ lo ≤ a ∧ a + bytes.length ≤ hi ∧
    readBytes buf a bytes.length = bytes

/-- The array of `n` bytes behind the pointer member at offset `member` went from the
caller's struct value `p` into the dispatched struct value `q`: the member of `q` is
null exactly when that of `p` is, and otherwise refers to a copy of the caller's `n`
bytes inside the storage between `lo` and `hi`. -/
def ArrayReplayed (mem : Mem) (base : Nat) (buf : Mem) (lo hi : Nat) (p q : List Byte)
    (member n : Nat) : Prop :=
  if get64 p member = 0 then get64 q member = 0
  else get64 q member ≠ 0 ∧
    ArrayIn base buf lo hi q member (readBytes mem (get64 p member).val n)

/-- The five arrays of the caller's polygon `p` went into the dispatched polygon `q`
of the record that starts at offset `start` of the buffer `b'`: `numverts` elements for
`verts`, `stcoords`, `normals` and `colors`, `numelems` elements for `elems`, each copy
lying between the end of the record header and `b'.len`. -/
def PolyArraysReplayed (L : Layout) (mem : Mem) (b' : ref_cmdbuf_t) (start : Nat)
    (p q : List Byte) : Prop :=
  ArrayReplayed mem b'.base b'.buf (start + sizeof_refCmdDrawStretchOrScenePoly_t L) b'.len p q
    L.poly_verts ((get32 p L.poly_numverts).val * sizeof_vec4_t) ∧
  ArrayReplayed mem b'.base b'.buf (start + sizeof_refCmdDrawStretchOrScenePoly_t L) b'.len p q
    L.poly_stcoords ((get32 p L.poly_numverts).val * sizeof_vec2_t) ∧
  ArrayReplayed mem b'.base b'.buf (start + sizeof_refCmdDrawStretchOrScenePoly_t L) b'.len p q
    L.poly_normals ((get32 p L.poly_numverts).val * sizeof_vec4_t) ∧
  ArrayReplayed mem b'.base b'.buf (start + sizeof_refCmdDrawStretchOrScenePoly_t L) b'.len p q
    L.poly_colors ((get32 p L.poly_numverts).val * sizeof_byte_vec4_t) ∧
  ArrayReplayed mem b'.base b'.buf (start + sizeof_refCmdDrawStretchOrScenePoly_t L) b'.len p q
    L.poly_elems ((get32 p L.poly_numelems).val * sizeof_elem_t)

/-- An environment whose caller memory holds, at address 64, a `poly_t` of
`exampleLayout` with two vertices, a shader, and a `verts` array of 32 bytes at address
200; its other array pointers are null. -/
def polyEnv : Env :=
  { mem := fun i =>
      if i = 64 then 2
      else if i = 72 then 200
      else if i = 120 then 1
      else if 200 ≤ i ∧ i < 232 then ⟨i % 256, Nat.mod_lt _ (by decide)⟩
      else 0,
    rsh := exampleRsh, R_SkeletalGetNumBones := fun _ => 0,
    stack := fun _ => 0 }

/-- The backend call `call` replays the entity at address `ent` of the environment
`env` from the record that starts at offset `start` of the buffer `b'`: it is
`R_AddEntityToScene` on an entity `q` that equals the caller's outside the two bone-pose
pointers; `boneposes` of `q` refers to the copy right after the record header, which
holds the caller's poses, one per bone of the model; `oldboneposes` of `q` is null when
the caller's is, and otherwise refers to the copy right after the first one, which
holds the caller's old poses. -/
def EntityReplayed (L : Layout) (env : Env) (ent : Nat) (b' : ref_cmdbuf_t) (start : Nat)
    (call : BackendCall) : Prop :=
  let e := readBytes env.mem ent L.sizeof_entity_t
  let bones_len := (env.R_SkeletalGetNumBones (get64 e L.entity_model)).val * L.sizeof_bonepose_t
  let tail := start + sizeof_refCmdAddEntityToScene_t L
  ∃ q, call = .R_AddEntityToScene q ∧
    EqOutside e q [L.entity_boneposes, L.entity_oldboneposes] ∧
    (get64 q L.entity_boneposes).val = b'.base + tail ∧
    readBytes b'.buf tail bones_len
      = readBytes env.mem (get64 e L.entity_boneposes).val bones_len ∧
    (if get64 e L.entity_oldboneposes = 0 then get64 q L.entity_oldboneposes = 0
     else
      (get64 q L.entity_oldboneposes).val = b'.base + (tail + bones_len) ∧
      readBytes b'.buf (tail + bones_len) bones_len
        = readBytes env.mem (get64 e L.entity_oldboneposes).val bones_len)

/-- The backend calls `calls` replay, one for one and in order, the entities of the
`AddEntityToScene` calls `es` from the records that lie back to back from offset `start`
of the buffer `b'`. -/
def EntitiesReplayed (L : Layout) (b' : ref_cmdbuf_t) :
    Nat → List (Env × Nat) → List BackendCall → Prop
  | _, [], [] => True
  | start, (env, ent) :: es, call :: calls =>
    EntityReplayed L env ent b' start call ∧
    EntitiesReplayed L b'
      (start + entityCmdLen L env (readBytes env.mem ent L.sizeof_entity_t)) es calls
  | _, _, _ => False

/-- The `AddEntityToScene` calls for the entities `es`. -/
def entityCmds (es : List (Env × Nat)) : List (Env × FrameCmd) :=
  es.map (fun p => (p.1, FrameCmd.AddEntityToScene p.2))

/-- The sum of the record sizes that `RF_IssueAddEntityToSceneCmd` computes for the
entities `es`. -/
def entitiesLen (L : Layout) (es : List (Env × Nat)) : Nat :=
  (es.map (fun p => entityCmdLen L p.1 (readBytes p.1.mem p.2 L.sizeof_entity_t))).sum

/-- An environment whose caller memory holds, at address 64, an `entity_t` of
`exampleLayout` whose `boneposes` is the address 256 and whose `oldboneposes` is the
address 2048, each an array of 32 poses of 32 bytes; every model has 32 bones. -/
def boneEnv : Env :=
  { mem := fun i =>
      if i = 73 then 1
      else if i = 81 then 8
      else if 256 ≤ i ∧ i < 1280 then ⟨i % 256, Nat.mod_lt _ (by decide)⟩
      else if 2048 ≤ i ∧ i < 3072 then ⟨(i + 7) % 256, Nat.mod_lt _ (by decide)⟩
      else 0,
    rsh := exampleRsh, R_SkeletalGetNumBones := fun _ => 32, stack := fun _ => 0 }

instance (L : Layout) (rsh : rsh_t) (buf : Mem) (a : Nat) (v : Visit) :
    Decidable (RecordAt L rsh buf a v) := by
  unfold RecordAt
  infer_instance

/-- The dispatcher as a transformer of the buffer object: the loop of
`RF_RunCmdBufProc` from offset `t`, yielding the buffer it leaves behind together with
what the pass did.  Neither the loop nor a handler has a store to `*cmdbuf` (a handler
only reads through `cmd`), and the backend functions are taken not to write through the
pointers they are handed, so an iteration hands the buffer on as it found it. -/
def RF_RunCmdBufProc.exec (L : Layout) (rsh : rsh_t) :
    Nat → Nat → ref_cmdbuf_t → Option (ref_cmdbuf_t × RunResult)
  | 0, _, _ => none
  | fuel + 1, t, cmdbuf =>
    if t < cmdbuf.len then
      let id := rdU32 (readBytes cmdbuf.buf t 4)
      if toInt id < 0 ∨ toInt id ≥ NUM_REF_CMDS then some (cmdbuf, { log := [], t := t })
      else
        let r := refCmdHandlers L rsh id.val cmdbuf.buf t
        if r.2 = 0 then
          some (cmdbuf, { log := [{ offset := t, calls := r.1, len := 0 }], t := t })
        else (RF_RunCmdBufProc.exec L rsh fuel (szAdd t r.2) cmdbuf).map
          (fun p => (p.1, { p.2 with log := { offset := t, calls := r.1, len := r.2 } :: p.2.log }))
    else some (cmdbuf, { log := [], t := t })

/-- The member `RunCmds` of the buffer: a dispatch pass, as a transformer of the buffer
object. -/
def RunCmds (L : Layout) (rsh : rsh_t) (cmdbuf : ref_cmdbuf_t) :
    Option (ref_cmdbuf_t × RunResult) :=
  RF_RunCmdBufProc.exec L rsh (cmdbuf.len + 1) 0 cmdbuf

/-- A buffer of 24 bytes whose third record is corrupt: the records of
`BeginFrame( 0, true, false )` and `EndFrame()`, then the identifier 14 at offset 16,
followed at offset 20 by the bytes of an `EndFrame` record. -/
def corruptBuf : ref_cmdbuf_t :=
  { frameId := 7, len := 24, base := 4096,
    buf := memcpy (memcpy (issueAll exampleLayout (RF_CreateCmdBuf 4096)
      [(exampleEnv, .BeginFrame 0 true false), (exampleEnv, .EndFrame)]).buf 16
        (U32.bytes 14)) 20 (U32.bytes 1) }

/-- A buffer of 104 bytes whose second record is a polygon record with `length == 0`:
the record of `BeginFrame( 0, true, false )`, then at offset 12 a zeroed
`refCmdDrawStretchOrScenePoly_t` with the identifier `REF_CMD_DRAW_STRETCH_POLY`,
followed at offset 100 by the bytes of an `EndFrame` record. -/
def zeroLengthBuf : ref_cmdbuf_t :=
  { frameId := 7, len := 104, base := 4096,
    buf := memcpy (memcpy (issueAll exampleLayout (RF_CreateCmdBuf 4096)
      [(exampleEnv, .BeginFrame 0 true false)]).buf 12 (U32.bytes 3)) 100 (U32.bytes 1) }

/-- An environment with a world model of ten areas, whose caller memory holds at
address 0 a `refdef_t` of `exampleLayout` with `rdflags = 0` and with `areabits` the
address 64, where two bytes of area bits lie. -/
def areaEnv : Env :=
  { mem := fun i => if i = 8 then 64 else if i = 64 then 171 else if i = 65 then 205 else 0,
    rsh := { registrationSequence := 1, worldModelSequence := 1, worldBrushModel := 4660,
             numareas := 10 },
    R_SkeletalGetNumBones := fun _ => 0,
    stack := fun _ => 0 }

/-- An environment whose caller memory holds, at address 64, a `poly_t` of
`exampleLayout` with one vertex, a shader, and an `elems` array of one element (two
bytes) at address 200; its other array pointers are null. -/
def elemsPolyEnv : Env :=
  { mem := fun i =>
      if i = 64 then 1
      else if i = 104 then 1
      else if i = 112 then 200
      else if i = 120 then 1
      else if i = 200 then 5
      else 0,
    rsh := exampleRsh, R_SkeletalGetNumBones := fun _ => 0,
    stack := fun _ => 0 }

/-- A used buffer: 200 bytes of an earlier frame, every byte of the storage being 255. -/
def staleBuf : ref_cmdbuf_t :=
  { frameId := 3, len := 200, base := 4096, buf := fun _ => 255 }

/-- The member `rdflags` of `refdef_t` does not overlap the pointer `areabits`, which
lies inside the struct. -/
def Layout.RefdefOk (L : Layout) : Prop :=
  L.refdef_areabits + 8 ≤ L.sizeof_refdef_t ∧
  (L.refdef_rdflags + 4 ≤ L.refdef_areabits ∨ L.refdef_areabits + 8 ≤ L.refdef_rdflags)

instance (L : Layout) : Decidable L.RefdefOk := by
  unfold Layout.RefdefOk
  infer_instance

/-- The offsets, from the start of the record, of the pointer members that the encoder
behind an encoder call may redirect into the record. -/
def FrameCmd.pointerMembers (L : Layout) : FrameCmd → List Nat
  | .DrawStretchPoly .. =>
    [16 + L.poly_verts, 16 + L.poly_stcoords, 16 + L.poly_normals, 16 + L.poly_colors,
      16 + L.poly_elems]
  | .AddPolyToScene .. =>
    [16 + L.poly_verts, 16 + L.poly_stcoords, 16 + L.poly_normals, 16 + L.poly_colors,
      16 + L.poly_elems]
  | .AddEntityToScene .. => [8 + L.entity_boneposes, 8 + L.entity_oldboneposes]
  | .RenderScene .. => [16 + L.refdef_areabits]
  | _ => []

/-- The number of bytes of its record that the encoder behind an encoder call writes:
the header and the copied arrays, without the alignment padding after them. -/
def writtenLen (L : Layout) (env : Env) : FrameCmd → Nat
  | .DrawStretchPoly poly _ _ =>
    sizeof_refCmdDrawStretchOrScenePoly_t L
      + tailBytes (polyBlocks L (readBytes env.mem poly L.sizeof_poly_t))
  | .AddPolyToScene poly =>
    sizeof_refCmdDrawStretchOrScenePoly_t L
      + tailBytes (polyBlocks L (readBytes env.mem poly L.sizeof_poly_t))
  | .AddEntityToScene ent =>
    sizeof_refCmdAddEntityToScene_t L
      + tailBytes (entityBlocks L env (readBytes env.mem ent L.sizeof_entity_t))
  | .RenderScene fd =>
    sizeof_refCmdRenderScene_t L
      + (renderSceneAreabytes L env.rsh (readBytes env.mem fd L.sizeof_refdef_t)).val
  | c => cmdLen L env c

/-- Two pointer values are the same reference when the buffer at `base1` is compared
with the buffer at `base2`: they are equal, or they are the addresses of one and the
same offset `off` of the two storages, `off` being at most `cap`. -/
def SameRef (base1 base2 cap : Nat) (v1 v2 : U64) : Prop :=
  v1 = v2 ∨ ∃ off, off ≤ cap ∧ v1 = U64.ofNat (base1 + off) ∧ v2 = U64.ofNat (base2 + off)

/-- Two struct values are the same up to in-buffer references: they have the same size
and the same bytes outside the pointer members at `members`, and each of those members
holds the same reference. -/
def SameStruct (base1 base2 cap : Nat) (q1 q2 : List Byte) (members : List Nat) : Prop :=
  q1.length = q2.length ∧
  (∀ i, (∀ m ∈ members, i < m ∨ m + 8 ≤ i) → q1.getD i 0 = q2.getD i 0) ∧
  ∀ m ∈ members, SameRef base1 base2 cap (get64 q1 m) (get64 q2 m)

/-- Two backend calls are the same up to in-buffer references: the same function with
the same arguments, a struct passed by address being the same up to in-buffer
references. -/
def SameCall (L : Layout) (base1 base2 : Nat) : BackendCall → BackendCall → Prop
  | .R_DrawStretchPoly q1 x1 y1, .R_DrawStretchPoly q2 x2 y2 =>
    x1 = x2 ∧ y1 = y2 ∧ SameStruct base1 base2 L.sizeof_buf q1 q2
      [L.poly_verts, L.poly_stcoords, L.poly_normals, L.poly_colors, L.poly_elems]
  | .R_AddPolyToScene q1, .R_AddPolyToScene q2 =>
    SameStruct base1 base2 L.sizeof_buf q1 q2
      [L.poly_verts, L.poly_stcoords, L.poly_normals, L.poly_colors, L.poly_elems]
  | .R_AddEntityToScene q1, .R_AddEntityToScene q2 =>
    SameStruct base1 base2 L.sizeof_buf q1 q2 [L.entity_boneposes, L.entity_oldboneposes]
  | .R_RenderScene q1, .R_RenderScene q2 =>
    SameStruct base1 base2 L.sizeof_buf q1 q2 [L.refdef_areabits]
  | c1, c2 => c1 = c2

/-- The storages `m1` (at `base1`) and `m2` (at `base2`) hold the same bytes from offset
`lo` to offset `hi`, in-buffer references compared as offsets: the pointer members at
the offsets `slots` from `lo` lie between `lo` and `hi` and hold the same references,
and every other byte of the range is equal. -/
def SameRecordBytes (base1 base2 cap : Nat) (m1 m2 : Mem) (lo hi : Nat) (slots : List Nat) :
    Prop :=
  (∀ s ∈ slots, lo + s + 8 ≤ hi) ∧
  (∀ i, lo ≤ i → i < hi → (∀ s ∈ slots, i < lo + s ∨ lo + s + 8 ≤ i) → m1 i = m2 i) ∧
  ∀ s ∈ slots, SameRef base1 base2 cap (rdU64 (readBytes m1 (lo + s) 8))
    (rdU64 (readBytes m2 (lo + s) 8))

/-- The accept-or-drop decisions of a sequence of encoder calls: for each call, whether
it changed `len`. -/
def decisions (L : Layout) : ref_cmdbuf_t → List (Env × FrameCmd) → List Bool
  | _, [] => []
  | b, (env, c) :: rest =>
    decide ((issue L env b c).len ≠ b.len) :: decisions L (issue L env b c) rest

/-- The records that a sequence of encoder calls appended: for each call that changed
`len`, the offset of its record together with the call. -/
def records (L : Layout) : ref_cmdbuf_t → List (Env × FrameCmd) → List (Nat × Env × FrameCmd)
  | _, [] => []
  | b, (env, c) :: rest =>
    (if (issue L env b c).len = b.len then [] else [(b.len, env, c)])
      ++ records L (issue L env b c) rest

/-- A frame of two encoder calls: the polygon of `elemsPolyEnv` added to the scene, then
`EndFrame`. -/
def exampleFrame : List (Env × FrameCmd) :=
  [(elemsPolyEnv, .AddPolyToScene 64), (exampleEnv, .EndFrame)]

/-! ## Inter-frame commands pipe -/

/-- The identifiers `REF_PIPE_CMD_*`.  The enum is declared in `r_cmdque.h`, which is
not under src/; the values are the positions of the handlers in `refPipeCmdHandlers`. -/
def REF_PIPE_CMD_INIT : U32 := 0
def REF_PIPE_CMD_SHUTDOWN : U32 := 1
def REF_PIPE_CMD_SURFACE_CHANGE : U32 := 2
def REF_PIPE_CMD_SCREEN_SHOT : U32 := 3
def REF_PIPE_CMD_ENV_SHOT : U32 := 4
def REF_PIPE_CMD_BEGIN_REGISTRATION : U32 := 5
def REF_PIPE_CMD_END_REGISTRATION : U32 := 6
def REF_PIPE_CMD_SET_CUSTOM_COLOR : U32 := 7
def REF_PIPE_CMD_SET_WALL_FLOOR_COLORS : U32 := 8
def REF_PIPE_CMD_SET_DRAWBUFFER : U32 := 9
def REF_PIPE_CMD_SET_TEXTURE_MODE : U32 := 10
def REF_PIPE_CMD_SET_TEXTURE_FILTER : U32 := 11
def REF_PIPE_CMD_SET_GAMMA : U32 := 12
def NUM_REF_PIPE_CMDS : Nat := 13

structure refReliableCmdInitShutdown_t where
  id : U32
deriving DecidableEq

structure refReliableCmdSurfaceChange_t where
  id : U32
deriving DecidableEq

/-- The members `fmtstring`, `path` and `name` are the contents of the `char` arrays of
64, 512 and 512 bytes. -/
structure refReliableCmdScreenShot_t where
  id : U32
  pixels : U32
  silent : Bool
  media : Bool
  x : U32
  y : U32
  w : U32
  h : U32
  fmtstring : List Byte
  path : List Byte
  name : List Byte
deriving DecidableEq

structure refReliableCmdBeginEndRegistration_t where
  id : U32
deriving DecidableEq

structure refReliableCmdSetCustomColor_t where
  id : U32
  num : U32
  r : U32
  g : U32
  b : U32
deriving DecidableEq

structure refReliableCmdSetWallFloorColors_t where
  id : U32
  wall : vec3_t
  floor : vec3_t
deriving DecidableEq

/-- The member `drawbuffer` is the content of the `char` array of 32 bytes. -/
structure refReliableCmdSetDrawBuffer_t where
  id : U32
  drawbuffer : List Byte
deriving DecidableEq

/-- The member `texturemode` is the content of the `char` array of 32 bytes. -/
structure refReliableCmdSetTextureMode_t where
  id : U32
  texturemode : List Byte
deriving DecidableEq

/-- The member `filter` is a `char`; the members `pad0`, `pad1` and `pad2` are the three
padding bytes that end the struct. -/
structure refReliableCmdSetTextureFilter_t where
  id : U32
  filter : Byte
  pad0 : Byte
  pad1 : Byte
  pad2 : Byte
deriving DecidableEq

structure refReliableCmdSetGamma_t where
  id : U32
  gamma : U32
deriving DecidableEq

def sizeof_refReliableCmdInitShutdown_t : Nat := 4
def sizeof_refReliableCmdSurfaceChange_t : Nat := 4
def sizeof_refReliableCmdScreenShot_t : Nat := 1116
def sizeof_refReliableCmdBeginEndRegistration_t : Nat := 4
def sizeof_refReliableCmdSetCustomColor_t : Nat := 20
def sizeof_refReliableCmdSetWallFloorColors_t : Nat := 28
def sizeof_refReliableCmdSetDrawBuffer_t : Nat := 36
def sizeof_refReliableCmdSetTextureMode_t : Nat := 36
def sizeof_refReliableCmdSetTextureFilter_t : Nat := 8
def sizeof_refReliableCmdSetGamma_t : Nat := 8

def refReliableCmdInitShutdown_t.toBytes (c : refReliableCmdInitShutdown_t) : List Byte :=
  c.id.bytes

def refReliableCmdSurfaceChange_t.toBytes (c : refReliableCmdSurfaceChange_t) : List Byte :=
  c.id.bytes

def refReliableCmdScreenShot_t.toBytes (c : refReliableCmdScreenShot_t) : List Byte :=
  c.id.bytes ++ (c.pixels.bytes ++ (boolBytes c.silent ++ (boolBytes c.media ++ (padBytes 2 ++
    (c.x.bytes ++ (c.y.bytes ++ (c.w.bytes ++ (c.h.bytes ++ (c.fmtstring ++ (c.path ++
    c.name))))))))))

def refReliableCmdScreenShot_t.ofBytes (bs : List Byte) : refReliableCmdScreenShot_t :=
  { id := rdU32 bs, pixels := rdU32 (bs.drop 4), silent := rdBool (bs.drop 8),
    media := rdBool (bs.drop 9), x := rdU32 (bs.drop 12), y := rdU32 (bs.drop 16),
    w := rdU32 (bs.drop 20), h := rdU32 (bs.drop 24),
    fmtstring := (bs.drop 28).take 64,
    path := ((bs.drop 28).drop 64).take 512,
    name := (((bs.drop 28).drop 64).drop 512).take 512 }

def refReliableCmdBeginEndRegistration_t.toBytes (c : refReliableCmdBeginEndRegistration_t) :
    List Byte :=
  c.id.bytes

def refReliableCmdSetCustomColor_t.toBytes (c : refReliableCmdSetCustomColor_t) : List Byte :=
  c.id.bytes ++ (c.num.bytes ++ (c.r.bytes ++ (c.g.bytes ++ c.b.bytes)))

def refReliableCmdSetCustomColor_t.ofBytes (bs : List Byte) : refReliableCmdSetCustomColor_t :=
  { id := rdU32 bs, num := rdU32 (bs.drop 4), r := rdU32 (bs.drop 8), g := rdU32 (bs.drop 12),
    b := rdU32 (bs.drop 16) }

def refReliableCmdSetWallFloorColors_t.toBytes (c : refReliableCmdSetWallFloorColors_t) :
    List Byte :=
  c.id.bytes ++ (c.wall.v0.bytes ++ (c.wall.v1.bytes ++ (c.wall.v2.bytes ++
    (c.floor.v0.bytes ++ (c.floor.v1.bytes ++ c.floor.v2.bytes)))))

def refReliableCmdSetWallFloorColors_t.ofBytes (bs : List Byte) :
    refReliableCmdSetWallFloorColors_t :=
  { id := rdU32 bs,
    wall := { v0 := rdU32 (bs.drop 4), v1 := rdU32 (bs.drop 8), v2 := rdU32 (bs.drop 12) },
    floor := { v0 := rdU32 (bs.drop 16), v1 := rdU32 (bs.drop 20), v2 := rdU32 (bs.drop 24) } }

def refReliableCmdSetDrawBuffer_t.toBytes (c : refReliableCmdSetDrawBuffer_t) : List Byte :=
  c.id.bytes ++ c.drawbuffer

def refReliableCmdSetDrawBuffer_t.ofBytes (bs : List Byte) : refReliableCmdSetDrawBuffer_t :=
  { id := rdU32 bs, drawbuffer := (bs.drop 4).take 32 }

def refReliableCmdSetTextureMode_t.toBytes (c : refReliableCmdSetTextureMode_t) : List Byte :=
  c.id.bytes ++ c.texturemode

def refReliableCmdSetTextureMode_t.ofBytes (bs : List Byte) : refReliableCmdSetTextureMode_t :=
  { id := rdU32 bs, texturemode := (bs.drop 4).take 32 }

def refReliableCmdSetTextureFilter_t.toBytes (c : refReliableCmdSetTextureFilter_t) :
    List Byte :=
  c.id.bytes ++ [c.filter, c.pad0, c.pad1, c.pad2]

def refReliableCmdSetTextureFilter_t.ofBytes (bs : List Byte) :
    refReliableCmdSetTextureFilter_t :=
  { id := rdU32 bs, filter := (bs.drop 4).headD 0, pad0 := (bs.drop 5).headD 0,
    pad1 := (bs.drop 6).headD 0, pad2 := (bs.drop 7).headD 0 }

def refReliableCmdSetGamma_t.toBytes (c : refReliableCmdSetGamma_t) : List Byte :=
  c.id.bytes ++ c.gamma.bytes

def refReliableCmdSetGamma_t.ofBytes (bs : List Byte) : refReliableCmdSetGamma_t :=
  { id := rdU32 bs, gamma := rdU32 (bs.drop 4) }

/-- What the pipe code takes from outside the file: the members `width` and `height` of
the global `glConfig`, whether plain `char` is a signed type on the target, and `stack`,
the content of the stack where the local `cmd` of an encoder lies when the encoder is
entered (offset 0 is the first byte of `cmd`). -/
structure PipeEnv where
  glConfig_width : U32
  glConfig_height : U32
  charSigned : Bool
  stack : Mem

/-- Conversion of an `int` to `char`: the low eight bits. -/
def intToChar (i : U32) : Byte := ⟨i.val % 256, Nat.mod_lt _ (by decide)⟩

/-- Promotion of a `char` to `int`: sign extension when `char` is signed, zero extension
otherwise. -/
def charToInt (charSigned : Bool) (c : Byte) : U32 :=
  if charSigned = true ∧ 128 ≤ c.val then U32.ofNat (4294967040 + c.val) else U32.ofNat c.val

/-- The C string that starts at the head of `bs`: the bytes before the first NUL. -/
def cString (bs : List Byte) : List Byte := bs.takeWhile (fun c => c ≠ 0)

/-- Modelled from the spec: `Q_strncpyz( dest, src, size )`, a helper of the repository
that is not under src/ ("string truncation to fixed buffer widths").  It copies the C
string `src` into the array `dest` of `size` bytes, truncated to `size - 1` bytes, and
terminates it with a NUL; the bytes of `dest` after the terminator stay. -/
def Q_strncpyz (dest src : List Byte) (size : Nat) : List Byte :=
  if size = 0 then dest
  else
    ((cString src).take (size - 1)) ++
      (0 :: dest.drop (((cString src).take (size - 1)).length + 1))

/-- A call from a pipe handler into the renderer backend, with the values of its
arguments; a string argument is given by its bytes before the NUL. -/
inductive PipeCall where
  | RB_Init
  | RFB_Init
  | R_InitBuiltinScreenImages
  | R_BindFrameBufferObject (object : U32)
  | R_ReleaseBuiltinScreenImages
  | RB_Shutdown
  | RFB_Shutdown
  | GLimp_UpdatePendingWindowSurface
  | R_TakeScreenShot (path name fmtstring : List Byte) (x y w h : U32) (silent media : Bool)
  | R_TakeEnvShot (path name : List Byte) (pixels : U32)
  | RB_BeginRegistration
  | RB_EndRegistration
  | RFB_FreeUnusedObjects
  | R_SetCustomColor (num r g b : U32)
  | R_SetWallFloorColors (wall floor : vec3_t)
  | R_SetDrawBuffer (drawbuffer : List Byte)
  | R_TextureMode (texturemode : List Byte)
  | R_AnisotropicFilter (value : U32)
  | R_SetGamma (gamma : U32)
deriving DecidableEq

/-! ### Pipe handlers

A handler receives the bytes at `pcmd` and yields the backend calls it makes together
with its return value. -/

def R_HandleInitReliableCmd (_pcmd : List Byte) : List PipeCall × Nat :=
  ([.RB_Init, .RFB_Init, .R_InitBuiltinScreenImages, .R_BindFrameBufferObject 0],
    sizeof_refReliableCmdInitShutdown_t)

def R_HandleShutdownReliableCmd (_pcmd : List Byte) : List PipeCall × Nat :=
  ([.R_ReleaseBuiltinScreenImages, .RB_Shutdown, .RFB_Shutdown],
    sizeof_refReliableCmdInitShutdown_t)

def R_HandleSurfaceChangeReliableCmd (_pcmd : List Byte) : List PipeCall × Nat :=
  ([.GLimp_UpdatePendingWindowSurface], sizeof_refReliableCmdSurfaceChange_t)

def R_HandleScreenShotReliableCmd (pcmd : List Byte) : List PipeCall × Nat :=
  let cmd := refReliableCmdScreenShot_t.ofBytes pcmd
  ([.R_TakeScreenShot (cString cmd.path) (cString cmd.name) (cString cmd.fmtstring)
      cmd.x cmd.y cmd.w cmd.h cmd.silent cmd.media], sizeof_refReliableCmdScreenShot_t)

def R_HandleEnvShotReliableCmd (pcmd : List Byte) : List PipeCall × Nat :=
  let cmd := refReliableCmdScreenShot_t.ofBytes pcmd
  ([.R_TakeEnvShot (cString cmd.path) (cString cmd.name) cmd.pixels],
    sizeof_refReliableCmdScreenShot_t)

def R_HandleBeginRegistrationReliableCmd (_pcmd : List Byte) : List PipeCall × Nat :=
  ([.RB_BeginRegistration], sizeof_refReliableCmdBeginEndRegistration_t)

def R_HandleEndRegistrationReliableCmd (_pcmd : List Byte) : List PipeCall × Nat :=
  ([.RB_EndRegistration, .RFB_FreeUnusedObjects], sizeof_refReliableCmdBeginEndRegistration_t)

def R_HandleSetCustomColorReliableCmd (pcmd : List Byte) : List PipeCall × Nat :=
  let cmd := refReliableCmdSetCustomColor_t.ofBytes pcmd
  ([.R_SetCustomColor cmd.num cmd.r cmd.g cmd.b], sizeof_refReliableCmdSetCustomColor_t)

def R_HandleSetWallFloorColorsReliableCmd (pcmd : List Byte) : List PipeCall × Nat :=
  let cmd := refReliableCmdSetWallFloorColors_t.ofBytes pcmd
  ([.R_SetWallFloorColors cmd.wall cmd.floor], sizeof_refReliableCmdSetWallFloorColors_t)

def R_HandleSetDrawBufferReliableCmd (pcmd : List Byte) : List PipeCall × Nat :=
  let cmd := refReliableCmdSetDrawBuffer_t.ofBytes pcmd
  ([.R_SetDrawBuffer (cString cmd.drawbuffer)], sizeof_refReliableCmdSetDrawBuffer_t)

def R_HandleSetTextureModeReliableCmd (pcmd : List Byte) : List PipeCall × Nat :=
  let cmd := refReliableCmdSetTextureMode_t.ofBytes pcmd
  ([.R_TextureMode (cString cmd.texturemode)], sizeof_refReliableCmdSetTextureMode_t)

def R_HandleSetTextureFilterReliableCmd (G : PipeEnv) (pcmd : List Byte) :
    List PipeCall × Nat :=
  let cmd := refReliableCmdSetTextureFilter_t.ofBytes pcmd
  ([.R_AnisotropicFilter (charToInt G.charSigned cmd.filter)],
    sizeof_refReliableCmdSetTextureFilter_t)

def R_HandleSetGammaReliableCmd (pcmd : List Byte) : List PipeCall × Nat :=
  let cmd := refReliableCmdSetGamma_t.ofBytes pcmd
  ([.R_SetGamma cmd.gamma], sizeof_refReliableCmdSetGamma_t)

/-- The table `refPipeCmdHandlers`; the last line is outside the table. -/
def refPipeCmdHandlers (G : PipeEnv) : Nat → List Byte → List PipeCall × Nat
  | 0 => R_HandleInitReliableCmd
  | 1 => R_HandleShutdownReliableCmd
  | 2 => R_HandleSurfaceChangeReliableCmd
  | 3 => R_HandleScreenShotReliableCmd
  | 4 => R_HandleEnvShotReliableCmd
  | 5 => R_HandleBeginRegistrationReliableCmd
  | 6 => R_HandleEndRegistrationReliableCmd
  | 7 => R_HandleSetCustomColorReliableCmd
  | 8 => R_HandleSetWallFloorColorsReliableCmd
  | 9 => R_HandleSetDrawBufferReliableCmd
  | 10 => R_HandleSetTextureModeReliableCmd
  | 11 => R_HandleSetTextureFilterReliableCmd G
  | 12 => R_HandleSetGammaReliableCmd
  | _ => fun _ => ([], 0)

/-! ### The pipe and the pipe encoders -/

/-- Modelled from the spec: the pipe `qbufPipe_t`, owned by a collaborator that is not
under src/: an ordered FIFO of byte records, the oldest first. -/
abbrev qbufPipe_t := List (List Byte)

/-- Modelled from the spec: `ri.BufPipe_WriteCmd( pipe, cmd, cmd_size )`, the push of the
collaborator: one atomic write that appends the `cmd_size` bytes at `cmd` to the pipe as
one record. -/
def BufPipe_WriteCmd (pipe : qbufPipe_t) (cmd : List Byte) (cmd_size : Nat) : qbufPipe_t :=
  pipe ++ [cmd.take cmd_size]

def RF_IssueInitReliableCmd (pipe : qbufPipe_t) : qbufPipe_t :=
  let cmd : refReliableCmdInitShutdown_t := { id := REF_PIPE_CMD_INIT }
  BufPipe_WriteCmd pipe cmd.toBytes sizeof_refReliableCmdInitShutdown_t

def RF_IssueShutdownReliableCmd (pipe : qbufPipe_t) : qbufPipe_t :=
  let cmd : refReliableCmdInitShutdown_t := { id := REF_PIPE_CMD_SHUTDOWN }
  BufPipe_WriteCmd pipe cmd.toBytes sizeof_refReliableCmdInitShutdown_t

def RF_IssueSurfaceChangeReliableCmd (pipe : qbufPipe_t) : qbufPipe_t :=
  let cmd : refReliableCmdSurfaceChange_t := { id := REF_PIPE_CMD_SURFACE_CHANGE }
  BufPipe_WriteCmd pipe cmd.toBytes sizeof_refReliableCmdSurfaceChange_t

def RF_IssueEnvScreenShotReliableCmd (pipe : qbufPipe_t) (id : U32)
    (path name fmtstring : List Byte) (x y w h : U32) (pixels : U32) (silent media : Bool) :
    qbufPipe_t :=
  -- refReliableCmdScreenShot_t cmd = { 0 };
  let cmd : refReliableCmdScreenShot_t :=
    { id := 0, pixels := 0, silent := false, media := false, x := 0, y := 0, w := 0, h := 0,
      fmtstring := padBytes 64, path := padBytes 512, name := padBytes 512 }
  let cmd := { cmd with id := id, x := x, y := y, w := w, h := h, pixels := pixels,
                        silent := silent, media := media }
  let cmd := { cmd with path := Q_strncpyz cmd.path path 512 }
  let cmd := { cmd with name := Q_strncpyz cmd.name name 512 }
  let cmd := { cmd with fmtstring := Q_strncpyz cmd.fmtstring fmtstring 64 }
  BufPipe_WriteCmd pipe cmd.toBytes sizeof_refReliableCmdScreenShot_t

def RF_IssueScreenShotReliableCmd (G : PipeEnv) (pipe : qbufPipe_t)
    (path name fmtstring : List Byte) (silent : Bool) : qbufPipe_t :=
  RF_IssueEnvScreenShotReliableCmd pipe REF_PIPE_CMD_SCREEN_SHOT path name fmtstring 0 0
    G.glConfig_width G.glConfig_height 0 silent true

def RF_IssueEnvShotReliableCmd (G : PipeEnv) (pipe : qbufPipe_t) (path name : List Byte)
    (pixels : U32) : qbufPipe_t :=
  RF_IssueEnvScreenShotReliableCmd pipe REF_PIPE_CMD_ENV_SHOT path name [] 0 0
    G.glConfig_width G.glConfig_height pixels false false

def RF_IssueAviShotReliableCmd (pipe : qbufPipe_t) (path name : List Byte) (x y w h : U32) :
    qbufPipe_t :=
  RF_IssueEnvScreenShotReliableCmd pipe REF_PIPE_CMD_SCREEN_SHOT path name [] x y w h 0
    true false

def RF_IssueBeginRegistrationReliableCmd (pipe : qbufPipe_t) : qbufPipe_t :=
  let cmd : refReliableCmdBeginEndRegistration_t := { id := REF_PIPE_CMD_BEGIN_REGISTRATION }
  BufPipe_WriteCmd pipe cmd.toBytes sizeof_refReliableCmdBeginEndRegistration_t

def RF_IssueEndRegistrationReliableCmd (pipe : qbufPipe_t) : qbufPipe_t :=
  let cmd : refReliableCmdBeginEndRegistration_t := { id := REF_PIPE_CMD_END_REGISTRATION }
  BufPipe_WriteCmd pipe cmd.toBytes sizeof_refReliableCmdBeginEndRegistration_t

def RF_IssueSetCustomColorReliableCmd (pipe : qbufPipe_t) (num r g b : U32) : qbufPipe_t :=
  let cmd : refReliableCmdSetCustomColor_t :=
    { id := REF_PIPE_CMD_SET_CUSTOM_COLOR, num := num, r := r, g := g, b := b }
  BufPipe_WriteCmd pipe cmd.toBytes sizeof_refReliableCmdSetCustomColor_t

def RF_IssueSetWallFloorColorsReliableCmd (pipe : qbufPipe_t) (wallColor floorColor : vec3_t) :
    qbufPipe_t :=
  let cmd : refReliableCmdSetWallFloorColors_t :=
    { id := REF_PIPE_CMD_SET_WALL_FLOOR_COLORS,
      wall := { v0 := wallColor.v0, v1 := wallColor.v1, v2 := wallColor.v2 },
      floor := { v0 := floorColor.v0, v1 := floorColor.v1, v2 := floorColor.v2 } }
  BufPipe_WriteCmd pipe cmd.toBytes sizeof_refReliableCmdSetWallFloorColors_t

def RF_IssueSetDrawBufferReliableCmd (stack : Mem) (pipe : qbufPipe_t)
    (drawbuffer : List Byte) : qbufPipe_t :=
  -- refReliableCmdSetDrawBuffer_t cmd;
  let cmd := refReliableCmdSetDrawBuffer_t.ofBytes
    (readBytes stack 0 sizeof_refReliableCmdSetDrawBuffer_t)
  let cmd : refReliableCmdSetDrawBuffer_t :=
    { cmd with id := REF_PIPE_CMD_SET_DRAWBUFFER,
               drawbuffer := Q_strncpyz cmd.drawbuffer drawbuffer 32 }
  BufPipe_WriteCmd pipe cmd.toBytes sizeof_refReliableCmdSetDrawBuffer_t

def RF_IssueSetTextureModeReliableCmd (stack : Mem) (pipe : qbufPipe_t)
    (texturemode : List Byte) : qbufPipe_t :=
  -- refReliableCmdSetTextureMode_t cmd;
  let cmd := refReliableCmdSetTextureMode_t.ofBytes
    (readBytes stack 0 sizeof_refReliableCmdSetTextureMode_t)
  let cmd : refReliableCmdSetTextureMode_t :=
    { cmd with id := REF_PIPE_CMD_SET_TEXTURE_MODE,
               texturemode := Q_strncpyz cmd.texturemode texturemode 32 }
  BufPipe_WriteCmd pipe cmd.toBytes sizeof_refReliableCmdSetTextureMode_t

def RF_IssueSetTextureFilterReliableCmd (stack : Mem) (pipe : qbufPipe_t) (filter : U32) :
    qbufPipe_t :=
  -- refReliableCmdSetTextureFilter_t cmd;
  let cmd := refReliableCmdSetTextureFilter_t.ofBytes
    (readBytes stack 0 sizeof_refReliableCmdSetTextureFilter_t)
  let cmd : refReliableCmdSetTextureFilter_t :=
    { cmd with id := REF_PIPE_CMD_SET_TEXTURE_FILTER, filter := intToChar filter }
  BufPipe_WriteCmd pipe cmd.toBytes sizeof_refReliableCmdSetTextureFilter_t

def RF_IssueSetGammaReliableCmd (pipe : qbufPipe_t) (gamma : U32) : qbufPipe_t :=
  let cmd : refReliableCmdSetGamma_t := { id := REF_PIPE_CMD_SET_GAMMA, gamma := gamma }
  BufPipe_WriteCmd pipe cmd.toBytes sizeof_refReliableCmdSetGamma_t

/-- Modelled from the spec: the drain of the pipe by its collaborator, which is not
under src/ ("calling back into the handler table per popped record"): the records are
popped oldest first, and each is handed to the handler that `refPipeCmdHandlers` has at
the record's leading identifier.  The result is the backend calls made, in order. -/
def drainPipe (G : PipeEnv) (pipe : qbufPipe_t) : List PipeCall :=
  pipe.flatMap (fun record => (refPipeCmdHandlers G (rdU32 record).val record).1)

/-- A call of one of the public pipe encoders, with its arguments; a string argument is
given by its bytes before the NUL. -/
inductive ReliableCmd where
  | Init
  | Shutdown
  | SurfaceChange
  | ScreenShot (path name fmtstring : List Byte) (silent : Bool)
  | EnvShot (path name : List Byte) (pixels : U32)
  | AviShot (path name : List Byte) (x y w h : U32)
  | BeginRegistration
  | EndRegistration
  | SetCustomColor (num r g b : U32)
  | SetWallFloorColors (wallColor floorColor : vec3_t)
  | SetDrawBuffer (drawbuffer : List Byte)
  | SetTextureMode (texturemode : List Byte)
  | SetTextureFilter (filter : U32)
  | SetGamma (gamma : U32)
deriving DecidableEq

/-- The public pipe encoder behind a call. -/
def issueReliable (G : PipeEnv) (pipe : qbufPipe_t) : ReliableCmd → qbufPipe_t
  | .Init => RF_IssueInitReliableCmd pipe
  | .Shutdown => RF_IssueShutdownReliableCmd pipe
  | .SurfaceChange => RF_IssueSurfaceChangeReliableCmd pipe
  | .ScreenShot path name fmtstring silent =>
    RF_IssueScreenShotReliableCmd G pipe path name fmtstring silent
  | .EnvShot path name pixels => RF_IssueEnvShotReliableCmd G pipe path name pixels
  | .AviShot path name x y w h => RF_IssueAviShotReliableCmd pipe path name x y w h
  | .BeginRegistration => RF_IssueBeginRegistrationReliableCmd pipe
  | .EndRegistration => RF_IssueEndRegistrationReliableCmd pipe
  | .SetCustomColor num r g b => RF_IssueSetCustomColorReliableCmd pipe num r g b
  | .SetWallFloorColors wallColor floorColor =>
    RF_IssueSetWallFloorColorsReliableCmd pipe wallColor floorColor
  | .SetDrawBuffer drawbuffer => RF_IssueSetDrawBufferReliableCmd G.stack pipe drawbuffer
  | .SetTextureMode texturemode => RF_IssueSetTextureModeReliableCmd G.stack pipe texturemode
  | .SetTextureFilter filter => RF_IssueSetTextureFilterReliableCmd G.stack pipe filter
  | .SetGamma gamma => RF_IssueSetGammaReliableCmd pipe gamma

/-- A sequence of calls of the public pipe encoders. -/
def issueReliableAll (G : PipeEnv) (pipe : qbufPipe_t) (cs : List ReliableCmd) : qbufPipe_t :=
  cs.foldl (issueReliable G) pipe

/-- The `REF_PIPE_CMD_*` identifier under which a public pipe encoder files its record;
`RF_IssueAviShotReliableCmd` has none of its own and files under
`REF_PIPE_CMD_SCREEN_SHOT`. -/
def ReliableCmd.ident : ReliableCmd → U32
  | .Init => REF_PIPE_CMD_INIT
  | .Shutdown => REF_PIPE_CMD_SHUTDOWN
  | .SurfaceChange => REF_PIPE_CMD_SURFACE_CHANGE
  | .ScreenShot .. => REF_PIPE_CMD_SCREEN_SHOT
  | .EnvShot .. => REF_PIPE_CMD_ENV_SHOT
  | .AviShot .. => REF_PIPE_CMD_SCREEN_SHOT
  | .BeginRegistration => REF_PIPE_CMD_BEGIN_REGISTRATION
  | .EndRegistration => REF_PIPE_CMD_END_REGISTRATION
  | .SetCustomColor .. => REF_PIPE_CMD_SET_CUSTOM_COLOR
  | .SetWallFloorColors .. => REF_PIPE_CMD_SET_WALL_FLOOR_COLORS
  | .SetDrawBuffer .. => REF_PIPE_CMD_SET_DRAWBUFFER
  | .SetTextureMode .. => REF_PIPE_CMD_SET_TEXTURE_MODE
  | .SetTextureFilter .. => REF_PIPE_CMD_SET_TEXTURE_FILTER
  | .SetGamma .. => REF_PIPE_CMD_SET_GAMMA

/-- The size of the record type of a public pipe encoder. -/
def ReliableCmd.recordSize : ReliableCmd → Nat
  | .Init => sizeof_refReliableCmdInitShutdown_t
  | .Shutdown => sizeof_refReliableCmdInitShutdown_t
  | .SurfaceChange => sizeof_refReliableCmdSurfaceChange_t
  | .ScreenShot .. => sizeof_refReliableCmdScreenShot_t
  | .EnvShot .. => sizeof_refReliableCmdScreenShot_t
  | .AviShot .. => sizeof_refReliableCmdScreenShot_t
  | .BeginRegistration => sizeof_refReliableCmdBeginEndRegistration_t
  | .EndRegistration => sizeof_refReliableCmdBeginEndRegistration_t
  | .SetCustomColor .. => sizeof_refReliableCmdSetCustomColor_t
  | .SetWallFloorColors .. => sizeof_refReliableCmdSetWallFloorColors_t
  | .SetDrawBuffer .. => sizeof_refReliableCmdSetDrawBuffer_t
  | .SetTextureMode .. => sizeof_refReliableCmdSetTextureMode_t
  | .SetTextureFilter .. => sizeof_refReliableCmdSetTextureFilter_t
  | .SetGamma .. => sizeof_refReliableCmdSetGamma_t

/-- The name of the backend function of a call. -/
def PipeCall.function : PipeCall → String
  | .RB_Init => "RB_Init"
  | .RFB_Init => "RFB_Init"
  | .R_InitBuiltinScreenImages => "R_InitBuiltinScreenImages"
  | .R_BindFrameBufferObject .. => "R_BindFrameBufferObject"
  | .R_ReleaseBuiltinScreenImages => "R_ReleaseBuiltinScreenImages"
  | .RB_Shutdown => "RB_Shutdown"
  | .RFB_Shutdown => "RFB_Shutdown"
  | .GLimp_UpdatePendingWindowSurface => "GLimp_UpdatePendingWindowSurface"
  | .R_TakeScreenShot .. => "R_TakeScreenShot"
  | .R_TakeEnvShot .. => "R_TakeEnvShot"
  | .RB_BeginRegistration => "RB_BeginRegistration"
  | .RB_EndRegistration => "RB_EndRegistration"
  | .RFB_FreeUnusedObjects => "RFB_FreeUnusedObjects"
  | .R_SetCustomColor .. => "R_SetCustomColor"
  | .R_SetWallFloorColors .. => "R_SetWallFloorColors"
  | .R_SetDrawBuffer .. => "R_SetDrawBuffer"
  | .R_TextureMode .. => "R_TextureMode"
  | .R_AnisotropicFilter .. => "R_AnisotropicFilter"
  | .R_SetGamma .. => "R_SetGamma"

/-- The backend functions that the command of a public pipe encoder stands for, in the
order in which its handler calls them. -/
def ReliableCmd.operations : ReliableCmd → List String
  | .Init => ["RB_Init", "RFB_Init", "R_InitBuiltinScreenImages", "R_BindFrameBufferObject"]
  | .Shutdown => ["R_ReleaseBuiltinScreenImages", "RB_Shutdown", "RFB_Shutdown"]
  | .SurfaceChange => ["GLimp_UpdatePendingWindowSurface"]
  | .ScreenShot .. => ["R_TakeScreenShot"]
  | .EnvShot .. => ["R_TakeEnvShot"]
  | .AviShot .. => ["R_TakeScreenShot"]
  | .BeginRegistration => ["RB_BeginRegistration"]
  | .EndRegistration => ["RB_EndRegistration", "RFB_FreeUnusedObjects"]
  | .SetCustomColor .. => ["R_SetCustomColor"]
  | .SetWallFloorColors .. => ["R_SetWallFloorColors"]
  | .SetDrawBuffer .. => ["R_SetDrawBuffer"]
  | .SetTextureMode .. => ["R_TextureMode"]
  | .SetTextureFilter .. => ["R_AnisotropicFilter"]
  | .SetGamma .. => ["R_SetGamma"]

/-- The array `field` of `width` bytes stores the string `s` truncated to the field: the
longest prefix of `s` of at most `width - 1` bytes, followed by a NUL inside the field. -/
def StoresTruncated (field s : List Byte) (width : Nat) : Prop :=
  field.length = width ∧ min s.length (width - 1) < width ∧
  field.take (min s.length (width - 1)) = s.take (width - 1) ∧
  field.getD (min s.length (width - 1)) 1 = 0

/-- An assignment of what the pipe code takes from outside the file, used to instantiate
the theorems at concrete inputs: an 800 x 600 surface and a signed `char`. -/
def examplePipeEnv : PipeEnv :=
  { glConfig_width := 800, glConfig_height := 600, charSigned := true,
    stack := fun _ => 0 }

/-- The scenario of the specification: `SetGamma( 1.2 )`, then
`ScreenShot( "/tmp", "shot", "%04d", false )`.  The float 1.2 has the bit pattern
0x3F99999A. -/
def exampleReliable : List ReliableCmd :=
  [.SetGamma 1067030938,
   .ScreenShot [47, 116, 109, 112] [115, 104, 111, 116] [37, 48, 52, 100] false]

/-- A buffer that no encoder produced: 64 bytes in which every fourth byte is 4 and the
others are 0, so that every aligned word reads as the identifier 4. -/
def patternBuf : ref_cmdbuf_t :=
  { frameId := 0, len := 64, base := 4096, buf := fun i => if i % 4 = 0 then 4 else 0 }

/-- Every record header size and `sizeof( bonepose_t )` are multiples of 4. -/
def Layout.HeadersAligned (L : Layout) : Prop :=
  (∀ id, id < NUM_REF_CMDS → hdrSize L id % 4 = 0) ∧ L.sizeof_bonepose_t % 4 = 0

instance (L : Layout) : Decidable L.HeadersAligned := by
  unfold Layout.HeadersAligned
  infer_instance

/-- The encoder behind an encoder call writes a record with a `length` member: a
polygon, entity or render-scene record. -/
def FrameCmd.hasLength : FrameCmd → Bool
  | .DrawStretchPoly .. => true
  | .AddPolyToScene .. => true
  | .AddEntityToScene .. => true
  | .RenderScene .. => true
  | _ => false

/-- A frame that starts with `BeginFrame` and then draws a picture with the shader 77. -/
def picFrame : List (Env × FrameCmd) :=
  [(exampleEnv, .BeginFrame 0 true false),
   (exampleEnv, .DrawRotatedStretchPic 10 10 100 50 0 0 1065353216 1065353216 0
      ⟨1065353216, 1065353216, 1065353216, 1065353216⟩ 77)]

/-- The identifier of the record at offset `start` of the storage. -/
def recordIdent (buf : Mem) (start : Nat) : U32 := rdU32 (readBytes buf start 4)

/-- The member `length` of the polygon, entity or render-scene record at offset `start`
of the storage: the `unsigned` at offset 4 of the record. -/
def recordLength (buf : Mem) (start : Nat) : U32 := rdU32 (readBytes buf (start + 4) 4)

/-- The member `poly` of the polygon record at offset `start` of the storage. -/
def storedPoly (L : Layout) (buf : Mem) (start : Nat) : List Byte :=
  (refCmdDrawStretchOrScenePoly_t.ofBytes L
    (readBytes buf start (sizeof_refCmdDrawStretchOrScenePoly_t L))).poly

/-- The polygon record length in the words of the specification: the header, plus
`numverts` elements for each of `verts`, `stcoords`, `normals` and `colors` that is
non-null, plus `numelems` elements for `elems` if non-null, rounded up to a multiple
of 4. -/
def polyLengthSpec (L : Layout) (p : List Byte) : Nat :=
  (sizeof_refCmdDrawStretchOrScenePoly_t L
    + (if get64 p L.poly_verts ≠ 0 then (get32 p L.poly_numverts).val * sizeof_vec4_t else 0)
    + (if get64 p L.poly_stcoords ≠ 0 then (get32 p L.poly_numverts).val * sizeof_vec2_t else 0)
    + (if get64 p L.poly_normals ≠ 0 then (get32 p L.poly_numverts).val * sizeof_vec4_t else 0)
    + (if get64 p L.poly_colors ≠ 0 then (get32 p L.poly_numverts).val * sizeof_byte_vec4_t
       else 0)
    + (if get64 p L.poly_elems ≠ 0 then (get32 p L.poly_numelems).val * sizeof_elem_t else 0)
    + 3) / 4 * 4

/-- The arrays `arrays` of the caller's struct value `p`, each given by the offset of
its pointer member and its size in bytes, lie in the storage back to back from offset
`a` to offset `e`, in the order of the list: an array whose pointer is null in `p` takes
no room and is null in the stored struct value `q`; any other array starts where the one
before it ended, the storage holds the caller's bytes there, and the pointer member of
`q` is the address of that place. -/
def LaidOut (mem : Mem) (base : Nat) (buf : Mem) (p q : List Byte) :
    Nat → List (Nat × Nat) → Nat → Prop
  | a, [], e => e = a
  | a, (member, n) :: rest, e =>
    if get64 p member = 0 then get64 q member = 0 ∧ LaidOut mem base buf p q a rest e
    else (get64 q member).val = base + a ∧
      readBytes buf a n = readBytes mem (get64 p member).val n ∧
      LaidOut mem base buf p q (a + n) rest e

/-- The member `entity` of the entity record at offset `start` of the storage. -/
def storedEntity (L : Layout) (buf : Mem) (start : Nat) : List Byte :=
  (refCmdAddEntityToScene_t.ofBytes L
    (readBytes buf start (sizeof_refCmdAddEntityToScene_t L))).entity

/-- The member `numBoneposes` of the entity record at offset `start` of the storage. -/
def storedNumBoneposes (L : Layout) (buf : Mem) (start : Nat) : U32 :=
  (refCmdAddEntityToScene_t.ofBytes L
    (readBytes buf start (sizeof_refCmdAddEntityToScene_t L))).numBoneposes

/-- The entity record length in the words of the specification, for the entity value
`e` whose model has `n` bones: the header, plus `n` poses if `n != 0` and `boneposes` is
non-null, plus `n` poses if `n != 0` and `oldboneposes` is non-null. -/
def entityLengthSpec (L : Layout) (n : U32) (e : List Byte) : Nat :=
  sizeof_refCmdAddEntityToScene_t L
    + (if n ≠ 0 ∧ get64 e L.entity_boneposes ≠ 0 then n.val * L.sizeof_bonepose_t else 0)
    + (if n ≠ 0 ∧ get64 e L.entity_oldboneposes ≠ 0 then n.val * L.sizeof_bonepose_t else 0)

/-- The environment `boneEnv` with models that have no bones: the entity at address 64
still has `boneposes` = 256 and `oldboneposes` = 2048. -/
def noBonesEnv : Env := { boneEnv with R_SkeletalGetNumBones := fun _ => 0 }

/-- The member `refdef` of the render-scene record at offset `start` of the storage. -/
def storedRefdef (L : Layout) (buf : Mem) (start : Nat) : List Byte :=
  refCmdRenderScene_t.refdef (refCmdRenderScene_t.ofBytes L
    (readBytes buf start (sizeof_refCmdRenderScene_t L)))

/-- The render-scene record length in the words of the specification: if `areabits` is
non-null and a world brush model is loaded, the header plus `( numareas + 7 ) / 8` bytes
rounded up to a multiple of 4, otherwise the header. -/
def renderSceneLengthSpec (L : Layout) (rsh : rsh_t) (r : List Byte) : Nat :=
  if get64 r L.refdef_areabits ≠ 0 ∧ rsh.worldBrushModel ≠ 0 then
    (sizeof_refCmdRenderScene_t L + (rsh.numareas.val + 7) / 8 + 3) / 4 * 4
  else sizeof_refCmdRenderScene_t L

/-- The offsets at which the records of a pipe start when its records lie one after the
other in a byte stream that begins at offset `off`, each with the bytes of its record. -/
def pipeRecordStarts : Nat → qbufPipe_t → List (Nat × List Byte)
  | _, [] => []
  | off, record :: rest => (off, record) :: pipeRecordStarts (off + record.length) rest

/-- Modelled from the spec: the reader of the pipe, a collaborator that is not under src/
("calling back into the handler table per popped record"), run on the bytes of the pipe
with the records one after the other.  At each position it hands the bytes from there on
to the handler that `refPipeCmdHandlers` has at the identifier it finds, and advances by
the handler's return value, until no byte is left.  The result is the offset of every
position it visited with the backend calls made there; `none` when the `fuel` steps do
not reach the end of the bytes. -/
def readPipe (G : PipeEnv) : Nat → Nat → List Byte → Option (List (Nat × List PipeCall))
  | 0, _, _ => none
  | fuel + 1, off, bytes =>
    if bytes = [] then some []
    else
      let r := refPipeCmdHandlers G (rdU32 bytes).val bytes
      (readPipe G fuel (off + r.2) (bytes.drop r.2)).map (fun rest => (off, r.1) :: rest)

/-- The handler that the table has at the identifier of `record` returns the size of
`record` and reads no byte after it: the bytes that follow in the stream do not change
what it does. -/
def WellSized (G : PipeEnv) (record : List Byte) : Prop :=
  4 ≤ record.length ∧
  ∀ rest, refPipeCmdHandlers G (rdU32 (record ++ rest)).val (record ++ rest)
    = ((refPipeCmdHandlers G (rdU32 record).val record).1, record.length)

/-- The environment `areaEnv` while no world model is loaded: the caller's `refdef_t` at
address 0 still has `areabits` = 64, and `rsh.worldBrushModel` is null. -/
def noWorldAreaEnv : Env := { areaEnv with rsh := exampleRsh }

/-- The environment `areaEnv` with a world model that has no areas: the caller's
`refdef_t` at address 0 still has `areabits` = 64, and `( numareas + 7 ) / 8` is 0. -/
def noAreasEnv : Env :=
  { areaEnv with rsh := { registrationSequence := 1, worldModelSequence := 1,
                          worldBrushModel := 4660, numareas := 0 } }

/-! ## Server list

A shallow embedding of the server list of `source/client/cl_serverlist.c`: the type
`serverlist_t` and the functions `CL_ServerFindInList` and `CL_AddServerToList`.  A
list of servers is the list of its entries from the head on: the pointer `*serversList`
is the list, and the member `pnext` of an entry is the rest of the list after it. -/

/-- The type `serverlist_t` without the link `pnext`.  The member `address` is the
content of the `char` array of 48 bytes. -/
structure serverlist_t where
  address : List Byte
  pingTimeStamp : U32
  lastValidPing : U32
  lastUpdatedByMasterServer : U32
  masterServerUpdateSeq : U32
  isLocal : Bool
deriving DecidableEq

/-- The value of `sizeof( newserv->address )`. -/
def sizeof_address : Nat := 48

/-- The value of `sizeof( serverlist_t )`: 48 bytes of `address`, four `unsigned int`,
a `bool`, padding to a multiple of 8, and the pointer `pnext`. -/
def sizeof_serverlist_t : Nat := 80

/-- What `CL_AddServerToList` takes from outside the file; none of these is under src/.
A `netadr_t` is carried as its object representation. -/
structure ServerEnv where
  /-- The call `NET_StringToAddress( adr, &nadr )`: `none` when it returns false, and the
  `netadr_t` it fills in when it accepts the string. -/
  NET_StringToAddress : List Byte → Option (List Byte)
  NET_IsLocalAddress : List Byte → Bool
  /-- The value that the k-th call of `Sys_Milliseconds()` during the invocation returns,
  as an `unsigned int`. -/
  Sys_Milliseconds : Nat → U32
  Com_DaysSince1900 : U32
  /-- The file-scope counter `masterServerUpdateSeq`. -/
  masterServerUpdateSeq : U32
  /-- The bytes of the block that `Mem_ZoneMalloc( size )` returns. -/
  Mem_ZoneMalloc : Nat → List Byte

/-- The C library `tolower` in the "C" locale: the letters `A` to `Z` become `a` to
`z`, every other byte stays. -/
def tolower (c : Byte) : Byte :=
  if h : 65 ≤ c.val ∧ c.val ≤ 90 then ⟨c.val + 32, by omega⟩ else c

/-- Modelled from the spec: `Q_stricmp( s1, s2 )`, declared in a header that is not
under src/ ("equals adr case-insensitively"): the comparison of two C strings byte by
byte after `tolower`, up to and including the first NUL.  The result is 0 when the
strings agree, and the difference of the first two bytes that differ otherwise.  A list
that ends without a NUL is read as ending there. -/
def Q_stricmp : List Byte → List Byte → Int
  | [], s2 => 0 - ((tolower (s2.headD 0)).val : Int)
  | c1 :: r1, s2 =>
    if tolower c1 ≠ tolower (s2.headD 0) then
      ((tolower c1).val : Int) - ((tolower (s2.headD 0)).val : Int)
    else if c1 = 0 then 0
    else Q_stricmp r1 s2.tail

/-- The result is the position in the list of the entry that the returned pointer
refers to, and `none` for `NULL`. -/
def CL_ServerFindInList : List serverlist_t → List Byte → Option Nat
  | [], _ => none
  | server :: pnext, adr =>
    if Q_stricmp server.address adr = 0 then some 0
    else (CL_ServerFindInList pnext adr).map (fun i => i + 1)

/-- Assignment through a pointer to the entry at position `i` of a list. -/
def updateEntry (f : serverlist_t → serverlist_t) : Nat → List serverlist_t → List serverlist_t
  | _, [] => []
  | 0, server :: pnext => f server :: pnext
  | i + 1, server :: pnext => server :: updateEntry f i pnext

/-- The argument `adr` is `none` for a null pointer and the bytes at the pointer
otherwise.  The result is the list `*serversList` after the call with the return
value. -/
def CL_AddServerToList (E : ServerEnv) (serversList : List serverlist_t)
    (adr : Option (List Byte)) (days : U32) : List serverlist_t × Bool :=
  match adr with
  | none => (serversList, false)
  | some adr =>
    if (cString adr).length = 0 then (serversList, false)
    else
      match E.NET_StringToAddress adr with
      | none => (serversList, false)
      | some nadr =>
        match CL_ServerFindInList serversList adr with
        | some i =>
          -- ignore excessive updates for about a second or so, which may happen
          -- when we're querying multiple master servers at once
          (updateEntry (fun newserv =>
            if newserv.masterServerUpdateSeq = 0 then
              { newserv with lastUpdatedByMasterServer := E.Sys_Milliseconds 0,
                             masterServerUpdateSeq := E.masterServerUpdateSeq }
            else if (U32.ofNat (newserv.lastUpdatedByMasterServer.val + 1000)).val
                < (E.Sys_Milliseconds 0).val then
              { newserv with lastUpdatedByMasterServer := E.Sys_Milliseconds 1,
                             masterServerUpdateSeq := E.masterServerUpdateSeq }
            else newserv) i serversList, false)
        | none =>
          let newserv : serverlist_t :=
            { address := Q_strncpyz ((E.Mem_ZoneMalloc sizeof_serverlist_t).take sizeof_address)
                adr sizeof_address,
              pingTimeStamp := 0,
              lastValidPing := if days = 0 then E.Com_DaysSince1900 else days,
              lastUpdatedByMasterServer := E.Sys_Milliseconds 0,
              masterServerUpdateSeq := E.masterServerUpdateSeq,
              isLocal := E.NET_IsLocalAddress nadr }
          (newserv :: serversList, true)

/-- A call of `CL_AddServerToList`, with what it takes from outside the file at the time
of the call. -/
structure AddCall where
  E : ServerEnv
  adr : Option (List Byte)
  days : U32

/-- The list after a sequence of calls of `CL_AddServerToList`. -/
def addServers (serversList : List serverlist_t) (calls : List AddCall) : List serverlist_t :=
  calls.foldl (fun l c => (CL_AddServerToList c.E l c.adr c.days).1) serversList

/-- The address string of a call fits the member `address`: it is shorter than 48
bytes.  A null pointer counts as fitting. -/
def AddCall.Fits (c : AddCall) : Prop :=
  match c.adr with
  | none => True
  | some adr => (cString adr).length < sizeof_address

instance (c : AddCall) : Decidable c.Fits := by
  unfold AddCall.Fits
  split <;> infer_instance

/-- Two address strings are equal case-insensitively: the C strings have the same bytes
once the letters `A` to `Z` are lowered. -/
def EqualIgnoringCase (a b : List Byte) : Prop :=
  (cString a).map tolower = (cString b).map tolower

instance (a b : List Byte) : Decidable (EqualIgnoringCase a b) := by
  unfold EqualIgnoringCase
  infer_instance

/-- No two entries of the list hold addresses that are equal case-insensitively. -/
def NoDuplicates (l : List serverlist_t) : Prop :=
  (l.map serverlist_t.address).Pairwise (fun a b => ¬ EqualIgnoringCase a b)

instance (l : List serverlist_t) : Decidable (NoDuplicates l) := by
  unfold NoDuplicates
  infer_instance

/-- An assignment of what `CL_AddServerToList` takes from outside the file, used to
instantiate the theorems at concrete inputs: every string is accepted as an address that
is not local, the clock stands at 5000 ms, and allocated blocks are zeroed. -/
def exampleServerEnv : ServerEnv :=
  { NET_StringToAddress := fun _ => some [],
    NET_IsLocalAddress := fun _ => false,
    Sys_Milliseconds := fun _ => 5000,
    Com_DaysSince1900 := 46324,
    masterServerUpdateSeq := 1,
    Mem_ZoneMalloc := fun size => padBytes size }

/-- The string "Example.org:44400". -/
def exampleAdr : List Byte :=
  [69, 120, 97, 109, 112, 108, 101, 46, 111, 114, 103, 58, 52, 52, 52, 48, 48]

/-- The string "example.ORG:44400". -/
def exampleAdrOtherCase : List Byte :=
  [101, 120, 97, 109, 112, 108, 101, 46, 79, 82, 71, 58, 52, 52, 52, 48, 48]

/-- The string "192.168.0.1:44400". -/
def exampleAdrNumeric : List Byte :=
  [49, 57, 50, 46, 49, 54, 56, 46, 48, 46, 49, 58, 52, 52, 52, 48, 48]

/-- The string "long-host-name.game-servers.community.example.org:44400", of 55 bytes. -/
def longAdr : List Byte :=
  [108, 111, 110, 103, 45, 104, 111, 115, 116, 45, 110, 97, 109, 101, 46, 103, 97, 109, 101,
   45, 115, 101, 114, 118, 101, 114, 115, 46, 99, 111, 109, 109, 117, 110, 105, 116, 121, 46,
   101, 120, 97, 109, 112, 108, 101, 46, 111, 114, 103, 58, 52, 52, 52, 48, 48]

/-- Three calls with addresses that fit: "Example.org:44400", then "192.168.0.1:44400",
then "example.ORG:44400", which differs from the first only in case. -/
def exampleAddCalls : List AddCall :=
  [{ E := exampleServerEnv, adr := some exampleAdr, days := 0 },
   { E := exampleServerEnv, adr := some exampleAdrNumeric, days := 7 },
   { E := exampleServerEnv, adr := some exampleAdrOtherCase, days := 0 }]

/-- The call that adds `longAdr`. -/
def longAddCall : AddCall := { E := exampleServerEnv, adr := some longAdr, days := 0 }

/-- The bytes of its record that the encoder behind an encoder call copies from its
local `cmd` without having assigned them, as pairs of an offset from the start of the
record and a number of bytes: the two trailing padding bytes of `refCmdBeginFrame_t`;
the padding after `numBoneposes` and the members `boneposes` and `oldboneposes` of
`refCmdAddEntityToScene_t`; the member `areabits` of `refCmdRenderScene_t`. -/
def FrameCmd.unassigned (L : Layout) : FrameCmd → List (Nat × Nat)
  | .BeginFrame .. => [(10, 2)]
  | .AddEntityToScene .. => [(8 + L.sizeof_entity_t + 4, 20)]
  | .RenderScene .. => [(16 + L.sizeof_refdef_t, 8)]
  | _ => []

/-- The same encoder calls made while the stack holds something else: the call number
`k` of the sequence finds the content `st k` where its local `cmd` lies. -/
def restack (st : Nat → Mem) : List (Env × FrameCmd) → List (Env × FrameCmd)
  | [] => []
  | (env, c) :: rest => ({ env with stack := st 0 }, c) :: restack (fun k => st (k + 1)) rest

/-- The storages `m1` (at `base1`) and `m2` (at `base2`) hold the same assigned bytes
from offset `lo` to offset `hi`, in-buffer references compared as offsets: the pointer
members at the offsets `slots` from `lo` lie between `lo` and `hi` and hold the same
references, and every other byte of the range is equal unless it lies in one of the
`holes`, the ranges of bytes, given by offset from `lo` and size, that no assignment of
the encoder reaches. -/
def SameAssignedBytes (base1 base2 cap : Nat) (m1 m2 : Mem) (lo hi : Nat) (slots : List Nat)
    (holes : List (Nat × Nat)) : Prop :=
  (∀ s ∈ slots, lo + s + 8 ≤ hi) ∧
  (∀ i, lo ≤ i → i < hi → (∀ s ∈ slots, i < lo + s ∨ lo + s + 8 ≤ i) →
    (∀ h ∈ holes, i < lo + h.1 ∨ lo + h.1 + h.2 ≤ i) → m1 i = m2 i) ∧
  ∀ s ∈ slots, SameRef base1 base2 cap (rdU64 (readBytes m1 (lo + s) 8))
    (rdU64 (readBytes m2 (lo + s) 8))

/-- The environment `exampleEnv` entered while every byte of the stack is 170. -/
def usedStackEnv : Env := { exampleEnv with stack := fun _ => 170 }

/-- A frame of three encoder calls: `BeginFrame` entered while the stack holds the byte
170, the polygon of `elemsPolyEnv` added to the scene, then `EndFrame`. -/
def stackFrame : List (Env × FrameCmd) :=
  [(usedStackEnv, .BeginFrame 0 true false), (elemsPolyEnv, .AddPolyToScene 64),
    (exampleEnv, .EndFrame)]

/-- The explicit state of the two channels: the frame buffer and the reliable pipe, two
separate objects. -/
structure Channels where
  cmdbuf : ref_cmdbuf_t
  pipe : qbufPipe_t

/-- A call on one of the two channels: an operation of the frame buffer's member table,
or a public pipe encoder, entered while the stack holds `stack` where the local `cmd` of
the encoder lies; what it holds there is what the calls before it, on either channel,
left behind. -/
inductive ChannelOp where
  | frame (op : BufOp)
  | reliable (stack : Mem) (c : ReliableCmd)

/-- One call on the state of the two channels.  Every function of the frame buffer takes
the buffer by the pointer `cmdbuf` and every pipe encoder takes the pipe by the pointer
`pipe`; the function is run on the object it is handed.  The backend functions that a
dispatch pass calls are taken not to write to either object. -/
def Channels.step (L : Layout) (G : PipeEnv) (s : Channels) : ChannelOp → Option Channels
  | .frame (.encode env c) => some { s with cmdbuf := issue L env s.cmdbuf c }
  | .frame .Clear => some { s with cmdbuf := RF_ClearCmdBuf s.cmdbuf }
  | .frame (.SetFrameId frameId) =>
    some { s with cmdbuf := RF_SetCmdBufFrameId s.cmdbuf frameId }
  | .frame (.RunCmds rsh) =>
    (RunCmds L rsh s.cmdbuf).map (fun p => { s with cmdbuf := p.1 })
  | .reliable stack c =>
    some { s with pipe := issueReliable { G with stack := stack } s.pipe c }

/-- A sequence of calls on the two channels, in order. -/
def Channels.steps (L : Layout) (G : PipeEnv) : Channels → List ChannelOp → Option Channels
  | s, [] => some s
  | s, op :: ops => (s.step L G op).bind (fun s' => Channels.steps L G s' ops)

/-- The pipe encoder calls of a sequence of calls on the two channels, in order, each
with the stack content it was entered with. -/
def reliableCalls : List ChannelOp → List (Mem × ReliableCmd)
  | [] => []
  | .frame _ :: ops => reliableCalls ops
  | .reliable stack c :: ops => (stack, c) :: reliableCalls ops

/-- The frame-buffer operations of a sequence of calls on the two channels, in order. -/
def frameOps : List ChannelOp → List BufOp
  | [] => []
  | .frame op :: ops => op :: frameOps ops
  | .reliable _ _ :: ops => frameOps ops

/-- A sequence of calls of the public pipe encoders, each entered with its own stack
content. -/
def issueReliableEach (G : PipeEnv) (pipe : qbufPipe_t) (cs : List (Mem × ReliableCmd)) :
    qbufPipe_t :=
  cs.foldl (fun p sc => issueReliable { G with stack := sc.1 } p sc.2) pipe

/-- The pipe encoder calls `cs` made alone, with no frame-buffer operation between them:
the same calls with the same arguments, call number `k` finding the content `st k` on
the stack. -/
def callsAlone (st : Nat → Mem) : List (Mem × ReliableCmd) → List ChannelOp
  | [] => []
  | (_, c) :: rest => .reliable (st 0) c :: callsAlone (fun k => st (k + 1)) rest

/-- The number of leading bytes of its record that a public pipe encoder assigns.
`RF_IssueSetDrawBufferReliableCmd` and `RF_IssueSetTextureModeReliableCmd` assign `id`
and, by `Q_strncpyz`, the string truncated to 31 bytes and its NUL; the bytes of the
array after the NUL are never assigned.  `RF_IssueSetTextureFilterReliableCmd` assigns
`id` and the `char` member `filter`; the three padding bytes after it are never
assigned.  Every other encoder assigns all members of a record type without padding, or
clears its local first. -/
def ReliableCmd.assignedLen : ReliableCmd → Nat
  | .SetDrawBuffer drawbuffer => 4 + (min (cString drawbuffer).length 31 + 1)
  | .SetTextureMode texturemode => 4 + (min (cString texturemode).length 31 + 1)
  | .SetTextureFilter _ => 5
  | c => c.recordSize

/-- The records `p1` and `p2` are those of the pipe encoder calls `cs`, one record per
call in call order, each of the size of its record type, and the two records of a call
have the same assigned bytes. -/
def SamePipeRecords : List ReliableCmd → qbufPipe_t → qbufPipe_t → Prop
  | [], [], [] => True
  | c :: cs, r1 :: p1, r2 :: p2 =>
    r1.length = c.recordSize ∧ r2.length = c.recordSize ∧
    r1.take c.assignedLen = r2.take c.assignedLen ∧ SamePipeRecords cs p1 p2
  | _, _, _ => False

/-- The scenario of the specification with frame-buffer activity interleaved: a frame
is begun, `SetGamma( 1.2 )` is issued, the frame is ended, dispatched and cleared,
`SetDrawBuffer( "back" )` and `ScreenShot( "/tmp", "shot", "%04d", false )` are issued
before the next frame begins.  The frame-buffer calls have left the byte 170 all over
the stack that the pipe encoders find. -/
def exampleInterleaving : List ChannelOp :=
  [.frame (.encode exampleEnv (.BeginFrame 0 true false)),
   .reliable (fun _ => 170) (.SetGamma 1067030938),
   .frame (.encode exampleEnv .EndFrame),
   .frame (.RunCmds exampleRsh),
   .frame .Clear,
   .reliable (fun _ => 170) (.SetDrawBuffer [98, 97, 99, 107]),
   .reliable (fun _ => 170)
     (.ScreenShot [47, 116, 109, 112] [115, 104, 111, 116] [37, 48, 52, 100] false),
   .frame (.SetFrameId 2),
   .frame (.encode exampleEnv (.BeginFrame 0 true false))]

/-! ## Theorems -/

/-! ### Bytes and words -/

theorem leBytes_length (n v : Nat) : (leBytes n v).length = n := by
  induction n generalizing v with
  | zero => rfl
  | succ n ih => simp [leBytes, ih]

theorem fromLE_leBytes (n v : Nat) : fromLE (leBytes n v) = v % 256 ^ n := by
  induction n generalizing v with
  | zero => simp [leBytes, fromLE, Nat.mod_one]
  | succ n ih =>
    simp only [leBytes, fromLE, ih]
    rw [pow_succ, Nat.mul_comm (256 ^ n) 256, Nat.mod_mul]

theorem U32_bytes_length (v : U32) : v.bytes.length = 4 := leBytes_length 4 v.val

theorem U64_bytes_length (v : U64) : v.bytes.length = 8 := leBytes_length 8 v.val

theorem boolBytes_length (b : Bool) : (boolBytes b).length = 1 := rfl

theorem padBytes_length (n : Nat) : (padBytes n).length = n := by simp [padBytes]

theorem rdU32_append (v : U32) (rest : List Byte) : rdU32 (v.bytes ++ rest) = v := by
  unfold rdU32
  rw [List.take_left' (U32_bytes_length v)]
  unfold U32.bytes U32.ofNat
  rw [fromLE_leBytes]
  apply Fin.ext
  have := v.isLt
  simp only
  omega

theorem rdU32_bytes (v : U32) : rdU32 v.bytes = v := by
  have := rdU32_append v []
  simpa using this

theorem rdU64_append (v : U64) (rest : List Byte) : rdU64 (v.bytes ++ rest) = v := by
  unfold rdU64
  rw [List.take_left' (U64_bytes_length v)]
  unfold U64.bytes U64.ofNat
  rw [fromLE_leBytes]
  apply Fin.ext
  have := v.isLt
  simp only
  omega

theorem rdU64_bytes (v : U64) : rdU64 v.bytes = v := by
  have := rdU64_append v []
  simpa using this

theorem rdBool_append (b : Bool) (rest : List Byte) : rdBool (boolBytes b ++ rest) = b := by
  cases b <;> simp [rdBool, boolBytes]

theorem drop_U32 (v : U32) (rest : List Byte) (n : Nat) :
    (v.bytes ++ rest).drop (n + 4) = rest.drop n := by
  rw [Nat.add_comm, ← List.drop_drop, List.drop_left' (U32_bytes_length v)]

theorem drop_U64 (v : U64) (rest : List Byte) (n : Nat) :
    (v.bytes ++ rest).drop (n + 8) = rest.drop n := by
  rw [Nat.add_comm, ← List.drop_drop, List.drop_left' (U64_bytes_length v)]

theorem drop_bool (b : Bool) (rest : List Byte) (n : Nat) :
    (boolBytes b ++ rest).drop (n + 1) = rest.drop n := by
  rw [Nat.add_comm, ← List.drop_drop, List.drop_left' (boolBytes_length b)]

theorem drop_pad (k : Nat) (rest : List Byte) (n : Nat) :
    (padBytes k ++ rest).drop (n + k) = rest.drop n := by
  rw [Nat.add_comm, ← List.drop_drop, List.drop_left' (padBytes_length k)]

theorem drop_blob (s rest : List Byte) (k : Nat) (h : s.length = k) :
    (s ++ rest).drop k = rest := List.drop_left' h

theorem take_blob (s rest : List Byte) (k : Nat) (h : s.length = k) :
    (s ++ rest).take k = s := List.take_left' h

/-! ### Object representations -/

theorem refCmdBeginFrame_t_ofBytes_toBytes (c : refCmdBeginFrame_t) :
    refCmdBeginFrame_t.ofBytes c.toBytes = c := by
  simp only [refCmdBeginFrame_t.ofBytes, refCmdBeginFrame_t.toBytes, rdU32_append, drop_U32,
    List.drop_zero, rdBool_append, drop_bool, List.drop_succ_cons, List.headD_cons]

theorem refCmdBeginFrame_t_toBytes_length (c : refCmdBeginFrame_t) :
    c.toBytes.length = sizeof_refCmdBeginFrame_t := by
  simp [refCmdBeginFrame_t.toBytes, U32_bytes_length, boolBytes_length,
    sizeof_refCmdBeginFrame_t]

theorem refCmdDrawStretchPic_t_ofBytes_toBytes (c : refCmdDrawStretchPic_t) :
    refCmdDrawStretchPic_t.ofBytes c.toBytes = c := by
  simp only [refCmdDrawStretchPic_t.ofBytes, refCmdDrawStretchPic_t.toBytes, rdU32_append,
    drop_U32, List.drop_zero, rdU32_bytes, rdU64_bytes, rdU64_append]

theorem refCmdDrawStretchPic_t_toBytes_length (c : refCmdDrawStretchPic_t) :
    c.toBytes.length = sizeof_refCmdDrawStretchPic_t := by
  simp [refCmdDrawStretchPic_t.toBytes, U32_bytes_length, U64_bytes_length,
    sizeof_refCmdDrawStretchPic_t]

theorem refCmdEndFrame_t_toBytes_length (c : refCmdEndFrame_t) :
    c.toBytes.length = sizeof_refCmdEndFrame_t := U32_bytes_length c.id

theorem refCmdClearScene_t_toBytes_length (c : refCmdClearScene_t) :
    c.toBytes.length = sizeof_refCmdClearScene_t := U32_bytes_length c.id

theorem refCmdResetScissor_t_toBytes_length (c : refCmdResetScissor_t) :
    c.toBytes.length = sizeof_refCmdResetScissor_t := U32_bytes_length c.id

theorem refCmdDrawStretchOrScenePoly_t_ofBytes_toBytes (L : Layout)
    (c : refCmdDrawStretchOrScenePoly_t) (h : c.poly.length = L.sizeof_poly_t) :
    refCmdDrawStretchOrScenePoly_t.ofBytes L c.toBytes = c := by
  simp only [refCmdDrawStretchOrScenePoly_t.ofBytes, refCmdDrawStretchOrScenePoly_t.toBytes,
    rdU32_append, drop_U32, List.drop_zero]
  rw [← h, List.take_length]

theorem refCmdDrawStretchOrScenePoly_t_toBytes_length (L : Layout)
    (c : refCmdDrawStretchOrScenePoly_t) (h : c.poly.length = L.sizeof_poly_t) :
    c.toBytes.length = sizeof_refCmdDrawStretchOrScenePoly_t L := by
  simp [refCmdDrawStretchOrScenePoly_t.toBytes, U32_bytes_length,
    sizeof_refCmdDrawStretchOrScenePoly_t, h]
  omega

theorem refCmdAddEntityToScene_t_ofBytes_toBytes (L : Layout) (c : refCmdAddEntityToScene_t)
    (h : c.entity.length = L.sizeof_entity_t) :
    refCmdAddEntityToScene_t.ofBytes L c.toBytes = c := by
  simp only [refCmdAddEntityToScene_t.ofBytes, refCmdAddEntityToScene_t.toBytes,
    rdU32_append, drop_U32, List.drop_zero, take_blob _ _ _ h, drop_blob _ _ _ h,
    rdU64_append, rdU64_bytes, drop_U64]

theorem refCmdAddEntityToScene_t_toBytes_length (L : Layout) (c : refCmdAddEntityToScene_t)
    (h : c.entity.length = L.sizeof_entity_t) :
    c.toBytes.length = sizeof_refCmdAddEntityToScene_t L := by
  simp [refCmdAddEntityToScene_t.toBytes, U32_bytes_length, U64_bytes_length,
    sizeof_refCmdAddEntityToScene_t, h]
  omega

theorem refCmdAddLightToScene_t_ofBytes_toBytes (c : refCmdAddLightToScene_t) :
    refCmdAddLightToScene_t.ofBytes c.toBytes = c := by
  simp only [refCmdAddLightToScene_t.ofBytes, refCmdAddLightToScene_t.toBytes, rdU32_append,
    drop_U32, List.drop_zero, rdU32_bytes]

theorem refCmdAddLightToScene_t_toBytes_length (c : refCmdAddLightToScene_t) :
    c.toBytes.length = sizeof_refCmdAddLightToScene_t := by
  simp [refCmdAddLightToScene_t.toBytes, U32_bytes_length, sizeof_refCmdAddLightToScene_t]

theorem refCmdAddLightStyleToScene_t_ofBytes_toBytes (c : refCmdAddLightStyleToScene_t) :
    refCmdAddLightStyleToScene_t.ofBytes c.toBytes = c := by
  simp only [refCmdAddLightStyleToScene_t.ofBytes, refCmdAddLightStyleToScene_t.toBytes,
    rdU32_append, drop_U32, List.drop_zero, rdU32_bytes]

theorem refCmdAddLightStyleToScene_t_toBytes_length (c : refCmdAddLightStyleToScene_t) :
    c.toBytes.length = sizeof_refCmdAddLightStyleToScene_t := by
  simp [refCmdAddLightStyleToScene_t.toBytes, U32_bytes_length,
    sizeof_refCmdAddLightStyleToScene_t]

theorem refCmdRenderScene_t_ofBytes_toBytes (L : Layout) (c : refCmdRenderScene_t)
    (h : c.refdef.length = L.sizeof_refdef_t) :
    refCmdRenderScene_t.ofBytes L c.toBytes = c := by
  simp only [refCmdRenderScene_t.ofBytes, refCmdRenderScene_t.toBytes, rdU32_append, drop_U32,
    List.drop_zero, take_blob _ _ _ h, drop_blob _ _ _ h, rdU64_bytes]

theorem refCmdRenderScene_t_toBytes_length (L : Layout) (c : refCmdRenderScene_t)
    (h : c.refdef.length = L.sizeof_refdef_t) :
    c.toBytes.length = sizeof_refCmdRenderScene_t L := by
  simp [refCmdRenderScene_t.toBytes, U32_bytes_length, U64_bytes_length,
    sizeof_refCmdRenderScene_t, h]
  omega

theorem refCmdSetScissor_t_ofBytes_toBytes (c : refCmdSetScissor_t) :
    refCmdSetScissor_t.ofBytes c.toBytes = c := by
  simp only [refCmdSetScissor_t.ofBytes, refCmdSetScissor_t.toBytes, rdU32_append, drop_U32,
    List.drop_zero, rdU32_bytes]

theorem refCmdSetScissor_t_toBytes_length (c : refCmdSetScissor_t) :
    c.toBytes.length = sizeof_refCmdSetScissor_t := by
  simp [refCmdSetScissor_t.toBytes, U32_bytes_length, sizeof_refCmdSetScissor_t]

theorem refCmdDrawStretchRaw_t_ofBytes_toBytes (c : refCmdDrawStretchRaw_t) :
    refCmdDrawStretchRaw_t.ofBytes c.toBytes = c := by
  simp only [refCmdDrawStretchRaw_t.ofBytes, refCmdDrawStretchRaw_t.toBytes, rdU32_append,
    drop_U32, List.drop_zero, rdU32_bytes]

theorem refCmdDrawStretchRaw_t_toBytes_length (c : refCmdDrawStretchRaw_t) :
    c.toBytes.length = sizeof_refCmdDrawStretchRaw_t := by
  simp [refCmdDrawStretchRaw_t.toBytes, U32_bytes_length, sizeof_refCmdDrawStretchRaw_t]

/-! ### Memory -/

theorem readBytes_length (m : Mem) (a n : Nat) : (readBytes m a n).length = n := by
  simp [readBytes]

theorem getElem_readBytes (m : Mem) (a n i : Nat) (h : i < (readBytes m a n).length) :
    (readBytes m a n)[i] = m (a + i) := by
  simp [readBytes]

theorem readBytes_congr (m m' : Mem) (a n : Nat)
    (h : ∀ i, a ≤ i → i < a + n → m' i = m i) : readBytes m' a n = readBytes m a n := by
  apply List.ext_getElem (by simp [readBytes_length])
  intro i h1 h2
  rw [getElem_readBytes, getElem_readBytes]
  rw [readBytes_length] at h1
  exact h (a + i) (by omega) (by omega)

theorem memcpy_outside (m : Mem) (dst : Nat) (src : List Byte) (i : Nat)
    (h : i < dst ∨ dst + src.length ≤ i) : memcpy m dst src i = m i := by
  unfold memcpy
  rw [if_neg]
  omega

theorem memcpy_inside (m : Mem) (dst : Nat) (src : List Byte) (i : Nat)
    (h : i < src.length) : memcpy m dst src (dst + i) = src[i] := by
  unfold memcpy
  rw [if_pos (by omega)]
  simp [h]

theorem readBytes_memcpy_same (m : Mem) (a : Nat) (bs : List Byte) (n : Nat)
    (h : bs.length = n) : readBytes (memcpy m a bs) a n = bs := by
  subst h
  apply List.ext_getElem (by simp [readBytes_length])
  intro i h1 h2
  rw [getElem_readBytes, memcpy_inside _ _ _ _ h2]

theorem readBytes_memcpy_head (m : Mem) (a : Nat) (bs : List Byte) (n : Nat)
    (h : n ≤ bs.length) : readBytes (memcpy m a bs) a n = bs.take n := by
  apply List.ext_getElem (by simp [readBytes_length, h])
  intro i h1 h2
  rw [readBytes_length] at h1
  rw [getElem_readBytes, memcpy_inside _ _ _ _ (by omega), List.getElem_take]

theorem readBytes_memcpy_disjoint (m : Mem) (dst : Nat) (src : List Byte) (a n : Nat)
    (h : a + n ≤ dst ∨ dst + src.length ≤ a) :
    readBytes (memcpy m dst src) a n = readBytes m a n := by
  apply readBytes_congr
  intro i h1 h2
  apply memcpy_outside
  omega


/-! ### Records in the storage and the dispatcher loop -/

theorem refCmdHandlers_congr (L : Layout) (rsh : rsh_t) (id : Nat) (buf buf' : Mem) (a : Nat)
    (hid : id < NUM_REF_CMDS)
    (h : ∀ i, a ≤ i → i < a + hdrSize L id → buf' i = buf i) :
    refCmdHandlers L rsh id buf' a = refCmdHandlers L rsh id buf a := by
  have hr := readBytes_congr buf buf' a (hdrSize L id) h
  unfold NUM_REF_CMDS at hid
  interval_cases id <;>
    simp only [refCmdHandlers, hdrSize, R_HandleBeginFrameCmd, R_HandleEndFrameCmd,
      R_HandleDrawStretchPicCmd, R_HandleDrawStretchPolyCmd, R_HandleClearSceneCmd,
      R_HandleAddEntityToSceneCmd, R_HandleAddLightToSceneCmd, R_HandleAddPolyToSceneCmd,
      R_HandleAddLightStyleToSceneCmd, R_HandleRenderSceneCmd, R_HandleSetScissorCmd,
      R_HandleResetScissorCmd, R_HandleDrawStretchRawCmd, R_HandleDrawStretchRawYUVCmd]
      at hr ⊢ <;>
    first
      | rfl
      | rw [hr]

theorem RecordAt_congr {L : Layout} {rsh : rsh_t} {buf buf' : Mem} {a : Nat} {v : Visit}
    (h : RecordAt L rsh buf a v) (hb : ∀ i, a ≤ i → i < a + v.len → buf' i = buf i) :
    RecordAt L rsh buf' a v := by
  obtain ⟨h1, h2, h3, h4, h5⟩ := h
  have hid : rdU32 (readBytes buf' a 4) = rdU32 (readBytes buf a 4) := by
    rw [readBytes_congr buf buf' a 4 (fun i hi1 hi2 => hb i hi1 (by omega))]
  refine ⟨h1, ?_, ?_, h4, ?_⟩
  · rw [hid]; exact h2
  · rw [hid, ← h3]
    exact refCmdHandlers_congr L rsh _ buf buf' a h2 (fun i hi1 hi2 => hb i hi1 (by omega))
  · rw [hid]; exact h5

theorem Seg_le {L : Layout} {rsh : rsh_t} {buf : Mem} {a b : Nat} {vs : List Visit}
    (h : Seg L rsh buf a b vs) : a ≤ b := by
  induction h with
  | nil a => exact Nat.le_refl a
  | cons hr _ ih => omega

theorem Seg_congr {L : Layout} {rsh : rsh_t} {buf buf' : Mem} {a b : Nat} {vs : List Visit}
    (h : Seg L rsh buf a b vs) (hb : ∀ i, i < b → buf' i = buf i) : Seg L rsh buf' a b vs := by
  induction h with
  | nil a => exact Seg.nil a
  | cons hr hs ih =>
    have := Seg_le hs
    exact Seg.cons (RecordAt_congr hr (fun i _ hi => hb i (by omega))) (ih hb)

theorem Seg_snoc {L : Layout} {rsh : rsh_t} {buf : Mem} {a b : Nat} {vs : List Visit}
    {v : Visit} (h : Seg L rsh buf a b vs) (hv : RecordAt L rsh buf b v) :
    Seg L rsh buf a (b + v.len) (vs ++ [v]) := by
  induction h with
  | nil a => exact Seg.cons hv (Seg.nil _)
  | cons hr _ ih => exact Seg.cons hr (ih hv)

theorem Seg_offsets_len {L : Layout} {rsh : rsh_t} {buf : Mem} {a b : Nat} {vs : List Visit}
    (h : Seg L rsh buf a b vs) : a + (vs.map (fun v => v.len)).sum = b := by
  induction h with
  | nil a => simp
  | cons hr _ ih => simp only [List.map_cons, List.sum_cons]; omega

theorem Seg_length_le {L : Layout} {rsh : rsh_t} {buf : Mem} {a b : Nat} {vs : List Visit}
    (h : Seg L rsh buf a b vs) : a + vs.length ≤ b := by
  induction h with
  | nil a => simp
  | cons hr _ ih =>
    have := hr.2.2.2.1
    simp only [List.length_cons]; omega

theorem loop_of_Seg {L : Layout} {rsh : rsh_t} {cmdbuf : ref_cmdbuf_t} {a : Nat}
    {vs : List Visit} (h : Seg L rsh cmdbuf.buf a cmdbuf.len vs) (hlen : cmdbuf.len < SIZE_MOD)
    (fuel : Nat) (hf : vs.length < fuel) :
    RF_RunCmdBufProc.loop L rsh cmdbuf fuel a = some { log := vs, t := cmdbuf.len } := by
  generalize hb : cmdbuf.len = b at h
  induction h generalizing fuel with
  | nil a =>
    obtain ⟨f, rfl⟩ : ∃ f, fuel = f + 1 := ⟨fuel - 1, by omega⟩
    simp [RF_RunCmdBufProc.loop, hb]
  | @cons a b v vs hr hs ih =>
    obtain ⟨f, rfl⟩ : ∃ f, fuel = f + 1 := ⟨fuel - 1, by omega⟩
    obtain ⟨h1, h2, h3, h4, h5⟩ := hr
    have hle := Seg_le hs
    have hlt : a < cmdbuf.len := by omega
    have hid : ¬ (toInt (rdU32 (readBytes cmdbuf.buf a 4)) < 0 ∨
        toInt (rdU32 (readBytes cmdbuf.buf a 4)) ≥ (NUM_REF_CMDS : Int)) := by
      unfold NUM_REF_CMDS at h2 ⊢
      unfold toInt
      split <;> omega
    have hsz : szAdd a v.len = a + v.len := by
      unfold szAdd; apply Nat.mod_eq_of_lt; omega
    have hv : v = { offset := a, calls := v.calls, len := v.len } := by
      cases v; simp_all
    rw [RF_RunCmdBufProc.loop]
    simp only [hlt, if_true, hid, if_false, h3]
    rw [if_neg (by omega), hsz, ih f (by simpa using hf) hb]
    simp only [Option.map_some']
    rw [← hv]


/-! ### What the handlers read back from a freshly written record -/

theorem rdU32_take (bs : List Byte) (n : Nat) (h : 4 ≤ n) : rdU32 (bs.take n) = rdU32 bs := by
  unfold rdU32
  rw [List.take_take, Nat.min_eq_left h]

theorem rdU32_readBytes_memcpy (m : Mem) (a : Nat) (bs : List Byte) (h : 4 ≤ bs.length) :
    rdU32 (readBytes (memcpy m a bs) a 4) = rdU32 bs := by
  rw [readBytes_memcpy_head m a bs 4 h, rdU32_take bs 4 (Nat.le_refl 4)]

theorem recordAt_memcpy (L : Layout) (rsh : rsh_t) (m : Mem) (a : Nat) (bs : List Byte)
    (id : U32) (calls : List BackendCall) (len : Nat)
    (hlen : 4 ≤ bs.length) (hid : rdU32 bs = id) (hlt : id.val < NUM_REF_CMDS)
    (hh : refCmdHandlers L rsh id.val (memcpy m a bs) a = (calls, len))
    (h4 : 4 ≤ len) (hs : hdrSize L id.val ≤ len) :
    RecordAt L rsh (memcpy m a bs) a { offset := a, calls := calls, len := len } := by
  have := rdU32_readBytes_memcpy m a bs hlen
  unfold RecordAt
  rw [this, hid]
  exact ⟨rfl, hlt, hh, h4, hs⟩

theorem recordAt_BeginFrame (L : Layout) (rsh : rsh_t) (m : Mem) (a : Nat) (cs : U32)
    (fc fv : Bool) (p0 p1 : Byte) :
    RecordAt L rsh (memcpy m a (refCmdBeginFrame_t.toBytes
      { id := REF_CMD_BEGIN_FRAME, cameraSeparation := cs, forceClear := fc, forceVsync := fv,
        pad0 := p0, pad1 := p1 })) a
      { offset := a, calls := [.R_BeginFrame cs fc fv], len := sizeof_refCmdBeginFrame_t } := by
  apply recordAt_memcpy L rsh m a _ REF_CMD_BEGIN_FRAME
  · rw [refCmdBeginFrame_t_toBytes_length]; decide
  · simp only [refCmdBeginFrame_t.toBytes, rdU32_append]
  · decide
  · show R_HandleBeginFrameCmd _ _ = _
    unfold R_HandleBeginFrameCmd
    rw [readBytes_memcpy_same _ _ _ _ (refCmdBeginFrame_t_toBytes_length _),
      refCmdBeginFrame_t_ofBytes_toBytes]
  · decide
  · exact Nat.le_refl _

theorem recordAt_EndFrame (L : Layout) (rsh : rsh_t) (m : Mem) (a : Nat) :
    RecordAt L rsh (memcpy m a (refCmdEndFrame_t.toBytes { id := REF_CMD_END_FRAME })) a
      { offset := a, calls := [.R_EndFrame], len := sizeof_refCmdEndFrame_t } := by
  apply recordAt_memcpy L rsh m a _ REF_CMD_END_FRAME
  · rw [refCmdEndFrame_t_toBytes_length]; decide
  · simp only [refCmdEndFrame_t.toBytes, rdU32_bytes]
  · decide
  · rfl
  · decide
  · exact Nat.le_refl _

theorem recordAt_DrawStretchPic (L : Layout) (rsh : rsh_t) (m : Mem) (a : Nat)
    (x y w h s1 t1 s2 t2 angle : U32) (color : vec4_t) (shader : U64) :
    RecordAt L rsh (memcpy m a (refCmdDrawStretchPic_t.toBytes
      { id := REF_CMD_DRAW_STRETCH_PIC, x := x, y := y, w := w, h := h, s1 := s1, t1 := t1,
        s2 := s2, t2 := t2, angle := angle, shader := shader,
        color := { v0 := color.v0, v1 := color.v1, v2 := color.v2, v3 := color.v3 } })) a
      { offset := a,
        calls := [.R_DrawRotatedStretchPic x y w h s1 t1 s2 t2 angle color shader],
        len := sizeof_refCmdDrawStretchPic_t } := by
  apply recordAt_memcpy L rsh m a _ REF_CMD_DRAW_STRETCH_PIC
  · rw [refCmdDrawStretchPic_t_toBytes_length]; decide
  · simp only [refCmdDrawStretchPic_t.toBytes, rdU32_append]
  · decide
  · show R_HandleDrawStretchPicCmd _ _ = _
    unfold R_HandleDrawStretchPicCmd
    rw [readBytes_memcpy_same _ _ _ _ (refCmdDrawStretchPic_t_toBytes_length _),
      refCmdDrawStretchPic_t_ofBytes_toBytes]
  · decide
  · exact Nat.le_refl _

theorem recordAt_ClearScene (L : Layout) (rsh : rsh_t) (m : Mem) (a : Nat) :
    RecordAt L rsh (memcpy m a (refCmdClearScene_t.toBytes { id := REF_CMD_CLEAR_SCENE })) a
      { offset := a, calls := [.R_ClearScene], len := sizeof_refCmdClearScene_t } := by
  apply recordAt_memcpy L rsh m a _ REF_CMD_CLEAR_SCENE
  · rw [refCmdClearScene_t_toBytes_length]; decide
  · simp only [refCmdClearScene_t.toBytes, rdU32_bytes]
  · decide
  · rfl
  · decide
  · exact Nat.le_refl _

theorem recordAt_ResetScissor (L : Layout) (rsh : rsh_t) (m : Mem) (a : Nat) :
    RecordAt L rsh (memcpy m a (refCmdResetScissor_t.toBytes { id := REF_CMD_RESET_SCISSOR })) a
      { offset := a, calls := [.R_ResetScissor], len := sizeof_refCmdResetScissor_t } := by
  apply recordAt_memcpy L rsh m a _ REF_CMD_RESET_SCISSOR
  · rw [refCmdResetScissor_t_toBytes_length]; decide
  · simp only [refCmdResetScissor_t.toBytes, rdU32_bytes]
  · decide
  · rfl
  · decide
  · exact Nat.le_refl _

theorem recordAt_AddLight (L : Layout) (rsh : rsh_t) (m : Mem) (a : Nat) (org : vec3_t)
    (intensity r g b : U32) :
    RecordAt L rsh (memcpy m a (refCmdAddLightToScene_t.toBytes
      { id := REF_CMD_ADD_LIGHT_TO_SCENE,
        origin := { v0 := org.v0, v1 := org.v1, v2 := org.v2 },
        intensity := intensity, r := r, g := g, b := b })) a
      { offset := a, calls := [.R_AddLightToScene org intensity r g b],
        len := sizeof_refCmdAddLightToScene_t } := by
  apply recordAt_memcpy L rsh m a _ REF_CMD_ADD_LIGHT_TO_SCENE
  · rw [refCmdAddLightToScene_t_toBytes_length]; decide
  · simp only [refCmdAddLightToScene_t.toBytes, rdU32_append]
  · decide
  · show R_HandleAddLightToSceneCmd _ _ = _
    unfold R_HandleAddLightToSceneCmd
    rw [readBytes_memcpy_same _ _ _ _ (refCmdAddLightToScene_t_toBytes_length _),
      refCmdAddLightToScene_t_ofBytes_toBytes]
  · decide
  · exact Nat.le_refl _

theorem recordAt_AddLightStyle (L : Layout) (rsh : rsh_t) (m : Mem) (a : Nat)
    (style r g b : U32) :
    RecordAt L rsh (memcpy m a (refCmdAddLightStyleToScene_t.toBytes
      { id := REF_CMD_ADD_LIGHT_STYLE_TO_SCENE, style := style, r := r, g := g, b := b })) a
      { offset := a, calls := [.R_AddLightStyleToScene style r g b],
        len := sizeof_refCmdAddLightStyleToScene_t } := by
  apply recordAt_memcpy L rsh m a _ REF_CMD_ADD_LIGHT_STYLE_TO_SCENE
  · rw [refCmdAddLightStyleToScene_t_toBytes_length]; decide
  · simp only [refCmdAddLightStyleToScene_t.toBytes, rdU32_append]
  · decide
  · show R_HandleAddLightStyleToSceneCmd _ _ = _
    unfold R_HandleAddLightStyleToSceneCmd
    rw [readBytes_memcpy_same _ _ _ _ (refCmdAddLightStyleToScene_t_toBytes_length _),
      refCmdAddLightStyleToScene_t_ofBytes_toBytes]
  · decide
  · exact Nat.le_refl _

theorem recordAt_SetScissor (L : Layout) (rsh : rsh_t) (m : Mem) (a : Nat) (x y w h : U32) :
    RecordAt L rsh (memcpy m a (refCmdSetScissor_t.toBytes
      { id := REF_CMD_SET_SCISSOR, x := x, y := y, w := w, h := h })) a
      { offset := a, calls := [.R_Scissor x y w h], len := sizeof_refCmdSetScissor_t } := by
  apply recordAt_memcpy L rsh m a _ REF_CMD_SET_SCISSOR
  · rw [refCmdSetScissor_t_toBytes_length]; decide
  · simp only [refCmdSetScissor_t.toBytes, rdU32_append]
  · decide
  · show R_HandleSetScissorCmd _ _ = _
    unfold R_HandleSetScissorCmd
    rw [readBytes_memcpy_same _ _ _ _ (refCmdSetScissor_t_toBytes_length _),
      refCmdSetScissor_t_ofBytes_toBytes]
  · decide
  · exact Nat.le_refl _

theorem recordAt_DrawStretchRaw (L : Layout) (rsh : rsh_t) (m : Mem) (a : Nat)
    (x y w h s1 t1 s2 t2 : U32) :
    RecordAt L rsh (memcpy m a (refCmdDrawStretchRaw_t.toBytes
      { id := REF_CMD_DRAW_STRETCH_RAW, x := x, y := y, w := w, h := h, s1 := s1, t1 := t1,
        s2 := s2, t2 := t2 })) a
      { offset := a, calls := [.R_DrawStretchRaw x y w h s1 t1 s2 t2],
        len := sizeof_refCmdDrawStretchRaw_t } := by
  apply recordAt_memcpy L rsh m a _ REF_CMD_DRAW_STRETCH_RAW
  · rw [refCmdDrawStretchRaw_t_toBytes_length]; decide
  · simp only [refCmdDrawStretchRaw_t.toBytes, rdU32_append]
  · decide
  · show R_HandleDrawStretchRawCmd _ _ = _
    unfold R_HandleDrawStretchRawCmd
    rw [readBytes_memcpy_same _ _ _ _ (refCmdDrawStretchRaw_t_toBytes_length _),
      refCmdDrawStretchRaw_t_ofBytes_toBytes]
  · decide
  · exact Nat.le_refl _

theorem recordAt_DrawStretchRawYUV (L : Layout) (rsh : rsh_t) (m : Mem) (a : Nat)
    (x y w h s1 t1 s2 t2 : U32) :
    RecordAt L rsh (memcpy m a (refCmdDrawStretchRaw_t.toBytes
      { id := REF_CMD_DRAW_STRETCH_RAW_YUV, x := x, y := y, w := w, h := h, s1 := s1, t1 := t1,
        s2 := s2, t2 := t2 })) a
      { offset := a, calls := [.R_DrawStretchRawYUV x y w h s1 t1 s2 t2],
        len := sizeof_refCmdDrawStretchRaw_t } := by
  apply recordAt_memcpy L rsh m a _ REF_CMD_DRAW_STRETCH_RAW_YUV
  · rw [refCmdDrawStretchRaw_t_toBytes_length]; decide
  · simp only [refCmdDrawStretchRaw_t.toBytes, rdU32_append]
  · decide
  · show R_HandleDrawStretchRawYUVCmd _ _ = _
    unfold R_HandleDrawStretchRawYUVCmd
    rw [readBytes_memcpy_same _ _ _ _ (refCmdDrawStretchRaw_t_toBytes_length _),
      refCmdDrawStretchRaw_t_ofBytes_toBytes]
  · decide
  · exact Nat.le_refl _

theorem U32_ofNat_val (n : Nat) (h : n < 4294967296) : (U32.ofNat n).val = n := by
  unfold U32.ofNat
  exact Nat.mod_eq_of_lt h

theorem recordAt_DrawStretchPoly (L : Layout) (rsh : rsh_t) (m : Mem) (a : Nat)
    (len : Nat) (x_offset y_offset : U32) (poly : List Byte)
    (hp : poly.length = L.sizeof_poly_t) (hl : len < 4294967296)
    (hs : sizeof_refCmdDrawStretchOrScenePoly_t L ≤ len) :
    RecordAt L rsh (memcpy m a (refCmdDrawStretchOrScenePoly_t.toBytes
      { id := REF_CMD_DRAW_STRETCH_POLY, length := U32.ofNat len, x_offset := x_offset,
        y_offset := y_offset, poly := poly })) a
      { offset := a, calls := [.R_DrawStretchPoly poly x_offset y_offset], len := len } := by
  have h16 : 16 ≤ len := by unfold sizeof_refCmdDrawStretchOrScenePoly_t at hs; omega
  apply recordAt_memcpy L rsh m a _ REF_CMD_DRAW_STRETCH_POLY
  · rw [refCmdDrawStretchOrScenePoly_t_toBytes_length L _ hp]
    unfold sizeof_refCmdDrawStretchOrScenePoly_t; omega
  · simp only [refCmdDrawStretchOrScenePoly_t.toBytes, rdU32_append]
  · decide
  · show R_HandleDrawStretchPolyCmd L _ _ = _
    unfold R_HandleDrawStretchPolyCmd
    rw [readBytes_memcpy_same _ _ _ _ (refCmdDrawStretchOrScenePoly_t_toBytes_length L _ hp),
      refCmdDrawStretchOrScenePoly_t_ofBytes_toBytes L _ hp]
    simp only [U32_ofNat_val len hl]
  · omega
  · exact hs

theorem recordAt_AddPoly (L : Layout) (rsh : rsh_t) (m : Mem) (a : Nat)
    (len : Nat) (x_offset y_offset : U32) (poly : List Byte)
    (hp : poly.length = L.sizeof_poly_t) (hl : len < 4294967296)
    (hs : sizeof_refCmdDrawStretchOrScenePoly_t L ≤ len) :
    RecordAt L rsh (memcpy m a (refCmdDrawStretchOrScenePoly_t.toBytes
      { id := REF_CMD_ADD_POLY_TO_SCENE, length := U32.ofNat len, x_offset := x_offset,
        y_offset := y_offset, poly := poly })) a
      { offset := a, calls := [.R_AddPolyToScene poly], len := len } := by
  have h16 : 16 ≤ len := by unfold sizeof_refCmdDrawStretchOrScenePoly_t at hs; omega
  apply recordAt_memcpy L rsh m a _ REF_CMD_ADD_POLY_TO_SCENE
  · rw [refCmdDrawStretchOrScenePoly_t_toBytes_length L _ hp]
    unfold sizeof_refCmdDrawStretchOrScenePoly_t; omega
  · simp only [refCmdDrawStretchOrScenePoly_t.toBytes, rdU32_append]
  · decide
  · show R_HandleAddPolyToSceneCmd L _ _ = _
    unfold R_HandleAddPolyToSceneCmd
    rw [readBytes_memcpy_same _ _ _ _ (refCmdDrawStretchOrScenePoly_t_toBytes_length L _ hp),
      refCmdDrawStretchOrScenePoly_t_ofBytes_toBytes L _ hp]
    simp only [U32_ofNat_val len hl]
  · omega
  · exact hs

theorem recordAt_AddEntity (L : Layout) (rsh : rsh_t) (m : Mem) (a : Nat)
    (len : Nat) (entity : List Byte) (n pd : U32) (bp obp : U64)
    (hp : entity.length = L.sizeof_entity_t) (hl : len < 4294967296)
    (hs : sizeof_refCmdAddEntityToScene_t L ≤ len) :
    RecordAt L rsh (memcpy m a (refCmdAddEntityToScene_t.toBytes
      { id := REF_CMD_ADD_ENTITY_TO_SCENE, length := U32.ofNat len, entity := entity,
        numBoneposes := n, pad := pd, boneposes := bp, oldboneposes := obp })) a
      { offset := a, calls := [.R_AddEntityToScene entity], len := len } := by
  have h16 : 32 ≤ len := by unfold sizeof_refCmdAddEntityToScene_t at hs; omega
  apply recordAt_memcpy L rsh m a _ REF_CMD_ADD_ENTITY_TO_SCENE
  · rw [refCmdAddEntityToScene_t_toBytes_length L _ hp]
    unfold sizeof_refCmdAddEntityToScene_t; omega
  · simp only [refCmdAddEntityToScene_t.toBytes, rdU32_append]
  · decide
  · show R_HandleAddEntityToSceneCmd L _ _ = _
    unfold R_HandleAddEntityToSceneCmd
    rw [readBytes_memcpy_same _ _ _ _ (refCmdAddEntityToScene_t_toBytes_length L _ hp),
      refCmdAddEntityToScene_t_ofBytes_toBytes L _ hp]
    simp only [U32_ofNat_val len hl]
  · omega
  · exact hs

theorem recordAt_RenderScene (L : Layout) (enc rsh : rsh_t) (m : Mem) (a : Nat)
    (len : Nat) (refdef : List Byte) (ab : U64)
    (hp : refdef.length = L.sizeof_refdef_t) (hl : len < 4294967296)
    (hs : sizeof_refCmdRenderScene_t L ≤ len) :
    RecordAt L rsh (memcpy m a (refCmdRenderScene_t.toBytes
      { id := REF_CMD_RENDER_SCENE, length := U32.ofNat len,
        registrationSequence := enc.registrationSequence,
        worldModelSequence := enc.worldModelSequence, refdef := refdef, areabits := ab })) a
      { offset := a,
        calls := if renderSceneRuns L enc rsh refdef then [.R_RenderScene refdef] else [],
        len := len } := by
  have h16 : 24 ≤ len := by unfold sizeof_refCmdRenderScene_t at hs; omega
  apply recordAt_memcpy L rsh m a _ REF_CMD_RENDER_SCENE
  · rw [refCmdRenderScene_t_toBytes_length L _ hp]
    unfold sizeof_refCmdRenderScene_t; omega
  · simp only [refCmdRenderScene_t.toBytes, rdU32_append]
  · decide
  · show R_HandleRenderSceneCmd L rsh _ _ = _
    unfold R_HandleRenderSceneCmd
    rw [readBytes_memcpy_same _ _ _ _ (refCmdRenderScene_t_toBytes_length L _ hp),
      refCmdRenderScene_t_ofBytes_toBytes L _ hp]
    simp only [U32_ofNat_val len hl, renderSceneRuns]
    by_cases h1 : enc.registrationSequence = rsh.registrationSequence
    · by_cases h2 : (get32 refdef L.refdef_rdflags).val &&& L.RDF_NOWORLDMODEL.val = 0
      · by_cases h3 : enc.worldModelSequence = rsh.worldModelSequence <;> simp [h1, h2, h3]
      · simp [h1, h2]
    · simp [h1]
  · omega
  · exact hs


/-! ### The encoders, one call at a time -/

theorem intToSize_of_nonneg (w : U32) (h : 0 ≤ toInt w) :
    intToSize w = w.val ∧ w.val < 2147483648 := by
  unfold toInt at h
  unfold intToSize
  have := w.isLt
  split at h
  · rename_i h1; simp [h1]
  · omega

theorem append_spec {L : Layout} {rsh : rsh_t} (b : ref_cmdbuf_t) (m' : Mem)
    (bytes : List Byte) (n : Nat) (calls : List BackendCall)
    (hb : b.len ≤ L.sizeof_buf) (hw : b.len + n < SIZE_MOD) (h4 : 4 ≤ n)
    (hm : ∀ i, i < b.len → m' i = b.buf i)
    (hrec : b.len + n ≤ L.sizeof_buf →
      RecordAt L rsh (memcpy m' b.len bytes) b.len { offset := b.len, calls := calls, len := n }) :
    IssueOk L rsh b
      (if szAdd b.len n > L.sizeof_buf then b
       else { b with buf := memcpy m' b.len bytes, len := szAdd b.len n }) n calls := by
  have hsz : szAdd b.len n = b.len + n := Nat.mod_eq_of_lt hw
  rw [hsz]
  by_cases hfit : b.len + n > L.sizeof_buf
  · rw [if_pos hfit]
    exact ⟨rfl, rfl, fun _ _ => rfl, hb, Or.inl rfl⟩
  · rw [if_neg hfit]
    refine ⟨rfl, rfl, ?_, by simpa using hfit, Or.inr ⟨rfl, h4, hrec (by omega)⟩⟩
    intro i hi
    show memcpy m' b.len bytes i = b.buf i
    rw [memcpy_outside _ _ _ _ (Or.inl hi)]
    exact hm i hi

theorem set64_length (s : List Byte) (off : Nat) (v : U64) : (set64 s off v).length = s.length := by
  unfold set64
  exact readBytes_length _ _ _

theorem copyTail_obj_length (mem : Mem) (base : Nat) (present : Bool) (member : Nat) (src : U64)
    (n : Nat) (s : TailState) :
    (copyTail mem base present member src n s).obj.length = s.obj.length := by
  unfold copyTail
  split
  · exact set64_length _ _ _
  · rfl

theorem copyTail_inv (mem : Mem) (base : Nat) (present : Bool) (member : Nat) (src : U64)
    (n : Nat) (s : TailState) (lo : Nat) (m0 : Mem)
    (h : lo ≤ s.pcmd ∧ ∀ i, i < lo → s.buf i = m0 i) :
    lo ≤ (copyTail mem base present member src n s).pcmd ∧
      ∀ i, i < lo → (copyTail mem base present member src n s).buf i = m0 i := by
  unfold copyTail
  split
  · refine ⟨Nat.le_trans h.1 (Nat.le_add_right _ _), fun i hi => ?_⟩
    show memcpy s.buf s.pcmd _ i = m0 i
    rw [memcpy_outside _ _ _ _ (Or.inl (Nat.lt_of_lt_of_le hi h.1))]
    exact h.2 i hi
  · exact h

theorem polyTail_obj_length (L : Layout) (mem : Mem) (b : ref_cmdbuf_t) (p : List Byte) :
    (polyTail L mem b p).obj.length = p.length := by
  unfold polyTail
  simp only [copyTail_obj_length]

theorem polyTail_frame (L : Layout) (mem : Mem) (b : ref_cmdbuf_t) (p : List Byte) (i : Nat)
    (hi : i < b.len + sizeof_refCmdDrawStretchOrScenePoly_t L) :
    (polyTail L mem b p).buf i = b.buf i := by
  unfold polyTail
  exact (copyTail_inv _ _ _ _ _ _ _ (b.len + sizeof_refCmdDrawStretchOrScenePoly_t L) b.buf
    (copyTail_inv _ _ _ _ _ _ _ _ _ (copyTail_inv _ _ _ _ _ _ _ _ _
      (copyTail_inv _ _ _ _ _ _ _ _ _ (copyTail_inv _ _ _ _ _ _ _ _ _
        ⟨Nat.le_refl _, fun _ _ => rfl⟩))))).2 i hi

theorem entityTail_obj_length (L : Layout) (env : Env) (b : ref_cmdbuf_t) (e : List Byte) :
    (entityTail L env b e).obj.length = e.length := by
  unfold entityTail
  simp only [copyTail_obj_length]

theorem entityTail_frame (L : Layout) (env : Env) (b : ref_cmdbuf_t) (e : List Byte) (i : Nat)
    (hi : i < b.len + sizeof_refCmdAddEntityToScene_t L) :
    (entityTail L env b e).buf i = b.buf i := by
  unfold entityTail
  exact (copyTail_inv _ _ _ _ _ _ _ (b.len + sizeof_refCmdAddEntityToScene_t L) b.buf
    (copyTail_inv _ _ _ _ _ _ _ _ _ ⟨Nat.le_refl _, fun _ _ => rfl⟩)).2 i hi

theorem szMul_le (a b : Nat) : szMul a b ≤ a * b := Nat.mod_le _ _

theorem szAdd_eq (a b : Nat) (h : a + b < SIZE_MOD) : szAdd a b = a + b :=
  Nat.mod_eq_of_lt h

theorem condAdd_bounds (c : Prop) [Decidable c] (x t lo hi : Nat) (h1 : lo ≤ x) (h2 : x ≤ hi)
    (h3 : hi + t < SIZE_MOD) :
    lo ≤ (if c then szAdd x t else x) ∧ (if c then szAdd x t else x) ≤ hi + t := by
  split
  · rw [szAdd_eq _ _ (by omega)]; omega
  · omega

theorem ALIGN_four_bounds (x : Nat) (h : x + 3 < SIZE_MOD) :
    x ≤ ALIGN x sizeof_float ∧ ALIGN x sizeof_float ≤ x + 3 := by
  unfold ALIGN sizeof_float
  rw [szAdd_eq _ _ h]
  omega

theorem szMul_bound (w : U32) (k : Nat) (h : 0 ≤ toInt w) (hk : k ≤ 4294967295) :
    szMul (intToSize w) k ≤ 2147483647 * 4294967295 := by
  obtain ⟨h1, h2⟩ := intToSize_of_nonneg w h
  exact Nat.le_trans (szMul_le _ _) (Nat.mul_le_mul (by omega) hk)

theorem szMul_small (w : U32) (k : Nat) (h : 0 ≤ toInt w) (hk : k ≤ 16) :
    szMul (intToSize w) k ≤ 2147483647 * 16 := by
  obtain ⟨h1, h2⟩ := intToSize_of_nonneg w h
  exact Nat.le_trans (szMul_le _ _) (Nat.mul_le_mul (by omega) hk)

theorem polyCmdLen_bounds (L : Layout) (p : List Byte) (hs : L.sizeof_poly_t < 4294967296)
    (hv : 0 ≤ toInt (get32 p L.poly_numverts)) (he : 0 ≤ toInt (get32 p L.poly_numelems)) :
    sizeof_refCmdDrawStretchOrScenePoly_t L ≤ polyCmdLen L p ∧
      polyCmdLen L p < 1099511627776 := by
  have m1 := szMul_small _ sizeof_vec4_t hv (by decide)
  have m2 := szMul_small _ sizeof_vec2_t hv (by decide)
  have m3 := szMul_small _ sizeof_byte_vec4_t hv (by decide)
  have m4 := szMul_small _ sizeof_elem_t he (by decide)
  have hh : sizeof_refCmdDrawStretchOrScenePoly_t L < 4294967296 + 16 := by
    unfold sizeof_refCmdDrawStretchOrScenePoly_t; omega
  have hM : SIZE_MOD = 18446744073709551616 := rfl
  have s1 := condAdd_bounds (get64 p L.poly_verts ≠ 0) (sizeof_refCmdDrawStretchOrScenePoly_t L)
    (szMul (intToSize (get32 p L.poly_numverts)) sizeof_vec4_t) _ _
    (Nat.le_refl _) (Nat.le_refl _) (by omega)
  have s2 := condAdd_bounds (get64 p L.poly_stcoords ≠ 0) _
    (szMul (intToSize (get32 p L.poly_numverts)) sizeof_vec2_t) _ _ s1.1 s1.2 (by omega)
  have s3 := condAdd_bounds (get64 p L.poly_normals ≠ 0) _
    (szMul (intToSize (get32 p L.poly_numverts)) sizeof_vec4_t) _ _ s2.1 s2.2 (by omega)
  have s4 := condAdd_bounds (get64 p L.poly_colors ≠ 0) _
    (szMul (intToSize (get32 p L.poly_numverts)) sizeof_byte_vec4_t) _ _ s3.1 s3.2 (by omega)
  have s5 := condAdd_bounds (get64 p L.poly_elems ≠ 0) _
    (szMul (intToSize (get32 p L.poly_numelems)) sizeof_elem_t) _ _ s4.1 s4.2 (by omega)
  have a := ALIGN_four_bounds _ (Nat.lt_of_le_of_lt (Nat.add_le_add_right s5.2 3) (by omega))
  refine ⟨Nat.le_trans s5.1 a.1,
    Nat.lt_of_le_of_lt (Nat.le_trans a.2 (Nat.add_le_add_right s5.2 3)) ?_⟩
  omega

theorem entityCmdLen_bounds (L : Layout) (env : Env) (e : List Byte)
    (hs : L.sizeof_entity_t < 4294967296) (hb : L.sizeof_bonepose_t < 4294967296)
    (hv : 0 ≤ toInt (env.R_SkeletalGetNumBones (get64 e L.entity_model))) :
    sizeof_refCmdAddEntityToScene_t L ≤ entityCmdLen L env e ∧
      entityCmdLen L env e < 18446744069414584320 := by
  have m1 := szMul_bound _ L.sizeof_bonepose_t hv (by omega)
  have hh : sizeof_refCmdAddEntityToScene_t L < 4294967296 + 32 := by
    unfold sizeof_refCmdAddEntityToScene_t; omega
  have hM : SIZE_MOD = 18446744073709551616 := rfl
  have s1 := condAdd_bounds
    (env.R_SkeletalGetNumBones (get64 e L.entity_model) ≠ 0 ∧ get64 e L.entity_boneposes ≠ 0)
    (sizeof_refCmdAddEntityToScene_t L)
    (szMul (intToSize (env.R_SkeletalGetNumBones (get64 e L.entity_model))) L.sizeof_bonepose_t)
    _ _ (Nat.le_refl _) (Nat.le_refl _) (by omega)
  have s2 := condAdd_bounds
    (env.R_SkeletalGetNumBones (get64 e L.entity_model) ≠ 0 ∧ get64 e L.entity_oldboneposes ≠ 0)
    _ (szMul (intToSize (env.R_SkeletalGetNumBones (get64 e L.entity_model))) L.sizeof_bonepose_t)
    _ _ s1.1 s1.2 (by omega)
  refine ⟨s2.1, Nat.lt_of_le_of_lt s2.2 ?_⟩
  omega

theorem renderSceneCmdLen_bounds (L : Layout) (rsh : rsh_t) (r : List Byte)
    (hs : L.sizeof_refdef_t < 4294967296) :
    sizeof_refCmdRenderScene_t L ≤ renderSceneCmdLen L rsh r ∧
      renderSceneCmdLen L rsh r < 1099511627776 := by
  have := (renderSceneAreabytes L rsh r).isLt
  have hh : sizeof_refCmdRenderScene_t L < 4294967296 + 24 := by
    unfold sizeof_refCmdRenderScene_t; omega
  have hM : SIZE_MOD = 18446744073709551616 := rfl
  unfold renderSceneCmdLen
  split
  · have e1 := szAdd_eq (sizeof_refCmdRenderScene_t L) (renderSceneAreabytes L rsh r).val
      (by omega)
    have a := ALIGN_four_bounds
      (szAdd (sizeof_refCmdRenderScene_t L) (renderSceneAreabytes L rsh r).val) (by omega)
    omega
  · omega


theorem issueOk_refl (L : Layout) (rsh : rsh_t) (b : ref_cmdbuf_t) (n : Nat)
    (calls : List BackendCall) (hb : b.len ≤ L.sizeof_buf) : IssueOk L rsh b b n calls :=
  ⟨rfl, rfl, fun _ _ => rfl, hb, Or.inl rfl⟩

theorem poly_spec (L : Layout) (hL : L.SizesOk) (mem : Mem) (rsh : rsh_t) (b : ref_cmdbuf_t)
    (id : U32) (poly : Nat) (x_offset y_offset : U32) (calls : List BackendCall)
    (hb : b.len ≤ L.sizeof_buf)
    (hv : 0 ≤ toInt (get32 (readBytes mem poly L.sizeof_poly_t) L.poly_numverts))
    (he : 0 ≤ toInt (get32 (readBytes mem poly L.sizeof_poly_t) L.poly_numelems))
    (hrec : ∀ (m : Mem) (len : Nat) (q : List Byte), q.length = L.sizeof_poly_t →
      len < 4294967296 → sizeof_refCmdDrawStretchOrScenePoly_t L ≤ len →
      q = (polyTail L mem b (readBytes mem poly L.sizeof_poly_t)).obj →
      RecordAt L rsh (memcpy m b.len (refCmdDrawStretchOrScenePoly_t.toBytes
        { id := id, length := U32.ofNat len, x_offset := x_offset, y_offset := y_offset,
          poly := q })) b.len { offset := b.len, calls := calls, len := len }) :
    IssueOk L rsh b (RF_IssueDrawStretchPolyOrAddPolyToSceneCmd L mem b id poly x_offset y_offset)
      (polyCmdLen L (readBytes mem poly L.sizeof_poly_t)) calls := by
  obtain ⟨h1, h2⟩ := polyCmdLen_bounds L _ hL.2.1 hv he
  unfold RF_IssueDrawStretchPolyOrAddPolyToSceneCmd
  simp only
  split
  · exact issueOk_refl L rsh b _ _ hb
  · have h16 : 16 ≤ sizeof_refCmdDrawStretchOrScenePoly_t L := Nat.le_add_right _ _
    refine append_spec b _ _ _ calls hb (by have := hL.1; unfold SIZE_MOD; omega) (by omega) ?_ ?_
    · intro i hi
      exact polyTail_frame L mem b _ i (by omega)
    · intro hfit
      refine hrec _ _ _ ?_ (by have := hL.1; omega) h1 rfl
      rw [polyTail_obj_length, readBytes_length]

theorem fixed_no_wrap {L : Layout} (hL : L.SizesOk) {b : ref_cmdbuf_t} (hb : b.len ≤ L.sizeof_buf)
    {n : Nat} (hn : n ≤ 64) : b.len + n < SIZE_MOD := by
  have := hL.1
  unfold SIZE_MOD
  omega

theorem issue_spec (L : Layout) (hL : L.SizesOk) (env : Env) (rsh : rsh_t) (b : ref_cmdbuf_t)
    (c : FrameCmd) (hb : b.len ≤ L.sizeof_buf) (hv : ValidCmd L env c) :
    IssueOk L rsh b (issue L env b c) (cmdLen L env c) (reply L env rsh b c) := by
  cases c with
  | BeginFrame cs fc fv =>
    exact append_spec b b.buf _ _ _ hb (fixed_no_wrap hL hb (by decide)) (by decide) (fun _ _ => rfl)
      (fun _ => recordAt_BeginFrame L rsh _ _ cs fc fv _ _)
  | EndFrame =>
    exact append_spec b b.buf _ _ _ hb (fixed_no_wrap hL hb (by decide)) (by decide) (fun _ _ => rfl)
      (fun _ => recordAt_EndFrame L rsh _ _)
  | DrawRotatedStretchPic x y w h s1 t1 s2 t2 angle color shader =>
    exact append_spec b b.buf _ _ _ hb (fixed_no_wrap hL hb (by decide)) (by decide) (fun _ _ => rfl)
      (fun _ => recordAt_DrawStretchPic L rsh _ _ x y w h s1 t1 s2 t2 angle color shader)
  | DrawStretchPoly poly x_offset y_offset =>
    exact poly_spec L hL env.mem rsh b _ poly x_offset y_offset _ hb hv.1 hv.2
      (fun m len q hq hl hs hqe => by
        subst hqe
        exact recordAt_DrawStretchPoly L rsh m b.len len x_offset y_offset _ hq hl hs)
  | ClearScene =>
    exact append_spec b b.buf _ _ _ hb (fixed_no_wrap hL hb (by decide)) (by decide) (fun _ _ => rfl)
      (fun _ => recordAt_ClearScene L rsh _ _)
  | AddEntityToScene ent =>
    obtain ⟨h1, h2⟩ := entityCmdLen_bounds L env (readBytes env.mem ent L.sizeof_entity_t)
      hL.2.2.1 hL.2.2.2.2 hv
    have h32 : 32 ≤ sizeof_refCmdAddEntityToScene_t L := by
      unfold sizeof_refCmdAddEntityToScene_t; omega
    refine append_spec b _ _ _ _ hb (by have := hL.1; unfold SIZE_MOD; omega) (by omega) ?_ ?_
    · intro i hi
      exact entityTail_frame L env b _ i (by omega)
    · intro hfit
      refine recordAt_AddEntity L rsh _ b.len _ _ _ _ _ _ ?_ (by have := hL.1; omega) h1
      rw [entityTail_obj_length, readBytes_length]
  | AddLightToScene org intensity r g b' =>
    exact append_spec b b.buf _ _ _ hb (fixed_no_wrap hL hb (by decide)) (by decide) (fun _ _ => rfl)
      (fun _ => recordAt_AddLight L rsh _ _ org intensity r g b')
  | AddPolyToScene poly =>
    exact poly_spec L hL env.mem rsh b _ poly 0 0 _ hb hv.1 hv.2
      (fun m len q hq hl hs hqe => by
        subst hqe
        exact recordAt_AddPoly L rsh m b.len len 0 0 _ hq hl hs)
  | AddLightStyleToScene style r g b' =>
    exact append_spec b b.buf _ _ _ hb (fixed_no_wrap hL hb (by decide)) (by decide) (fun _ _ => rfl)
      (fun _ => recordAt_AddLightStyle L rsh _ _ style r g b')
  | RenderScene fd =>
    obtain ⟨h1, h2⟩ := renderSceneCmdLen_bounds L env.rsh (readBytes env.mem fd L.sizeof_refdef_t)
      hL.2.2.2.1
    have h24 : 24 ≤ sizeof_refCmdRenderScene_t L := by
      unfold sizeof_refCmdRenderScene_t; omega
    refine append_spec b _ _ _ _ hb (by have := hL.1; unfold SIZE_MOD; omega) (by omega) ?_ ?_
    · intro i hi
      split
      · exact memcpy_outside _ _ _ _ (Or.inl (by omega))
      · rfl
    · intro hfit
      refine recordAt_RenderScene L env.rsh rsh _ b.len _ _ _ ?_ (by have := hL.1; omega) h1
      show (refdefStored L env b fd).length = _
      unfold refdefStored
      simp only
      split
      · rw [set64_length, readBytes_length]
      · rw [readBytes_length]
  | SetScissor x y w h =>
    exact append_spec b b.buf _ _ _ hb (fixed_no_wrap hL hb (by decide)) (by decide) (fun _ _ => rfl)
      (fun _ => recordAt_SetScissor L rsh _ _ x y w h)
  | ResetScissor =>
    exact append_spec b b.buf _ _ _ hb (fixed_no_wrap hL hb (by decide)) (by decide) (fun _ _ => rfl)
      (fun _ => recordAt_ResetScissor L rsh _ _)
  | DrawStretchRaw x y w h s1 t1 s2 t2 =>
    exact append_spec b b.buf _ _ _ hb (fixed_no_wrap hL hb (by decide)) (by decide) (fun _ _ => rfl)
      (fun _ => recordAt_DrawStretchRaw L rsh _ _ x y w h s1 t1 s2 t2)
  | DrawStretchRawYUV x y w h s1 t1 s2 t2 =>
    exact append_spec b b.buf _ _ _ hb (fixed_no_wrap hL hb (by decide)) (by decide) (fun _ _ => rfl)
      (fun _ => recordAt_DrawStretchRawYUV L rsh _ _ x y w h s1 t1 s2 t2)

/-! ### Sequences of encoder calls -/

theorem issueAll_inv (L : Layout) (hL : L.SizesOk) (rsh : rsh_t) (cs : List (Env × FrameCmd)) :
    ∀ (b : ref_cmdbuf_t) (vs : List Visit), Seg L rsh b.buf 0 b.len vs → b.len ≤ L.sizeof_buf →
      (∀ p ∈ cs, ValidCmd L p.1 p.2) →
      Seg L rsh (issueAll L b cs).buf 0 (issueAll L b cs).len (vs ++ expectedLog L rsh b cs) ∧
      (issueAll L b cs).len ≤ L.sizeof_buf ∧ (issueAll L b cs).base = b.base ∧
      (issueAll L b cs).frameId = b.frameId ∧ b.len ≤ (issueAll L b cs).len ∧
      ∀ i, i < b.len → (issueAll L b cs).buf i = b.buf i := by
  induction cs with
  | nil =>
    intro b vs hs hb _
    simp only [issueAll, expectedLog, List.append_nil]
    exact ⟨hs, hb, trivial, trivial, Nat.le_refl _, fun _ _ => trivial⟩
  | cons p rest ih =>
    obtain ⟨env, c⟩ := p
    intro b vs hs hb hv
    have hvc : ValidCmd L env c := hv (env, c) (List.mem_cons_self _ _)
    have hvr : ∀ p ∈ rest, ValidCmd L p.1 p.2 := fun p hp => hv p (List.mem_cons_of_mem _ hp)
    obtain ⟨i1, i2, i3, i4, i5⟩ := issue_spec L hL env rsh b c hb hvc
    simp only [issueAll, expectedLog]
    rcases i5 with hsame | ⟨hgrow, h4, hrec⟩
    · have hs' : Seg L rsh (issue L env b c).buf 0 (issue L env b c).len vs := by
        rw [hsame]; exact Seg_congr hs i3
      obtain ⟨j1, j2, j3, j4, j5, j6⟩ := ih (issue L env b c) vs hs' i4 hvr
      rw [if_pos hsame, List.nil_append]
      refine ⟨j1, j2, j3.trans i1, j4.trans i2, by omega, fun i hi => ?_⟩
      rw [j6 i (by omega), i3 i hi]
    · have hs' : Seg L rsh (issue L env b c).buf 0 (issue L env b c).len
          (vs ++ [{ offset := b.len, calls := reply L env rsh b c, len := cmdLen L env c }]) := by
        rw [hgrow]
        exact Seg_snoc (Seg_congr hs i3) hrec
      obtain ⟨j1, j2, j3, j4, j5, j6⟩ := ih (issue L env b c) _ hs' i4 hvr
      rw [if_neg (by omega)]
      have hd : (issue L env b c).len - b.len = cmdLen L env c := by omega
      rw [hd]
      rw [List.append_assoc] at j1
      refine ⟨j1, j2, j3.trans i1, j4.trans i2, by omega, fun i hi => ?_⟩
      rw [j6 i (by omega), i3 i hi]

theorem run_issueAll (L : Layout) (hL : L.SizesOk) (rsh : rsh_t) (b : ref_cmdbuf_t)
    (cs : List (Env × FrameCmd)) (hb : b.len = 0) (hv : ∀ p ∈ cs, ValidCmd L p.1 p.2) :
    RF_RunCmdBufProc L rsh (issueAll L b cs) =
      some { log := expectedLog L rsh b cs, t := (issueAll L b cs).len } := by
  have h0 : Seg L rsh b.buf 0 b.len [] := by rw [hb]; exact Seg.nil 0
  obtain ⟨j1, j2, -⟩ := issueAll_inv L hL rsh cs b [] h0 (by omega) hv
  rw [List.nil_append] at j1
  have hl := Seg_length_le j1
  have hcap := hL.1
  exact loop_of_Seg j1 (by unfold SIZE_MOD; omega) _ (by omega)


/-! ### Claims -/

theorem run_one (L : Layout) (rsh : rsh_t) (b : ref_cmdbuf_t) (v : Visit)
    (h : RecordAt L rsh b.buf 0 v) (hlen : b.len = v.len) (hlt : v.len < SIZE_MOD) :
    RF_RunCmdBufProc L rsh b = some { log := [v], t := v.len } := by
  have hs : Seg L rsh b.buf 0 b.len [v] := by
    have := Seg.cons h (Seg.nil (0 + v.len))
    rw [hlen]
    simpa using this
  have h4 := h.2.2.2.1
  have := loop_of_Seg hs (by omega) (b.len + 1) (by simp only [List.length_singleton]; omega)
  rw [hlen] at this
  unfold RF_RunCmdBufProc
  rw [hlen]
  exact this

theorem run_fixed (L : Layout) (rsh : rsh_t) (b : ref_cmdbuf_t) (bytes : List Byte) (n : Nat)
    (calls : List BackendCall) (hb : b.len = 0) (hfit : n ≤ L.sizeof_buf) (hn : n < 100)
    (hrec : RecordAt L rsh (memcpy b.buf 0 bytes) 0 { offset := 0, calls := calls, len := n }) :
    (RF_RunCmdBufProc L rsh
      (if szAdd b.len n > L.sizeof_buf then b
       else { b with buf := memcpy b.buf b.len bytes, len := szAdd b.len n })).map
      RunResult.trace = some calls := by
  have hsz : szAdd 0 n = n := by
    unfold szAdd SIZE_MOD; omega
  have hlt : n < SIZE_MOD := by unfold SIZE_MOD; omega
  rw [hb, hsz, if_neg (by omega)]
  have h := run_one L rsh { b with buf := memcpy b.buf 0 bytes, len := n }
    { offset := 0, calls := calls, len := n } hrec rfl hlt
  rw [h]
  simp [RunResult.trace]

/-- C1. Round trip of the fixed-size frame commands: whatever the arguments, encoding one
of BeginFrame, EndFrame, DrawRotatedStretchPic, ClearScene, AddLightToScene,
AddLightStyleToScene, SetScissor, ResetScissor, DrawStretchRaw and DrawStretchRawYUV into
an empty buffer whose capacity is at least the record size and running
`RF_RunCmdBufProc` makes exactly one backend call, the matching one, with the encoded
argument values. -/
theorem C1_fixed_size_round_trip (L : Layout) (rsh : rsh_t) (b : ref_cmdbuf_t)
    (hb : b.len = 0) :
    (∀ stack cs fc fv, sizeof_refCmdBeginFrame_t ≤ L.sizeof_buf →
      (RF_RunCmdBufProc L rsh (RF_IssueBeginFrameCmd L stack b cs fc fv)).map RunResult.trace
        = some [.R_BeginFrame cs fc fv]) ∧
    (sizeof_refCmdEndFrame_t ≤ L.sizeof_buf →
      (RF_RunCmdBufProc L rsh (RF_IssueEndFrameCmd L b)).map RunResult.trace
        = some [.R_EndFrame]) ∧
    (∀ x y w h s1 t1 s2 t2 angle color shader, sizeof_refCmdDrawStretchPic_t ≤ L.sizeof_buf →
      (RF_RunCmdBufProc L rsh
        (RF_IssueDrawRotatedStretchPicCmd L b x y w h s1 t1 s2 t2 angle color shader)).map
        RunResult.trace = some [.R_DrawRotatedStretchPic x y w h s1 t1 s2 t2 angle color shader]) ∧
    (sizeof_refCmdClearScene_t ≤ L.sizeof_buf →
      (RF_RunCmdBufProc L rsh (RF_IssueClearSceneCmd L b)).map RunResult.trace
        = some [.R_ClearScene]) ∧
    (∀ org intensity r g bl, sizeof_refCmdAddLightToScene_t ≤ L.sizeof_buf →
      (RF_RunCmdBufProc L rsh (RF_IssueAddLightToSceneCmd L b org intensity r g bl)).map
        RunResult.trace = some [.R_AddLightToScene org intensity r g bl]) ∧
    (∀ style r g bl, sizeof_refCmdAddLightStyleToScene_t ≤ L.sizeof_buf →
      (RF_RunCmdBufProc L rsh (RF_IssueAddLightStyleToSceneCmd L b style r g bl)).map
        RunResult.trace = some [.R_AddLightStyleToScene style r g bl]) ∧
    (∀ x y w h, sizeof_refCmdSetScissor_t ≤ L.sizeof_buf →
      (RF_RunCmdBufProc L rsh (RF_IssueSetScissorCmd L b x y w h)).map RunResult.trace
        = some [.R_Scissor x y w h]) ∧
    (sizeof_refCmdResetScissor_t ≤ L.sizeof_buf →
      (RF_RunCmdBufProc L rsh (RF_IssueResetScissorCmd L b)).map RunResult.trace
        = some [.R_ResetScissor]) ∧
    (∀ x y w h s1 t1 s2 t2, sizeof_refCmdDrawStretchRaw_t ≤ L.sizeof_buf →
      (RF_RunCmdBufProc L rsh (RF_IssueDrawStretchRawCmd L b x y w h s1 t1 s2 t2)).map
        RunResult.trace = some [.R_DrawStretchRaw x y w h s1 t1 s2 t2]) ∧
    (∀ x y w h s1 t1 s2 t2, sizeof_refCmdDrawStretchRaw_t ≤ L.sizeof_buf →
      (RF_RunCmdBufProc L rsh (RF_IssueDrawStretchRawYUVCmd L b x y w h s1 t1 s2 t2)).map
        RunResult.trace = some [.R_DrawStretchRawYUV x y w h s1 t1 s2 t2]) := by
  refine ⟨?_, ?_, ?_, ?_, ?_, ?_, ?_, ?_, ?_, ?_⟩
  · intro stack cs fc fv hfit
    exact run_fixed L rsh b _ _ _ hb hfit (by decide)
      (recordAt_BeginFrame L rsh _ 0 cs fc fv _ _)
  · intro hfit
    exact run_fixed L rsh b _ _ _ hb hfit (by decide) (recordAt_EndFrame L rsh _ 0)
  · intro x y w h s1 t1 s2 t2 angle color shader hfit
    exact run_fixed L rsh b _ _ _ hb hfit (by decide)
      (recordAt_DrawStretchPic L rsh _ 0 x y w h s1 t1 s2 t2 angle color shader)
  · intro hfit
    exact run_fixed L rsh b _ _ _ hb hfit (by decide) (recordAt_ClearScene L rsh _ 0)
  · intro org intensity r g bl hfit
    exact run_fixed L rsh b _ _ _ hb hfit (by decide)
      (recordAt_AddLight L rsh _ 0 org intensity r g bl)
  · intro style r g bl hfit
    exact run_fixed L rsh b _ _ _ hb hfit (by decide)
      (recordAt_AddLightStyle L rsh _ 0 style r g bl)
  · intro x y w h hfit
    exact run_fixed L rsh b _ _ _ hb hfit (by decide) (recordAt_SetScissor L rsh _ 0 x y w h)
  · intro hfit
    exact run_fixed L rsh b _ _ _ hb hfit (by decide) (recordAt_ResetScissor L rsh _ 0)
  · intro x y w h s1 t1 s2 t2 hfit
    exact run_fixed L rsh b _ _ _ hb hfit (by decide)
      (recordAt_DrawStretchRaw L rsh _ 0 x y w h s1 t1 s2 t2)
  · intro x y w h s1 t1 s2 t2 hfit
    exact run_fixed L rsh b _ _ _ hb hfit (by decide)
      (recordAt_DrawStretchRawYUV L rsh _ 0 x y w h s1 t1 s2 t2)

/-- Witness of C1: a light and a scissor rectangle encoded into a fresh 64 KiB buffer. -/
theorem C1_fixed_size_round_trip_witness :
    (RF_CreateCmdBuf 4096).len = 0 ∧
    sizeof_refCmdAddLightToScene_t ≤ exampleLayout.sizeof_buf ∧
    (RF_RunCmdBufProc exampleLayout exampleRsh
      (RF_IssueAddLightToSceneCmd exampleLayout (RF_CreateCmdBuf 4096) ⟨1, 2, 3⟩ 300 7 8 9)).map
      RunResult.trace = some [.R_AddLightToScene ⟨1, 2, 3⟩ 300 7 8 9] ∧
    sizeof_refCmdSetScissor_t ≤ exampleLayout.sizeof_buf ∧
    (RF_RunCmdBufProc exampleLayout exampleRsh
      (RF_IssueSetScissorCmd exampleLayout (RF_CreateCmdBuf 4096) 0 0 640 480)).map
      RunResult.trace = some [.R_Scissor 0 0 640 480] :=
  ⟨rfl, by decide,
    (C1_fixed_size_round_trip exampleLayout exampleRsh (RF_CreateCmdBuf 4096) rfl).2.2.2.2.1
      ⟨1, 2, 3⟩ 300 7 8 9 (by decide),
    by decide,
    (C1_fixed_size_round_trip exampleLayout exampleRsh (RF_CreateCmdBuf 4096) rfl).2.2.2.2.2.2.1
      0 0 640 480 (by decide)⟩


/-- C3. Overflow drop is all-or-nothing: for every encoder call and every buffer state,
if the `size_t` sum of `len` and the record size `cmd_len` that the encoder computes
exceeds `sizeof( cmdbuf->buf )`, the call returns the buffer as it was: `len`,
`frameId` and every byte of the storage are unchanged. -/
theorem C3_overflow_drop_is_all_or_nothing (L : Layout) (env : Env) (b : ref_cmdbuf_t)
    (c : FrameCmd) (h : L.sizeof_buf < szAdd b.len (cmdLen L env c)) : issue L env b c = b := by
  cases c <;>
    simp only [issue, cmdLen, RF_IssueBeginFrameCmd, RF_IssueEndFrameCmd,
      RF_IssueDrawRotatedStretchPicCmd, RF_IssueDrawStretchPolyCmd, RF_IssueClearSceneCmd,
      RF_IssueAddEntityToSceneCmd, RF_IssueAddLightToSceneCmd, RF_IssueAddPolyToSceneCmd,
      RF_IssueAddLightStyleToSceneCmd, RF_IssueRenderSceneCmd, RF_IssueSetScissorCmd,
      RF_IssueResetScissorCmd, RF_IssueDrawStretchRawCmd, RF_IssueDrawStretchRawYUVCmd,
      RF_IssueDrawStretchRawOrRawYUVCmd, RF_IssueDrawStretchPolyOrAddPolyToSceneCmd] at h ⊢ <;>
    simp only [if_pos h, ite_self]

/-- Witness of C3: a 64-byte DrawRotatedStretchPic record does not fit behind offset
65500 of a 64 KiB buffer. -/
theorem C3_overflow_drop_is_all_or_nothing_witness :
    exampleLayout.sizeof_buf < szAdd ({ RF_CreateCmdBuf 4096 with len := 65500 } : ref_cmdbuf_t).len
      (cmdLen exampleLayout exampleEnv (.DrawRotatedStretchPic 0 0 8 8 0 0 1 1 0 ⟨1, 1, 1, 1⟩ 5)) ∧
    issue exampleLayout exampleEnv { RF_CreateCmdBuf 4096 with len := 65500 }
      (.DrawRotatedStretchPic 0 0 8 8 0 0 1 1 0 ⟨1, 1, 1, 1⟩ 5)
      = { RF_CreateCmdBuf 4096 with len := 65500 } :=
  ⟨by decide, C3_overflow_drop_is_all_or_nothing exampleLayout exampleEnv _ _ (by decide)⟩

theorem issue_len_le (L : Layout) (env : Env) (b : ref_cmdbuf_t) (c : FrameCmd)
    (hb : b.len ≤ L.sizeof_buf) : (issue L env b c).len ≤ L.sizeof_buf := by
  cases c <;>
    simp only [issue, RF_IssueBeginFrameCmd, RF_IssueEndFrameCmd,
      RF_IssueDrawRotatedStretchPicCmd, RF_IssueDrawStretchPolyCmd, RF_IssueClearSceneCmd,
      RF_IssueAddEntityToSceneCmd, RF_IssueAddLightToSceneCmd, RF_IssueAddPolyToSceneCmd,
      RF_IssueAddLightStyleToSceneCmd, RF_IssueRenderSceneCmd, RF_IssueSetScissorCmd,
      RF_IssueResetScissorCmd, RF_IssueDrawStretchRawCmd, RF_IssueDrawStretchRawYUVCmd,
      RF_IssueDrawStretchRawOrRawYUVCmd, RF_IssueDrawStretchPolyOrAddPolyToSceneCmd] <;>
    split_ifs <;>
    first
      | exact hb
      | (dsimp only; omega)

theorem applyOp_len_le (L : Layout) (b : ref_cmdbuf_t) (op : BufOp)
    (hb : b.len ≤ L.sizeof_buf) : (applyOp L b op).len ≤ L.sizeof_buf := by
  cases op with
  | encode env c => exact issue_len_le L env b c hb
  | Clear => exact Nat.zero_le _
  | SetFrameId v => exact hb
  | RunCmds rsh => exact hb

/-- C4. Capacity invariant: starting from a buffer of length 0, after any finite
sequence of encoder calls (of any kind, with any arguments) interleaved with `Clear`,
`SetFrameId` and `RunCmds`, `len` is at most `sizeof( cmdbuf->buf )`. -/
theorem C4_capacity_invariant (L : Layout) (b : ref_cmdbuf_t) (ops : List BufOp)
    (hb : b.len = 0) : (applyOps L b ops).len ≤ L.sizeof_buf := by
  have h0 : b.len ≤ L.sizeof_buf := by omega
  clear hb
  unfold applyOps
  induction ops generalizing b with
  | nil => exact h0
  | cons op rest ih => exact ih (applyOp L b op) (applyOp_len_le L b op h0)

/-- Witness of C4: three operations on a fresh buffer. -/
theorem C4_capacity_invariant_witness :
    (RF_CreateCmdBuf 4096).len = 0 ∧
    (applyOps exampleLayout (RF_CreateCmdBuf 4096)
      [.encode exampleEnv .EndFrame, .SetFrameId 3, .RunCmds exampleRsh]).len
      ≤ exampleLayout.sizeof_buf :=
  ⟨rfl, C4_capacity_invariant exampleLayout (RF_CreateCmdBuf 4096) _ rfl⟩


theorem appendsRecord_ite (L : Layout) (b : ref_cmdbuf_t) (record : List Byte) (n : Nat)
    (hlen : record.length = n) (hw : b.len + n < SIZE_MOD) :
    AppendsRecord L b
      (if szAdd b.len n > L.sizeof_buf then b
       else { b with buf := memcpy b.buf b.len record, len := szAdd b.len n }) record n := by
  have hsz : szAdd b.len n = b.len + n := Nat.mod_eq_of_lt hw
  rw [hsz]
  refine ⟨hlen, fun hfit => ?_, fun hover => ?_⟩
  · rw [if_neg (by omega)]
    refine ⟨rfl, fun i hi => memcpy_outside _ _ _ _ (Or.inl hi), ?_, rfl, rfl⟩
    exact readBytes_memcpy_same _ _ _ _ hlen
  · rw [if_pos hover]

/-- C5. Append on success: for every fixed-size encoder and every buffer state (whose
`len` is not within a record of the largest `size_t`), the record is accepted exactly
when `len + sizeof(record)` is at most the capacity (equality included); when accepted,
`len` grows by exactly `sizeof(record)`, the bytes below the old length are unchanged
and the bytes from the old length to the new one are the record with its `id` set to
the identifier of the command; when not accepted the buffer is unchanged. -/
theorem C5_append_on_success (L : Layout) (b : ref_cmdbuf_t) (hw : b.len + 64 < SIZE_MOD) :
    (∀ stack cs fc fv, AppendsRecord L b (RF_IssueBeginFrameCmd L stack b cs fc fv)
      (refCmdBeginFrame_t.toBytes
        { refCmdBeginFrame_t.ofBytes (readBytes stack 0 sizeof_refCmdBeginFrame_t) with
          id := REF_CMD_BEGIN_FRAME, cameraSeparation := cs,
          forceClear := fc, forceVsync := fv }) sizeof_refCmdBeginFrame_t) ∧
    AppendsRecord L b (RF_IssueEndFrameCmd L b)
      (refCmdEndFrame_t.toBytes { id := REF_CMD_END_FRAME }) sizeof_refCmdEndFrame_t ∧
    (∀ x y w h s1 t1 s2 t2 angle color shader,
      AppendsRecord L b (RF_IssueDrawRotatedStretchPicCmd L b x y w h s1 t1 s2 t2 angle color shader)
        (refCmdDrawStretchPic_t.toBytes
        { id := REF_CMD_DRAW_STRETCH_PIC, x := x, y := y, w := w,
          h := h, s1 := s1, t1 := t1, s2 := s2, t2 := t2, angle := angle, color := color,
          shader := shader }) sizeof_refCmdDrawStretchPic_t) ∧
    AppendsRecord L b (RF_IssueClearSceneCmd L b)
      (refCmdClearScene_t.toBytes { id := REF_CMD_CLEAR_SCENE }) sizeof_refCmdClearScene_t ∧
    (∀ org intensity r g bl, AppendsRecord L b (RF_IssueAddLightToSceneCmd L b org intensity r g bl)
      (refCmdAddLightToScene_t.toBytes
        { id := REF_CMD_ADD_LIGHT_TO_SCENE, origin := org,
          intensity := intensity, r := r, g := g, b := bl }) sizeof_refCmdAddLightToScene_t) ∧
    (∀ style r g bl, AppendsRecord L b (RF_IssueAddLightStyleToSceneCmd L b style r g bl)
      (refCmdAddLightStyleToScene_t.toBytes
        { id := REF_CMD_ADD_LIGHT_STYLE_TO_SCENE,
          style := style, r := r, g := g, b := bl }) sizeof_refCmdAddLightStyleToScene_t) ∧
    (∀ x y w h, AppendsRecord L b (RF_IssueSetScissorCmd L b x y w h)
      (refCmdSetScissor_t.toBytes { id := REF_CMD_SET_SCISSOR, x := x, y := y, w := w, h := h })
      sizeof_refCmdSetScissor_t) ∧
    AppendsRecord L b (RF_IssueResetScissorCmd L b)
      (refCmdResetScissor_t.toBytes { id := REF_CMD_RESET_SCISSOR }) sizeof_refCmdResetScissor_t ∧
    (∀ x y w h s1 t1 s2 t2, AppendsRecord L b (RF_IssueDrawStretchRawCmd L b x y w h s1 t1 s2 t2)
      (refCmdDrawStretchRaw_t.toBytes
        { id := REF_CMD_DRAW_STRETCH_RAW, x := x, y := y, w := w,
          h := h, s1 := s1, t1 := t1, s2 := s2, t2 := t2 }) sizeof_refCmdDrawStretchRaw_t) ∧
    (∀ x y w h s1 t1 s2 t2, AppendsRecord L b (RF_IssueDrawStretchRawYUVCmd L b x y w h s1 t1 s2 t2)
      (refCmdDrawStretchRaw_t.toBytes
        { id := REF_CMD_DRAW_STRETCH_RAW_YUV, x := x, y := y, w := w,
          h := h, s1 := s1, t1 := t1, s2 := s2, t2 := t2 }) sizeof_refCmdDrawStretchRaw_t) := by
  have hM : SIZE_MOD = 18446744073709551616 := rfl
  refine ⟨?_, ?_, ?_, ?_, ?_, ?_, ?_, ?_, ?_, ?_⟩
  · intro stack cs fc fv
    exact appendsRecord_ite L b _ _ (refCmdBeginFrame_t_toBytes_length _)
      (by unfold sizeof_refCmdBeginFrame_t; omega)
  · exact appendsRecord_ite L b _ _ (refCmdEndFrame_t_toBytes_length _)
      (by unfold sizeof_refCmdEndFrame_t; omega)
  · intro x y w h s1 t1 s2 t2 angle color shader
    exact appendsRecord_ite L b _ _ (refCmdDrawStretchPic_t_toBytes_length _)
      (by unfold sizeof_refCmdDrawStretchPic_t; omega)
  · exact appendsRecord_ite L b _ _ (refCmdClearScene_t_toBytes_length _)
      (by unfold sizeof_refCmdClearScene_t; omega)
  · intro org intensity r g bl
    exact appendsRecord_ite L b _ _ (refCmdAddLightToScene_t_toBytes_length _)
      (by unfold sizeof_refCmdAddLightToScene_t; omega)
  · intro style r g bl
    exact appendsRecord_ite L b _ _ (refCmdAddLightStyleToScene_t_toBytes_length _)
      (by unfold sizeof_refCmdAddLightStyleToScene_t; omega)
  · intro x y w h
    exact appendsRecord_ite L b _ _ (refCmdSetScissor_t_toBytes_length _)
      (by unfold sizeof_refCmdSetScissor_t; omega)
  · exact appendsRecord_ite L b _ _ (refCmdResetScissor_t_toBytes_length _)
      (by unfold sizeof_refCmdResetScissor_t; omega)
  · intro x y w h s1 t1 s2 t2
    exact appendsRecord_ite L b _ _ (refCmdDrawStretchRaw_t_toBytes_length _)
      (by unfold sizeof_refCmdDrawStretchRaw_t; omega)
  · intro x y w h s1 t1 s2 t2
    exact appendsRecord_ite L b _ _ (refCmdDrawStretchRaw_t_toBytes_length _)
      (by unfold sizeof_refCmdDrawStretchRaw_t; omega)

/-- Witness of C5: an EndFrame record that exactly fills a 64 KiB buffer holding 65532
bytes. -/
theorem C5_append_on_success_witness :
    ({ RF_CreateCmdBuf 4096 with len := 65532 } : ref_cmdbuf_t).len + 64 < SIZE_MOD ∧
    AppendsRecord exampleLayout { RF_CreateCmdBuf 4096 with len := 65532 }
      (RF_IssueEndFrameCmd exampleLayout { RF_CreateCmdBuf 4096 with len := 65532 })
      (refCmdEndFrame_t.toBytes { id := REF_CMD_END_FRAME }) sizeof_refCmdEndFrame_t :=
  ⟨by decide, (C5_append_on_success exampleLayout _ (by decide)).2.1⟩

/-- C9. Degenerate rejection: for every buffer state and every polygon with
`numverts == 0` or a null shader, `DrawStretchPoly` and `AddPolyToScene` return the
buffer as it was, whatever the other members of the polygon and the remaining capacity
are. -/
theorem C9_degenerate_rejection (L : Layout) (mem : Mem) (b : ref_cmdbuf_t) (poly : Nat)
    (x_offset y_offset : U32)
    (h : get32 (readBytes mem poly L.sizeof_poly_t) L.poly_numverts = 0 ∨
         get64 (readBytes mem poly L.sizeof_poly_t) L.poly_shader = 0) :
    RF_IssueDrawStretchPolyCmd L mem b poly x_offset y_offset = b ∧
    RF_IssueAddPolyToSceneCmd L mem b poly = b := by
  unfold RF_IssueDrawStretchPolyCmd RF_IssueAddPolyToSceneCmd
    RF_IssueDrawStretchPolyOrAddPolyToSceneCmd
  simp only [if_pos h, and_self]

/-- Witness of C9: a zeroed polygon has no vertices. -/
theorem C9_degenerate_rejection_witness :
    (get32 (readBytes exampleEnv.mem 0 exampleLayout.sizeof_poly_t) exampleLayout.poly_numverts = 0 ∨
     get64 (readBytes exampleEnv.mem 0 exampleLayout.sizeof_poly_t) exampleLayout.poly_shader = 0) ∧
    RF_IssueDrawStretchPolyCmd exampleLayout exampleEnv.mem (RF_CreateCmdBuf 4096) 0 5 6
      = RF_CreateCmdBuf 4096 ∧
    RF_IssueAddPolyToSceneCmd exampleLayout exampleEnv.mem (RF_CreateCmdBuf 4096) 0
      = RF_CreateCmdBuf 4096 :=
  ⟨by decide, C9_degenerate_rejection exampleLayout exampleEnv.mem (RF_CreateCmdBuf 4096) 0 5 6
    (by decide)⟩


theorem refdefStored_length (L : Layout) (env : Env) (b : ref_cmdbuf_t) (fd : Nat) :
    (refdefStored L env b fd).length = L.sizeof_refdef_t := by
  unfold refdefStored
  simp only
  split
  · rw [set64_length, readBytes_length]
  · rw [readBytes_length]

theorem handleRenderScene_memcpy (L : Layout) (enc rsh : rsh_t) (m : Mem) (a : Nat)
    (len : Nat) (refdef : List Byte) (ab : U64)
    (hp : refdef.length = L.sizeof_refdef_t) (hl : len < 4294967296) :
    R_HandleRenderSceneCmd L rsh (memcpy m a (refCmdRenderScene_t.toBytes
      { id := REF_CMD_RENDER_SCENE, length := U32.ofNat len,
        registrationSequence := enc.registrationSequence,
        worldModelSequence := enc.worldModelSequence, refdef := refdef, areabits := ab })) a
      = (if renderSceneRuns L enc rsh refdef then [.R_RenderScene refdef] else [], len) := by
  unfold R_HandleRenderSceneCmd
  rw [readBytes_memcpy_same _ _ _ _ (refCmdRenderScene_t_toBytes_length L _ hp),
    refCmdRenderScene_t_ofBytes_toBytes L _ hp]
  simp only [U32_ofNat_val len hl, renderSceneRuns]
  by_cases h1 : enc.registrationSequence = rsh.registrationSequence
  · by_cases h2 : (get32 refdef L.refdef_rdflags).val &&& L.RDF_NOWORLDMODEL.val = 0
    · by_cases h3 : enc.worldModelSequence = rsh.worldModelSequence <;> simp [h1, h2, h3]
    · simp [h1, h2]
  · simp [h1]

theorem handleRenderScene_issue (L : Layout) (hL : L.SizesOk) (env : Env) (rsh : rsh_t)
    (b : ref_cmdbuf_t) (fd : Nat)
    (hfit : b.len + renderSceneCmdLen L env.rsh (readBytes env.mem fd L.sizeof_refdef_t)
      ≤ L.sizeof_buf) :
    (RF_IssueRenderSceneCmd L env b fd).len
      = b.len + renderSceneCmdLen L env.rsh (readBytes env.mem fd L.sizeof_refdef_t) ∧
    R_HandleRenderSceneCmd L rsh (RF_IssueRenderSceneCmd L env b fd).buf b.len
      = (if renderSceneRuns L env.rsh rsh (refdefStored L env b fd) then
           [.R_RenderScene (refdefStored L env b fd)] else [],
         renderSceneCmdLen L env.rsh (readBytes env.mem fd L.sizeof_refdef_t)) := by
  have hcap := hL.1
  have hsz : szAdd b.len (renderSceneCmdLen L env.rsh (readBytes env.mem fd L.sizeof_refdef_t))
      = b.len + renderSceneCmdLen L env.rsh (readBytes env.mem fd L.sizeof_refdef_t) :=
    Nat.mod_eq_of_lt (by unfold SIZE_MOD; omega)
  unfold RF_IssueRenderSceneCmd
  simp only [hsz]
  rw [if_neg (by omega)]
  refine ⟨rfl, ?_⟩
  exact handleRenderScene_memcpy L env.rsh rsh _ b.len _ (refdefStored L env b fd) _
    (refdefStored_length L env b fd) (by omega)

/-- C10 does not hold as stated: a render-scene record whose refdef has
`RDF_NOWORLDMODEL` set, encoded under the counters (1, 1) and dispatched under the
different pair (1, 2), is executed: the handler calls `R_RenderScene`. -/
theorem C10_counterexample :
    (noWorldEnv.rsh.registrationSequence, noWorldEnv.rsh.worldModelSequence)
      ≠ (laterWorldRsh.registrationSequence, laterWorldRsh.worldModelSequence) ∧
    (RF_IssueRenderSceneCmd exampleLayout noWorldEnv (RF_CreateCmdBuf 4096) 0).len = 40 ∧
    R_HandleRenderSceneCmd exampleLayout laterWorldRsh
      (RF_IssueRenderSceneCmd exampleLayout noWorldEnv (RF_CreateCmdBuf 4096) 0).buf 0
      = ([.R_RenderScene (readBytes noWorldEnv.mem 0 16)], 40) := by
  decide

/-- C10, amended. Freshness skip: for every render-scene record appended while the
backend counters were (g1, w1), and for every current pair (g2, w2) with g2 different
from g1, or with w2 different from w1 while the `rdflags` of the record's refdef lack
`RDF_NOWORLDMODEL`, `R_HandleRenderSceneCmd` returns the full length of the record and
does not call `R_RenderScene`. -/
theorem C10_freshness_skip (L : Layout) (hL : L.SizesOk) (env : Env) (rsh : rsh_t)
    (b : ref_cmdbuf_t) (fd : Nat)
    (hfit : b.len + renderSceneCmdLen L env.rsh (readBytes env.mem fd L.sizeof_refdef_t)
      ≤ L.sizeof_buf)
    (hstale : env.rsh.registrationSequence ≠ rsh.registrationSequence ∨
      (env.rsh.worldModelSequence ≠ rsh.worldModelSequence ∧
       (get32 (refdefStored L env b fd) L.refdef_rdflags).val &&& L.RDF_NOWORLDMODEL.val = 0)) :
    R_HandleRenderSceneCmd L rsh (RF_IssueRenderSceneCmd L env b fd).buf b.len
      = ([], (RF_IssueRenderSceneCmd L env b fd).len - b.len) := by
  obtain ⟨h1, h2⟩ := handleRenderScene_issue L hL env rsh b fd hfit
  rw [h2, h1, Nat.add_sub_cancel_left, if_neg]
  unfold renderSceneRuns
  rcases hstale with h | ⟨h, hf⟩
  · exact fun hc => h hc.1
  · rintro ⟨-, hc | hc⟩
    · exact hc hf
    · exact h hc

/-- Witness of C10, amended: a render-scene record of the world scene, encoded under the
counters (1, 1) and dispatched after a new registration. -/
theorem C10_freshness_skip_witness :
    exampleLayout.SizesOk ∧
    (RF_CreateCmdBuf 4096).len + renderSceneCmdLen exampleLayout exampleEnv.rsh
      (readBytes exampleEnv.mem 0 exampleLayout.sizeof_refdef_t) ≤ exampleLayout.sizeof_buf ∧
    exampleEnv.rsh.registrationSequence ≠ laterRegistrationRsh.registrationSequence ∧
    R_HandleRenderSceneCmd exampleLayout laterRegistrationRsh
      (RF_IssueRenderSceneCmd exampleLayout exampleEnv (RF_CreateCmdBuf 4096) 0).buf
      (RF_CreateCmdBuf 4096).len
      = ([], (RF_IssueRenderSceneCmd exampleLayout exampleEnv (RF_CreateCmdBuf 4096) 0).len
          - (RF_CreateCmdBuf 4096).len) :=
  ⟨by decide, by decide, by decide,
    C10_freshness_skip exampleLayout (by decide) exampleEnv laterRegistrationRsh
      (RF_CreateCmdBuf 4096) 0 (by decide) (Or.inl (by decide))⟩


theorem expectedLog_offsets (L : Layout) (rsh : rsh_t) (cs : List (Env × FrameCmd)) :
    ∀ b : ref_cmdbuf_t,
      (expectedLog L rsh b cs).map (fun v => v.offset) = recordStarts L b cs := by
  induction cs with
  | nil => intro b; rfl
  | cons p rest ih =>
    obtain ⟨env, c⟩ := p
    intro b
    simp only [expectedLog, recordStarts, List.map_append, ih]
    split <;> rfl

/-- C6. Exact consumption: for every buffer obtained from an empty buffer by a sequence
of encoder calls with valid inputs, a dispatch pass returns, it visits exactly the
offsets at which the encoders wrote records, the lengths returned by the handlers sum to
`len`, and the loop ends with its offset equal to `len`. -/
theorem C6_exact_consumption (L : Layout) (hL : L.SizesOk) (rsh : rsh_t) (b : ref_cmdbuf_t)
    (cs : List (Env × FrameCmd)) (hb : b.len = 0) (hv : ∀ p ∈ cs, ValidCmd L p.1 p.2) :
    ∃ res, RF_RunCmdBufProc L rsh (issueAll L b cs) = some res ∧
      res.log.map (fun v => v.offset) = recordStarts L b cs ∧
      (res.log.map (fun v => v.len)).sum = (issueAll L b cs).len ∧
      res.t = (issueAll L b cs).len := by
  refine ⟨_, run_issueAll L hL rsh b cs hb hv, expectedLog_offsets L rsh cs b, ?_, rfl⟩
  have h0 : Seg L rsh b.buf 0 b.len [] := by rw [hb]; exact Seg.nil 0
  obtain ⟨j1, -⟩ := issueAll_inv L hL rsh cs b [] h0 (by omega) hv
  have := Seg_offsets_len j1
  simpa using this

/-- Witness of C6: a frame with one entity, encoded into a fresh 64 KiB buffer. -/
theorem C6_exact_consumption_witness :
    exampleLayout.SizesOk ∧ (RF_CreateCmdBuf 4096).len = 0 ∧
    (∀ p ∈ [(exampleEnv, FrameCmd.BeginFrame 0 true false), (exampleEnv, .AddEntityToScene 0),
        (exampleEnv, .EndFrame)], ValidCmd exampleLayout p.1 p.2) ∧
    ∃ res, RF_RunCmdBufProc exampleLayout exampleRsh (issueAll exampleLayout (RF_CreateCmdBuf 4096)
        [(exampleEnv, .BeginFrame 0 true false), (exampleEnv, .AddEntityToScene 0),
          (exampleEnv, .EndFrame)]) = some res ∧
      res.log.map (fun v => v.offset) = recordStarts exampleLayout (RF_CreateCmdBuf 4096)
        [(exampleEnv, .BeginFrame 0 true false), (exampleEnv, .AddEntityToScene 0),
          (exampleEnv, .EndFrame)] ∧
      (res.log.map (fun v => v.len)).sum = (issueAll exampleLayout (RF_CreateCmdBuf 4096)
        [(exampleEnv, .BeginFrame 0 true false), (exampleEnv, .AddEntityToScene 0),
          (exampleEnv, .EndFrame)]).len ∧
      res.t = (issueAll exampleLayout (RF_CreateCmdBuf 4096)
        [(exampleEnv, .BeginFrame 0 true false), (exampleEnv, .AddEntityToScene 0),
          (exampleEnv, .EndFrame)]).len :=
  ⟨by decide, rfl, by decide,
    C6_exact_consumption exampleLayout (by decide) exampleRsh (RF_CreateCmdBuf 4096) _ rfl
      (by decide)⟩


/-! ### Struct values with redirected pointers -/

theorem getD_readBytes (m : Mem) (a n i : Nat) :
    (readBytes m a n).getD i 0 = if i < n then m (a + i) else 0 := by
  by_cases h : i < n
  · rw [if_pos h, List.getD_eq_getElem _ _ (by rw [readBytes_length]; exact h),
      getElem_readBytes]
  · rw [if_neg h, List.getD_eq_default _ _ (by rw [readBytes_length]; omega)]

theorem set64_getD_outside (s : List Byte) (off : Nat) (v : U64) (i : Nat)
    (h : i < off ∨ off + 8 ≤ i) : (set64 s off v).getD i 0 = s.getD i 0 := by
  unfold set64
  rw [getD_readBytes]
  split
  · rw [Nat.zero_add, memcpy_outside _ _ _ _ (by rw [U64_bytes_length]; exact h)]
  · rw [List.getD_eq_default _ _ (by omega)]

theorem EqOutside_refl (s : List Byte) (ms : List Nat) : EqOutside s s ms :=
  ⟨rfl, fun _ _ => rfl⟩

theorem EqOutside_set64 (s q : List Byte) (ms : List Nat) (m : Nat) (v : U64)
    (h : EqOutside s q ms) (hm : m ∈ ms) : EqOutside s (set64 q m v) ms := by
  refine ⟨by rw [set64_length]; exact h.1, fun i hi => ?_⟩
  rw [set64_getD_outside q m v i (hi m hm)]
  exact h.2 i hi

theorem EqOutside_copyTail (mem : Mem) (base : Nat) (present : Bool) (member : Nat) (src : U64)
    (n : Nat) (t : TailState) (s : List Byte) (ms : List Nat)
    (h : EqOutside s t.obj ms) (hm : member ∈ ms) :
    EqOutside s (copyTail mem base present member src n t).obj ms := by
  unfold copyTail
  split
  · exact EqOutside_set64 s t.obj ms member _ h hm
  · exact h

theorem polyTail_eqOutside (L : Layout) (mem : Mem) (b : ref_cmdbuf_t) (p : List Byte) :
    EqOutside p (polyTail L mem b p).obj
      [L.poly_verts, L.poly_stcoords, L.poly_normals, L.poly_colors, L.poly_elems] := by
  unfold polyTail
  refine EqOutside_copyTail _ _ _ _ _ _ _ _ _ (EqOutside_copyTail _ _ _ _ _ _ _ _ _
    (EqOutside_copyTail _ _ _ _ _ _ _ _ _ (EqOutside_copyTail _ _ _ _ _ _ _ _ _
      (EqOutside_copyTail _ _ _ _ _ _ _ _ _ (EqOutside_refl _ _) ?_) ?_) ?_) ?_) ?_ <;> simp

theorem entityTail_eqOutside (L : Layout) (env : Env) (b : ref_cmdbuf_t) (e : List Byte) :
    EqOutside e (entityTail L env b e).obj [L.entity_boneposes, L.entity_oldboneposes] := by
  unfold entityTail
  refine EqOutside_copyTail _ _ _ _ _ _ _ _ _ (EqOutside_copyTail _ _ _ _ _ _ _ _ _
    (EqOutside_refl _ _) ?_) ?_ <;> simp

theorem refdefStored_eqOutside (L : Layout) (env : Env) (b : ref_cmdbuf_t) (fd : Nat) :
    EqOutside (readBytes env.mem fd L.sizeof_refdef_t) (refdefStored L env b fd)
      [L.refdef_areabits] := by
  unfold refdefStored
  simp only
  split
  · exact EqOutside_set64 _ _ _ _ _ (EqOutside_refl _ _) (by simp)
  · exact EqOutside_refl _ _

theorem reply_cases (L : Layout) (env : Env) (rsh : rsh_t) (b : ref_cmdbuf_t) (c : FrameCmd) :
    (stale L env rsh b c ∧ reply L env rsh b c = []) ∨
    (¬ stale L env rsh b c ∧ ∃ call, reply L env rsh b c = [call] ∧ Matches L env c call) := by
  cases c with
  | DrawStretchPoly poly x_offset y_offset =>
    exact Or.inr ⟨fun h => h, _, rfl, _, rfl, polyTail_eqOutside L env.mem b _⟩
  | AddPolyToScene poly =>
    exact Or.inr ⟨fun h => h, _, rfl, _, rfl, polyTail_eqOutside L env.mem b _⟩
  | AddEntityToScene ent =>
    exact Or.inr ⟨fun h => h, _, rfl, _, rfl, entityTail_eqOutside L env b _⟩
  | RenderScene fd =>
    by_cases h : renderSceneRuns L env.rsh rsh (refdefStored L env b fd)
    · refine Or.inr ⟨fun hs => hs h, _, ?_, _, rfl, refdefStored_eqOutside L env b fd⟩
      simp only [reply, if_pos h]
    · refine Or.inl ⟨h, ?_⟩
      simp only [reply, if_neg h]
  | _ => exact Or.inr ⟨fun h => h, _, rfl, rfl⟩

theorem replayed_matches (L : Layout) (rsh : rsh_t) (cs : List (Env × FrameCmd)) :
    ∀ b : ref_cmdbuf_t,
      List.Forall₂ (fun p call => Matches L p.1 p.2 call) (replayed L rsh b cs)
        ((expectedLog L rsh b cs).flatMap (fun v => v.calls)) := by
  induction cs with
  | nil => intro b; exact List.Forall₂.nil
  | cons p rest ih =>
    obtain ⟨env, c⟩ := p
    intro b
    have hrest := ih (issue L env b c)
    simp only [replayed, expectedLog]
    by_cases hsame : (issue L env b c).len = b.len
    · simp only [hsame, true_or, if_true, List.nil_append]
      simp only [hsame] at hrest
      exact hrest
    · rcases reply_cases L env rsh b c with ⟨hs, hr⟩ | ⟨hs, call, hr, hm⟩
      · simp only [hsame, hs, or_true, if_true, if_false, List.nil_append, List.flatMap_append,
          List.flatMap_cons, List.flatMap_nil, hr, List.append_nil]
        exact hrest
      · simp only [hsame, hs, or_self, if_false, List.flatMap_append, List.flatMap_cons,
          List.flatMap_nil, hr, List.append_nil, List.singleton_append]
        exact List.Forall₂.cons hm hrest

theorem getElem_set64 (s : List Byte) (off : Nat) (v : U64) (i : Nat)
    (hi : i < (set64 s off v).length) (hs : i < s.length) :
    (set64 s off v)[i] = if off ≤ i ∧ i < off + 8 then v.bytes.getD (i - off) 0 else s[i] := by
  unfold set64
  rw [getElem_readBytes]
  unfold memcpy
  simp only [Nat.zero_add, U64_bytes_length]
  split
  · rfl
  · exact List.getD_eq_getElem _ _ hs

theorem drop_take_set64_same (s : List Byte) (off : Nat) (v : U64) (h : off + 8 ≤ s.length) :
    ((set64 s off v).drop off).take 8 = v.bytes := by
  apply List.ext_getElem
  · simp only [List.length_take, List.length_drop, set64_length, U64_bytes_length]; omega
  · intro i h1 h2
    rw [U64_bytes_length] at h2
    rw [List.getElem_take, List.getElem_drop, getElem_set64 _ _ _ _ _ (by omega),
      if_pos (by omega), Nat.add_sub_cancel_left,
      List.getD_eq_getElem _ _ (by rw [U64_bytes_length]; exact h2)]

theorem take_eq_of_length (l : List Byte) (n : Nat) (h : l.length = n) : l.take n = l := by
  rw [← h, List.take_length]

theorem get64_set64_same (s : List Byte) (off : Nat) (v : U64) (h : off + 8 ≤ s.length) :
    get64 (set64 s off v) off = v := by
  unfold get64 rdU64
  rw [drop_take_set64_same s off v h]
  have := rdU64_bytes v
  unfold rdU64 at this
  rw [take_eq_of_length _ 8 (U64_bytes_length v)] at this
  exact this

theorem drop_take_set64_other (s : List Byte) (off off' k : Nat) (v : U64)
    (h : off' + k ≤ off ∨ off + 8 ≤ off') :
    ((set64 s off v).drop off').take k = (s.drop off').take k := by
  apply List.ext_getElem
  · simp only [List.length_take, List.length_drop, set64_length]
  · intro i h1 h2
    simp only [List.length_take, List.length_drop, set64_length] at h1 h2
    rw [List.getElem_take, List.getElem_drop, List.getElem_take, List.getElem_drop,
      getElem_set64 _ _ _ _ _ (by omega), if_neg (by omega)]

theorem get64_set64_other (s : List Byte) (off off' : Nat) (v : U64)
    (h : off' + 8 ≤ off ∨ off + 8 ≤ off') : get64 (set64 s off v) off' = get64 s off' := by
  unfold get64 rdU64
  rw [drop_take_set64_other s off off' 8 v h]

theorem get32_set64_other (s : List Byte) (off off' : Nat) (v : U64)
    (h : off' + 4 ≤ off ∨ off + 8 ≤ off') : get32 (set64 s off v) off' = get32 s off' := by
  unfold get32 rdU32
  rw [drop_take_set64_other s off off' 4 v h]

theorem Copied_orig (mem : Mem) (base : Nat) (f : TailState) (o1 o2 : List Byte)
    (blocks : List TailBlock) :
    ∀ a, (∀ k ∈ blocks, get64 o1 k.member = get64 o2 k.member) →
      Copied mem base f o1 a blocks → Copied mem base f o2 a blocks := by
  induction blocks with
  | nil => intro _ _ _; trivial
  | cons k rest ih =>
    intro a h hc
    obtain ⟨h1, h2, h3⟩ := hc
    refine ⟨h1, fun hp => ?_, ih _ (fun k' hk' => h k' (List.mem_cons_of_mem _ hk')) h3⟩
    rw [h2 hp, h k (List.mem_cons_self _ _)]

theorem copyTails_spec (mem : Mem) (base : Nat) (blocks : List TailBlock) :
    ∀ t : TailState,
      (blocks.map (fun k => k.member)).Pairwise (fun a b => a + 8 ≤ b ∨ b + 8 ≤ a) →
      (∀ k ∈ blocks, k.member + 8 ≤ t.obj.length) →
      Copied mem base (copyTails mem base blocks t) t.obj t.pcmd blocks ∧
      (copyTails mem base blocks t).pcmd = t.pcmd + tailBytes blocks ∧
      (∀ i, i < t.pcmd → (copyTails mem base blocks t).buf i = t.buf i) ∧
      (∀ m, (∀ k ∈ blocks, m + 8 ≤ k.member ∨ k.member + 8 ≤ m) →
        get64 (copyTails mem base blocks t).obj m = get64 t.obj m) ∧
      (copyTails mem base blocks t).obj.length = t.obj.length := by
  induction blocks with
  | nil =>
    intro t _ _
    exact ⟨trivial, rfl, fun _ _ => rfl, fun _ _ => rfl, rfl⟩
  | cons k rest ih =>
    intro t hpw hin
    rw [List.map_cons, List.pairwise_cons] at hpw
    obtain ⟨hk, hrest⟩ := hpw
    have hlen1 : (copyTail mem base k.present k.member k.src k.n t).obj.length = t.obj.length :=
      copyTail_obj_length ..
    obtain ⟨i1, i2, i3, i4, i5⟩ := ih (copyTail mem base k.present k.member k.src k.n t) hrest
      (fun k' hk' => by rw [hlen1]; exact hin k' (List.mem_cons_of_mem _ hk'))
    have hkm : ∀ k' ∈ rest, k.member + 8 ≤ k'.member ∨ k'.member + 8 ≤ k.member :=
      fun k' hk' => hk k'.member (List.mem_map_of_mem _ hk')
    have hpc : (copyTail mem base k.present k.member k.src k.n t).pcmd
        = t.pcmd + if k.present then k.n else 0 := by
      unfold copyTail; split <;> simp_all
    have hc : copyTails mem base (k :: rest) t
        = copyTails mem base rest (copyTail mem base k.present k.member k.src k.n t) := rfl
    rw [hc]
    have hother : ∀ k' ∈ rest, get64 (copyTail mem base k.present k.member k.src k.n t).obj
        k'.member = get64 t.obj k'.member := by
      intro k' hk'
      unfold copyTail
      split
      · exact get64_set64_other _ _ _ _ (by have := hkm k' hk'; omega)
      · rfl
    refine ⟨⟨fun hp => ⟨?_, ?_⟩, fun hp => ?_, ?_⟩, ?_, ?_, ?_, ?_⟩
    · rw [i4 k.member hkm]
      unfold copyTail
      rw [if_pos hp]
      exact get64_set64_same _ _ _ (hin k (List.mem_cons_self _ _))
    · have : readBytes (copyTails mem base rest (copyTail mem base k.present k.member k.src k.n t)).buf
          t.pcmd k.n = readBytes (copyTail mem base k.present k.member k.src k.n t).buf t.pcmd k.n :=
        readBytes_congr _ _ _ _ (fun i _ h2 => i3 i (by rw [hpc, if_pos hp]; exact h2))
      rw [this]
      unfold copyTail
      rw [if_pos hp]
      exact readBytes_memcpy_same _ _ _ _ (readBytes_length _ _ _)
    · rw [i4 k.member hkm]
      unfold copyTail
      rw [if_neg (by rw [hp]; exact Bool.false_ne_true)]
    · rw [← hpc]; exact Copied_orig mem base _ _ _ rest _ hother i1
    · rw [i2, hpc]; simp only [tailBytes]; omega
    · intro i hi
      rw [i3 i (by rw [hpc]; omega)]
      exact (copyTail_inv mem base k.present k.member k.src k.n t t.pcmd t.buf
        ⟨Nat.le_refl _, fun _ _ => rfl⟩).2 i hi
    · intro m hm
      rw [i4 m (fun k' hk' => hm k' (List.mem_cons_of_mem _ hk'))]
      unfold copyTail
      split
      · exact get64_set64_other _ _ _ _ (by have := hm k (List.mem_cons_self _ _); omega)
      · rfl
    · rw [i5, hlen1]

theorem Copied_mem (mem : Mem) (base : Nat) (f : TailState) (orig : List Byte)
    (blocks : List TailBlock) :
    ∀ a, Copied mem base f orig a blocks → ∀ k ∈ blocks,
      (k.present = true → ∃ a', a ≤ a' ∧ a' + k.n ≤ a + tailBytes blocks ∧
        get64 f.obj k.member = U64.ofNat (base + a') ∧
        readBytes f.buf a' k.n = readBytes mem k.src.val k.n) ∧
      (k.present = false → get64 f.obj k.member = get64 orig k.member) := by
  induction blocks with
  | nil => intro _ _ k hk; cases hk
  | cons k0 rest ih =>
    intro a hc k hk
    obtain ⟨h1, h2, h3⟩ := hc
    rcases List.mem_cons.mp hk with rfl | hk'
    · refine ⟨fun hp => ⟨a, Nat.le_refl _, ?_, (h1 hp).1, (h1 hp).2⟩, h2⟩
      simp only [tailBytes, hp, if_true]
      omega
    · obtain ⟨j1, j2⟩ := ih _ h3 k hk'
      refine ⟨fun hp => ?_, j2⟩
      obtain ⟨a', b1, b2, b3, b4⟩ := j1 hp
      refine ⟨a', by omega, ?_, b3, b4⟩
      simp only [tailBytes]
      omega


theorem U64_ofNat_val (n : Nat) (h : n < SIZE_MOD) : (U64.ofNat n).val = n :=
  Nat.mod_eq_of_lt h

theorem arrayReplayed_of_block (mem : Mem) (base : Nat) (f : TailState) (orig : List Byte)
    (blocks : List TailBlock) (lo hi : Nat) (buf' : Mem)
    (hC : Copied mem base f orig lo blocks) (k : TailBlock) (hk : k ∈ blocks)
    (hflag : k.present = decide (get64 orig k.member ≠ 0))
    (hsrc : k.src = get64 orig k.member)
    (hbuf : ∀ i, lo ≤ i → i < lo + tailBytes blocks → buf' i = f.buf i)
    (hhi : lo + tailBytes blocks ≤ hi) (hwrap : base + hi < SIZE_MOD) (hlo : 0 < lo) :
    ArrayReplayed mem base buf' lo hi orig f.obj k.member k.n := by
  obtain ⟨h1, h2⟩ := Copied_mem mem base f orig blocks lo hC k hk
  unfold ArrayReplayed
  by_cases hz : get64 orig k.member = 0
  · rw [if_pos hz, h2 (by rw [hflag]; simp [hz]), hz]
  · rw [if_neg hz]
    obtain ⟨a', b1, b2, b3, b4⟩ := h1 (by rw [hflag]; simp [hz])
    have hv : (get64 f.obj k.member).val = base + a' := by
      rw [b3, U64_ofNat_val _ (by omega)]
    refine ⟨?_, a', hv, b1, ?_, ?_⟩
    · intro h0
      rw [h0] at hv
      have : ((0 : U64)).val = 0 := rfl
      omega
    · rw [readBytes_length]; omega
    · rw [readBytes_length, ← hsrc, ← b4]
      exact readBytes_congr _ _ _ _ (fun i hi1 hi2 => hbuf i (by omega) (by omega))

theorem condAdd_step (c : Prop) [Decidable c] (x t s : Nat) (hx : x = s)
    (h : s + t < SIZE_MOD) :
    (if c then szAdd x t else x) = s + (if c then t else 0) := by
  subst hx
  split
  · exact szAdd_eq _ _ h
  · rfl

theorem ite_le_self (c : Prop) [Decidable c] (t : Nat) : (if c then t else 0) ≤ t := by
  split <;> omega

theorem ALIGN_ge_of_eq (x s : Nat) (hx : x = s) (h : s + 3 < SIZE_MOD) :
    s ≤ ALIGN x sizeof_float := by
  subst hx
  exact (ALIGN_four_bounds x h).1

theorem polyCmdLen_ge_tail (L : Layout) (p : List Byte) (hs : L.sizeof_poly_t < 4294967296)
    (hv : 0 ≤ toInt (get32 p L.poly_numverts)) (he : 0 ≤ toInt (get32 p L.poly_numelems)) :
    sizeof_refCmdDrawStretchOrScenePoly_t L + tailBytes (polyBlocks L p) ≤ polyCmdLen L p := by
  have m1 := szMul_small _ sizeof_vec4_t hv (by decide)
  have m2 := szMul_small _ sizeof_vec2_t hv (by decide)
  have m3 := szMul_small _ sizeof_byte_vec4_t hv (by decide)
  have m4 := szMul_small _ sizeof_elem_t he (by decide)
  have hh : sizeof_refCmdDrawStretchOrScenePoly_t L < 4294967296 + 16 := by
    unfold sizeof_refCmdDrawStretchOrScenePoly_t; omega
  have hM : SIZE_MOD = 18446744073709551616 := rfl
  have b1 := ite_le_self (get64 p L.poly_verts ≠ 0)
    (szMul (intToSize (get32 p L.poly_numverts)) sizeof_vec4_t)
  have b2 := ite_le_self (get64 p L.poly_stcoords ≠ 0)
    (szMul (intToSize (get32 p L.poly_numverts)) sizeof_vec2_t)
  have b3 := ite_le_self (get64 p L.poly_normals ≠ 0)
    (szMul (intToSize (get32 p L.poly_numverts)) sizeof_vec4_t)
  have b4 := ite_le_self (get64 p L.poly_colors ≠ 0)
    (szMul (intToSize (get32 p L.poly_numverts)) sizeof_byte_vec4_t)
  have b5 := ite_le_self (get64 p L.poly_elems ≠ 0)
    (szMul (intToSize (get32 p L.poly_numelems)) sizeof_elem_t)
  have e1 := condAdd_step (get64 p L.poly_verts ≠ 0) (sizeof_refCmdDrawStretchOrScenePoly_t L)
    (szMul (intToSize (get32 p L.poly_numverts)) sizeof_vec4_t) _ rfl (by omega)
  have e2 := condAdd_step (get64 p L.poly_stcoords ≠ 0) _
    (szMul (intToSize (get32 p L.poly_numverts)) sizeof_vec2_t) _ e1 (by omega)
  have e3 := condAdd_step (get64 p L.poly_normals ≠ 0) _
    (szMul (intToSize (get32 p L.poly_numverts)) sizeof_vec4_t) _ e2 (by omega)
  have e4 := condAdd_step (get64 p L.poly_colors ≠ 0) _
    (szMul (intToSize (get32 p L.poly_numverts)) sizeof_byte_vec4_t) _ e3 (by omega)
  have e5 := condAdd_step (get64 p L.poly_elems ≠ 0) _
    (szMul (intToSize (get32 p L.poly_numelems)) sizeof_elem_t) _ e4 (by omega)
  have a := ALIGN_ge_of_eq _ _ e5 (by omega)
  refine Nat.le_trans ?_ a
  simp only [polyBlocks, tailBytes, decide_eq_true_eq, ne_eq]
  omega


theorem szMul_intToSize (w : U32) (k : Nat) (h : 0 ≤ toInt w) (hk : k ≤ 4294967295) :
    szMul (intToSize w) k = w.val * k := by
  obtain ⟨h1, h2⟩ := intToSize_of_nonneg w h
  rw [h1]
  have : w.val * k ≤ 2147483647 * 4294967295 := Nat.mul_le_mul (by omega) hk
  exact Nat.mod_eq_of_lt (by unfold SIZE_MOD; omega)

theorem toInt_pos_ne_zero (w : U32) (h : 0 < toInt w) : w ≠ 0 := by
  intro h0
  rw [h0] at h
  exact absurd h (by decide)

theorem poly_issue_arrays (L : Layout) (hL : L.SizesOk) (hP : L.PolyPointersOk) (mem : Mem)
    (b : ref_cmdbuf_t) (id : U32) (poly : Nat) (x_offset y_offset : U32)
    (hbase : b.base + L.sizeof_buf < SIZE_MOD)
    (hnv : 0 < toInt (get32 (readBytes mem poly L.sizeof_poly_t) L.poly_numverts))
    (hne : 0 ≤ toInt (get32 (readBytes mem poly L.sizeof_poly_t) L.poly_numelems))
    (hsh : get64 (readBytes mem poly L.sizeof_poly_t) L.poly_shader ≠ 0)
    (hfit : b.len + polyCmdLen L (readBytes mem poly L.sizeof_poly_t) ≤ L.sizeof_buf) :
    RF_IssueDrawStretchPolyOrAddPolyToSceneCmd L mem b id poly x_offset y_offset
      = { b with
          buf := memcpy (polyTail L mem b (readBytes mem poly L.sizeof_poly_t)).buf b.len
            (refCmdDrawStretchOrScenePoly_t.toBytes
              { id := id,
                length := U32.ofNat (polyCmdLen L (readBytes mem poly L.sizeof_poly_t)),
                x_offset := x_offset, y_offset := y_offset,
                poly := (polyTail L mem b (readBytes mem poly L.sizeof_poly_t)).obj }),
          len := b.len + polyCmdLen L (readBytes mem poly L.sizeof_poly_t) } ∧
    PolyArraysReplayed L mem
      (RF_IssueDrawStretchPolyOrAddPolyToSceneCmd L mem b id poly x_offset y_offset) b.len
      (readBytes mem poly L.sizeof_poly_t)
      (polyTail L mem b (readBytes mem poly L.sizeof_poly_t)).obj := by
  have hcap := hL.1
  have hv0 : 0 ≤ toInt (get32 (readBytes mem poly L.sizeof_poly_t) L.poly_numverts) := by omega
  have hnz := toInt_pos_ne_zero _ hnv
  generalize hp : readBytes mem poly L.sizeof_poly_t = p at *
  have hplen : p.length = L.sizeof_poly_t := by rw [← hp, readBytes_length]
  have hM : SIZE_MOD = 18446744073709551616 := rfl
  have hsz : szAdd b.len (polyCmdLen L p) = b.len + polyCmdLen L p :=
    szAdd_eq _ _ (by omega)
  have heq : RF_IssueDrawStretchPolyOrAddPolyToSceneCmd L mem b id poly x_offset y_offset
      = { b with
          buf := memcpy (polyTail L mem b p).buf b.len
            (refCmdDrawStretchOrScenePoly_t.toBytes
              { id := id, length := U32.ofNat (polyCmdLen L p),
                x_offset := x_offset, y_offset := y_offset,
                poly := (polyTail L mem b p).obj }),
          len := b.len + polyCmdLen L p } := by
    unfold RF_IssueDrawStretchPolyOrAddPolyToSceneCmd
    simp only [hp, hsz]
    rw [if_neg (by rintro (h | h); exact hnz h; exact hsh h), if_neg (by omega)]
  refine ⟨heq, ?_⟩
  have hge := polyCmdLen_ge_tail L p hL.2.1 hv0 hne
  obtain ⟨hC, -, -, -, hlen⟩ := copyTails_spec mem b.base (polyBlocks L p)
    { obj := p, buf := b.buf, pcmd := b.len + sizeof_refCmdDrawStretchOrScenePoly_t L }
    hP.2 (by
      intro k hk
      show k.member + 8 ≤ p.length
      rw [hplen]
      apply hP.1
      simp only [polyBlocks, List.mem_cons, List.mem_singleton, List.not_mem_nil, or_false] at hk
      rcases hk with rfl | rfl | rfl | rfl | rfl <;> simp)
  have hT : polyTail L mem b p = copyTails mem b.base (polyBlocks L p)
      { obj := p, buf := b.buf, pcmd := b.len + sizeof_refCmdDrawStretchOrScenePoly_t L } := rfl
  rw [← hT] at hC hlen
  dsimp only at hC hlen
  have hrec : (refCmdDrawStretchOrScenePoly_t.toBytes
      { id := id, length := U32.ofNat (polyCmdLen L p), x_offset := x_offset,
        y_offset := y_offset, poly := (polyTail L mem b p).obj }).length
      = sizeof_refCmdDrawStretchOrScenePoly_t L :=
    refCmdDrawStretchOrScenePoly_t_toBytes_length L _ (by rw [polyTail_obj_length, hplen])
  have h16 : 16 ≤ sizeof_refCmdDrawStretchOrScenePoly_t L := Nat.le_add_right _ _
  have key : ∀ k ∈ polyBlocks L p, k.present = decide (get64 p k.member ≠ 0) →
      k.src = get64 p k.member →
      ArrayReplayed mem b.base
        (memcpy (polyTail L mem b p).buf b.len (refCmdDrawStretchOrScenePoly_t.toBytes
          { id := id, length := U32.ofNat (polyCmdLen L p), x_offset := x_offset,
            y_offset := y_offset, poly := (polyTail L mem b p).obj }))
        (b.len + sizeof_refCmdDrawStretchOrScenePoly_t L) (b.len + polyCmdLen L p) p
        (polyTail L mem b p).obj k.member k.n := by
    intro k hk hflag hsrc
    refine arrayReplayed_of_block mem b.base _ p (polyBlocks L p) _ _ _ hC k hk hflag hsrc ?_
      (by omega) (by omega) (by omega)
    intro i hi1 _
    exact memcpy_outside _ _ _ _ (Or.inr (by rw [hrec]; exact hi1))
  rw [heq]
  unfold PolyArraysReplayed
  have n1 := szMul_intToSize (get32 p L.poly_numverts) sizeof_vec4_t hv0 (by decide)
  have n2 := szMul_intToSize (get32 p L.poly_numverts) sizeof_vec2_t hv0 (by decide)
  have n3 := szMul_intToSize (get32 p L.poly_numverts) sizeof_byte_vec4_t hv0 (by decide)
  have n4 := szMul_intToSize (get32 p L.poly_numelems) sizeof_elem_t hne (by decide)
  refine ⟨?_, ?_, ?_, ?_, ?_⟩
  · rw [← n1]; exact key _ (List.mem_cons_self _ _) rfl rfl
  · rw [← n2]
    exact key _ (List.mem_cons_of_mem _ (List.mem_cons_self _ _)) rfl rfl
  · rw [← n1]
    exact key _ (List.mem_cons_of_mem _ (List.mem_cons_of_mem _ (List.mem_cons_self _ _))) rfl rfl
  · rw [← n3]
    exact key _ (List.mem_cons_of_mem _ (List.mem_cons_of_mem _ (List.mem_cons_of_mem _
      (List.mem_cons_self _ _)))) rfl rfl
  · rw [← n4]
    exact key _ (List.mem_cons_of_mem _ (List.mem_cons_of_mem _ (List.mem_cons_of_mem _
      (List.mem_cons_of_mem _ (List.mem_cons_self _ _))))) rfl rfl


theorem run_poly (L : Layout) (hL : L.SizesOk) (hP : L.PolyPointersOk) (mem : Mem)
    (rsh : rsh_t) (b : ref_cmdbuf_t) (id : U32) (poly : Nat) (x_offset y_offset : U32)
    (calls : List Byte → List BackendCall)
    (hb : b.len = 0) (hbase : b.base + L.sizeof_buf < SIZE_MOD)
    (hnv : 0 < toInt (get32 (readBytes mem poly L.sizeof_poly_t) L.poly_numverts))
    (hne : 0 ≤ toInt (get32 (readBytes mem poly L.sizeof_poly_t) L.poly_numelems))
    (hsh : get64 (readBytes mem poly L.sizeof_poly_t) L.poly_shader ≠ 0)
    (hfit : polyCmdLen L (readBytes mem poly L.sizeof_poly_t) ≤ L.sizeof_buf)
    (hrec : ∀ (m : Mem) (len : Nat) (q : List Byte), q.length = L.sizeof_poly_t →
      len < 4294967296 → sizeof_refCmdDrawStretchOrScenePoly_t L ≤ len →
      RecordAt L rsh (memcpy m 0 (refCmdDrawStretchOrScenePoly_t.toBytes
        { id := id, length := U32.ofNat len, x_offset := x_offset, y_offset := y_offset,
          poly := q })) 0 { offset := 0, calls := calls q, len := len }) :
    (RF_RunCmdBufProc L rsh
      (RF_IssueDrawStretchPolyOrAddPolyToSceneCmd L mem b id poly x_offset y_offset)).map
      RunResult.trace
      = some (calls (polyTail L mem b (readBytes mem poly L.sizeof_poly_t)).obj) ∧
    PolyArraysReplayed L mem
      (RF_IssueDrawStretchPolyOrAddPolyToSceneCmd L mem b id poly x_offset y_offset) 0
      (readBytes mem poly L.sizeof_poly_t)
      (polyTail L mem b (readBytes mem poly L.sizeof_poly_t)).obj := by
  have hcap := hL.1
  obtain ⟨heq, harr⟩ := poly_issue_arrays L hL hP mem b id poly x_offset y_offset hbase hnv hne
    hsh (by omega)
  rw [hb] at harr
  refine ⟨?_, harr⟩
  obtain ⟨h1, h2⟩ := polyCmdLen_bounds L (readBytes mem poly L.sizeof_poly_t) hL.2.1
    (by omega) hne
  have hr := hrec (polyTail L mem b (readBytes mem poly L.sizeof_poly_t)).buf
    (polyCmdLen L (readBytes mem poly L.sizeof_poly_t))
    (polyTail L mem b (readBytes mem poly L.sizeof_poly_t)).obj
    (by rw [polyTail_obj_length, readBytes_length]) (by omega) h1
  rw [heq, hb, Nat.zero_add]
  have hlt : polyCmdLen L (readBytes mem poly L.sizeof_poly_t) < SIZE_MOD := by
    unfold SIZE_MOD; omega
  have h := run_one L rsh
    { b with
      buf := memcpy (polyTail L mem b (readBytes mem poly L.sizeof_poly_t)).buf 0
        (refCmdDrawStretchOrScenePoly_t.toBytes
          { id := id,
            length := U32.ofNat (polyCmdLen L (readBytes mem poly L.sizeof_poly_t)),
            x_offset := x_offset, y_offset := y_offset,
            poly := (polyTail L mem b (readBytes mem poly L.sizeof_poly_t)).obj }),
      len := polyCmdLen L (readBytes mem poly L.sizeof_poly_t) }
    { offset := 0,
      calls := calls (polyTail L mem b (readBytes mem poly L.sizeof_poly_t)).obj,
      len := polyCmdLen L (readBytes mem poly L.sizeof_poly_t) } hr rfl hlt
  rw [h]
  simp [RunResult.trace]

/-- C7. Polygon round trip: for every polygon with `numverts > 0`, `numelems >= 0` and a
non-null shader whose record fits, encoding it into an empty buffer with
`DrawStretchPoly` (or `AddPolyToScene`) and dispatching calls `R_DrawStretchPoly` with
the given offsets (or `R_AddPolyToScene`) exactly once, with a polygon `q` that equals
the caller's outside the five array pointers, and in which each of `verts`, `stcoords`,
`normals`, `colors` and `elems` is null exactly when the caller's is, and otherwise
refers to bytes inside the record that equal the caller's array (`numverts` elements,
for `elems` `numelems` elements). -/
theorem C7_polygon_round_trip (L : Layout) (hL : L.SizesOk) (hP : L.PolyPointersOk)
    (mem : Mem) (rsh : rsh_t) (b : ref_cmdbuf_t) (poly : Nat) (x_offset y_offset : U32)
    (hb : b.len = 0) (hbase : b.base + L.sizeof_buf < SIZE_MOD)
    (hnv : 0 < toInt (get32 (readBytes mem poly L.sizeof_poly_t) L.poly_numverts))
    (hne : 0 ≤ toInt (get32 (readBytes mem poly L.sizeof_poly_t) L.poly_numelems))
    (hsh : get64 (readBytes mem poly L.sizeof_poly_t) L.poly_shader ≠ 0)
    (hfit : polyCmdLen L (readBytes mem poly L.sizeof_poly_t) ≤ L.sizeof_buf) :
    ∃ q, EqOutside (readBytes mem poly L.sizeof_poly_t) q
        [L.poly_verts, L.poly_stcoords, L.poly_normals, L.poly_colors, L.poly_elems] ∧
      (RF_RunCmdBufProc L rsh (RF_IssueDrawStretchPolyCmd L mem b poly x_offset y_offset)).map
        RunResult.trace = some [.R_DrawStretchPoly q x_offset y_offset] ∧
      PolyArraysReplayed L mem (RF_IssueDrawStretchPolyCmd L mem b poly x_offset y_offset) 0
        (readBytes mem poly L.sizeof_poly_t) q ∧
      (RF_RunCmdBufProc L rsh (RF_IssueAddPolyToSceneCmd L mem b poly)).map
        RunResult.trace = some [.R_AddPolyToScene q] ∧
      PolyArraysReplayed L mem (RF_IssueAddPolyToSceneCmd L mem b poly) 0
        (readBytes mem poly L.sizeof_poly_t) q := by
  obtain ⟨d1, d2⟩ := run_poly L hL hP mem rsh b REF_CMD_DRAW_STRETCH_POLY poly x_offset y_offset
    (fun q => [.R_DrawStretchPoly q x_offset y_offset]) hb hbase hnv hne hsh hfit
    (fun m len q hq hl hs => recordAt_DrawStretchPoly L rsh m 0 len x_offset y_offset q hq hl hs)
  obtain ⟨a1, a2⟩ := run_poly L hL hP mem rsh b REF_CMD_ADD_POLY_TO_SCENE poly 0 0
    (fun q => [.R_AddPolyToScene q]) hb hbase hnv hne hsh hfit
    (fun m len q hq hl hs => recordAt_AddPoly L rsh m 0 len 0 0 q hq hl hs)
  exact ⟨_, polyTail_eqOutside L mem b _, d1, d2, a1, a2⟩

/-- Witness of C7: a polygon with two vertices, a shader and a `verts` array, encoded
into a fresh 64 KiB buffer. -/
theorem C7_polygon_round_trip_witness :
    exampleLayout.SizesOk ∧ exampleLayout.PolyPointersOk ∧ (RF_CreateCmdBuf 4096).len = 0 ∧
    (RF_CreateCmdBuf 4096).base + exampleLayout.sizeof_buf < SIZE_MOD ∧
    0 < toInt (get32 (readBytes polyEnv.mem 64 exampleLayout.sizeof_poly_t)
      exampleLayout.poly_numverts) ∧
    0 ≤ toInt (get32 (readBytes polyEnv.mem 64 exampleLayout.sizeof_poly_t)
      exampleLayout.poly_numelems) ∧
    get64 (readBytes polyEnv.mem 64 exampleLayout.sizeof_poly_t) exampleLayout.poly_shader ≠ 0 ∧
    polyCmdLen exampleLayout (readBytes polyEnv.mem 64 exampleLayout.sizeof_poly_t)
      ≤ exampleLayout.sizeof_buf ∧
    ∃ q, EqOutside (readBytes polyEnv.mem 64 exampleLayout.sizeof_poly_t) q
        [exampleLayout.poly_verts, exampleLayout.poly_stcoords, exampleLayout.poly_normals,
          exampleLayout.poly_colors, exampleLayout.poly_elems] ∧
      (RF_RunCmdBufProc exampleLayout exampleRsh
        (RF_IssueDrawStretchPolyCmd exampleLayout polyEnv.mem (RF_CreateCmdBuf 4096) 64 5 6)).map
        RunResult.trace = some [.R_DrawStretchPoly q 5 6] ∧
      PolyArraysReplayed exampleLayout polyEnv.mem
        (RF_IssueDrawStretchPolyCmd exampleLayout polyEnv.mem (RF_CreateCmdBuf 4096) 64 5 6) 0
        (readBytes polyEnv.mem 64 exampleLayout.sizeof_poly_t) q ∧
      (RF_RunCmdBufProc exampleLayout exampleRsh
        (RF_IssueAddPolyToSceneCmd exampleLayout polyEnv.mem (RF_CreateCmdBuf 4096) 64)).map
        RunResult.trace = some [.R_AddPolyToScene q] ∧
      PolyArraysReplayed exampleLayout polyEnv.mem
        (RF_IssueAddPolyToSceneCmd exampleLayout polyEnv.mem (RF_CreateCmdBuf 4096) 64) 0
        (readBytes polyEnv.mem 64 exampleLayout.sizeof_poly_t) q :=
  ⟨by decide, by decide, rfl, by decide, by decide, by decide, by decide, by decide,
    C7_polygon_round_trip exampleLayout (by decide) (by decide) polyEnv.mem exampleRsh
      (RF_CreateCmdBuf 4096) 64 5 6 rfl (by decide) (by decide) (by decide) (by decide)
      (by decide)⟩

theorem issueAll_frame (L : Layout) (hL : L.SizesOk) (cs : List (Env × FrameCmd)) :
    ∀ b : ref_cmdbuf_t, b.len ≤ L.sizeof_buf → (∀ p ∈ cs, ValidCmd L p.1 p.2) →
      (issueAll L b cs).base = b.base ∧ b.len ≤ (issueAll L b cs).len ∧
      (issueAll L b cs).len ≤ L.sizeof_buf ∧
      ∀ i, i < b.len → (issueAll L b cs).buf i = b.buf i := by
  induction cs with
  | nil => intro b hb _; exact ⟨rfl, Nat.le_refl _, hb, fun _ _ => rfl⟩
  | cons p rest ih =>
    obtain ⟨env, c⟩ := p
    intro b hb hv
    simp only [issueAll]
    obtain ⟨i1, -, i3, i4, i5⟩ := issue_spec L hL env exampleRsh b c hb
      (hv (env, c) (List.mem_cons_self _ _))
    obtain ⟨j1, j2, j3, j4⟩ := ih (issue L env b c) i4
      (fun p hp => hv p (List.mem_cons_of_mem _ hp))
    have hle : b.len ≤ (issue L env b c).len := by
      rcases i5 with h | ⟨h, -⟩ <;> omega
    refine ⟨j1.trans i1, by omega, j3, fun i hi => ?_⟩
    rw [j4 i (by omega), i3 i hi]

theorem entityCmdLen_eq (L : Layout) (hL : L.SizesOk) (env : Env) (e : List Byte)
    (hn : 0 < toInt (env.R_SkeletalGetNumBones (get64 e L.entity_model)))
    (hbp : get64 e L.entity_boneposes ≠ 0) :
    entityCmdLen L env e = sizeof_refCmdAddEntityToScene_t L
      + (env.R_SkeletalGetNumBones (get64 e L.entity_model)).val * L.sizeof_bonepose_t
      + (if get64 e L.entity_oldboneposes = 0 then 0
         else (env.R_SkeletalGetNumBones (get64 e L.entity_model)).val * L.sizeof_bonepose_t) := by
  have hnz := toInt_pos_ne_zero _ hn
  have hb := hL.2.2.2.2
  have hs := hL.2.2.1
  have n1 := szMul_intToSize (env.R_SkeletalGetNumBones (get64 e L.entity_model))
    L.sizeof_bonepose_t (by omega) (by omega)
  have m1 := szMul_bound (env.R_SkeletalGetNumBones (get64 e L.entity_model))
    L.sizeof_bonepose_t (by omega) (by omega)
  have hh : sizeof_refCmdAddEntityToScene_t L < 4294967296 + 32 := by
    unfold sizeof_refCmdAddEntityToScene_t; omega
  have hM : SIZE_MOD = 18446744073709551616 := rfl
  have b1 := ite_le_self
    (env.R_SkeletalGetNumBones (get64 e L.entity_model) ≠ 0 ∧ get64 e L.entity_boneposes ≠ 0)
    (szMul (intToSize (env.R_SkeletalGetNumBones (get64 e L.entity_model))) L.sizeof_bonepose_t)
  have e1 := condAdd_step
    (env.R_SkeletalGetNumBones (get64 e L.entity_model) ≠ 0 ∧ get64 e L.entity_boneposes ≠ 0)
    (sizeof_refCmdAddEntityToScene_t L)
    (szMul (intToSize (env.R_SkeletalGetNumBones (get64 e L.entity_model))) L.sizeof_bonepose_t)
    _ rfl (by omega)
  have e2 := condAdd_step
    (env.R_SkeletalGetNumBones (get64 e L.entity_model) ≠ 0 ∧ get64 e L.entity_oldboneposes ≠ 0)
    _ (szMul (intToSize (env.R_SkeletalGetNumBones (get64 e L.entity_model))) L.sizeof_bonepose_t)
    _ e1 (by omega)
  refine e2.trans ?_
  rw [n1]
  simp only [hnz, hbp, ne_eq, not_false_eq_true, and_self, if_true, true_and, ite_not]

theorem entity_issue_replayed (L : Layout) (hL : L.SizesOk) (hE : L.EntityPointersOk)
    (env : Env) (b : ref_cmdbuf_t) (ent : Nat) (hbase : b.base + L.sizeof_buf < SIZE_MOD)
    (hn : 0 < toInt (env.R_SkeletalGetNumBones
      (get64 (readBytes env.mem ent L.sizeof_entity_t) L.entity_model)))
    (hbp : get64 (readBytes env.mem ent L.sizeof_entity_t) L.entity_boneposes ≠ 0)
    (hfit : b.len + entityCmdLen L env (readBytes env.mem ent L.sizeof_entity_t)
      ≤ L.sizeof_buf) :
    (RF_IssueAddEntityToSceneCmd L env b ent).len
      = b.len + entityCmdLen L env (readBytes env.mem ent L.sizeof_entity_t) ∧
    (RF_IssueAddEntityToSceneCmd L env b ent).base = b.base ∧
    EntityReplayed L env ent (RF_IssueAddEntityToSceneCmd L env b ent) b.len
      (.R_AddEntityToScene (entityTail L env b (readBytes env.mem ent L.sizeof_entity_t)).obj) := by
  have hcap := hL.1
  have hlenEq := entityCmdLen_eq L hL env _ hn hbp
  have hnz := toInt_pos_ne_zero _ hn
  have n1 := szMul_intToSize (env.R_SkeletalGetNumBones
    (get64 (readBytes env.mem ent L.sizeof_entity_t) L.entity_model))
    L.sizeof_bonepose_t (by omega) (by have := hL.2.2.2.2; omega)
  generalize he : readBytes env.mem ent L.sizeof_entity_t = e at *
  have helen : e.length = L.sizeof_entity_t := by rw [← he, readBytes_length]
  have hM : SIZE_MOD = 18446744073709551616 := rfl
  have hsz : szAdd b.len (entityCmdLen L env e) = b.len + entityCmdLen L env e :=
    szAdd_eq _ _ (by omega)
  have heq : RF_IssueAddEntityToSceneCmd L env b ent
      = { b with
          buf := memcpy (entityTail L env b e).buf b.len
            (refCmdAddEntityToScene_t.toBytes
              { refCmdAddEntityToScene_t.ofBytes L
                  (readBytes env.stack 0 (sizeof_refCmdAddEntityToScene_t L)) with
                id := REF_CMD_ADD_ENTITY_TO_SCENE, length := U32.ofNat (entityCmdLen L env e),
                entity := (entityTail L env b e).obj,
                numBoneposes := env.R_SkeletalGetNumBones (get64 e L.entity_model) }),
          len := b.len + entityCmdLen L env e } := by
    unfold RF_IssueAddEntityToSceneCmd
    simp only [he, hsz]
    rw [if_neg (by omega)]
  obtain ⟨hC, -⟩ := copyTails_spec env.mem b.base (entityBlocks L env e)
    { obj := e, buf := b.buf, pcmd := b.len + sizeof_refCmdAddEntityToScene_t L }
    hE.2 (by
      intro k hk
      show k.member + 8 ≤ e.length
      rw [helen]
      apply hE.1
      simp only [entityBlocks, List.mem_cons, List.mem_singleton, List.not_mem_nil, or_false] at hk
      rcases hk with rfl | rfl <;> simp)
  have hT : entityTail L env b e = copyTails env.mem b.base (entityBlocks L env e)
      { obj := e, buf := b.buf, pcmd := b.len + sizeof_refCmdAddEntityToScene_t L } := rfl
  rw [← hT] at hC
  simp only [Copied, entityBlocks, hnz, hbp, ne_eq, not_false_eq_true, and_self, decide_True,
    if_true, true_and, forall_true_left, decide_not, Bool.not_eq_true', decide_eq_false_iff_not,
    Bool.not_eq_false', decide_eq_true_eq, n1, and_true, Bool.true_eq_false, false_implies]
    at hC
  obtain ⟨⟨c1, c2⟩, c3, c4⟩ := hC
  have hrec : (refCmdAddEntityToScene_t.toBytes
      { refCmdAddEntityToScene_t.ofBytes L
          (readBytes env.stack 0 (sizeof_refCmdAddEntityToScene_t L)) with
        id := REF_CMD_ADD_ENTITY_TO_SCENE, length := U32.ofNat (entityCmdLen L env e),
        entity := (entityTail L env b e).obj,
        numBoneposes := env.R_SkeletalGetNumBones (get64 e L.entity_model) }).length = sizeof_refCmdAddEntityToScene_t L :=
    refCmdAddEntityToScene_t_toBytes_length L _ (by rw [entityTail_obj_length, helen])
  have hout : ∀ a n, b.len + sizeof_refCmdAddEntityToScene_t L ≤ a →
      readBytes (memcpy (entityTail L env b e).buf b.len (refCmdAddEntityToScene_t.toBytes
        { refCmdAddEntityToScene_t.ofBytes L
            (readBytes env.stack 0 (sizeof_refCmdAddEntityToScene_t L)) with
          id := REF_CMD_ADD_ENTITY_TO_SCENE, length := U32.ofNat (entityCmdLen L env e),
          entity := (entityTail L env b e).obj,
          numBoneposes := env.R_SkeletalGetNumBones (get64 e L.entity_model) })) a n
        = readBytes (entityTail L env b e).buf a n := fun a n ha =>
    readBytes_memcpy_disjoint _ _ _ _ _ (Or.inr (by rw [hrec]; exact ha))
  rw [heq]
  unfold EntityReplayed
  simp only [he]
  refine ⟨trivial, trivial, _, rfl, entityTail_eqOutside L env b e, ?_, ?_, ?_⟩
  · rw [c1, U64_ofNat_val _ (by omega)]
  · show readBytes (memcpy _ _ _) _ _ = _
    rw [hout _ _ (Nat.le_refl _), c2]
  · by_cases hold : get64 e L.entity_oldboneposes = 0
    · rw [if_pos hold, c4 hold, hold]
    · rw [if_neg hold]
      obtain ⟨d1, d2⟩ := c3 hold
      rw [if_neg hold] at hlenEq
      refine ⟨?_, ?_⟩
      · rw [d1, U64_ofNat_val _ (by omega)]
      · show readBytes (memcpy _ _ _) _ _ = _
        rw [hout _ _ (by omega), d2]

theorem EntityReplayed_congr (L : Layout) (env : Env) (ent : Nat) (b1 b' : ref_cmdbuf_t)
    (start : Nat) (call : BackendCall) (hbase : b'.base = b1.base)
    (hbuf : ∀ i, i < b1.len → b'.buf i = b1.buf i)
    (hspan : start + sizeof_refCmdAddEntityToScene_t L
      + (env.R_SkeletalGetNumBones
          (get64 (readBytes env.mem ent L.sizeof_entity_t) L.entity_model)).val
        * L.sizeof_bonepose_t
      + (if get64 (readBytes env.mem ent L.sizeof_entity_t) L.entity_oldboneposes = 0 then 0
         else (env.R_SkeletalGetNumBones
          (get64 (readBytes env.mem ent L.sizeof_entity_t) L.entity_model)).val
        * L.sizeof_bonepose_t) ≤ b1.len)
    (h : EntityReplayed L env ent b1 start call) : EntityReplayed L env ent b' start call := by
  unfold EntityReplayed at h ⊢
  obtain ⟨q, h1, h2, h3, h4, h5⟩ := h
  refine ⟨q, h1, h2, by rw [hbase]; exact h3, ?_, ?_⟩
  · rw [← h4]
    exact readBytes_congr _ _ _ _ (fun i _ hi2 => hbuf i (by
      have := Nat.zero_le (if get64 (readBytes env.mem ent L.sizeof_entity_t)
        L.entity_oldboneposes = 0 then 0 else (env.R_SkeletalGetNumBones
          (get64 (readBytes env.mem ent L.sizeof_entity_t) L.entity_model)).val
        * L.sizeof_bonepose_t)
      omega))
  · by_cases hold : get64 (readBytes env.mem ent L.sizeof_entity_t) L.entity_oldboneposes = 0
    · rw [if_pos hold] at h5 ⊢
      exact h5
    · rw [if_neg hold] at h5 hspan ⊢
      refine ⟨by rw [hbase]; exact h5.1, ?_⟩
      rw [← h5.2]
      exact readBytes_congr _ _ _ _ (fun i _ hi2 => hbuf i (by omega))

theorem entities_replayed (L : Layout) (hL : L.SizesOk) (hE : L.EntityPointersOk) (rsh : rsh_t)
    (es : List (Env × Nat)) :
    ∀ b : ref_cmdbuf_t, b.len + entitiesLen L es ≤ L.sizeof_buf →
      b.base + L.sizeof_buf < SIZE_MOD →
      (∀ p ∈ es, 0 < toInt (p.1.R_SkeletalGetNumBones
          (get64 (readBytes p.1.mem p.2 L.sizeof_entity_t) L.entity_model)) ∧
        get64 (readBytes p.1.mem p.2 L.sizeof_entity_t) L.entity_boneposes ≠ 0) →
      ((expectedLog L rsh b (entityCmds es)).flatMap (fun v => v.calls)).length = es.length ∧
      EntitiesReplayed L (issueAll L b (entityCmds es)) b.len es
        ((expectedLog L rsh b (entityCmds es)).flatMap (fun v => v.calls)) := by
  induction es with
  | nil => intro b _ _ _; exact ⟨rfl, trivial⟩
  | cons p rest ih =>
    obtain ⟨env, ent⟩ := p
    intro b hfit hbase hbones
    obtain ⟨hn, hbp⟩ := hbones (env, ent) (List.mem_cons_self _ _)
    dsimp only at hn hbp
    have hrestb := fun p hp => hbones p (List.mem_cons_of_mem _ hp)
    have hsum : entitiesLen L ((env, ent) :: rest)
        = entityCmdLen L env (readBytes env.mem ent L.sizeof_entity_t) + entitiesLen L rest := by
      simp [entitiesLen]
    rw [hsum] at hfit
    obtain ⟨k1, k2, k3⟩ := entity_issue_replayed L hL hE env b ent hbase hn hbp (by omega)
    have hlenEq := entityCmdLen_eq L hL env _ hn hbp
    have h32 : 32 ≤ sizeof_refCmdAddEntityToScene_t L := by
      unfold sizeof_refCmdAddEntityToScene_t; omega
    have hi : issue L env b (.AddEntityToScene ent) = RF_IssueAddEntityToSceneCmd L env b ent :=
      rfl
    obtain ⟨j1, j2⟩ := ih (RF_IssueAddEntityToSceneCmd L env b ent) (by omega)
      (by rw [k2]; exact hbase) hrestb
    have hvalid : ∀ p ∈ entityCmds rest, ValidCmd L p.1 p.2 := by
      intro p hp
      simp only [entityCmds, List.mem_map] at hp
      obtain ⟨p0, hp0, rfl⟩ := hp
      exact le_of_lt (hrestb p0 hp0).1
    obtain ⟨f1, -, -, f4⟩ := issueAll_frame L hL (entityCmds rest)
      (RF_IssueAddEntityToSceneCmd L env b ent) (by omega) hvalid
    have hcmds : entityCmds ((env, ent) :: rest)
        = (env, FrameCmd.AddEntityToScene ent) :: entityCmds rest := rfl
    rw [hcmds]
    simp only [expectedLog, issueAll, hi]
    rw [if_neg (by omega)]
    simp only [List.singleton_append, List.flatMap_cons, reply, List.length_cons, j1]
    refine ⟨trivial, ?_, ?_⟩
    · exact EntityReplayed_congr L env ent _ _ b.len _ f1 f4 (by rw [k1, hlenEq]; omega) k3
    · rw [← k1]; exact j2

/-- C8. Entity round trip with bone poses: for every k and every k `AddEntityToScene`
calls on an empty buffer that all fit, each for an entity whose model has n > 0 bones
and whose `boneposes` is non-null, a dispatch pass calls `R_AddEntityToScene` exactly k
times, in the order of the encoder calls; in each call `boneposes` of the entity refers
to the copy right after the record header, and `oldboneposes` (when non-null) to the
copy right after that one, each holding the same n poses as the caller's array, and the
other members of the entity equal the caller's. -/
theorem C8_entity_round_trip (L : Layout) (hL : L.SizesOk) (hE : L.EntityPointersOk)
    (rsh : rsh_t) (b : ref_cmdbuf_t) (es : List (Env × Nat)) (hb : b.len = 0)
    (hbase : b.base + L.sizeof_buf < SIZE_MOD)
    (hbones : ∀ p ∈ es, 0 < toInt (p.1.R_SkeletalGetNumBones
        (get64 (readBytes p.1.mem p.2 L.sizeof_entity_t) L.entity_model)) ∧
      get64 (readBytes p.1.mem p.2 L.sizeof_entity_t) L.entity_boneposes ≠ 0)
    (hfit : entitiesLen L es ≤ L.sizeof_buf) :
    ∃ res, RF_RunCmdBufProc L rsh (issueAll L b (entityCmds es)) = some res ∧
      res.trace.length = es.length ∧
      EntitiesReplayed L (issueAll L b (entityCmds es)) 0 es res.trace := by
  have hvalid : ∀ p ∈ entityCmds es, ValidCmd L p.1 p.2 := by
    intro p hp
    simp only [entityCmds, List.mem_map] at hp
    obtain ⟨p0, hp0, rfl⟩ := hp
    exact le_of_lt (hbones p0 hp0).1
  obtain ⟨j1, j2⟩ := entities_replayed L hL hE rsh es b (by omega) hbase hbones
  rw [hb] at j2
  exact ⟨_, run_issueAll L hL rsh b (entityCmds es) hb hvalid, j1, j2⟩

/-- Witness of C8: five `AddEntityToScene` calls for an entity with 32 bones and both
pose arrays, encoded into a fresh 64 KiB buffer. -/
theorem C8_entity_round_trip_witness :
    exampleLayout.SizesOk ∧ exampleLayout.EntityPointersOk ∧ (RF_CreateCmdBuf 4096).len = 0 ∧
    (RF_CreateCmdBuf 4096).base + exampleLayout.sizeof_buf < SIZE_MOD ∧
    (∀ p ∈ List.replicate 5 (boneEnv, 64), 0 < toInt (p.1.R_SkeletalGetNumBones
        (get64 (readBytes p.1.mem p.2 exampleLayout.sizeof_entity_t)
          exampleLayout.entity_model)) ∧
      get64 (readBytes p.1.mem p.2 exampleLayout.sizeof_entity_t)
        exampleLayout.entity_boneposes ≠ 0) ∧
    entitiesLen exampleLayout (List.replicate 5 (boneEnv, 64)) = 10560 ∧
    ∃ res, RF_RunCmdBufProc exampleLayout exampleRsh
        (issueAll exampleLayout (RF_CreateCmdBuf 4096)
          (entityCmds (List.replicate 5 (boneEnv, 64)))) = some res ∧
      res.trace.length = (List.replicate 5 (boneEnv, 64)).length ∧
      EntitiesReplayed exampleLayout
        (issueAll exampleLayout (RF_CreateCmdBuf 4096)
          (entityCmds (List.replicate 5 (boneEnv, 64)))) 0
        (List.replicate 5 (boneEnv, 64)) res.trace :=
  ⟨by decide, by decide, rfl, by decide, by decide, by decide,
    C8_entity_round_trip exampleLayout (by decide) (by decide) exampleRsh
      (RF_CreateCmdBuf 4096) (List.replicate 5 (boneEnv, 64)) rfl (by decide) (by decide)
      (by decide)⟩

theorem refCmdHandlers_lt (L : Layout) (rsh : rsh_t) (id : Nat) (buf : Mem) (a : Nat) :
    (refCmdHandlers L rsh id buf a).2 < 4294967296 := by
  unfold refCmdHandlers
  split <;>
    simp only [R_HandleBeginFrameCmd, R_HandleEndFrameCmd,
      R_HandleDrawStretchPicCmd, R_HandleDrawStretchPolyCmd, R_HandleClearSceneCmd,
      R_HandleAddEntityToSceneCmd, R_HandleAddLightToSceneCmd, R_HandleAddPolyToSceneCmd,
      R_HandleAddLightStyleToSceneCmd, R_HandleRenderSceneCmd, R_HandleSetScissorCmd,
      R_HandleResetScissorCmd, R_HandleDrawStretchRawCmd, R_HandleDrawStretchRawYUVCmd,
      sizeof_refCmdBeginFrame_t, sizeof_refCmdEndFrame_t, sizeof_refCmdDrawStretchPic_t,
      sizeof_refCmdClearScene_t, sizeof_refCmdAddLightToScene_t,
      sizeof_refCmdAddLightStyleToScene_t, sizeof_refCmdSetScissor_t,
      sizeof_refCmdResetScissor_t, sizeof_refCmdDrawStretchRaw_t] <;>
    first
      | exact Fin.isLt _
      | (split_ifs <;> exact Fin.isLt _)
      | decide

theorem loop_total (L : Layout) (rsh : rsh_t) (cmdbuf : ref_cmdbuf_t)
    (hlen : cmdbuf.len + 4294967296 ≤ SIZE_MOD) :
    ∀ fuel t, cmdbuf.len < t + fuel → 0 < fuel →
      ∃ res, RF_RunCmdBufProc.loop L rsh cmdbuf fuel t = some res := by
  intro fuel
  induction fuel with
  | zero => intro t _ h; omega
  | succ f ih =>
    intro t h1 _
    rw [RF_RunCmdBufProc.loop]
    by_cases ht : t < cmdbuf.len
    · simp only [ht, if_true]
      split_ifs with hbad hz
      · exact ⟨_, rfl⟩
      · exact ⟨_, rfl⟩
      · have hr := refCmdHandlers_lt L rsh (rdU32 (readBytes cmdbuf.buf t 4)).val cmdbuf.buf t
        have hs : szAdd t (refCmdHandlers L rsh (rdU32 (readBytes cmdbuf.buf t 4)).val
            cmdbuf.buf t).2 = t + (refCmdHandlers L rsh (rdU32 (readBytes cmdbuf.buf t 4)).val
            cmdbuf.buf t).2 := by
          unfold szAdd; apply Nat.mod_eq_of_lt; omega
        rw [hs]
        obtain ⟨res, hres⟩ := ih (t + (refCmdHandlers L rsh
          (rdU32 (readBytes cmdbuf.buf t 4)).val cmdbuf.buf t).2) (by omega) (by omega)
        rw [hres]
        exact ⟨_, rfl⟩
    · simp only [ht, if_false]
      exact ⟨_, rfl⟩

theorem run_total (L : Layout) (rsh : rsh_t) (cmdbuf : ref_cmdbuf_t)
    (hlen : cmdbuf.len + 4294967296 ≤ SIZE_MOD) :
    ∃ res, RF_RunCmdBufProc L rsh cmdbuf = some res :=
  loop_total L rsh cmdbuf hlen (cmdbuf.len + 1) 0 (by omega) (by omega)

theorem loop_Seg_append {L : Layout} {rsh : rsh_t} {cmdbuf : ref_cmdbuf_t} {a t : Nat}
    {vs : List Visit} (h : Seg L rsh cmdbuf.buf a t vs) (ht : t ≤ cmdbuf.len)
    (hlen : cmdbuf.len < SIZE_MOD) (k : Nat) :
    RF_RunCmdBufProc.loop L rsh cmdbuf (vs.length + k) a =
      (RF_RunCmdBufProc.loop L rsh cmdbuf k t).map
        (fun res => { res with log := vs ++ res.log }) := by
  induction h with
  | nil a =>
    simp only [List.length_nil, Nat.zero_add, List.nil_append]
    cases RF_RunCmdBufProc.loop L rsh cmdbuf k a <;> rfl
  | @cons a b v vs hr hs ih =>
    obtain ⟨h1, h2, h3, h4, h5⟩ := hr
    have hle := Seg_le hs
    have hlt : a < cmdbuf.len := by omega
    have hid : ¬ (toInt (rdU32 (readBytes cmdbuf.buf a 4)) < 0 ∨
        toInt (rdU32 (readBytes cmdbuf.buf a 4)) ≥ (NUM_REF_CMDS : Int)) := by
      unfold NUM_REF_CMDS at h2 ⊢
      unfold toInt
      split <;> omega
    have hsz : szAdd a v.len = a + v.len := by
      unfold szAdd; apply Nat.mod_eq_of_lt; omega
    have hv : v = { offset := a, calls := v.calls, len := v.len } := by
      cases v; simp_all
    have hf : (v :: vs).length + k = (vs.length + k) + 1 := by
      simp only [List.length_cons]; omega
    rw [hf, RF_RunCmdBufProc.loop]
    simp only [hlt, if_true, hid, if_false, h3]
    rw [if_neg (by omega), hsz, ih ht]
    rw [Option.map_map]
    congr 1
    funext res
    simp only [Function.comp, List.cons_append]
    rw [← hv]

theorem Seg_offsets_lt {L : Layout} {rsh : rsh_t} {buf : Mem} {a b : Nat} {vs : List Visit}
    (h : Seg L rsh buf a b vs) : ∀ v ∈ vs, a ≤ v.offset ∧ v.offset < b := by
  induction h with
  | nil a => intro v hv; simp at hv
  | @cons a b v vs hr hs ih =>
    intro w hw
    have hle := Seg_le hs
    have h4 := hr.2.2.2.1
    rcases List.mem_cons.1 hw with rfl | hw
    · rw [hr.1]; omega
    · have := ih w hw; omega

theorem readBytes_drop (m : Mem) (a n k : Nat) :
    (readBytes m a n).drop k = readBytes m (a + k) (n - k) := by
  apply List.ext_getElem (by simp [readBytes_length])
  intro i h1 h2
  rw [List.getElem_drop, getElem_readBytes, getElem_readBytes]
  congr 1
  omega

theorem readBytes_take (m : Mem) (a n k : Nat) (h : k ≤ n) :
    (readBytes m a n).take k = readBytes m a k := by
  apply List.ext_getElem (by simp [readBytes_length, h])
  intro i h1 h2
  rw [List.getElem_take, getElem_readBytes, getElem_readBytes]

theorem rdU32_drop_readBytes (m : Mem) (a n k : Nat) (h : k + 4 ≤ n) :
    rdU32 ((readBytes m a n).drop k) = rdU32 (readBytes m (a + k) 4) := by
  rw [readBytes_drop]
  unfold rdU32
  rw [readBytes_take _ _ _ _ (by omega), readBytes_take _ _ _ _ (Nat.le_refl 4)]

theorem handler_length (L : Layout) (rsh : rsh_t) (id : Nat) (buf : Mem) (t : Nat)
    (hid : id = 3 ∨ id = 5 ∨ id = 7 ∨ id = 9) :
    (refCmdHandlers L rsh id buf t).2 = (rdU32 (readBytes buf (t + 4) 4)).val := by
  rcases hid with rfl | rfl | rfl | rfl
  · simp only [refCmdHandlers, R_HandleDrawStretchPolyCmd, refCmdDrawStretchOrScenePoly_t.ofBytes]
    rw [rdU32_drop_readBytes _ _ _ _ (by unfold sizeof_refCmdDrawStretchOrScenePoly_t; omega)]
  · simp only [refCmdHandlers, R_HandleAddEntityToSceneCmd, refCmdAddEntityToScene_t.ofBytes]
    rw [rdU32_drop_readBytes _ _ _ _ (by unfold sizeof_refCmdAddEntityToScene_t; omega)]
  · simp only [refCmdHandlers, R_HandleAddPolyToSceneCmd, refCmdDrawStretchOrScenePoly_t.ofBytes]
    rw [rdU32_drop_readBytes _ _ _ _ (by unfold sizeof_refCmdDrawStretchOrScenePoly_t; omega)]
  · simp only [refCmdHandlers, R_HandleRenderSceneCmd, refCmdRenderScene_t.ofBytes]
    have h := rdU32_drop_readBytes buf t (sizeof_refCmdRenderScene_t L) 4
      (by unfold sizeof_refCmdRenderScene_t; omega)
    split_ifs <;> exact congrArg Fin.val h

theorem exec_eq_loop (L : Layout) (rsh : rsh_t) (cmdbuf : ref_cmdbuf_t) :
    ∀ fuel t, RF_RunCmdBufProc.exec L rsh fuel t cmdbuf
      = (RF_RunCmdBufProc.loop L rsh cmdbuf fuel t).map (fun res => (cmdbuf, res)) := by
  intro fuel
  induction fuel with
  | zero => intro t; rfl
  | succ f ih =>
    intro t
    rw [RF_RunCmdBufProc.exec, RF_RunCmdBufProc.loop]
    by_cases ht : t < cmdbuf.len
    · simp only [ht, if_true]
      by_cases hbad : toInt (rdU32 (readBytes cmdbuf.buf t 4)) < 0 ∨
          toInt (rdU32 (readBytes cmdbuf.buf t 4)) ≥ (NUM_REF_CMDS : Int)
      · simp only [hbad, if_true, Option.map_some']
      · simp only [hbad, if_false]
        by_cases hz : (refCmdHandlers L rsh (rdU32 (readBytes cmdbuf.buf t 4)).val
            cmdbuf.buf t).2 = 0
        · simp only [hz, if_true, Option.map_some']
        · simp only [hz, if_false, ih, Option.map_map]
          rfl
    · simp only [ht, if_false, Option.map_some']

/-- C11. Render-scene round trip when fresh: `RF_IssueRenderSceneCmd` stores in its
record the backend's `registrationSequence` and `worldModelSequence` as they are at the
time of the call, and for every refdef whose record fits an empty buffer, when both
counters of the backend are the same at dispatch, a dispatch pass calls `R_RenderScene`
exactly once, with a refdef whose bytes outside `areabits` are those of the caller's. -/
theorem C11_render_scene_round_trip (L : Layout) (hL : L.SizesOk) (env : Env) (rsh : rsh_t)
    (b : ref_cmdbuf_t) (fd : Nat) (hb : b.len = 0)
    (hfit : renderSceneCmdLen L env.rsh (readBytes env.mem fd L.sizeof_refdef_t)
      ≤ L.sizeof_buf)
    (hreg : rsh.registrationSequence = env.rsh.registrationSequence)
    (hworld : rsh.worldModelSequence = env.rsh.worldModelSequence) :
    (refCmdRenderScene_t.ofBytes L (readBytes (RF_IssueRenderSceneCmd L env b fd).buf b.len
      (sizeof_refCmdRenderScene_t L))).registrationSequence = env.rsh.registrationSequence ∧
    (refCmdRenderScene_t.ofBytes L (readBytes (RF_IssueRenderSceneCmd L env b fd).buf b.len
      (sizeof_refCmdRenderScene_t L))).worldModelSequence = env.rsh.worldModelSequence ∧
    ∃ q, (RF_RunCmdBufProc L rsh (RF_IssueRenderSceneCmd L env b fd)).map RunResult.trace
        = some [.R_RenderScene q] ∧
      EqOutside (readBytes env.mem fd L.sizeof_refdef_t) q [L.refdef_areabits] := by
  have hcap := hL.1
  have hbnd := renderSceneCmdLen_bounds L env.rsh (readBytes env.mem fd L.sizeof_refdef_t) hL.2.2.2.1
  have hrec : readBytes (RF_IssueRenderSceneCmd L env b fd).buf b.len (sizeof_refCmdRenderScene_t L)
      = refCmdRenderScene_t.toBytes
        { refCmdRenderScene_t.ofBytes L
            (readBytes env.stack 0 (sizeof_refCmdRenderScene_t L)) with
          id := REF_CMD_RENDER_SCENE,
          length := U32.ofNat (renderSceneCmdLen L env.rsh (readBytes env.mem fd L.sizeof_refdef_t)),
          registrationSequence := env.rsh.registrationSequence,
          worldModelSequence := env.rsh.worldModelSequence,
          refdef := refdefStored L env b fd } := by
    have hsz : szAdd b.len (renderSceneCmdLen L env.rsh (readBytes env.mem fd L.sizeof_refdef_t))
        = b.len + renderSceneCmdLen L env.rsh (readBytes env.mem fd L.sizeof_refdef_t) :=
      Nat.mod_eq_of_lt (by unfold SIZE_MOD; omega)
    unfold RF_IssueRenderSceneCmd
    simp only [hsz]
    rw [if_neg (by omega)]
    exact readBytes_memcpy_same _ _ _ _
      (refCmdRenderScene_t_toBytes_length L _ (refdefStored_length L env b fd))
  rw [hrec, refCmdRenderScene_t_ofBytes_toBytes L _ (refdefStored_length L env b fd)]
  refine ⟨rfl, rfl, refdefStored L env b fd, ?_, refdefStored_eqOutside L env b fd⟩
  obtain ⟨h1, -⟩ := handleRenderScene_issue L hL env rsh b fd (by omega)
  have h24 : 24 ≤ sizeof_refCmdRenderScene_t L := by
    unfold sizeof_refCmdRenderScene_t; omega
  have hrun := run_issueAll L hL rsh b [(env, .RenderScene fd)] hb
    (fun p hp => by
      rw [List.mem_singleton] at hp
      subst hp
      trivial)
  have hi : issue L env b (.RenderScene fd) = RF_IssueRenderSceneCmd L env b fd := rfl
  simp only [issueAll, expectedLog, hi] at hrun
  rw [if_neg (by omega)] at hrun
  rw [hrun]
  have hruns : renderSceneRuns L env.rsh rsh (refdefStored L env b fd) :=
    ⟨hreg.symm, Or.inr hworld.symm⟩
  simp [RunResult.trace, reply, hruns]

/-- C12. Stream-corruption abort: for every buffer that holds a gapless run of valid
records from offset 0 to an offset `t` below `len`, where the `int` read at `t` is
negative or at least `NUM_REF_CMDS`, `RF_RunCmdBufProc` returns after having invoked
the handlers of exactly those records, in order, and no handler for the identifier at
`t` or for anything after it; the loop ends at `t`. -/
theorem C12_stream_corruption_abort (L : Layout) (rsh : rsh_t) (b : ref_cmdbuf_t)
    (vs : List Visit) (t : Nat) (hlen : b.len < SIZE_MOD) (hseg : Seg L rsh b.buf 0 t vs)
    (ht : t < b.len)
    (hbad : toInt (rdU32 (readBytes b.buf t 4)) < 0 ∨
      toInt (rdU32 (readBytes b.buf t 4)) ≥ NUM_REF_CMDS) :
    RF_RunCmdBufProc L rsh b = some { log := vs, t := t } ∧
    (RF_RunCmdBufProc L rsh b).map RunResult.trace = some (vs.flatMap (fun v => v.calls)) := by
  have hk := Seg_length_le hseg
  have hrun : RF_RunCmdBufProc L rsh b = some { log := vs, t := t } := by
    unfold RF_RunCmdBufProc
    have hf : b.len + 1 = vs.length + ((b.len - vs.length) + 1) := by omega
    rw [hf, loop_Seg_append hseg (by omega) hlen, RF_RunCmdBufProc.loop]
    simp only [ht, if_true, hbad, Option.map_some', List.append_nil]
  refine ⟨hrun, ?_⟩
  rw [hrun]
  rfl

/-- C13. Zero-length stop: for every buffer that holds a gapless run of valid records
from offset 0 to an offset `t` below `len`, where the record at `t` is of a kind with a
`length` member (polygon, entity or render-scene) and that member is 0,
`RF_RunCmdBufProc` returns after the handler of the record at `t`: it invokes no handler
at an offset beyond `t`, whatever the bytes after the record and whatever `len`. -/
theorem C13_zero_length_stop (L : Layout) (rsh : rsh_t) (b : ref_cmdbuf_t)
    (vs : List Visit) (t : Nat) (hlen : b.len < SIZE_MOD) (hseg : Seg L rsh b.buf 0 t vs)
    (ht : t < b.len)
    (hkind : (rdU32 (readBytes b.buf t 4)).val = 3 ∨ (rdU32 (readBytes b.buf t 4)).val = 5 ∨
      (rdU32 (readBytes b.buf t 4)).val = 7 ∨ (rdU32 (readBytes b.buf t 4)).val = 9)
    (hzero : rdU32 (readBytes b.buf (t + 4) 4) = 0) :
    ∃ res, RF_RunCmdBufProc L rsh b = some res ∧ res.t = t ∧
      res.log = vs ++
        [{ offset := t,
           calls := (refCmdHandlers L rsh (rdU32 (readBytes b.buf t 4)).val b.buf t).1,
           len := 0 }] ∧
      ∀ v ∈ res.log, v.offset ≤ t := by
  have hk := Seg_length_le hseg
  have hid : ¬ (toInt (rdU32 (readBytes b.buf t 4)) < 0 ∨
      toInt (rdU32 (readBytes b.buf t 4)) ≥ (NUM_REF_CMDS : Int)) := by
    unfold NUM_REF_CMDS toInt
    split <;> omega
  have hz : (refCmdHandlers L rsh (rdU32 (readBytes b.buf t 4)).val b.buf t).2 = 0 := by
    rw [handler_length L rsh _ b.buf t hkind, hzero]
    rfl
  refine ⟨RunResult.mk (vs ++ [Visit.mk t
    (refCmdHandlers L rsh (rdU32 (readBytes b.buf t 4)).val b.buf t).1 0]) t, ?_, rfl, rfl, ?_⟩
  · unfold RF_RunCmdBufProc
    have hf : b.len + 1 = vs.length + ((b.len - vs.length) + 1) := by omega
    rw [hf, loop_Seg_append hseg (by omega) hlen, RF_RunCmdBufProc.loop]
    simp only [ht, if_true, hid, if_false, hz, Option.map_some']
  · intro v hv
    rcases List.mem_append.1 hv with h | h
    · exact Nat.le_of_lt (Seg_offsets_lt hseg v h).2
    · rw [List.mem_singleton] at h
      rw [h]

/-- C14. Dispatch leaves the buffer untouched: for every buffer state, the dispatch
pass returns (whether it ran to the end or stopped early) and leaves `len`, `frameId`,
the address and every byte of the buffer as they were, so that a second pass on the
buffer it left, under the same backend counters, replays the same backend calls. -/
theorem C14_dispatch_leaves_buffer (L : Layout) (rsh : rsh_t) (b : ref_cmdbuf_t)
    (hlen : b.len + 4294967296 ≤ SIZE_MOD) :
    ∃ b' res, RunCmds L rsh b = some (b', res) ∧
      RF_RunCmdBufProc L rsh b = some res ∧
      b'.len = b.len ∧ b'.frameId = b.frameId ∧ b'.base = b.base ∧ (∀ i, b'.buf i = b.buf i) ∧
      ∃ b'' res', RunCmds L rsh b' = some (b'', res') ∧ res'.trace = res.trace := by
  obtain ⟨res, hres⟩ := run_total L rsh b hlen
  have h : RunCmds L rsh b = some (b, res) := by
    unfold RunCmds
    rw [exec_eq_loop]
    unfold RF_RunCmdBufProc at hres
    rw [hres]
    rfl
  exact ⟨b, res, h, hres, rfl, rfl, rfl, fun _ => rfl, b, res, h, rfl⟩

/-- C15. Clear: for every buffer state, `RF_ClearCmdBuf` sets `len` to 0 and leaves
`frameId` (and the address and the bytes) as they were, clearing twice gives the state
that clearing once gives, and a dispatch pass right after a clear returns without a
handler invocation, hence without a backend call. -/
theorem C15_clear (L : Layout) (rsh : rsh_t) (b : ref_cmdbuf_t) :
    (RF_ClearCmdBuf b).len = 0 ∧ (RF_ClearCmdBuf b).frameId = b.frameId ∧
    (RF_ClearCmdBuf b).base = b.base ∧ (RF_ClearCmdBuf b).buf = b.buf ∧
    RF_ClearCmdBuf (RF_ClearCmdBuf b) = RF_ClearCmdBuf b ∧
    RF_RunCmdBufProc L rsh (RF_ClearCmdBuf b) = some { log := [], t := 0 } ∧
    (RF_RunCmdBufProc L rsh (RF_ClearCmdBuf b)).map RunResult.trace = some [] :=
  ⟨rfl, rfl, rfl, rfl, rfl, rfl, rfl⟩

/-- Witness of C11: a refdef with two bytes of area bits, encoded into a fresh 64 KiB
buffer and dispatched under the counters of the encoding. -/
theorem C11_render_scene_round_trip_witness :
    exampleLayout.SizesOk ∧ (RF_CreateCmdBuf 4096).len = 0 ∧
    renderSceneCmdLen exampleLayout areaEnv.rsh
      (readBytes areaEnv.mem 0 exampleLayout.sizeof_refdef_t) ≤ exampleLayout.sizeof_buf ∧
    (refCmdRenderScene_t.ofBytes exampleLayout
      (readBytes (RF_IssueRenderSceneCmd exampleLayout areaEnv (RF_CreateCmdBuf 4096) 0).buf
        (RF_CreateCmdBuf 4096).len
        (sizeof_refCmdRenderScene_t exampleLayout))).registrationSequence
      = areaEnv.rsh.registrationSequence ∧
    (refCmdRenderScene_t.ofBytes exampleLayout
      (readBytes (RF_IssueRenderSceneCmd exampleLayout areaEnv (RF_CreateCmdBuf 4096) 0).buf
        (RF_CreateCmdBuf 4096).len
        (sizeof_refCmdRenderScene_t exampleLayout))).worldModelSequence
      = areaEnv.rsh.worldModelSequence ∧
    ∃ q, (RF_RunCmdBufProc exampleLayout areaEnv.rsh
        (RF_IssueRenderSceneCmd exampleLayout areaEnv (RF_CreateCmdBuf 4096) 0)).map
        RunResult.trace = some [.R_RenderScene q] ∧
      EqOutside (readBytes areaEnv.mem 0 exampleLayout.sizeof_refdef_t) q
        [exampleLayout.refdef_areabits] :=
  ⟨by decide, rfl, by decide,
    C11_render_scene_round_trip exampleLayout (by decide) areaEnv areaEnv.rsh
      (RF_CreateCmdBuf 4096) 0 rfl (by decide) rfl rfl⟩

/-- Witness of C12: the pass over `corruptBuf` replays `BeginFrame` and `EndFrame` and
stops at offset 16, where the identifier is 14. -/
theorem C12_stream_corruption_abort_witness :
    corruptBuf.len < SIZE_MOD ∧
    Seg exampleLayout exampleRsh corruptBuf.buf 0 16
      [{ offset := 0, calls := [.R_BeginFrame 0 true false], len := 12 },
       { offset := 12, calls := [.R_EndFrame], len := 4 }] ∧
    16 < corruptBuf.len ∧
    toInt (rdU32 (readBytes corruptBuf.buf 16 4)) ≥ NUM_REF_CMDS ∧
    RF_RunCmdBufProc exampleLayout exampleRsh corruptBuf
      = some { log := [{ offset := 0, calls := [.R_BeginFrame 0 true false], len := 12 },
                       { offset := 12, calls := [.R_EndFrame], len := 4 }], t := 16 } ∧
    (RF_RunCmdBufProc exampleLayout exampleRsh corruptBuf).map RunResult.trace
      = some [.R_BeginFrame 0 true false, .R_EndFrame] :=
  ⟨by decide, Seg.cons (by decide) (Seg.cons (by decide) (Seg.nil 16)), by decide, by decide,
    C12_stream_corruption_abort exampleLayout exampleRsh corruptBuf _ 16 (by decide)
      (Seg.cons (by decide) (Seg.cons (by decide) (Seg.nil 16))) (by decide)
      (Or.inr (by decide))⟩

/-- Witness of C13: the pass over `zeroLengthBuf` replays `BeginFrame`, invokes the
handler of the polygon record at offset 12, whose `length` is 0, and stops there. -/
theorem C13_zero_length_stop_witness :
    zeroLengthBuf.len < SIZE_MOD ∧
    Seg exampleLayout exampleRsh zeroLengthBuf.buf 0 12
      [{ offset := 0, calls := [.R_BeginFrame 0 true false], len := 12 }] ∧
    12 < zeroLengthBuf.len ∧
    (rdU32 (readBytes zeroLengthBuf.buf 12 4)).val = 3 ∧
    rdU32 (readBytes zeroLengthBuf.buf (12 + 4) 4) = 0 ∧
    ∃ res, RF_RunCmdBufProc exampleLayout exampleRsh zeroLengthBuf = some res ∧ res.t = 12 ∧
      res.log = [{ offset := 0, calls := [.R_BeginFrame 0 true false], len := 12 }] ++
        [{ offset := 12,
           calls := (refCmdHandlers exampleLayout exampleRsh
             (rdU32 (readBytes zeroLengthBuf.buf 12 4)).val zeroLengthBuf.buf 12).1,
           len := 0 }] ∧
      ∀ v ∈ res.log, v.offset ≤ 12 :=
  ⟨by decide, Seg.cons (by decide) (Seg.nil 12), by decide, by decide, by decide,
    C13_zero_length_stop exampleLayout exampleRsh zeroLengthBuf _ 12 (by decide)
      (Seg.cons (by decide) (Seg.nil 12)) (by decide) (Or.inl (by decide)) (by decide)⟩

/-- Witness of C14: a pass over `corruptBuf`, which stops early, leaves the buffer as
it was. -/
theorem C14_dispatch_leaves_buffer_witness :
    corruptBuf.len + 4294967296 ≤ SIZE_MOD ∧
    ∃ b' res, RunCmds exampleLayout exampleRsh corruptBuf = some (b', res) ∧
      RF_RunCmdBufProc exampleLayout exampleRsh corruptBuf = some res ∧
      b'.len = corruptBuf.len ∧ b'.frameId = corruptBuf.frameId ∧
      b'.base = corruptBuf.base ∧ (∀ i, b'.buf i = corruptBuf.buf i) ∧
      ∃ b'' res', RunCmds exampleLayout exampleRsh b' = some (b'', res') ∧
        res'.trace = res.trace :=
  ⟨by decide, C14_dispatch_leaves_buffer exampleLayout exampleRsh corruptBuf (by decide)⟩

theorem SameRef_refl (base1 base2 cap : Nat) (v : U64) : SameRef base1 base2 cap v v :=
  Or.inl rfl

theorem SameRef_mono {base1 base2 cap cap' : Nat} {v1 v2 : U64} (h : cap ≤ cap')
    (hr : SameRef base1 base2 cap v1 v2) : SameRef base1 base2 cap' v1 v2 := by
  rcases hr with h1 | ⟨off, h1, h2, h3⟩
  · exact Or.inl h1
  · exact Or.inr ⟨off, Nat.le_trans h1 h, h2, h3⟩

theorem Copied_sameRef (mem : Mem) (base1 base2 : Nat) (f1 f2 : TailState) (orig : List Byte)
    (blocks : List TailBlock) :
    ∀ a, Copied mem base1 f1 orig a blocks → Copied mem base2 f2 orig a blocks →
      ∀ k ∈ blocks, SameRef base1 base2 (a + tailBytes blocks)
        (get64 f1.obj k.member) (get64 f2.obj k.member) := by
  induction blocks with
  | nil => intro a _ _ k hk; simp at hk
  | cons k0 rest ih =>
    intro a h1 h2 k hk
    obtain ⟨p1, q1, r1⟩ := h1
    obtain ⟨p2, q2, r2⟩ := h2
    rcases List.mem_cons.1 hk with rfl | hk
    · cases hp : k.present with
      | true =>
        exact Or.inr ⟨a, Nat.le_add_right _ _, (p1 hp).1, (p2 hp).1⟩
      | false =>
        rw [q1 hp, q2 hp]
        exact Or.inl rfl
    · have := ih _ r1 r2 k hk
      refine SameRef_mono ?_ this
      simp only [tailBytes]
      omega

theorem Copied_buf_same (mem : Mem) (base1 base2 : Nat) (f1 f2 : TailState) (orig : List Byte)
    (blocks : List TailBlock) :
    ∀ a, Copied mem base1 f1 orig a blocks → Copied mem base2 f2 orig a blocks →
      ∀ i, a ≤ i → i < a + tailBytes blocks → f1.buf i = f2.buf i := by
  induction blocks with
  | nil => intro a _ _ i h1 h2; simp only [tailBytes] at h2; omega
  | cons k rest ih =>
    intro a h1 h2 i hi1 hi2
    obtain ⟨p1, -, r1⟩ := h1
    obtain ⟨p2, -, r2⟩ := h2
    simp only [tailBytes] at hi2
    by_cases hin : i < a + (if k.present then k.n else 0)
    · cases hp : k.present with
      | true =>
        simp only [hp, if_true] at hin
        have e : readBytes f1.buf a k.n = readBytes f2.buf a k.n := by
          rw [(p1 hp).2, (p2 hp).2]
        have e' := congrArg (fun l => l.getD (i - a) 0) e
        simp only [getD_readBytes] at e'
        rw [if_pos (by omega), if_pos (by omega)] at e'
        have ha : a + (i - a) = i := by omega
        rw [ha] at e'
        exact e'
      | false =>
        simp only [hp] at hin
        simp at hin
        omega
    · exact ih _ r1 r2 i (by omega) (by omega)

theorem memcpy_getD (m : Mem) (dst : Nat) (src : List Byte) (i : Nat)
    (h1 : dst ≤ i) (h2 : i < dst + src.length) :
    memcpy m dst src i = src.getD (i - dst) 0 := by
  unfold memcpy
  rw [if_pos ⟨h1, h2⟩]

theorem rdU64_readBytes_memcpy (m : Mem) (lo : Nat) (pre obj post : List Byte) (s : Nat)
    (hs : s + 8 ≤ obj.length) :
    rdU64 (readBytes (memcpy m lo (pre ++ (obj ++ post))) (lo + (pre.length + s)) 8)
      = get64 obj s := by
  unfold get64 rdU64
  congr 2
  apply List.ext_getElem
  · simp only [List.length_take, readBytes_length, List.length_drop]
    omega
  · intro i h1 h2
    simp only [List.length_take, readBytes_length] at h1
    rw [List.getElem_take, List.getElem_take, getElem_readBytes, List.getElem_drop,
      memcpy_getD _ _ _ _ (by omega) (by simp only [List.length_append]; omega)]
    have e : lo + (pre.length + s) + i - lo = pre.length + (s + i) := by omega
    rw [e, List.getD_append_right _ _ _ _ (by omega), Nat.add_sub_cancel_left,
      List.getD_append _ _ _ _ (by omega), List.getD_eq_getElem _ _ (by omega)]

theorem getD_mid (pre obj post : List Byte) (j : Nat) :
    (pre ++ (obj ++ post)).getD j 0
      = if j < pre.length then pre.getD j 0
        else if j - pre.length < obj.length then obj.getD (j - pre.length) 0
        else post.getD (j - pre.length - obj.length) 0 := by
  by_cases h1 : j < pre.length
  · rw [if_pos h1, List.getD_append _ _ _ _ h1]
  · rw [if_neg h1, List.getD_append_right _ _ _ _ (by omega)]
    by_cases h2 : j - pre.length < obj.length
    · rw [if_pos h2, List.getD_append _ _ _ _ h2]
    · rw [if_neg h2, List.getD_append_right _ _ _ _ (by omega)]

theorem record_same (base1 base2 cap : Nat) (m1 m2 : Mem) (lo : Nat)
    (pre post obj1 obj2 : List Byte) (members : List Nat) (tail : Nat)
    (hobj : SameStruct base1 base2 cap obj1 obj2 members)
    (hmem : ∀ m ∈ members, m + 8 ≤ obj1.length)
    (htail : ∀ i, lo + (pre.length + obj1.length + post.length) ≤ i →
      i < lo + (pre.length + obj1.length + post.length) + tail → m1 i = m2 i) :
    SameRecordBytes base1 base2 cap (memcpy m1 lo (pre ++ (obj1 ++ post)))
      (memcpy m2 lo (pre ++ (obj2 ++ post))) lo
      (lo + (pre.length + obj1.length + post.length + tail))
      (members.map (fun m => pre.length + m)) := by
  obtain ⟨hl, hout, href⟩ := hobj
  refine ⟨?_, ?_, ?_⟩
  · intro s hs
    obtain ⟨m, hm, rfl⟩ := List.mem_map.1 hs
    have := hmem m hm
    omega
  · intro i hi1 hi2 hs
    by_cases hh : i < lo + (pre.length + obj1.length + post.length)
    · rw [memcpy_getD _ _ _ _ hi1 (by simp only [List.length_append]; omega),
        memcpy_getD _ _ _ _ hi1 (by simp only [List.length_append]; omega)]
      rw [getD_mid pre obj1 post, getD_mid pre obj2 post, ← hl]
      split
      · rfl
      · split
        · apply hout
          intro m hm
          have := hs (pre.length + m) (List.mem_map.2 ⟨m, hm, rfl⟩)
          omega
        · rfl
    · rw [memcpy_outside _ _ _ _ (Or.inr (by simp only [List.length_append]; omega)),
        memcpy_outside _ _ _ _ (Or.inr (by simp only [List.length_append]; omega))]
      exact htail i (by omega) (by omega)
  · intro s hs
    obtain ⟨m, hm, rfl⟩ := List.mem_map.1 hs
    rw [rdU64_readBytes_memcpy _ _ _ _ _ _ (hmem m hm),
      rdU64_readBytes_memcpy _ _ _ _ _ _ (by rw [← hl]; exact hmem m hm)]
    exact href m hm

theorem EqOutside_copyTails (mem : Mem) (base : Nat) (blocks : List TailBlock) (p : List Byte)
    (members : List Nat) (hsub : ∀ k ∈ blocks, k.member ∈ members) :
    ∀ s : TailState, EqOutside p s.obj members →
      EqOutside p (copyTails mem base blocks s).obj members := by
  induction blocks with
  | nil => intro s h; exact h
  | cons k rest ih =>
    intro s h
    have hc : copyTails mem base (k :: rest) s
        = copyTails mem base rest (copyTail mem base k.present k.member k.src k.n s) := rfl
    rw [hc]
    exact ih (fun k' hk' => hsub k' (List.mem_cons_of_mem _ hk')) _
      (EqOutside_copyTail mem base _ _ _ _ s p members h (hsub k (List.mem_cons_self _ _)))

theorem record_same_of (base1 base2 cap : Nat) (m1 m2 : Mem) (lo hi : Nat)
    (bytes1 bytes2 pre post obj1 obj2 : List Byte) (members slots : List Nat) (k n r tail : Nat)
    (h1 : bytes1 = pre ++ (obj1 ++ post)) (h2 : bytes2 = pre ++ (obj2 ++ post))
    (hk : pre.length = k) (hn : obj1.length = n) (hr : post.length = r)
    (hslots : slots = members.map (fun m => k + m)) (hhi : hi = lo + (k + n + r + tail))
    (hobj : SameStruct base1 base2 cap obj1 obj2 members)
    (hmem : ∀ m ∈ members, m + 8 ≤ n)
    (htail : ∀ i, lo + (k + n + r) ≤ i → i < lo + (k + n + r) + tail → m1 i = m2 i) :
    SameRecordBytes base1 base2 cap (memcpy m1 lo bytes1) (memcpy m2 lo bytes2) lo hi slots := by
  subst h1 h2 hk hn hr hslots hhi
  exact record_same base1 base2 cap m1 m2 lo pre post obj1 obj2 members tail hobj hmem htail

theorem tails_same (mem : Mem) (base1 base2 cap : Nat) (blocks : List TailBlock)
    (p : List Byte) (m1 m2 : Mem) (a : Nat) (members : List Nat)
    (hpair : (blocks.map (fun k => k.member)).Pairwise (fun a b => a + 8 ≤ b ∨ b + 8 ≤ a))
    (hin : ∀ k ∈ blocks, k.member + 8 ≤ p.length)
    (hmem : ∀ m ∈ members, ∃ k ∈ blocks, k.member = m)
    (hsub : ∀ k ∈ blocks, k.member ∈ members)
    (hcap : a + tailBytes blocks ≤ cap) :
    SameStruct base1 base2 cap
      (copyTails mem base1 blocks { obj := p, buf := m1, pcmd := a }).obj
      (copyTails mem base2 blocks { obj := p, buf := m2, pcmd := a }).obj members ∧
    ∀ i, a ≤ i → i < a + tailBytes blocks →
      (copyTails mem base1 blocks { obj := p, buf := m1, pcmd := a }).buf i
        = (copyTails mem base2 blocks { obj := p, buf := m2, pcmd := a }).buf i := by
  obtain ⟨c1, -, -, -, l1⟩ := copyTails_spec mem base1 blocks
    { obj := p, buf := m1, pcmd := a } hpair hin
  obtain ⟨c2, -, -, -, l2⟩ := copyTails_spec mem base2 blocks
    { obj := p, buf := m2, pcmd := a } hpair hin
  dsimp only at c1 c2 l1 l2
  have e1 := EqOutside_copyTails mem base1 blocks p members hsub
    { obj := p, buf := m1, pcmd := a } (EqOutside_refl _ _)
  have e2 := EqOutside_copyTails mem base2 blocks p members hsub
    { obj := p, buf := m2, pcmd := a } (EqOutside_refl _ _)
  refine ⟨⟨by rw [l1, l2], fun i hi => ?_, fun m hm => ?_⟩, ?_⟩
  · rw [e1.2 i hi, e2.2 i hi]
  · obtain ⟨k, hk, rfl⟩ := hmem m hm
    exact SameRef_mono hcap (Copied_sameRef mem base1 base2 _ _ p blocks a c1 c2 k hk)
  · exact Copied_buf_same mem base1 base2 _ _ p blocks a c1 c2

theorem fixed_same (L : Layout) (base1 base2 : Nat) (b1 b2 : ref_cmdbuf_t) (bytes : List Byte)
    (n : Nat) (hlen : b1.len = b2.len) (hbl : bytes.length = n) :
    (if szAdd b1.len n > L.sizeof_buf then b1
      else { b1 with buf := memcpy b1.buf b1.len bytes, len := szAdd b1.len n }).len
      = (if szAdd b2.len n > L.sizeof_buf then b2
      else { b2 with buf := memcpy b2.buf b2.len bytes, len := szAdd b2.len n }).len ∧
    ((if szAdd b1.len n > L.sizeof_buf then b1
      else { b1 with buf := memcpy b1.buf b1.len bytes, len := szAdd b1.len n }).len ≠ b1.len →
     SameRecordBytes base1 base2 L.sizeof_buf
      (if szAdd b1.len n > L.sizeof_buf then b1
        else { b1 with buf := memcpy b1.buf b1.len bytes, len := szAdd b1.len n }).buf
      (if szAdd b2.len n > L.sizeof_buf then b2
        else { b2 with buf := memcpy b2.buf b2.len bytes, len := szAdd b2.len n }).buf
      b1.len (b1.len + n) []) := by
  rw [← hlen]
  by_cases h : szAdd b1.len n > L.sizeof_buf
  · rw [if_pos h, if_pos h]
    exact ⟨hlen, fun hc => absurd rfl hc⟩
  · rw [if_neg h, if_neg h]
    refine ⟨rfl, fun _ => ⟨fun s hs => by simp at hs, fun i hi1 hi2 _ => ?_,
      fun s hs => by simp at hs⟩⟩
    show memcpy b1.buf b1.len bytes i = memcpy b2.buf b1.len bytes i
    rw [memcpy_getD _ _ _ _ hi1 (by omega), memcpy_getD _ _ _ _ hi1 (by omega)]

theorem poly_same (L : Layout) (hL : L.SizesOk) (hP : L.PolyPointersOk) (mem : Mem)
    (b1 b2 : ref_cmdbuf_t) (id : U32) (poly : Nat) (x_offset y_offset : U32)
    (hlen : b1.len = b2.len) (hb : b1.len ≤ L.sizeof_buf)
    (hv : 0 ≤ toInt (get32 (readBytes mem poly L.sizeof_poly_t) L.poly_numverts))
    (he : 0 ≤ toInt (get32 (readBytes mem poly L.sizeof_poly_t) L.poly_numelems)) :
    (RF_IssueDrawStretchPolyOrAddPolyToSceneCmd L mem b1 id poly x_offset y_offset).len
      = (RF_IssueDrawStretchPolyOrAddPolyToSceneCmd L mem b2 id poly x_offset y_offset).len ∧
    ((RF_IssueDrawStretchPolyOrAddPolyToSceneCmd L mem b1 id poly x_offset y_offset).len
        ≠ b1.len →
      SameRecordBytes b1.base b2.base L.sizeof_buf
        (RF_IssueDrawStretchPolyOrAddPolyToSceneCmd L mem b1 id poly x_offset y_offset).buf
        (RF_IssueDrawStretchPolyOrAddPolyToSceneCmd L mem b2 id poly x_offset y_offset).buf
        b1.len (b1.len + (sizeof_refCmdDrawStretchOrScenePoly_t L
          + tailBytes (polyBlocks L (readBytes mem poly L.sizeof_poly_t))))
        [16 + L.poly_verts, 16 + L.poly_stcoords, 16 + L.poly_normals, 16 + L.poly_colors,
          16 + L.poly_elems] ∧
      SameStruct b1.base b2.base L.sizeof_buf
        (polyTail L mem b1 (readBytes mem poly L.sizeof_poly_t)).obj
        (polyTail L mem b2 (readBytes mem poly L.sizeof_poly_t)).obj
        [L.poly_verts, L.poly_stcoords, L.poly_normals, L.poly_colors, L.poly_elems]) := by
  have hcap := hL.1
  generalize hp : readBytes mem poly L.sizeof_poly_t = p at *
  have hplen : p.length = L.sizeof_poly_t := by rw [← hp, readBytes_length]
  obtain ⟨hb1, hb2⟩ := polyCmdLen_bounds L p hL.2.1 hv he
  have hge := polyCmdLen_ge_tail L p hL.2.1 hv he
  have hM : SIZE_MOD = 18446744073709551616 := rfl
  have hsz : szAdd b1.len (polyCmdLen L p) = b1.len + polyCmdLen L p :=
    szAdd_eq _ _ (by omega)
  have hT1 : polyTail L mem b1 p = copyTails mem b1.base (polyBlocks L p)
      { obj := p, buf := b1.buf, pcmd := b1.len + sizeof_refCmdDrawStretchOrScenePoly_t L } := rfl
  have hT2 : polyTail L mem b2 p = copyTails mem b2.base (polyBlocks L p)
      { obj := p, buf := b2.buf, pcmd := b1.len + sizeof_refCmdDrawStretchOrScenePoly_t L } := by
    rw [hlen]; rfl
  unfold RF_IssueDrawStretchPolyOrAddPolyToSceneCmd
  simp only [hp]
  rw [← hlen, hsz]
  by_cases hdeg : get32 p L.poly_numverts = 0 ∨ get64 p L.poly_shader = 0
  · rw [if_pos hdeg, if_pos hdeg]
    exact ⟨hlen, fun hc => absurd rfl hc⟩
  · rw [if_neg hdeg, if_neg hdeg]
    by_cases hfit : b1.len + polyCmdLen L p > L.sizeof_buf
    · rw [if_pos hfit, if_pos hfit]
      exact ⟨hlen, fun hc => absurd rfl hc⟩
    · rw [if_neg hfit, if_neg hfit]
      refine ⟨rfl, fun _ => ?_⟩
      have hmemb : ∀ k ∈ polyBlocks L p, k.member ∈
          [L.poly_verts, L.poly_stcoords, L.poly_normals, L.poly_colors, L.poly_elems] := by
        intro k hk
        simp only [polyBlocks, List.mem_cons, List.mem_singleton, List.not_mem_nil,
          or_false] at hk
        rcases hk with rfl | rfl | rfl | rfl | rfl <;> simp
      obtain ⟨hS, hB⟩ := tails_same mem b1.base b2.base L.sizeof_buf (polyBlocks L p) p
        b1.buf b2.buf (b1.len + sizeof_refCmdDrawStretchOrScenePoly_t L)
        [L.poly_verts, L.poly_stcoords, L.poly_normals, L.poly_colors, L.poly_elems]
        hP.2 (fun k hk => by rw [hplen]; exact hP.1 _ (hmemb k hk))
        (by
          intro m hm
          simp only [List.mem_cons, List.mem_singleton, List.not_mem_nil, or_false] at hm
          rcases hm with rfl | rfl | rfl | rfl | rfl
          · exact ⟨_, List.mem_cons_self _ _, rfl⟩
          · exact ⟨_, List.mem_cons_of_mem _ (List.mem_cons_self _ _), rfl⟩
          · exact ⟨_, List.mem_cons_of_mem _ (List.mem_cons_of_mem _ (List.mem_cons_self _ _)),
              rfl⟩
          · exact ⟨_, List.mem_cons_of_mem _ (List.mem_cons_of_mem _ (List.mem_cons_of_mem _
              (List.mem_cons_self _ _))), rfl⟩
          · exact ⟨_, List.mem_cons_of_mem _ (List.mem_cons_of_mem _ (List.mem_cons_of_mem _
              (List.mem_cons_of_mem _ (List.mem_cons_self _ _)))), rfl⟩)
        hmemb (by omega)
      rw [← hT1, ← hT2] at hS hB
      refine ⟨?_, hS⟩
      refine record_same_of b1.base b2.base L.sizeof_buf _ _ b1.len _ _ _
        (id.bytes ++ ((U32.ofNat (polyCmdLen L p)).bytes ++ (x_offset.bytes ++ y_offset.bytes)))
        [] (polyTail L mem b1 p).obj (polyTail L mem b2 p).obj
        [L.poly_verts, L.poly_stcoords, L.poly_normals, L.poly_colors, L.poly_elems] _
        16 L.sizeof_poly_t 0 (tailBytes (polyBlocks L p)) ?_ ?_ ?_ ?_ rfl rfl ?_ hS ?_ ?_
      · simp [refCmdDrawStretchOrScenePoly_t.toBytes]
      · simp [refCmdDrawStretchOrScenePoly_t.toBytes]
      · simp [U32_bytes_length]
      · rw [polyTail_obj_length, hplen]
      · unfold sizeof_refCmdDrawStretchOrScenePoly_t; omega
      · intro m hm
        exact hP.1 m hm
      · intro i hi1 hi2
        exact hB i (by unfold sizeof_refCmdDrawStretchOrScenePoly_t; omega)
          (by unfold sizeof_refCmdDrawStretchOrScenePoly_t; omega)

theorem entityCmdLen_eq_tail (L : Layout) (env : Env) (e : List Byte)
    (hs : L.sizeof_entity_t < 4294967296) (hbp : L.sizeof_bonepose_t < 4294967296)
    (hv : 0 ≤ toInt (env.R_SkeletalGetNumBones (get64 e L.entity_model))) :
    entityCmdLen L env e
      = sizeof_refCmdAddEntityToScene_t L + tailBytes (entityBlocks L env e) := by
  have m1 := szMul_bound _ L.sizeof_bonepose_t hv (by omega)
  have hh : sizeof_refCmdAddEntityToScene_t L < 4294967296 + 32 := by
    unfold sizeof_refCmdAddEntityToScene_t; omega
  have hM : SIZE_MOD = 18446744073709551616 := rfl
  have b1 := ite_le_self (env.R_SkeletalGetNumBones (get64 e L.entity_model) ≠ 0 ∧
      get64 e L.entity_boneposes ≠ 0)
    (szMul (intToSize (env.R_SkeletalGetNumBones (get64 e L.entity_model))) L.sizeof_bonepose_t)
  have e1 := condAdd_step (env.R_SkeletalGetNumBones (get64 e L.entity_model) ≠ 0 ∧
      get64 e L.entity_boneposes ≠ 0) (sizeof_refCmdAddEntityToScene_t L)
    (szMul (intToSize (env.R_SkeletalGetNumBones (get64 e L.entity_model))) L.sizeof_bonepose_t)
    _ rfl (by omega)
  have e2 := condAdd_step (env.R_SkeletalGetNumBones (get64 e L.entity_model) ≠ 0 ∧
      get64 e L.entity_oldboneposes ≠ 0) _
    (szMul (intToSize (env.R_SkeletalGetNumBones (get64 e L.entity_model))) L.sizeof_bonepose_t)
    _ e1 (by omega)
  have e3 : entityCmdLen L env e = _ := e2
  rw [e3]
  simp only [entityBlocks, tailBytes, decide_eq_true_eq, ne_eq]
  omega

theorem entity_same (L : Layout) (hL : L.SizesOk) (hE : L.EntityPointersOk) (env : Env)
    (b1 b2 : ref_cmdbuf_t) (ent : Nat)
    (hlen : b1.len = b2.len) (hb : b1.len ≤ L.sizeof_buf)
    (hv : 0 ≤ toInt (env.R_SkeletalGetNumBones
      (get64 (readBytes env.mem ent L.sizeof_entity_t) L.entity_model))) :
    (RF_IssueAddEntityToSceneCmd L env b1 ent).len
      = (RF_IssueAddEntityToSceneCmd L env b2 ent).len ∧
    ((RF_IssueAddEntityToSceneCmd L env b1 ent).len ≠ b1.len →
      SameRecordBytes b1.base b2.base L.sizeof_buf
        (RF_IssueAddEntityToSceneCmd L env b1 ent).buf
        (RF_IssueAddEntityToSceneCmd L env b2 ent).buf
        b1.len (b1.len + (sizeof_refCmdAddEntityToScene_t L
          + tailBytes (entityBlocks L env (readBytes env.mem ent L.sizeof_entity_t))))
        [8 + L.entity_boneposes, 8 + L.entity_oldboneposes] ∧
      SameStruct b1.base b2.base L.sizeof_buf
        (entityTail L env b1 (readBytes env.mem ent L.sizeof_entity_t)).obj
        (entityTail L env b2 (readBytes env.mem ent L.sizeof_entity_t)).obj
        [L.entity_boneposes, L.entity_oldboneposes]) := by
  have hcap := hL.1
  generalize hp : readBytes env.mem ent L.sizeof_entity_t = e at *
  have hplen : e.length = L.sizeof_entity_t := by rw [← hp, readBytes_length]
  obtain ⟨hb1, hb2⟩ := entityCmdLen_bounds L env e hL.2.2.1 hL.2.2.2.2 hv
  have hge := entityCmdLen_eq_tail L env e hL.2.2.1 hL.2.2.2.2 hv
  have hM : SIZE_MOD = 18446744073709551616 := rfl
  have hsz : szAdd b1.len (entityCmdLen L env e) = b1.len + entityCmdLen L env e :=
    szAdd_eq _ _ (by omega)
  have hT1 : entityTail L env b1 e = copyTails env.mem b1.base (entityBlocks L env e)
      { obj := e, buf := b1.buf, pcmd := b1.len + sizeof_refCmdAddEntityToScene_t L } := by
    unfold entityTail entityBlocks copyTails
    simp [List.foldl]
  have hT2 : entityTail L env b2 e = copyTails env.mem b2.base (entityBlocks L env e)
      { obj := e, buf := b2.buf, pcmd := b1.len + sizeof_refCmdAddEntityToScene_t L } := by
    rw [hlen]
    unfold entityTail entityBlocks copyTails
    simp [List.foldl]
  unfold RF_IssueAddEntityToSceneCmd
  simp only [hp]
  rw [← hlen, hsz]
  by_cases hfit : b1.len + entityCmdLen L env e > L.sizeof_buf
  · rw [if_pos hfit, if_pos hfit]
    exact ⟨hlen, fun hc => absurd rfl hc⟩
  · rw [if_neg hfit, if_neg hfit]
    refine ⟨rfl, fun _ => ?_⟩
    have hmemb : ∀ k ∈ entityBlocks L env e, k.member ∈
        [L.entity_boneposes, L.entity_oldboneposes] := by
      intro k hk
      simp only [entityBlocks, List.mem_cons, List.mem_singleton, List.not_mem_nil,
        or_false] at hk
      rcases hk with rfl | rfl <;> simp
    obtain ⟨hS, hB⟩ := tails_same env.mem b1.base b2.base L.sizeof_buf (entityBlocks L env e) e
      b1.buf b2.buf (b1.len + sizeof_refCmdAddEntityToScene_t L)
      [L.entity_boneposes, L.entity_oldboneposes]
      hE.2 (fun k hk => by rw [hplen]; exact hE.1 _ (hmemb k hk))
      (by
        intro m hm
        simp only [List.mem_cons, List.mem_singleton, List.not_mem_nil, or_false] at hm
        rcases hm with rfl | rfl
        · exact ⟨_, List.mem_cons_self _ _, rfl⟩
        · exact ⟨_, List.mem_cons_of_mem _ (List.mem_cons_self _ _), rfl⟩)
      hmemb (by omega)
    rw [← hT1, ← hT2] at hS hB
    refine ⟨?_, hS⟩
    refine record_same_of b1.base b2.base L.sizeof_buf _ _ b1.len _ _ _
      (REF_CMD_ADD_ENTITY_TO_SCENE.bytes ++ (U32.ofNat (entityCmdLen L env e)).bytes)
      ((env.R_SkeletalGetNumBones (get64 e L.entity_model)).bytes ++
        ((refCmdAddEntityToScene_t.ofBytes L
            (readBytes env.stack 0 (sizeof_refCmdAddEntityToScene_t L))).pad.bytes ++
        ((refCmdAddEntityToScene_t.ofBytes L
            (readBytes env.stack 0 (sizeof_refCmdAddEntityToScene_t L))).boneposes.bytes ++
         (refCmdAddEntityToScene_t.ofBytes L
            (readBytes env.stack 0 (sizeof_refCmdAddEntityToScene_t L))).oldboneposes.bytes)))
      (entityTail L env b1 e).obj (entityTail L env b2 e).obj
      [L.entity_boneposes, L.entity_oldboneposes] _
      8 L.sizeof_entity_t 24 (tailBytes (entityBlocks L env e)) ?_ ?_ ?_ ?_ ?_ rfl ?_ hS ?_ ?_
    · simp [refCmdAddEntityToScene_t.toBytes]
    · simp [refCmdAddEntityToScene_t.toBytes]
    · simp [U32_bytes_length]
    · rw [entityTail_obj_length, hplen]
    · simp [U32_bytes_length, U64_bytes_length]
    · unfold sizeof_refCmdAddEntityToScene_t; omega
    · intro m hm
      exact hE.1 m hm
    · intro i hi1 hi2
      exact hB i (by unfold sizeof_refCmdAddEntityToScene_t; omega)
        (by unfold sizeof_refCmdAddEntityToScene_t; omega)

theorem renderScene_written_le (L : Layout) (rsh : rsh_t) (r : List Byte)
    (hs : L.sizeof_refdef_t < 4294967296) :
    sizeof_refCmdRenderScene_t L + (renderSceneAreabytes L rsh r).val
      ≤ renderSceneCmdLen L rsh r := by
  have := (renderSceneAreabytes L rsh r).isLt
  have hh : sizeof_refCmdRenderScene_t L < 4294967296 + 24 := by
    unfold sizeof_refCmdRenderScene_t; omega
  have hM : SIZE_MOD = 18446744073709551616 := rfl
  by_cases hc : get64 r L.refdef_areabits ≠ 0 ∧ rsh.worldBrushModel ≠ 0
  · unfold renderSceneCmdLen
    rw [if_pos hc]
    exact ALIGN_ge_of_eq _ _ (szAdd_eq _ _ (by omega)) (by omega)
  · have h0 : renderSceneAreabytes L rsh r = 0 := by
      unfold renderSceneAreabytes
      rw [if_neg hc]
    unfold renderSceneCmdLen
    rw [if_neg hc, h0]
    exact Nat.le_refl _

theorem refdefStored_same (L : Layout) (hR : L.RefdefOk) (env : Env) (b1 b2 : ref_cmdbuf_t)
    (fd : Nat) (hlen : b1.len = b2.len)
    (hcap : b1.len + sizeof_refCmdRenderScene_t L ≤ L.sizeof_buf) :
    SameStruct b1.base b2.base L.sizeof_buf (refdefStored L env b1 fd)
      (refdefStored L env b2 fd) [L.refdef_areabits] := by
  have e1 := refdefStored_eqOutside L env b1 fd
  have e2 := refdefStored_eqOutside L env b2 fd
  refine ⟨by rw [refdefStored_length, refdefStored_length], fun i hi => ?_, fun m hm => ?_⟩
  · rw [e1.2 i hi, e2.2 i hi]
  · rw [List.mem_singleton] at hm
    subst hm
    unfold refdefStored
    simp only [← hlen]
    split
    · rw [get64_set64_same _ _ _ (by rw [readBytes_length]; exact hR.1),
        get64_set64_same _ _ _ (by rw [readBytes_length]; exact hR.1)]
      exact Or.inr ⟨_, hcap, rfl, rfl⟩
    · exact Or.inl rfl

theorem renderScene_same (L : Layout) (hL : L.SizesOk) (hR : L.RefdefOk) (env : Env)
    (b1 b2 : ref_cmdbuf_t) (fd : Nat) (hlen : b1.len = b2.len) (hb : b1.len ≤ L.sizeof_buf) :
    (RF_IssueRenderSceneCmd L env b1 fd).len = (RF_IssueRenderSceneCmd L env b2 fd).len ∧
    ((RF_IssueRenderSceneCmd L env b1 fd).len ≠ b1.len →
      SameRecordBytes b1.base b2.base L.sizeof_buf
        (RF_IssueRenderSceneCmd L env b1 fd).buf (RF_IssueRenderSceneCmd L env b2 fd).buf
        b1.len (b1.len + (sizeof_refCmdRenderScene_t L
          + (renderSceneAreabytes L env.rsh (readBytes env.mem fd L.sizeof_refdef_t)).val))
        [16 + L.refdef_areabits] ∧
      SameStruct b1.base b2.base L.sizeof_buf (refdefStored L env b1 fd)
        (refdefStored L env b2 fd) [L.refdef_areabits]) := by
  have hcap := hL.1
  obtain ⟨hb1, hb2⟩ := renderSceneCmdLen_bounds L env.rsh
    (readBytes env.mem fd L.sizeof_refdef_t) hL.2.2.2.1
  have hM : SIZE_MOD = 18446744073709551616 := rfl
  have hsz : szAdd b1.len (renderSceneCmdLen L env.rsh (readBytes env.mem fd L.sizeof_refdef_t))
      = b1.len + renderSceneCmdLen L env.rsh (readBytes env.mem fd L.sizeof_refdef_t) :=
    szAdd_eq _ _ (by omega)
  have hR1 : ∀ b : ref_cmdbuf_t,
      (if (renderSceneAreabytes L env.rsh (readBytes env.mem fd L.sizeof_refdef_t)).val > 0 then
        set64 (readBytes env.mem fd L.sizeof_refdef_t) L.refdef_areabits
          (U64.ofNat (b.base + (b.len + sizeof_refCmdRenderScene_t L)))
       else readBytes env.mem fd L.sizeof_refdef_t) = refdefStored L env b fd := fun _ => rfl
  unfold RF_IssueRenderSceneCmd
  simp only [hR1]
  rw [← hlen, hsz]
  by_cases hfit : b1.len + renderSceneCmdLen L env.rsh (readBytes env.mem fd L.sizeof_refdef_t)
      > L.sizeof_buf
  · rw [if_pos hfit, if_pos hfit]
    exact ⟨hlen, fun hc => absurd rfl hc⟩
  · rw [if_neg hfit, if_neg hfit]
    refine ⟨rfl, fun _ => ?_⟩
    have hS := refdefStored_same L hR env b1 b2 fd hlen (by omega)
    refine ⟨?_, hS⟩
    refine record_same_of b1.base b2.base L.sizeof_buf _ _ b1.len _ _ _
      (REF_CMD_RENDER_SCENE.bytes ++ ((U32.ofNat (renderSceneCmdLen L env.rsh
        (readBytes env.mem fd L.sizeof_refdef_t))).bytes ++
        (env.rsh.registrationSequence.bytes ++ env.rsh.worldModelSequence.bytes)))
      ((refCmdRenderScene_t.ofBytes L
        (readBytes env.stack 0 (sizeof_refCmdRenderScene_t L))).areabits.bytes)
      (refdefStored L env b1 fd) (refdefStored L env b2 fd)
      [L.refdef_areabits] _ 16 L.sizeof_refdef_t 8
      (renderSceneAreabytes L env.rsh (readBytes env.mem fd L.sizeof_refdef_t)).val
      ?_ ?_ ?_ ?_ ?_ rfl ?_ hS ?_ ?_
    · simp [refCmdRenderScene_t.toBytes]
    · simp [refCmdRenderScene_t.toBytes]
    · simp [U32_bytes_length]
    · exact refdefStored_length L env b1 fd
    · exact U64_bytes_length _
    · unfold sizeof_refCmdRenderScene_t; omega
    · intro m hm
      rw [List.mem_singleton] at hm
      subst hm
      exact hR.1
    · intro i hi1 hi2
      have hpos : (renderSceneAreabytes L env.rsh
          (readBytes env.mem fd L.sizeof_refdef_t)).val > 0 := by omega
      rw [if_pos hpos, if_pos hpos]
      rw [memcpy_getD _ _ _ _ (by unfold sizeof_refCmdRenderScene_t; omega)
          (by rw [readBytes_length]; unfold sizeof_refCmdRenderScene_t; omega),
        memcpy_getD _ _ _ _ (by unfold sizeof_refCmdRenderScene_t; omega)
          (by rw [readBytes_length]; unfold sizeof_refCmdRenderScene_t; omega)]

theorem refdefStored_rdflags (L : Layout) (hR : L.RefdefOk) (env : Env) (b : ref_cmdbuf_t)
    (fd : Nat) :
    get32 (refdefStored L env b fd) L.refdef_rdflags
      = get32 (readBytes env.mem fd L.sizeof_refdef_t) L.refdef_rdflags := by
  unfold refdefStored
  simp only
  split
  · exact get32_set64_other _ _ _ _ hR.2
  · rfl

theorem writtenLen_le (L : Layout) (hL : L.SizesOk) (env : Env) (c : FrameCmd)
    (hv : ValidCmd L env c) : writtenLen L env c ≤ cmdLen L env c := by
  cases c with
  | DrawStretchPoly poly x_offset y_offset => exact polyCmdLen_ge_tail L _ hL.2.1 hv.1 hv.2
  | AddPolyToScene poly => exact polyCmdLen_ge_tail L _ hL.2.1 hv.1 hv.2
  | AddEntityToScene ent =>
    exact Nat.le_of_eq (entityCmdLen_eq_tail L env _ hL.2.2.1 hL.2.2.2.2 hv).symm
  | RenderScene fd => exact renderScene_written_le L env.rsh _ hL.2.2.2.1
  | _ => exact Nat.le_refl _

theorem issue_same (L : Layout) (hL : L.SizesOk) (hP : L.PolyPointersOk)
    (hE : L.EntityPointersOk) (hR : L.RefdefOk) (env : Env) (rsh : rsh_t)
    (b1 b2 : ref_cmdbuf_t) (c : FrameCmd) (hlen : b1.len = b2.len)
    (hb : b1.len ≤ L.sizeof_buf) (hv : ValidCmd L env c) :
    (issue L env b1 c).len = (issue L env b2 c).len ∧
    ((issue L env b1 c).len ≠ b1.len →
      SameRecordBytes b1.base b2.base L.sizeof_buf (issue L env b1 c).buf (issue L env b2 c).buf
        b1.len (b1.len + writtenLen L env c) (c.pointerMembers L) ∧
      List.Forall₂ (SameCall L b1.base b2.base) (reply L env rsh b1 c)
        (reply L env rsh b2 c)) := by
  cases c with
  | BeginFrame cs fc fv =>
    obtain ⟨h1, h2⟩ := fixed_same L b1.base b2.base b1 b2 _ _ hlen (refCmdBeginFrame_t_toBytes_length _)
    exact ⟨h1, fun hne => ⟨h2 hne, List.Forall₂.cons rfl List.Forall₂.nil⟩⟩
  | EndFrame =>
    obtain ⟨h1, h2⟩ := fixed_same L b1.base b2.base b1 b2 _ _ hlen (refCmdEndFrame_t_toBytes_length _)
    exact ⟨h1, fun hne => ⟨h2 hne, List.Forall₂.cons rfl List.Forall₂.nil⟩⟩
  | DrawRotatedStretchPic x y w h s1 t1 s2 t2 angle color shader =>
    obtain ⟨h1, h2⟩ := fixed_same L b1.base b2.base b1 b2 _ _ hlen (refCmdDrawStretchPic_t_toBytes_length _)
    exact ⟨h1, fun hne => ⟨h2 hne, List.Forall₂.cons rfl List.Forall₂.nil⟩⟩
  | ClearScene =>
    obtain ⟨h1, h2⟩ := fixed_same L b1.base b2.base b1 b2 _ _ hlen (refCmdClearScene_t_toBytes_length _)
    exact ⟨h1, fun hne => ⟨h2 hne, List.Forall₂.cons rfl List.Forall₂.nil⟩⟩
  | AddLightToScene org intensity r g b =>
    obtain ⟨h1, h2⟩ := fixed_same L b1.base b2.base b1 b2 _ _ hlen (refCmdAddLightToScene_t_toBytes_length _)
    exact ⟨h1, fun hne => ⟨h2 hne, List.Forall₂.cons rfl List.Forall₂.nil⟩⟩
  | AddLightStyleToScene style r g b =>
    obtain ⟨h1, h2⟩ := fixed_same L b1.base b2.base b1 b2 _ _ hlen (refCmdAddLightStyleToScene_t_toBytes_length _)
    exact ⟨h1, fun hne => ⟨h2 hne, List.Forall₂.cons rfl List.Forall₂.nil⟩⟩
  | SetScissor x y w h =>
    obtain ⟨h1, h2⟩ := fixed_same L b1.base b2.base b1 b2 _ _ hlen (refCmdSetScissor_t_toBytes_length _)
    exact ⟨h1, fun hne => ⟨h2 hne, List.Forall₂.cons rfl List.Forall₂.nil⟩⟩
  | ResetScissor =>
    obtain ⟨h1, h2⟩ := fixed_same L b1.base b2.base b1 b2 _ _ hlen (refCmdResetScissor_t_toBytes_length _)
    exact ⟨h1, fun hne => ⟨h2 hne, List.Forall₂.cons rfl List.Forall₂.nil⟩⟩
  | DrawStretchRaw x y w h s1 t1 s2 t2 =>
    obtain ⟨h1, h2⟩ := fixed_same L b1.base b2.base b1 b2 _ _ hlen (refCmdDrawStretchRaw_t_toBytes_length _)
    exact ⟨h1, fun hne => ⟨h2 hne, List.Forall₂.cons rfl List.Forall₂.nil⟩⟩
  | DrawStretchRawYUV x y w h s1 t1 s2 t2 =>
    obtain ⟨h1, h2⟩ := fixed_same L b1.base b2.base b1 b2 _ _ hlen (refCmdDrawStretchRaw_t_toBytes_length _)
    exact ⟨h1, fun hne => ⟨h2 hne, List.Forall₂.cons rfl List.Forall₂.nil⟩⟩
  | DrawStretchPoly poly x_offset y_offset =>
    obtain ⟨h1, h2⟩ := poly_same L hL hP env.mem b1 b2 REF_CMD_DRAW_STRETCH_POLY poly
      x_offset y_offset hlen hb hv.1 hv.2
    exact ⟨h1, fun hne => ⟨(h2 hne).1,
      List.Forall₂.cons ⟨rfl, rfl, (h2 hne).2⟩ List.Forall₂.nil⟩⟩
  | AddPolyToScene poly =>
    obtain ⟨h1, h2⟩ := poly_same L hL hP env.mem b1 b2 REF_CMD_ADD_POLY_TO_SCENE poly
      0 0 hlen hb hv.1 hv.2
    exact ⟨h1, fun hne => ⟨(h2 hne).1, List.Forall₂.cons (h2 hne).2 List.Forall₂.nil⟩⟩
  | AddEntityToScene ent =>
    obtain ⟨h1, h2⟩ := entity_same L hL hE env b1 b2 ent hlen hb hv
    exact ⟨h1, fun hne => ⟨(h2 hne).1, List.Forall₂.cons (h2 hne).2 List.Forall₂.nil⟩⟩
  | RenderScene fd =>
    obtain ⟨h1, h2⟩ := renderScene_same L hL hR env b1 b2 fd hlen hb
    refine ⟨h1, fun hne => ⟨(h2 hne).1, ?_⟩⟩
    have hiff : renderSceneRuns L env.rsh rsh (refdefStored L env b1 fd) ↔
        renderSceneRuns L env.rsh rsh (refdefStored L env b2 fd) := by
      unfold renderSceneRuns
      rw [refdefStored_rdflags L hR, refdefStored_rdflags L hR]
    simp only [reply]
    by_cases hr : renderSceneRuns L env.rsh rsh (refdefStored L env b1 fd)
    · rw [if_pos hr, if_pos (hiff.1 hr)]
      exact List.Forall₂.cons (h2 hne).2 List.Forall₂.nil
    · rw [if_neg hr, if_neg (fun h => hr (hiff.2 h))]
      exact List.Forall₂.nil

theorem SameRecordBytes_congr {base1 base2 cap : Nat} {m1 m2 m1' m2' : Mem} {lo hi : Nat}
    {slots : List Nat} (h : SameRecordBytes base1 base2 cap m1 m2 lo hi slots)
    (h1 : ∀ i, i < hi → m1' i = m1 i) (h2 : ∀ i, i < hi → m2' i = m2 i) :
    SameRecordBytes base1 base2 cap m1' m2' lo hi slots := by
  obtain ⟨a, b, c⟩ := h
  refine ⟨a, fun i hi1 hi2 hs => ?_, fun s hs => ?_⟩
  · rw [h1 i hi2, h2 i hi2]
    exact b i hi1 hi2 hs
  · have := a s hs
    rw [readBytes_congr m1 m1' (lo + s) 8 (fun i _ hi2 => h1 i (by omega)),
      readBytes_congr m2 m2' (lo + s) 8 (fun i _ hi2 => h2 i (by omega))]
    exact c s hs

theorem forall₂_append {α β : Type} {R : α → β → Prop} {l1 l2 : List α} {r1 r2 : List β}
    (h1 : List.Forall₂ R l1 r1) (h2 : List.Forall₂ R l2 r2) :
    List.Forall₂ R (l1 ++ l2) (r1 ++ r2) := by
  induction h1 with
  | nil => exact h2
  | cons h _ ih => exact List.Forall₂.cons h ih

theorem issueAll_same (L : Layout) (hL : L.SizesOk) (hP : L.PolyPointersOk)
    (hE : L.EntityPointersOk) (hR : L.RefdefOk) (rsh : rsh_t) (cs : List (Env × FrameCmd)) :
    ∀ b1 b2 : ref_cmdbuf_t, b1.len = b2.len → b1.len ≤ L.sizeof_buf →
      (∀ p ∈ cs, ValidCmd L p.1 p.2) →
      (issueAll L b1 cs).len = (issueAll L b2 cs).len ∧
      decisions L b1 cs = decisions L b2 cs ∧
      records L b1 cs = records L b2 cs ∧
      (∀ r ∈ records L b1 cs, SameRecordBytes b1.base b2.base L.sizeof_buf
        (issueAll L b1 cs).buf (issueAll L b2 cs).buf r.1 (r.1 + writtenLen L r.2.1 r.2.2)
        (r.2.2.pointerMembers L)) ∧
      List.Forall₂ (SameCall L b1.base b2.base)
        ((expectedLog L rsh b1 cs).flatMap (fun v => v.calls))
        ((expectedLog L rsh b2 cs).flatMap (fun v => v.calls)) := by
  induction cs with
  | nil =>
    intro b1 b2 hlen _ _
    exact ⟨hlen, rfl, rfl, fun r hr => by simp [records] at hr, List.Forall₂.nil⟩
  | cons p rest ih =>
    obtain ⟨env, c⟩ := p
    intro b1 b2 hlen hb hv
    have hvc : ValidCmd L env c := hv (env, c) (List.mem_cons_self _ _)
    have hvr : ∀ p ∈ rest, ValidCmd L p.1 p.2 := fun p hp => hv p (List.mem_cons_of_mem _ hp)
    obtain ⟨s1, s2⟩ := issue_same L hL hP hE hR env rsh b1 b2 c hlen hb hvc
    have hb2 : b2.len ≤ L.sizeof_buf := by omega
    obtain ⟨k1, -, -, k4, k5⟩ := issue_spec L hL env rsh b1 c hb hvc
    obtain ⟨j1, -, -, -, -⟩ := issue_spec L hL env rsh b2 c hb2 hvc
    obtain ⟨f1, -, -, f4⟩ := issueAll_frame L hL rest (issue L env b1 c) k4 hvr
    obtain ⟨g1, -, -, g4⟩ := issueAll_frame L hL rest (issue L env b2 c)
      (by rw [← s1]; exact k4) hvr
    obtain ⟨i1, i2, i3, i4, i5⟩ := ih (issue L env b1 c) (issue L env b2 c) s1 k4 hvr
    rw [k1, j1] at i4 i5
    have hw := writtenLen_le L hL env c hvc
    simp only [issueAll, decisions, records, expectedLog, List.flatMap_append]
    rw [← s1, ← hlen, i2, i3]
    refine ⟨i1, rfl, rfl, ?_, ?_⟩
    · intro r hr
      rcases List.mem_append.1 hr with hr | hr
      · by_cases hc : (issue L env b1 c).len = b1.len
        · rw [if_pos hc] at hr
          simp at hr
        · rw [if_neg hc, List.mem_singleton] at hr
          subst hr
          have hlen' : (issue L env b1 c).len = b1.len + cmdLen L env c := by
            rcases k5 with h | h
            · exact absurd h hc
            · exact h.1
          refine SameRecordBytes_congr (s2 hc).1 (fun i hi => f4 i ?_) (fun i hi => g4 i ?_)
          · dsimp only at hi; omega
          · dsimp only at hi; omega
      · rw [← i3] at hr
        exact i4 r hr
    · refine forall₂_append ?_ i5
      by_cases hc : (issue L env b1 c).len = b1.len
      · rw [if_pos hc, if_pos hc]
        exact List.Forall₂.nil
      · rw [if_neg hc, if_neg hc]
        simp only [List.flatMap_cons, List.flatMap_nil, List.append_nil]
        exact (s2 hc).2

theorem Q_strncpyz_length (dest src : List Byte) (size : Nat) (h : dest.length = size) :
    (Q_strncpyz dest src size).length = size := by
  unfold Q_strncpyz
  split
  · exact h
  · simp only [List.length_append, List.length_cons, List.length_drop, List.length_take]
    omega

theorem cString_of_nulfree (s : List Byte) (h : (0 : Byte) ∉ s) : cString s = s := by
  unfold cString
  rw [List.takeWhile_eq_self_iff]
  intro x hx
  simp only [ne_eq, decide_not, Bool.not_eq_true', decide_eq_false_iff_not]
  rintro rfl
  exact h hx

theorem cString_append_nul (s rest : List Byte) (h : (0 : Byte) ∉ s) :
    cString (s ++ 0 :: rest) = s := by
  unfold cString
  induction s with
  | nil => simp
  | cons a s ih =>
    have ha : a ≠ 0 := fun h0 => h (by rw [h0]; exact List.mem_cons_self _ _)
    have hs : (0 : Byte) ∉ s := fun h0 => h (List.mem_cons_of_mem _ h0)
    simp only [List.cons_append, List.takeWhile_cons, ne_eq, ha, not_false_eq_true,
      decide_True, if_true]
    rw [ih hs]

theorem Q_strncpyz_eq (dest s : List Byte) (size : Nat) (h : (0 : Byte) ∉ s)
    (hs : 0 < size) :
    Q_strncpyz dest s size
      = s.take (size - 1) ++ (0 :: dest.drop (min s.length (size - 1) + 1)) := by
  unfold Q_strncpyz
  rw [if_neg (by omega), cString_of_nulfree s h, List.length_take, Nat.min_comm]

theorem Q_strncpyz_fits (dest s : List Byte) (size : Nat) (h : (0 : Byte) ∉ s)
    (hs : s.length < size) :
    cString (Q_strncpyz dest s size) = s := by
  rw [Q_strncpyz_eq dest s size h (by omega), List.take_of_length_le (by omega)]
  exact cString_append_nul s _ h

theorem Q_strncpyz_stores (dest s : List Byte) (size : Nat) (h : (0 : Byte) ∉ s)
    (hd : dest.length = size) (hs : 0 < size) :
    StoresTruncated (Q_strncpyz dest s size) s size := by
  refine ⟨Q_strncpyz_length dest s size hd, by omega, ?_, ?_⟩
  · rw [Q_strncpyz_eq dest s size h hs]
    exact List.take_left' (by rw [List.length_take, Nat.min_comm])
  · rw [Q_strncpyz_eq dest s size h hs]
    rw [List.getD_append_right _ _ _ _ (by rw [List.length_take]; omega)]
    have : min s.length (size - 1) - (List.take (size - 1) s).length = 0 := by
      rw [List.length_take]; omega
    rw [this]
    rfl

theorem write_eq (pipe : qbufPipe_t) (bytes : List Byte) (n : Nat) (h : bytes.length = n) :
    BufPipe_WriteCmd pipe bytes n = pipe ++ [bytes] := by
  unfold BufPipe_WriteCmd
  rw [take_eq_of_length bytes n h]

theorem refReliableCmdScreenShot_t_toBytes_length (c : refReliableCmdScreenShot_t)
    (h1 : c.fmtstring.length = 64) (h2 : c.path.length = 512) (h3 : c.name.length = 512) :
    c.toBytes.length = sizeof_refReliableCmdScreenShot_t := by
  simp [refReliableCmdScreenShot_t.toBytes, U32_bytes_length, boolBytes_length,
    padBytes_length, sizeof_refReliableCmdScreenShot_t, h1, h2, h3]

theorem refReliableCmdScreenShot_t_ofBytes_toBytes (c : refReliableCmdScreenShot_t)
    (h1 : c.fmtstring.length = 64) (h2 : c.path.length = 512) (h3 : c.name.length = 512) :
    refReliableCmdScreenShot_t.ofBytes c.toBytes = c := by
  simp only [refReliableCmdScreenShot_t.ofBytes, refReliableCmdScreenShot_t.toBytes,
    rdU32_append, drop_U32, List.drop_zero, rdBool_append, drop_bool, drop_pad 2,
    take_blob _ _ _ h1, drop_blob _ _ _ h1, take_blob _ _ _ h2, drop_blob _ _ _ h2,
    take_eq_of_length _ _ h3]

theorem refReliableCmdSetCustomColor_t_ofBytes_toBytes (c : refReliableCmdSetCustomColor_t) :
    refReliableCmdSetCustomColor_t.ofBytes c.toBytes = c := by
  simp only [refReliableCmdSetCustomColor_t.ofBytes, refReliableCmdSetCustomColor_t.toBytes,
    rdU32_append, drop_U32, List.drop_zero, rdU32_bytes]

theorem refReliableCmdSetCustomColor_t_toBytes_length (c : refReliableCmdSetCustomColor_t) :
    c.toBytes.length = sizeof_refReliableCmdSetCustomColor_t := by
  simp [refReliableCmdSetCustomColor_t.toBytes, U32_bytes_length,
    sizeof_refReliableCmdSetCustomColor_t]

theorem refReliableCmdSetWallFloorColors_t_ofBytes_toBytes
    (c : refReliableCmdSetWallFloorColors_t) :
    refReliableCmdSetWallFloorColors_t.ofBytes c.toBytes = c := by
  simp only [refReliableCmdSetWallFloorColors_t.ofBytes,
    refReliableCmdSetWallFloorColors_t.toBytes, rdU32_append, drop_U32, List.drop_zero,
    rdU32_bytes]

theorem refReliableCmdSetWallFloorColors_t_toBytes_length
    (c : refReliableCmdSetWallFloorColors_t) :
    c.toBytes.length = sizeof_refReliableCmdSetWallFloorColors_t := by
  simp [refReliableCmdSetWallFloorColors_t.toBytes, U32_bytes_length,
    sizeof_refReliableCmdSetWallFloorColors_t]

theorem refReliableCmdSetDrawBuffer_t_ofBytes_toBytes (c : refReliableCmdSetDrawBuffer_t)
    (h : c.drawbuffer.length = 32) : refReliableCmdSetDrawBuffer_t.ofBytes c.toBytes = c := by
  simp only [refReliableCmdSetDrawBuffer_t.ofBytes, refReliableCmdSetDrawBuffer_t.toBytes,
    rdU32_append, drop_blob _ _ _ (U32_bytes_length c.id), take_eq_of_length _ _ h]

theorem refReliableCmdSetDrawBuffer_t_toBytes_length (c : refReliableCmdSetDrawBuffer_t)
    (h : c.drawbuffer.length = 32) : c.toBytes.length = sizeof_refReliableCmdSetDrawBuffer_t := by
  simp [refReliableCmdSetDrawBuffer_t.toBytes, U32_bytes_length,
    sizeof_refReliableCmdSetDrawBuffer_t, h]

theorem refReliableCmdSetTextureMode_t_ofBytes_toBytes (c : refReliableCmdSetTextureMode_t)
    (h : c.texturemode.length = 32) :
    refReliableCmdSetTextureMode_t.ofBytes c.toBytes = c := by
  simp only [refReliableCmdSetTextureMode_t.ofBytes, refReliableCmdSetTextureMode_t.toBytes,
    rdU32_append, drop_blob _ _ _ (U32_bytes_length c.id), take_eq_of_length _ _ h]

theorem refReliableCmdSetTextureMode_t_toBytes_length (c : refReliableCmdSetTextureMode_t)
    (h : c.texturemode.length = 32) :
    c.toBytes.length = sizeof_refReliableCmdSetTextureMode_t := by
  simp [refReliableCmdSetTextureMode_t.toBytes, U32_bytes_length,
    sizeof_refReliableCmdSetTextureMode_t, h]

theorem refReliableCmdSetTextureFilter_t_ofBytes_toBytes
    (c : refReliableCmdSetTextureFilter_t) :
    refReliableCmdSetTextureFilter_t.ofBytes c.toBytes = c := by
  simp only [refReliableCmdSetTextureFilter_t.ofBytes, refReliableCmdSetTextureFilter_t.toBytes,
    rdU32_append, drop_blob _ _ _ (U32_bytes_length c.id), List.headD_cons, drop_U32,
    List.drop_succ_cons, List.drop_zero]

theorem refReliableCmdSetTextureFilter_t_toBytes_length
    (c : refReliableCmdSetTextureFilter_t) :
    c.toBytes.length = sizeof_refReliableCmdSetTextureFilter_t := by
  simp [refReliableCmdSetTextureFilter_t.toBytes, U32_bytes_length,
    sizeof_refReliableCmdSetTextureFilter_t]

theorem refReliableCmdSetGamma_t_ofBytes_toBytes (c : refReliableCmdSetGamma_t) :
    refReliableCmdSetGamma_t.ofBytes c.toBytes = c := by
  simp only [refReliableCmdSetGamma_t.ofBytes, refReliableCmdSetGamma_t.toBytes,
    rdU32_append, drop_blob _ _ _ (U32_bytes_length c.id), rdU32_bytes]

theorem refReliableCmdSetGamma_t_toBytes_length (c : refReliableCmdSetGamma_t) :
    c.toBytes.length = sizeof_refReliableCmdSetGamma_t := by
  simp [refReliableCmdSetGamma_t.toBytes, U32_bytes_length, sizeof_refReliableCmdSetGamma_t]

theorem envScreenShot_eq (pipe : qbufPipe_t) (id : U32) (path name fmtstring : List Byte)
    (x y w h pixels : U32) (silent media : Bool) :
    RF_IssueEnvScreenShotReliableCmd pipe id path name fmtstring x y w h pixels silent media
      = pipe ++ [refReliableCmdScreenShot_t.toBytes
          { id := id, pixels := pixels, silent := silent, media := media, x := x, y := y,
            w := w, h := h, fmtstring := Q_strncpyz (padBytes 64) fmtstring 64,
            path := Q_strncpyz (padBytes 512) path 512,
            name := Q_strncpyz (padBytes 512) name 512 }] := by
  unfold RF_IssueEnvScreenShotReliableCmd
  exact write_eq _ _ _ (refReliableCmdScreenShot_t_toBytes_length _
    (Q_strncpyz_length _ _ _ (padBytes_length 64)) (Q_strncpyz_length _ _ _ (padBytes_length 512))
    (Q_strncpyz_length _ _ _ (padBytes_length 512)))

theorem refReliableCmdScreenShot_t_rdU32 (c : refReliableCmdScreenShot_t) :
    rdU32 c.toBytes = c.id := rdU32_append _ _

theorem handle_envScreenShot (id : U32) (path name fmtstring : List Byte)
    (x y w h pixels : U32) (silent media : Bool)
    (hp : (0 : Byte) ∉ path) (hn : (0 : Byte) ∉ name) (hf : (0 : Byte) ∉ fmtstring)
    (hpl : path.length < 512) (hnl : name.length < 512) (hfl : fmtstring.length < 64) :
    refReliableCmdScreenShot_t.ofBytes (refReliableCmdScreenShot_t.toBytes
      { id := id, pixels := pixels, silent := silent, media := media, x := x, y := y,
        w := w, h := h, fmtstring := Q_strncpyz (padBytes 64) fmtstring 64,
        path := Q_strncpyz (padBytes 512) path 512,
        name := Q_strncpyz (padBytes 512) name 512 })
      = { id := id, pixels := pixels, silent := silent, media := media, x := x, y := y,
          w := w, h := h, fmtstring := Q_strncpyz (padBytes 64) fmtstring 64,
          path := Q_strncpyz (padBytes 512) path 512,
          name := Q_strncpyz (padBytes 512) name 512 } ∧
    cString (Q_strncpyz (padBytes 512) path 512) = path ∧
    cString (Q_strncpyz (padBytes 512) name 512) = name ∧
    cString (Q_strncpyz (padBytes 64) fmtstring 64) = fmtstring :=
  ⟨refReliableCmdScreenShot_t_ofBytes_toBytes _
    (Q_strncpyz_length _ _ _ (padBytes_length 64)) (Q_strncpyz_length _ _ _ (padBytes_length 512))
    (Q_strncpyz_length _ _ _ (padBytes_length 512)),
   Q_strncpyz_fits _ _ _ hp hpl, Q_strncpyz_fits _ _ _ hn hnl, Q_strncpyz_fits _ _ _ hf hfl⟩

/-- The `drawbuffer` member of the local `cmd` of `RF_IssueSetDrawBufferReliableCmd`
before it is assigned has the 32 bytes of the array. -/
theorem uninit_drawbuffer_length (stack : Mem) :
    (refReliableCmdSetDrawBuffer_t.ofBytes
      (readBytes stack 0 sizeof_refReliableCmdSetDrawBuffer_t)).drawbuffer.length = 32 := by
  simp [refReliableCmdSetDrawBuffer_t.ofBytes, readBytes_length,
    sizeof_refReliableCmdSetDrawBuffer_t]

theorem uninit_texturemode_length (stack : Mem) :
    (refReliableCmdSetTextureMode_t.ofBytes
      (readBytes stack 0 sizeof_refReliableCmdSetTextureMode_t)).texturemode.length = 32 := by
  simp [refReliableCmdSetTextureMode_t.ofBytes, readBytes_length,
    sizeof_refReliableCmdSetTextureMode_t]

theorem setDrawBuffer_rdU32 (c : refReliableCmdSetDrawBuffer_t) : rdU32 c.toBytes = c.id :=
  rdU32_append _ _

theorem setTextureMode_rdU32 (c : refReliableCmdSetTextureMode_t) : rdU32 c.toBytes = c.id :=
  rdU32_append _ _

theorem setTextureFilter_rdU32 (c : refReliableCmdSetTextureFilter_t) :
    rdU32 c.toBytes = c.id :=
  rdU32_append _ _

/-- C18. Reliable round trip of arguments: for every argument tuple, the one record that
SetGamma, SetCustomColor, SetWallFloorColors, SetDrawBuffer and SetTextureMode (name
shorter than 32 bytes), ScreenShot, EnvShot and AviShot (path and name shorter than 512
bytes, format shorter than 64 bytes) write to the pipe, handed to the handler that
`refPipeCmdHandlers` has at the record's identifier, makes the matching backend call
with the same values. -/
theorem C18_reliable_round_trip (G : PipeEnv) (pipe : qbufPipe_t) :
    (∀ gamma, ∃ record, RF_IssueSetGammaReliableCmd pipe gamma = pipe ++ [record] ∧
      (refPipeCmdHandlers G (rdU32 record).val record).1 = [.R_SetGamma gamma]) ∧
    (∀ num r g b, ∃ record,
      RF_IssueSetCustomColorReliableCmd pipe num r g b = pipe ++ [record] ∧
      (refPipeCmdHandlers G (rdU32 record).val record).1 = [.R_SetCustomColor num r g b]) ∧
    (∀ wall floor, ∃ record,
      RF_IssueSetWallFloorColorsReliableCmd pipe wall floor = pipe ++ [record] ∧
      (refPipeCmdHandlers G (rdU32 record).val record).1
        = [.R_SetWallFloorColors wall floor]) ∧
    (∀ name : List Byte, (0 : Byte) ∉ name → name.length < 32 → ∃ record,
      RF_IssueSetDrawBufferReliableCmd G.stack pipe name = pipe ++ [record] ∧
      (refPipeCmdHandlers G (rdU32 record).val record).1 = [.R_SetDrawBuffer name]) ∧
    (∀ name : List Byte, (0 : Byte) ∉ name → name.length < 32 → ∃ record,
      RF_IssueSetTextureModeReliableCmd G.stack pipe name = pipe ++ [record] ∧
      (refPipeCmdHandlers G (rdU32 record).val record).1 = [.R_TextureMode name]) ∧
    (∀ (path name fmtstring : List Byte) (silent : Bool),
      (0 : Byte) ∉ path → (0 : Byte) ∉ name → (0 : Byte) ∉ fmtstring →
      path.length < 512 → name.length < 512 → fmtstring.length < 64 → ∃ record,
      RF_IssueScreenShotReliableCmd G pipe path name fmtstring silent = pipe ++ [record] ∧
      (refPipeCmdHandlers G (rdU32 record).val record).1
        = [.R_TakeScreenShot path name fmtstring 0 0 G.glConfig_width G.glConfig_height
            silent true]) ∧
    (∀ (path name : List Byte) (pixels : U32),
      (0 : Byte) ∉ path → (0 : Byte) ∉ name → path.length < 512 → name.length < 512 →
      ∃ record, RF_IssueEnvShotReliableCmd G pipe path name pixels = pipe ++ [record] ∧
      (refPipeCmdHandlers G (rdU32 record).val record).1
        = [.R_TakeEnvShot path name pixels]) ∧
    (∀ (path name : List Byte) (x y w h : U32),
      (0 : Byte) ∉ path → (0 : Byte) ∉ name → path.length < 512 → name.length < 512 →
      ∃ record, RF_IssueAviShotReliableCmd pipe path name x y w h = pipe ++ [record] ∧
      (refPipeCmdHandlers G (rdU32 record).val record).1
        = [.R_TakeScreenShot path name [] x y w h true false]) := by
  refine ⟨?_, ?_, ?_, ?_, ?_, ?_, ?_, ?_⟩
  · intro gamma
    refine ⟨_, write_eq _ _ _ (refReliableCmdSetGamma_t_toBytes_length _), ?_⟩
    rw [show rdU32 (refReliableCmdSetGamma_t.toBytes
      { id := REF_PIPE_CMD_SET_GAMMA, gamma := gamma }) = REF_PIPE_CMD_SET_GAMMA from
      rdU32_append _ _]
    show (R_HandleSetGammaReliableCmd _).1 = _
    unfold R_HandleSetGammaReliableCmd
    rw [refReliableCmdSetGamma_t_ofBytes_toBytes]
  · intro num r g b
    refine ⟨_, write_eq _ _ _ (refReliableCmdSetCustomColor_t_toBytes_length _), ?_⟩
    rw [show rdU32 (refReliableCmdSetCustomColor_t.toBytes
      { id := REF_PIPE_CMD_SET_CUSTOM_COLOR, num := num, r := r, g := g, b := b })
      = REF_PIPE_CMD_SET_CUSTOM_COLOR from rdU32_append _ _]
    show (R_HandleSetCustomColorReliableCmd _).1 = _
    unfold R_HandleSetCustomColorReliableCmd
    rw [refReliableCmdSetCustomColor_t_ofBytes_toBytes]
  · intro wall floor
    refine ⟨_, write_eq _ _ _ (refReliableCmdSetWallFloorColors_t_toBytes_length _), ?_⟩
    rw [show rdU32 (refReliableCmdSetWallFloorColors_t.toBytes
      { id := REF_PIPE_CMD_SET_WALL_FLOOR_COLORS,
        wall := { v0 := wall.v0, v1 := wall.v1, v2 := wall.v2 },
        floor := { v0 := floor.v0, v1 := floor.v1, v2 := floor.v2 } })
      = REF_PIPE_CMD_SET_WALL_FLOOR_COLORS from rdU32_append _ _]
    show (R_HandleSetWallFloorColorsReliableCmd _).1 = _
    unfold R_HandleSetWallFloorColorsReliableCmd
    rw [refReliableCmdSetWallFloorColors_t_ofBytes_toBytes]
  · intro name h0 hl
    refine ⟨_, write_eq _ _ _ (refReliableCmdSetDrawBuffer_t_toBytes_length _
      (Q_strncpyz_length _ _ _ (uninit_drawbuffer_length G.stack))), ?_⟩
    rw [setDrawBuffer_rdU32]
    show (R_HandleSetDrawBufferReliableCmd _).1 = _
    unfold R_HandleSetDrawBufferReliableCmd
    rw [refReliableCmdSetDrawBuffer_t_ofBytes_toBytes _
      (Q_strncpyz_length _ _ _ (uninit_drawbuffer_length G.stack))]
    simp only [Q_strncpyz_fits _ _ _ h0 hl]
  · intro name h0 hl
    refine ⟨_, write_eq _ _ _ (refReliableCmdSetTextureMode_t_toBytes_length _
      (Q_strncpyz_length _ _ _ (uninit_texturemode_length G.stack))), ?_⟩
    rw [setTextureMode_rdU32]
    show (R_HandleSetTextureModeReliableCmd _).1 = _
    unfold R_HandleSetTextureModeReliableCmd
    rw [refReliableCmdSetTextureMode_t_ofBytes_toBytes _
      (Q_strncpyz_length _ _ _ (uninit_texturemode_length G.stack))]
    simp only [Q_strncpyz_fits _ _ _ h0 hl]
  · intro path name fmtstring silent hp hn hf hpl hnl hfl
    obtain ⟨e1, e2, e3, e4⟩ := handle_envScreenShot REF_PIPE_CMD_SCREEN_SHOT path name
      fmtstring 0 0 G.glConfig_width G.glConfig_height 0 silent true hp hn hf hpl hnl hfl
    refine ⟨_, envScreenShot_eq _ _ _ _ _ _ _ _ _ _ _ _, ?_⟩
    rw [refReliableCmdScreenShot_t_rdU32]
    show (R_HandleScreenShotReliableCmd _).1 = _
    unfold R_HandleScreenShotReliableCmd
    rw [e1]
    simp only [e2, e3, e4]
  · intro path name pixels hp hn hpl hnl
    obtain ⟨e1, e2, e3, -⟩ := handle_envScreenShot REF_PIPE_CMD_ENV_SHOT path name
      [] 0 0 G.glConfig_width G.glConfig_height pixels false false hp hn
      (List.not_mem_nil _) hpl hnl (by decide)
    refine ⟨_, envScreenShot_eq _ _ _ _ _ _ _ _ _ _ _ _, ?_⟩
    rw [refReliableCmdScreenShot_t_rdU32]
    show (R_HandleEnvShotReliableCmd _).1 = _
    unfold R_HandleEnvShotReliableCmd
    rw [e1]
    simp only [e2, e3]
  · intro path name x y w h hp hn hpl hnl
    obtain ⟨e1, e2, e3, e4⟩ := handle_envScreenShot REF_PIPE_CMD_SCREEN_SHOT path name
      [] x y w h 0 true false hp hn (List.not_mem_nil _) hpl hnl (by decide)
    refine ⟨_, envScreenShot_eq _ _ _ _ _ _ _ _ _ _ _ _, ?_⟩
    rw [refReliableCmdScreenShot_t_rdU32]
    show (R_HandleScreenShotReliableCmd _).1 = _
    unfold R_HandleScreenShotReliableCmd
    rw [e1]
    simp only [e2, e3, e4]

theorem ops_of_id (G : PipeEnv) (record : List Byte) (id : U32) (names : List String)
    (hid : rdU32 record = id)
    (h : (refPipeCmdHandlers G id.val record).1.map PipeCall.function = names) :
    (refPipeCmdHandlers G (rdU32 record).val record).1.map PipeCall.function = names := by
  rw [hid]
  exact h

theorem issueReliable_spec (G : PipeEnv) (pipe : qbufPipe_t) (c : ReliableCmd) :
    ∃ record, issueReliable G pipe c = pipe ++ [record] ∧ record.length = c.recordSize ∧
      rdU32 record = c.ident ∧
      (refPipeCmdHandlers G (rdU32 record).val record).1.map PipeCall.function
        = c.operations := by
  have hs : ∀ (id : U32) (path name fmtstring : List Byte) (x y w h pixels : U32)
      (silent media : Bool), ∃ record,
      RF_IssueEnvScreenShotReliableCmd pipe id path name fmtstring x y w h pixels silent media
        = pipe ++ [record] ∧ record.length = sizeof_refReliableCmdScreenShot_t ∧
      rdU32 record = id := fun id path name fmtstring x y w h pixels silent media =>
    ⟨_, envScreenShot_eq _ _ _ _ _ _ _ _ _ _ _ _,
      refReliableCmdScreenShot_t_toBytes_length _
        (Q_strncpyz_length _ _ _ (padBytes_length 64))
        (Q_strncpyz_length _ _ _ (padBytes_length 512))
        (Q_strncpyz_length _ _ _ (padBytes_length 512)),
      refReliableCmdScreenShot_t_rdU32 _⟩
  cases c with
  | Init =>
    exact ⟨_, write_eq _ _ _ (U32_bytes_length _), U32_bytes_length _, rdU32_bytes _,
      ops_of_id G _ REF_PIPE_CMD_INIT _ (rdU32_bytes _) rfl⟩
  | Shutdown =>
    exact ⟨_, write_eq _ _ _ (U32_bytes_length _), U32_bytes_length _, rdU32_bytes _,
      ops_of_id G _ REF_PIPE_CMD_SHUTDOWN _ (rdU32_bytes _) rfl⟩
  | SurfaceChange =>
    exact ⟨_, write_eq _ _ _ (U32_bytes_length _), U32_bytes_length _, rdU32_bytes _,
      ops_of_id G _ REF_PIPE_CMD_SURFACE_CHANGE _ (rdU32_bytes _) rfl⟩
  | ScreenShot path name fmtstring silent =>
    obtain ⟨record, h1, h2, h3⟩ := hs REF_PIPE_CMD_SCREEN_SHOT path name fmtstring 0 0
      G.glConfig_width G.glConfig_height 0 silent true
    exact ⟨record, h1, h2, h3, by rw [h3]; rfl⟩
  | EnvShot path name pixels =>
    obtain ⟨record, h1, h2, h3⟩ := hs REF_PIPE_CMD_ENV_SHOT path name [] 0 0
      G.glConfig_width G.glConfig_height pixels false false
    exact ⟨record, h1, h2, h3, by rw [h3]; rfl⟩
  | AviShot path name x y w h =>
    obtain ⟨record, h1, h2, h3⟩ := hs REF_PIPE_CMD_SCREEN_SHOT path name [] x y w h 0
      true false
    exact ⟨record, h1, h2, h3, by rw [h3]; rfl⟩
  | BeginRegistration =>
    exact ⟨_, write_eq _ _ _ (U32_bytes_length _), U32_bytes_length _, rdU32_bytes _,
      ops_of_id G _ REF_PIPE_CMD_BEGIN_REGISTRATION _ (rdU32_bytes _) rfl⟩
  | EndRegistration =>
    exact ⟨_, write_eq _ _ _ (U32_bytes_length _), U32_bytes_length _, rdU32_bytes _,
      ops_of_id G _ REF_PIPE_CMD_END_REGISTRATION _ (rdU32_bytes _) rfl⟩
  | SetCustomColor num r g b =>
    exact ⟨_, write_eq _ _ _ (refReliableCmdSetCustomColor_t_toBytes_length _),
      refReliableCmdSetCustomColor_t_toBytes_length _, rdU32_append _ _,
      ops_of_id G _ REF_PIPE_CMD_SET_CUSTOM_COLOR _ (rdU32_append _ _) rfl⟩
  | SetWallFloorColors wallColor floorColor =>
    exact ⟨_, write_eq _ _ _ (refReliableCmdSetWallFloorColors_t_toBytes_length _),
      refReliableCmdSetWallFloorColors_t_toBytes_length _, rdU32_append _ _,
      ops_of_id G _ REF_PIPE_CMD_SET_WALL_FLOOR_COLORS _ (rdU32_append _ _) rfl⟩
  | SetDrawBuffer drawbuffer =>
    exact ⟨_, write_eq _ _ _ (refReliableCmdSetDrawBuffer_t_toBytes_length _
        (Q_strncpyz_length _ _ _ (uninit_drawbuffer_length G.stack))),
      refReliableCmdSetDrawBuffer_t_toBytes_length _
        (Q_strncpyz_length _ _ _ (uninit_drawbuffer_length G.stack)), rdU32_append _ _,
      ops_of_id G _ REF_PIPE_CMD_SET_DRAWBUFFER _ (rdU32_append _ _) rfl⟩
  | SetTextureMode texturemode =>
    exact ⟨_, write_eq _ _ _ (refReliableCmdSetTextureMode_t_toBytes_length _
        (Q_strncpyz_length _ _ _ (uninit_texturemode_length G.stack))),
      refReliableCmdSetTextureMode_t_toBytes_length _
        (Q_strncpyz_length _ _ _ (uninit_texturemode_length G.stack)), rdU32_append _ _,
      ops_of_id G _ REF_PIPE_CMD_SET_TEXTURE_MODE _ (rdU32_append _ _) rfl⟩
  | SetTextureFilter filter =>
    exact ⟨_, write_eq _ _ _ (refReliableCmdSetTextureFilter_t_toBytes_length _),
      refReliableCmdSetTextureFilter_t_toBytes_length _, rdU32_append _ _,
      ops_of_id G _ REF_PIPE_CMD_SET_TEXTURE_FILTER _ (rdU32_append _ _) rfl⟩
  | SetGamma gamma =>
    exact ⟨_, write_eq _ _ _ (refReliableCmdSetGamma_t_toBytes_length _),
      refReliableCmdSetGamma_t_toBytes_length _, rdU32_append _ _,
      ops_of_id G _ REF_PIPE_CMD_SET_GAMMA _ (rdU32_append _ _) rfl⟩

/-- C17. Reliable commands are never dropped and keep their order: every call of a
public pipe encoder appends exactly one record to the pipe, of the size of its record
type and led by its `REF_PIPE_CMD_*` identifier; so after any sequence of such calls the
pipe holds, behind what it held before, one record per call in call order, and draining
those records through `refPipeCmdHandlers` calls the backend functions of the commands
in that order. -/
theorem C17_reliable_in_order (G : PipeEnv) (cs : List ReliableCmd) :
    ∀ pipe : qbufPipe_t, ∃ records, issueReliableAll G pipe cs = pipe ++ records ∧
      List.Forall₂ (fun c record => record.length = c.recordSize ∧ rdU32 record = c.ident)
        cs records ∧
      (drainPipe G records).map PipeCall.function = cs.flatMap ReliableCmd.operations := by
  induction cs with
  | nil => intro pipe; exact ⟨[], by simp [issueReliableAll], List.Forall₂.nil, rfl⟩
  | cons c rest ih =>
    intro pipe
    obtain ⟨record, h1, h2, h3, h4⟩ := issueReliable_spec G pipe c
    obtain ⟨records, k1, k2, k3⟩ := ih (pipe ++ [record])
    refine ⟨record :: records, ?_, List.Forall₂.cons ⟨h2, h3⟩ k2, ?_⟩
    · show issueReliableAll G (issueReliable G pipe c) rest = _
      rw [h1, k1]
      simp
    · simp only [drainPipe, List.flatMap_cons, List.map_append] at k3 ⊢
      rw [h4, k3]

set_option maxRecDepth 100000 in
/-- Witness of C17: the scenario `SetGamma( 1.2 )` then
`ScreenShot( "/tmp", "shot", "%04d", false )` on an empty pipe drains as `R_SetGamma`
then `R_TakeScreenShot`, with the arguments of the calls. -/
theorem C17_reliable_in_order_witness :
    (∃ records, issueReliableAll examplePipeEnv [] exampleReliable = [] ++ records ∧
      List.Forall₂ (fun c record => record.length = c.recordSize ∧ rdU32 record = c.ident)
        exampleReliable records ∧
      (drainPipe examplePipeEnv records).map PipeCall.function
        = exampleReliable.flatMap ReliableCmd.operations) ∧
    exampleReliable.flatMap ReliableCmd.operations = ["R_SetGamma", "R_TakeScreenShot"] ∧
    drainPipe examplePipeEnv (issueReliableAll examplePipeEnv [] exampleReliable)
      = [.R_SetGamma 1067030938,
         .R_TakeScreenShot [47, 116, 109, 112] [115, 104, 111, 116] [37, 48, 52, 100]
           0 0 800 600 false true] :=
  ⟨C17_reliable_in_order examplePipeEnv exampleReliable [], rfl, by decide⟩

/-- Witness of C18: a draw buffer name of four bytes, and the screenshot
`ScreenShot( "/tmp", "shot", "%04d", false )`. -/
theorem C18_reliable_round_trip_witness :
    ((0 : Byte) ∉ [98, 97, 99, 107] ∧ [(98 : Byte), 97, 99, 107].length < 32 ∧
      ∃ record, RF_IssueSetDrawBufferReliableCmd examplePipeEnv.stack [] [98, 97, 99, 107]
          = [] ++ [record] ∧
        (refPipeCmdHandlers examplePipeEnv (rdU32 record).val record).1
          = [.R_SetDrawBuffer [98, 97, 99, 107]]) ∧
    ((0 : Byte) ∉ [47, 116, 109, 112] ∧ (0 : Byte) ∉ [115, 104, 111, 116] ∧
      (0 : Byte) ∉ [37, 48, 52, 100] ∧ [(47 : Byte), 116, 109, 112].length < 512 ∧
      [(115 : Byte), 104, 111, 116].length < 512 ∧ [(37 : Byte), 48, 52, 100].length < 64 ∧
      ∃ record, RF_IssueScreenShotReliableCmd examplePipeEnv [] [47, 116, 109, 112]
          [115, 104, 111, 116] [37, 48, 52, 100] false = [] ++ [record] ∧
        (refPipeCmdHandlers examplePipeEnv (rdU32 record).val record).1
          = [.R_TakeScreenShot [47, 116, 109, 112] [115, 104, 111, 116] [37, 48, 52, 100]
              0 0 examplePipeEnv.glConfig_width examplePipeEnv.glConfig_height false true]) :=
  ⟨⟨by decide, by decide,
      (C18_reliable_round_trip examplePipeEnv []).2.2.2.1 [98, 97, 99, 107] (by decide)
        (by decide)⟩,
    ⟨by decide, by decide, by decide, by decide, by decide, by decide,
      (C18_reliable_round_trip examplePipeEnv []).2.2.2.2.2.1 [47, 116, 109, 112]
        [115, 104, 111, 116] [37, 48, 52, 100] false (by decide) (by decide) (by decide)
        (by decide) (by decide) (by decide)⟩⟩

/-- C19, evaluated on the code: for every `int` value `filter`, the record written by
`RF_IssueSetTextureFilterReliableCmd` keeps `filter` in a `char`, and
`R_HandleSetTextureFilterReliableCmd` calls `R_AnisotropicFilter` with that `char`
promoted to `int`; for `filter = 256` the value passed is 0, whether `char` is signed or
not. -/
theorem C19_texture_filter_low_byte (G : PipeEnv) (pipe : qbufPipe_t) :
    (∀ filter, ∃ record,
      RF_IssueSetTextureFilterReliableCmd G.stack pipe filter = pipe ++ [record] ∧
      (refPipeCmdHandlers G (rdU32 record).val record).1
        = [.R_AnisotropicFilter (charToInt G.charSigned (intToChar filter))]) ∧
    charToInt G.charSigned (intToChar 256) = 0 ∧ (256 : U32) ≠ 0 := by
  refine ⟨fun filter => ?_, ?_, by decide⟩
  · refine ⟨_, write_eq _ _ _ (refReliableCmdSetTextureFilter_t_toBytes_length _), ?_⟩
    rw [setTextureFilter_rdU32]
    show (R_HandleSetTextureFilterReliableCmd G _).1 = _
    unfold R_HandleSetTextureFilterReliableCmd
    rw [refReliableCmdSetTextureFilter_t_ofBytes_toBytes]
  · cases G.charSigned <;> decide

/-- C20. String truncation to fixed widths: for every input string, the one record that
a screenshot encoder writes stores `path` and `name` as their longest prefix of at most
511 bytes and `fmtstring` as its longest prefix of at most 63 bytes, and the record of
SetDrawBuffer and SetTextureMode stores the longest prefix of at most 31 bytes, each
followed by a NUL inside its fixed field; the size of the record is that of its record
type, whatever the lengths of the strings. -/
theorem C20_string_truncation (G : PipeEnv) (pipe : qbufPipe_t) :
    (∀ (path name fmtstring : List Byte) (silent : Bool),
      (0 : Byte) ∉ path → (0 : Byte) ∉ name → (0 : Byte) ∉ fmtstring → ∃ record,
      RF_IssueScreenShotReliableCmd G pipe path name fmtstring silent = pipe ++ [record] ∧
      record.length = sizeof_refReliableCmdScreenShot_t ∧
      StoresTruncated (refReliableCmdScreenShot_t.ofBytes record).path path 512 ∧
      StoresTruncated (refReliableCmdScreenShot_t.ofBytes record).name name 512 ∧
      StoresTruncated (refReliableCmdScreenShot_t.ofBytes record).fmtstring fmtstring 64) ∧
    (∀ (path name : List Byte) (pixels : U32), (0 : Byte) ∉ path → (0 : Byte) ∉ name →
      ∃ record, RF_IssueEnvShotReliableCmd G pipe path name pixels = pipe ++ [record] ∧
      record.length = sizeof_refReliableCmdScreenShot_t ∧
      StoresTruncated (refReliableCmdScreenShot_t.ofBytes record).path path 512 ∧
      StoresTruncated (refReliableCmdScreenShot_t.ofBytes record).name name 512 ∧
      StoresTruncated (refReliableCmdScreenShot_t.ofBytes record).fmtstring [] 64) ∧
    (∀ (path name : List Byte) (x y w h : U32), (0 : Byte) ∉ path → (0 : Byte) ∉ name →
      ∃ record, RF_IssueAviShotReliableCmd pipe path name x y w h = pipe ++ [record] ∧
      record.length = sizeof_refReliableCmdScreenShot_t ∧
      StoresTruncated (refReliableCmdScreenShot_t.ofBytes record).path path 512 ∧
      StoresTruncated (refReliableCmdScreenShot_t.ofBytes record).name name 512 ∧
      StoresTruncated (refReliableCmdScreenShot_t.ofBytes record).fmtstring [] 64) ∧
    (∀ name : List Byte, (0 : Byte) ∉ name → ∃ record,
      RF_IssueSetDrawBufferReliableCmd G.stack pipe name = pipe ++ [record] ∧
      record.length = sizeof_refReliableCmdSetDrawBuffer_t ∧
      StoresTruncated (refReliableCmdSetDrawBuffer_t.ofBytes record).drawbuffer name 32) ∧
    (∀ name : List Byte, (0 : Byte) ∉ name → ∃ record,
      RF_IssueSetTextureModeReliableCmd G.stack pipe name = pipe ++ [record] ∧
      record.length = sizeof_refReliableCmdSetTextureMode_t ∧
      StoresTruncated (refReliableCmdSetTextureMode_t.ofBytes record).texturemode name 32) := by
  have hs : ∀ (id : U32) (path name fmtstring : List Byte) (x y w h pixels : U32)
      (silent media : Bool), (0 : Byte) ∉ path → (0 : Byte) ∉ name →
      (0 : Byte) ∉ fmtstring → ∃ record,
      RF_IssueEnvScreenShotReliableCmd pipe id path name fmtstring x y w h pixels silent media
        = pipe ++ [record] ∧ record.length = sizeof_refReliableCmdScreenShot_t ∧
      StoresTruncated (refReliableCmdScreenShot_t.ofBytes record).path path 512 ∧
      StoresTruncated (refReliableCmdScreenShot_t.ofBytes record).name name 512 ∧
      StoresTruncated (refReliableCmdScreenShot_t.ofBytes record).fmtstring fmtstring 64 := by
    intro id path name fmtstring x y w h pixels silent media hp hn hf
    refine ⟨_, envScreenShot_eq _ _ _ _ _ _ _ _ _ _ _ _,
      refReliableCmdScreenShot_t_toBytes_length _
        (Q_strncpyz_length _ _ _ (padBytes_length 64))
        (Q_strncpyz_length _ _ _ (padBytes_length 512))
        (Q_strncpyz_length _ _ _ (padBytes_length 512)), ?_⟩
    rw [refReliableCmdScreenShot_t_ofBytes_toBytes _
      (Q_strncpyz_length _ _ _ (padBytes_length 64))
      (Q_strncpyz_length _ _ _ (padBytes_length 512))
      (Q_strncpyz_length _ _ _ (padBytes_length 512))]
    exact ⟨Q_strncpyz_stores _ _ _ hp (padBytes_length 512) (by decide),
      Q_strncpyz_stores _ _ _ hn (padBytes_length 512) (by decide),
      Q_strncpyz_stores _ _ _ hf (padBytes_length 64) (by decide)⟩
  refine ⟨?_, ?_, ?_, ?_, ?_⟩
  · intro path name fmtstring silent hp hn hf
    exact hs _ path name fmtstring _ _ _ _ _ _ _ hp hn hf
  · intro path name pixels hp hn
    exact hs _ path name [] _ _ _ _ _ _ _ hp hn (List.not_mem_nil _)
  · intro path name x y w h hp hn
    exact hs _ path name [] _ _ _ _ _ _ _ hp hn (List.not_mem_nil _)
  · intro name h0
    refine ⟨_, write_eq _ _ _ (refReliableCmdSetDrawBuffer_t_toBytes_length _
      (Q_strncpyz_length _ _ _ (uninit_drawbuffer_length G.stack))),
      refReliableCmdSetDrawBuffer_t_toBytes_length _
        (Q_strncpyz_length _ _ _ (uninit_drawbuffer_length G.stack)), ?_⟩
    rw [refReliableCmdSetDrawBuffer_t_ofBytes_toBytes _
      (Q_strncpyz_length _ _ _ (uninit_drawbuffer_length G.stack))]
    exact Q_strncpyz_stores _ _ _ h0 (uninit_drawbuffer_length G.stack) (by decide)
  · intro name h0
    refine ⟨_, write_eq _ _ _ (refReliableCmdSetTextureMode_t_toBytes_length _
      (Q_strncpyz_length _ _ _ (uninit_texturemode_length G.stack))),
      refReliableCmdSetTextureMode_t_toBytes_length _
        (Q_strncpyz_length _ _ _ (uninit_texturemode_length G.stack)), ?_⟩
    rw [refReliableCmdSetTextureMode_t_ofBytes_toBytes _
      (Q_strncpyz_length _ _ _ (uninit_texturemode_length G.stack))]
    exact Q_strncpyz_stores _ _ _ h0 (uninit_texturemode_length G.stack) (by decide)

/-- Witness of C20: a draw buffer name of 40 bytes is stored as its first 31 bytes and a
NUL, in a record of 36 bytes. -/
theorem C20_string_truncation_witness :
    (0 : Byte) ∉ List.replicate 40 (65 : Byte) ∧
    ∃ record, RF_IssueSetDrawBufferReliableCmd examplePipeEnv.stack [] (List.replicate 40 65)
        = [] ++ [record] ∧
      record.length = sizeof_refReliableCmdSetDrawBuffer_t ∧
      StoresTruncated (refReliableCmdSetDrawBuffer_t.ofBytes record).drawbuffer
        (List.replicate 40 65) 32 :=
  ⟨by decide, (C20_string_truncation examplePipeEnv []).2.2.2.1 (List.replicate 40 65)
    (by decide)⟩

/-! ### The render-scene handler on an arbitrary record -/

/-- C30. Exact execution condition of a render-scene record: for every storage, every
record offset and every pair of current backend counters, `R_HandleRenderSceneCmd` calls
`R_RenderScene` exactly once, on the record's refdef, if the record's
`registrationSequence` equals the current one and (the refdef's `rdflags` has
`RDF_NOWORLDMODEL` set or the record's `worldModelSequence` equals the current one), and
makes no call otherwise; in every case it returns the record's `length` field, the
32-bit word at offset 4 of the record. -/
theorem C30_render_scene_condition (L : Layout) (rsh : rsh_t) (buf : Mem) (pcmd : Nat) :
    (R_HandleRenderSceneCmd L rsh buf pcmd).1
      = (if (refCmdRenderScene_t.ofBytes L
              (readBytes buf pcmd (sizeof_refCmdRenderScene_t L))).registrationSequence
            = rsh.registrationSequence ∧
            ((get32 (storedRefdef L buf pcmd) L.refdef_rdflags).val
                &&& L.RDF_NOWORLDMODEL.val ≠ 0 ∨
              (refCmdRenderScene_t.ofBytes L
                (readBytes buf pcmd (sizeof_refCmdRenderScene_t L))).worldModelSequence
              = rsh.worldModelSequence)
         then [.R_RenderScene (storedRefdef L buf pcmd)]
         else []) ∧
    (R_HandleRenderSceneCmd L rsh buf pcmd).2
      = (refCmdRenderScene_t.ofBytes L
          (readBytes buf pcmd (sizeof_refCmdRenderScene_t L))).length.val ∧
    (R_HandleRenderSceneCmd L rsh buf pcmd).2 = (rdU32 (readBytes buf (pcmd + 4) 4)).val ∧
    (refCmdRenderScene_t.ofBytes L
      (readBytes buf pcmd (sizeof_refCmdRenderScene_t L))).registrationSequence
      = rdU32 (readBytes buf (pcmd + 8) 4) ∧
    (refCmdRenderScene_t.ofBytes L
      (readBytes buf pcmd (sizeof_refCmdRenderScene_t L))).worldModelSequence
      = rdU32 (readBytes buf (pcmd + 12) 4) := by
  have hlen := handler_length L rsh 9 buf pcmd (by decide)
  have h8 := rdU32_drop_readBytes buf pcmd (sizeof_refCmdRenderScene_t L) 8
    (by unfold sizeof_refCmdRenderScene_t; omega)
  have h12 := rdU32_drop_readBytes buf pcmd (sizeof_refCmdRenderScene_t L) 12
    (by unfold sizeof_refCmdRenderScene_t; omega)
  refine ⟨?_, ?_, hlen, h8, h12⟩
  · unfold R_HandleRenderSceneCmd storedRefdef
    simp only
    by_cases h1 : (refCmdRenderScene_t.ofBytes L
        (readBytes buf pcmd (sizeof_refCmdRenderScene_t L))).registrationSequence
        = rsh.registrationSequence
    · by_cases h2 : (get32 (refCmdRenderScene_t.refdef (refCmdRenderScene_t.ofBytes L
          (readBytes buf pcmd (sizeof_refCmdRenderScene_t L))))
          L.refdef_rdflags).val &&& L.RDF_NOWORLDMODEL.val = 0
      · by_cases h3 : (refCmdRenderScene_t.ofBytes L
            (readBytes buf pcmd (sizeof_refCmdRenderScene_t L))).worldModelSequence
            = rsh.worldModelSequence <;> simp [h1, h2, h3]
      · simp [h1, h2]
    · simp [h1]
  · unfold R_HandleRenderSceneCmd
    simp only
    split_ifs <;> rfl

/-! ### The frame tag -/

theorem issue_tag (L : Layout) (env : Env) (b : ref_cmdbuf_t) (c : FrameCmd) :
    (issue L env b c).frameId = b.frameId ∧ (issue L env b c).base = b.base := by
  cases c <;>
    simp only [issue, RF_IssueBeginFrameCmd, RF_IssueEndFrameCmd,
      RF_IssueDrawRotatedStretchPicCmd, RF_IssueDrawStretchPolyCmd,
      RF_IssueDrawStretchPolyOrAddPolyToSceneCmd, RF_IssueClearSceneCmd,
      RF_IssueAddEntityToSceneCmd, RF_IssueAddLightToSceneCmd, RF_IssueAddPolyToSceneCmd,
      RF_IssueAddLightStyleToSceneCmd, RF_IssueRenderSceneCmd, RF_IssueSetScissorCmd,
      RF_IssueResetScissorCmd, RF_IssueDrawStretchRawCmd, RF_IssueDrawStretchRawYUVCmd,
      RF_IssueDrawStretchRawOrRawYUVCmd] <;>
    split_ifs <;> exact ⟨rfl, rfl⟩

/-- C23. Frame tag: for every buffer state and every unsigned value `v`, `GetFrameId`
after `SetFrameId( v )` returns `v`; `SetFrameId` changes neither the length nor the
bytes (nor the address) of the buffer; no encoder call and no `Clear` changes the frame
tag; and a dispatch pass `RunCmds` returns and hands the buffer back with the frame tag
it had. -/
theorem C23_frame_tag (L : Layout) (rsh : rsh_t) (b : ref_cmdbuf_t) :
    (∀ v, RF_GetCmdBufFrameId (RF_SetCmdBufFrameId b v) = v) ∧
    (∀ v, (RF_SetCmdBufFrameId b v).len = b.len ∧ (RF_SetCmdBufFrameId b v).buf = b.buf ∧
      (RF_SetCmdBufFrameId b v).base = b.base) ∧
    (∀ env c, RF_GetCmdBufFrameId (issue L env b c) = RF_GetCmdBufFrameId b) ∧
    RF_GetCmdBufFrameId (RF_ClearCmdBuf b) = RF_GetCmdBufFrameId b ∧
    (∀ fuel t, (RF_RunCmdBufProc.exec L rsh fuel t b).map (fun p => p.1)
      = (RF_RunCmdBufProc.loop L rsh b fuel t).map (fun _ => b)) ∧
    (b.len + 4294967296 ≤ SIZE_MOD →
      ∃ b' res, RunCmds L rsh b = some (b', res) ∧
        RF_GetCmdBufFrameId b' = RF_GetCmdBufFrameId b) := by
  refine ⟨fun _ => rfl, fun _ => ⟨rfl, rfl, rfl⟩, fun env c => (issue_tag L env b c).1, rfl,
    fun fuel t => ?_, fun hlen => ?_⟩
  · rw [exec_eq_loop, Option.map_map]
    rfl
  · obtain ⟨res, hres⟩ := run_total L rsh b hlen
    refine ⟨b, res, ?_, rfl⟩
    unfold RunCmds
    rw [exec_eq_loop]
    unfold RF_RunCmdBufProc at hres
    rw [hres]
    rfl

theorem C23_frame_tag_witness :
    RF_GetCmdBufFrameId (RF_SetCmdBufFrameId corruptBuf 42) = 42 ∧
    corruptBuf.len + 4294967296 ≤ SIZE_MOD ∧
    ∃ b' res, RunCmds exampleLayout exampleRsh (RF_SetCmdBufFrameId corruptBuf 42)
        = some (b', res) ∧
      RF_GetCmdBufFrameId b' = RF_GetCmdBufFrameId (RF_SetCmdBufFrameId corruptBuf 42) :=
  ⟨(C23_frame_tag exampleLayout exampleRsh corruptBuf).1 42, by decide,
    (C23_frame_tag exampleLayout exampleRsh (RF_SetCmdBufFrameId corruptBuf 42)).2.2.2.2.2
      (by decide)⟩

/-! ### Termination of the dispatcher -/

/-- What the loop of the dispatcher does from offset `t` on, whatever the bytes: every
iteration that does not stop advances the offset by the positive length its handler
returned, every handler invocation is at an offset below `len`, and there are at most
`len - t` of them. -/
theorem loop_bound (L : Layout) (rsh : rsh_t) (cmdbuf : ref_cmdbuf_t)
    (hlen : cmdbuf.len + 4294967296 ≤ SIZE_MOD) :
    ∀ fuel t res, RF_RunCmdBufProc.loop L rsh cmdbuf fuel t = some res →
      res.log.length + t ≤ max t cmdbuf.len ∧
      (∀ v ∈ res.log, t ≤ v.offset ∧ v.offset < cmdbuf.len) ∧
      List.Chain' (fun v w : Visit => 0 < v.len ∧ w.offset = v.offset + v.len) res.log ∧
      (∀ v, res.log.head? = some v → v.offset = t) ∧
      ∀ k, RF_RunCmdBufProc.loop L rsh cmdbuf (fuel + k) t = some res := by
  intro fuel
  induction fuel with
  | zero => intro t res h; simp [RF_RunCmdBufProc.loop] at h
  | succ f ih =>
    intro t res h
    have hk : ∀ k, f + 1 + k = (f + k) + 1 := fun k => by omega
    rw [RF_RunCmdBufProc.loop] at h
    by_cases ht : t < cmdbuf.len
    · simp only [ht, if_true] at h
      by_cases hbad : toInt (rdU32 (readBytes cmdbuf.buf t 4)) < 0 ∨
          toInt (rdU32 (readBytes cmdbuf.buf t 4)) ≥ (NUM_REF_CMDS : Int)
      · simp only [hbad, if_true, Option.some.injEq] at h
        subst h
        refine ⟨by simp, by simp, List.chain'_nil, by simp, fun k => ?_⟩
        rw [hk, RF_RunCmdBufProc.loop]
        simp only [ht, if_true, hbad]
      · simp only [hbad, if_false] at h
        by_cases hz : (refCmdHandlers L rsh (rdU32 (readBytes cmdbuf.buf t 4)).val
            cmdbuf.buf t).2 = 0
        · simp only [hz, if_true, Option.some.injEq] at h
          subst h
          refine ⟨?_, ?_, List.chain'_singleton _, by simp, fun k => ?_⟩
          · simp only [List.length_singleton]
            rw [Nat.max_eq_right (by omega)]
            omega
          · intro v hv
            simp only [List.mem_singleton] at hv
            subst hv
            exact ⟨Nat.le_refl _, ht⟩
          · rw [hk, RF_RunCmdBufProc.loop]
            simp only [ht, if_true, hbad, if_false, hz]
        · simp only [hz, if_false] at h
          have hr := refCmdHandlers_lt L rsh (rdU32 (readBytes cmdbuf.buf t 4)).val cmdbuf.buf t
          have hs : szAdd t (refCmdHandlers L rsh (rdU32 (readBytes cmdbuf.buf t 4)).val
              cmdbuf.buf t).2 = t + (refCmdHandlers L rsh (rdU32 (readBytes cmdbuf.buf t 4)).val
              cmdbuf.buf t).2 := by
            unfold szAdd; apply Nat.mod_eq_of_lt; omega
          rw [hs] at h
          cases hrec : RF_RunCmdBufProc.loop L rsh cmdbuf f (t + (refCmdHandlers L rsh
              (rdU32 (readBytes cmdbuf.buf t 4)).val cmdbuf.buf t).2) with
          | none => rw [hrec] at h; simp at h
          | some res' =>
            rw [hrec] at h
            simp only [Option.map_some', Option.some.injEq] at h
            subst h
            obtain ⟨i1, i2, i3, i4, i5⟩ := ih _ res' hrec
            refine ⟨?_, ?_, ?_, by simp, fun k => ?_⟩
            · simp only [List.length_cons]
              rw [Nat.max_eq_right (by omega)]
              have := Nat.le_max_left (t + (refCmdHandlers L rsh
                (rdU32 (readBytes cmdbuf.buf t 4)).val cmdbuf.buf t).2) cmdbuf.len
              by_cases hge : cmdbuf.len ≤ t + (refCmdHandlers L rsh
                  (rdU32 (readBytes cmdbuf.buf t 4)).val cmdbuf.buf t).2
              · rw [Nat.max_eq_left hge] at i1
                omega
              · rw [Nat.max_eq_right (by omega)] at i1
                omega
            · intro v hv
              rcases List.mem_cons.1 hv with rfl | hv
              · exact ⟨Nat.le_refl _, ht⟩
              · have := i2 v hv
                exact ⟨by omega, this.2⟩
            · cases hl : res'.log with
              | nil => exact List.chain'_singleton _
              | cons w ws =>
                rw [hl] at i3
                refine List.chain'_cons.2 ⟨⟨Nat.pos_of_ne_zero hz, ?_⟩, i3⟩
                exact i4 w (by rw [hl]; rfl)
            · rw [hk, RF_RunCmdBufProc.loop]
              simp only [ht, if_true, hbad, if_false, hz, hs, i5 k, Option.map_some']
    · simp only [ht, if_false, Option.some.injEq] at h
      subst h
      refine ⟨by simp, by simp, List.chain'_nil, by simp, fun k => ?_⟩
      rw [hk, RF_RunCmdBufProc.loop]
      simp only [ht, if_false]

/-- C28. Dispatcher termination: for every buffer state, whatever bytes the storage
holds, `RF_RunCmdBufProc` returns after at most `len` handler invocations: every
invocation is at an offset below `len`, and every iteration that does not stop advances
the offset by the positive length its handler returned.  The result does not depend on
the iteration bound of the model. -/
theorem C28_dispatcher_termination (L : Layout) (rsh : rsh_t) (b : ref_cmdbuf_t)
    (hlen : b.len + 4294967296 ≤ SIZE_MOD) :
    ∃ res, RF_RunCmdBufProc L rsh b = some res ∧ res.log.length ≤ b.len ∧
      (∀ v ∈ res.log, v.offset < b.len) ∧
      List.Chain' (fun v w : Visit => 0 < v.len ∧ w.offset = v.offset + v.len) res.log ∧
      ∀ fuel, b.len < fuel → RF_RunCmdBufProc.loop L rsh b fuel 0 = some res := by
  obtain ⟨res, hres⟩ := run_total L rsh b hlen
  obtain ⟨i1, i2, i3, -, i5⟩ := loop_bound L rsh b hlen _ _ res hres
  refine ⟨res, hres, ?_, fun v hv => (i2 v hv).2, i3, fun fuel hf => ?_⟩
  · rw [Nat.max_eq_right (Nat.zero_le _)] at i1
    omega
  · have := i5 (fuel - (b.len + 1))
    rwa [show b.len + 1 + (fuel - (b.len + 1)) = fuel from by omega] at this

theorem C28_dispatcher_termination_witness :
    patternBuf.len + 4294967296 ≤ SIZE_MOD ∧
    (∃ res, RF_RunCmdBufProc exampleLayout exampleRsh patternBuf = some res ∧
      res.log.length ≤ patternBuf.len ∧
      (∀ v ∈ res.log, v.offset < patternBuf.len) ∧
      List.Chain' (fun v w : Visit => 0 < v.len ∧ w.offset = v.offset + v.len) res.log ∧
      ∀ fuel, patternBuf.len < fuel →
        RF_RunCmdBufProc.loop exampleLayout exampleRsh patternBuf fuel 0 = some res) ∧
    (RF_RunCmdBufProc exampleLayout exampleRsh patternBuf).map (fun res => res.log.length)
      = some 16 ∧
    (RF_RunCmdBufProc exampleLayout exampleRsh staleBuf).map (fun res => res.log.length)
      = some 0 :=
  ⟨by decide, C28_dispatcher_termination exampleLayout exampleRsh patternBuf (by decide),
    by decide, by decide⟩

/-! ### Alignment of the record boundaries -/

theorem szMul_mod4 (a k : Nat) (h : k % 4 = 0) : szMul a k % 4 = 0 := by
  have h1 : (a * k) % 4 = 0 := by rw [Nat.mul_mod, h]; simp
  unfold szMul SIZE_MOD
  omega

theorem szAdd_mod4 (a b : Nat) : szAdd a b % 4 = (a + b) % 4 := by
  unfold szAdd SIZE_MOD
  omega

theorem ALIGN_mod4 (x : Nat) : ALIGN x sizeof_float % 4 = 0 := by
  unfold ALIGN sizeof_float
  exact Nat.mul_mod_left _ _

theorem condAdd_mod4 (c : Prop) [Decidable c] (x t : Nat) (hx : x % 4 = 0) (ht : t % 4 = 0) :
    (if c then szAdd x t else x) % 4 = 0 := by
  split
  · rw [szAdd_mod4]; omega
  · exact hx

theorem cmdLen_mod4 (L : Layout) (hA : L.HeadersAligned) (env : Env) (c : FrameCmd) :
    cmdLen L env c % 4 = 0 := by
  obtain ⟨hh, hbp⟩ := hA
  cases c with
  | DrawStretchPoly poly x y => exact ALIGN_mod4 _
  | AddPolyToScene poly => exact ALIGN_mod4 _
  | AddEntityToScene ent =>
    have h5 : sizeof_refCmdAddEntityToScene_t L % 4 = 0 := hh 5 (by decide)
    have hm := szMul_mod4 (intToSize (env.R_SkeletalGetNumBones
      (get64 (readBytes env.mem ent L.sizeof_entity_t) L.entity_model))) L.sizeof_bonepose_t hbp
    exact condAdd_mod4 _ _ _ (condAdd_mod4 _ _ _ h5 hm) hm
  | RenderScene fd =>
    show renderSceneCmdLen L env.rsh _ % 4 = 0
    unfold renderSceneCmdLen
    split
    · exact ALIGN_mod4 _
    · exact hh 9 (by decide)
  | _ =>
    simp only [cmdLen, sizeof_refCmdBeginFrame_t, sizeof_refCmdEndFrame_t,
      sizeof_refCmdDrawStretchPic_t, sizeof_refCmdClearScene_t, sizeof_refCmdAddLightToScene_t,
      sizeof_refCmdAddLightStyleToScene_t, sizeof_refCmdSetScissor_t,
      sizeof_refCmdResetScissor_t, sizeof_refCmdDrawStretchRaw_t]

theorem issue_len_cases (L : Layout) (env : Env) (b : ref_cmdbuf_t) (c : FrameCmd) :
    (issue L env b c).len = b.len ∨ (issue L env b c).len = szAdd b.len (cmdLen L env c) := by
  cases c <;>
    simp only [issue, cmdLen, RF_IssueBeginFrameCmd, RF_IssueEndFrameCmd,
      RF_IssueDrawRotatedStretchPicCmd, RF_IssueDrawStretchPolyCmd,
      RF_IssueDrawStretchPolyOrAddPolyToSceneCmd, RF_IssueClearSceneCmd,
      RF_IssueAddEntityToSceneCmd, RF_IssueAddLightToSceneCmd, RF_IssueAddPolyToSceneCmd,
      RF_IssueAddLightStyleToSceneCmd, RF_IssueRenderSceneCmd, RF_IssueSetScissorCmd,
      RF_IssueResetScissorCmd, RF_IssueDrawStretchRawCmd, RF_IssueDrawStretchRawYUVCmd,
      RF_IssueDrawStretchRawOrRawYUVCmd] <;>
    split_ifs <;> first | exact Or.inl rfl | exact Or.inr rfl

theorem issue_mod4 (L : Layout) (hA : L.HeadersAligned) (env : Env) (b : ref_cmdbuf_t)
    (c : FrameCmd) : (issue L env b c).len % 4 = b.len % 4 := by
  have hc := cmdLen_mod4 L hA env c
  rcases issue_len_cases L env b c with h | h
  · rw [h]
  · rw [h, szAdd_mod4]
    omega

theorem issueAll_mod4 (L : Layout) (hA : L.HeadersAligned) (cs : List (Env × FrameCmd)) :
    ∀ b : ref_cmdbuf_t, (issueAll L b cs).len % 4 = b.len % 4 ∧
      ∀ a ∈ recordStarts L b cs, a % 4 = b.len % 4 := by
  induction cs with
  | nil => intro b; exact ⟨rfl, fun a ha => by simp [recordStarts] at ha⟩
  | cons p rest ih =>
    obtain ⟨env, c⟩ := p
    intro b
    have h1 := issue_mod4 L hA env b c
    obtain ⟨i1, i2⟩ := ih (issue L env b c)
    simp only [issueAll, recordStarts]
    refine ⟨i1.trans h1, fun a ha => ?_⟩
    rcases List.mem_append.1 ha with ha | ha
    · split at ha
      · simp at ha
      · simp only [List.mem_singleton] at ha
        rw [ha]
    · exact (i2 a ha).trans h1

theorem readBytes_memcpy_mid (m : Mem) (lo : Nat) (bytes : List Byte) (k n : Nat)
    (h : k + n ≤ bytes.length) :
    readBytes (memcpy m lo bytes) (lo + k) n = (bytes.drop k).take n := by
  apply List.ext_getElem
  · rw [readBytes_length, List.length_take, List.length_drop]
    omega
  · intro i h1 h2
    rw [readBytes_length] at h1
    rw [getElem_readBytes, List.getElem_take, List.getElem_drop, Nat.add_assoc,
      memcpy_inside _ _ _ _ (by omega)]

theorem lengthField_memcpy (m : Mem) (lo : Nat) (id len : U32) (rest : List Byte) :
    rdU32 (readBytes (memcpy m lo (id.bytes ++ (len.bytes ++ rest))) (lo + 4) 4) = len := by
  rw [readBytes_memcpy_mid _ _ _ _ _ (by
    simp only [List.length_append, U32_bytes_length]; omega)]
  rw [rdU32_take _ _ (Nat.le_refl 4)]
  have := drop_U32 id (len.bytes ++ rest) 0
  rw [Nat.zero_add, List.drop_zero] at this
  rw [this, rdU32_append]

/-- The `length` member of the record that an accepted call of an encoder with a
variable tail wrote: the computed record size, as an `unsigned`. -/
theorem issue_lengthField (L : Layout) (env : Env) (b : ref_cmdbuf_t) (c : FrameCmd)
    (hk : c.hasLength = true) (hacc : (issue L env b c).len ≠ b.len) :
    rdU32 (readBytes (issue L env b c).buf (b.len + 4) 4) = U32.ofNat (cmdLen L env c) := by
  cases c with
  | DrawStretchPoly poly x y =>
    revert hacc
    simp only [issue, cmdLen, RF_IssueDrawStretchPolyCmd,
      RF_IssueDrawStretchPolyOrAddPolyToSceneCmd]
    split_ifs
    · intro h; exact absurd rfl h
    · intro h; exact absurd rfl h
    · intro _
      exact lengthField_memcpy _ _ _ _ _
  | AddPolyToScene poly =>
    revert hacc
    simp only [issue, cmdLen, RF_IssueAddPolyToSceneCmd,
      RF_IssueDrawStretchPolyOrAddPolyToSceneCmd]
    split_ifs
    · intro h; exact absurd rfl h
    · intro h; exact absurd rfl h
    · intro _
      exact lengthField_memcpy _ _ _ _ _
  | AddEntityToScene ent =>
    revert hacc
    simp only [issue, cmdLen, RF_IssueAddEntityToSceneCmd]
    split_ifs
    · intro h; exact absurd rfl h
    · intro _
      exact lengthField_memcpy _ _ _ _ _
  | RenderScene fd =>
    revert hacc
    simp only [issue, cmdLen, RF_IssueRenderSceneCmd]
    split_ifs
    · intro h; exact absurd rfl h
    · intro _
      exact lengthField_memcpy _ _ _ _ _
    · intro _
      exact lengthField_memcpy _ _ _ _ _
  | _ => simp [FrameCmd.hasLength] at hk

theorem Seg_recordAt {L : Layout} {rsh : rsh_t} {buf : Mem} {a b : Nat} {vs : List Visit}
    (h : Seg L rsh buf a b vs) : ∀ v ∈ vs, RecordAt L rsh buf v.offset v := by
  induction h with
  | nil a => intro v hv; simp at hv
  | @cons a b v vs hr hs ih =>
    intro w hw
    rcases List.mem_cons.1 hw with rfl | hw
    · have := hr.1
      rw [this]
      exact hr
    · exact ih w hw

theorem expectedLog_mod4 (L : Layout) (hA : L.HeadersAligned) (rsh : rsh_t)
    (cs : List (Env × FrameCmd)) :
    ∀ b : ref_cmdbuf_t, ∀ v ∈ expectedLog L rsh b cs, v.len % 4 = 0 := by
  induction cs with
  | nil => intro b v hv; simp [expectedLog] at hv
  | cons p rest ih =>
    obtain ⟨env, c⟩ := p
    intro b v hv
    simp only [expectedLog] at hv
    rcases List.mem_append.1 hv with hv | hv
    · split at hv
      · simp at hv
      · simp only [List.mem_singleton] at hv
        subst hv
        have := issue_mod4 L hA env b c
        show ((issue L env b c).len - b.len) % 4 = 0
        omega
    · exact ih _ v hv

/-- C21 does not hold as stated: the record of `BeginFrame` has 12 bytes (`int`, `float`
and two `bool`), so `RF_IssueBeginFrameCmd` advances the length of an empty buffer by 12,
and the next record, here one of `DrawRotatedStretchPic` with its `shader` pointer,
starts at offset 12, which is not a multiple of 8; the dispatcher reads it from there. -/
theorem C21_counterexample :
    (RF_IssueBeginFrameCmd exampleLayout exampleEnv.stack (RF_CreateCmdBuf 4096) 0 true
      false).len = 12 ∧
    recordStarts exampleLayout (RF_CreateCmdBuf 4096) picFrame = [0, 12] ∧
    ¬ (12 % 8 = 0) ∧
    (issueAll exampleLayout (RF_CreateCmdBuf 4096) picFrame).len = 76 ∧
    R_HandleDrawStretchPicCmd (issueAll exampleLayout (RF_CreateCmdBuf 4096) picFrame).buf 12
      = ([.R_DrawRotatedStretchPic 10 10 100 50 0 0 1065353216 1065353216 0
            ⟨1065353216, 1065353216, 1065353216, 1065353216⟩ 77], 64) := by
  decide

/-- C21, amended. Alignment of records to the size of `float`: given that every record
header size and `sizeof( bonepose_t )` are multiples of 4, every encoder call leaves the
length of the buffer as it was modulo 4 (it advances it by a multiple of 4, the computed
record size), and for every sequence of encoder calls starting from an empty buffer every
record starts at an offset that is a multiple of 4. -/
theorem C21_record_alignment (L : Layout) (hA : L.HeadersAligned) :
    (∀ env c, cmdLen L env c % 4 = 0) ∧
    (∀ env c (b : ref_cmdbuf_t), (issue L env b c).len = b.len ∨
      (issue L env b c).len = szAdd b.len (cmdLen L env c)) ∧
    (∀ env c (b : ref_cmdbuf_t), (issue L env b c).len % 4 = b.len % 4) ∧
    ∀ (b : ref_cmdbuf_t) (cs : List (Env × FrameCmd)), b.len = 0 →
      ∀ a ∈ recordStarts L b cs, a % 4 = 0 := by
  refine ⟨cmdLen_mod4 L hA, fun env c b => issue_len_cases L env b c,
    fun env c b => issue_mod4 L hA env b c, fun b cs hb a ha => ?_⟩
  rw [(issueAll_mod4 L hA cs b).2 a ha, hb]

theorem C21_record_alignment_witness :
    exampleLayout.HeadersAligned ∧ (RF_CreateCmdBuf 4096).len = 0 ∧
    (∀ a ∈ recordStarts exampleLayout (RF_CreateCmdBuf 4096) picFrame, a % 4 = 0) ∧
    (issue exampleLayout exampleEnv (RF_CreateCmdBuf 4096) (.BeginFrame 0 true false)).len % 4
      = (RF_CreateCmdBuf 4096).len % 4 :=
  ⟨by decide, rfl,
    (C21_record_alignment exampleLayout (by decide)).2.2.2 (RF_CreateCmdBuf 4096) picFrame rfl,
    (C21_record_alignment exampleLayout (by decide)).2.2.1 exampleEnv (.BeginFrame 0 true false)
      (RF_CreateCmdBuf 4096)⟩

/-- C29. Four-byte alignment of record boundaries: given that every record header size
and `sizeof( bonepose_t )` are multiples of 4, after every sequence of encoder calls
starting from an empty buffer the length of the buffer is a multiple of 4; the `length`
member that an accepted polygon, entity or render-scene call stores at offset 4 of its
record is the computed record size and a multiple of 4; and when the sequence has valid
inputs, a dispatch pass over the final buffer returns, and each of its handler
invocations reports a multiple of 4, which for a polygon, entity or render-scene record
is the `length` member it reads in the final buffer. -/
theorem C29_four_byte_alignment (L : Layout) (hA : L.HeadersAligned) :
    (∀ (b : ref_cmdbuf_t) (cs : List (Env × FrameCmd)), b.len = 0 →
      (issueAll L b cs).len % 4 = 0) ∧
    (∀ env (b : ref_cmdbuf_t) (c : FrameCmd), c.hasLength = true →
      (issue L env b c).len ≠ b.len →
      rdU32 (readBytes (issue L env b c).buf (b.len + 4) 4) = U32.ofNat (cmdLen L env c) ∧
      (rdU32 (readBytes (issue L env b c).buf (b.len + 4) 4)).val % 4 = 0) ∧
    (∀ (rsh : rsh_t) (b : ref_cmdbuf_t) (cs : List (Env × FrameCmd)), L.SizesOk → b.len = 0 →
      (∀ p ∈ cs, ValidCmd L p.1 p.2) →
      ∃ res, RF_RunCmdBufProc L rsh (issueAll L b cs) = some res ∧
        ∀ v ∈ res.log, v.len % 4 = 0 ∧
          ((rdU32 (readBytes (issueAll L b cs).buf v.offset 4)).val = 3 ∨
           (rdU32 (readBytes (issueAll L b cs).buf v.offset 4)).val = 5 ∨
           (rdU32 (readBytes (issueAll L b cs).buf v.offset 4)).val = 7 ∨
           (rdU32 (readBytes (issueAll L b cs).buf v.offset 4)).val = 9 →
            (rdU32 (readBytes (issueAll L b cs).buf (v.offset + 4) 4)).val = v.len)) := by
  refine ⟨fun b cs hb => ?_, fun env b c hk hacc => ?_, fun rsh b cs hL hb hv => ?_⟩
  · rw [(issueAll_mod4 L hA cs b).1, hb]
  · have h := issue_lengthField L env b c hk hacc
    refine ⟨h, ?_⟩
    rw [h]
    have := cmdLen_mod4 L hA env c
    unfold U32.ofNat
    show cmdLen L env c % 4294967296 % 4 = 0
    omega
  · refine ⟨_, run_issueAll L hL rsh b cs hb hv, fun v hv' => ⟨?_, fun hid => ?_⟩⟩
    · exact expectedLog_mod4 L hA rsh cs b v hv'
    · have h0 : Seg L rsh b.buf 0 b.len [] := by rw [hb]; exact Seg.nil 0
      obtain ⟨j1, -⟩ := issueAll_inv L hL rsh cs b [] h0 (by omega) hv
      rw [List.nil_append] at j1
      have hr := Seg_recordAt j1 v hv'
      have hl := handler_length L rsh _ (issueAll L b cs).buf v.offset hid
      rw [hr.2.2.1] at hl
      exact hl.symm

theorem C29_four_byte_alignment_witness :
    exampleLayout.HeadersAligned ∧ (RF_CreateCmdBuf 4096).len = 0 ∧
    (issueAll exampleLayout (RF_CreateCmdBuf 4096) exampleFrame).len % 4 = 0 ∧
    (issueAll exampleLayout (RF_CreateCmdBuf 4096) exampleFrame).len = 96 ∧
    writtenLen exampleLayout elemsPolyEnv (.AddPolyToScene 64) = 90 ∧
    rdU32 (readBytes (issue exampleLayout elemsPolyEnv (RF_CreateCmdBuf 4096)
      (.AddPolyToScene 64)).buf ((RF_CreateCmdBuf 4096).len + 4) 4) = 92 :=
  ⟨by decide, rfl,
    (C29_four_byte_alignment exampleLayout (by decide)).1 (RF_CreateCmdBuf 4096) exampleFrame rfl,
    by decide, by decide, by decide⟩

/-! ### The two channels -/

theorem RunCmds_eq (L : Layout) (rsh : rsh_t) (b : ref_cmdbuf_t)
    (hlen : b.len + 4294967296 ≤ SIZE_MOD) :
    ∃ res, RunCmds L rsh b = some (b, res) := by
  obtain ⟨res, hres⟩ := run_total L rsh b hlen
  refine ⟨res, ?_⟩
  unfold RunCmds
  rw [exec_eq_loop]
  unfold RF_RunCmdBufProc at hres
  rw [hres]
  rfl

/-! ### Record lengths -/

theorem issue_identField (L : Layout) (env : Env) (b : ref_cmdbuf_t) (c : FrameCmd)
    (hacc : (issue L env b c).len ≠ b.len) :
    recordIdent (issue L env b c).buf b.len = c.ident := by
  unfold recordIdent
  revert hacc
  cases c <;>
    simp only [issue, FrameCmd.ident, RF_IssueBeginFrameCmd, RF_IssueEndFrameCmd,
      RF_IssueDrawRotatedStretchPicCmd, RF_IssueDrawStretchPolyCmd,
      RF_IssueDrawStretchPolyOrAddPolyToSceneCmd, RF_IssueClearSceneCmd,
      RF_IssueAddEntityToSceneCmd, RF_IssueAddLightToSceneCmd, RF_IssueAddPolyToSceneCmd,
      RF_IssueAddLightStyleToSceneCmd, RF_IssueRenderSceneCmd, RF_IssueSetScissorCmd,
      RF_IssueResetScissorCmd, RF_IssueDrawStretchRawCmd, RF_IssueDrawStretchRawYUVCmd,
      RF_IssueDrawStretchRawOrRawYUVCmd] <;>
    split_ifs <;>
    first
      | (intro h; exact absurd rfl h)
      | (intro _
         simp only [refCmdBeginFrame_t.toBytes, refCmdEndFrame_t.toBytes,
           refCmdDrawStretchPic_t.toBytes, refCmdDrawStretchOrScenePoly_t.toBytes,
           refCmdClearScene_t.toBytes, refCmdAddEntityToScene_t.toBytes,
           refCmdAddLightToScene_t.toBytes, refCmdAddLightStyleToScene_t.toBytes,
           refCmdRenderScene_t.toBytes, refCmdSetScissor_t.toBytes,
           refCmdResetScissor_t.toBytes, refCmdDrawStretchRaw_t.toBytes]
         rw [rdU32_readBytes_memcpy _ _ _ (by
           simp only [List.length_append, U32_bytes_length]; omega)]
         exact rdU32_append _ _)

theorem ALIGN_four_eq (x : Nat) (h : x + 3 < SIZE_MOD) :
    ALIGN x sizeof_float = (x + 3) / 4 * 4 := by
  unfold ALIGN sizeof_float
  rw [szAdd_eq _ _ h]

theorem polyCmdLen_eq (L : Layout) (p : List Byte) (hs : L.sizeof_poly_t < 4294967296)
    (hv : 0 ≤ toInt (get32 p L.poly_numverts)) (he : 0 ≤ toInt (get32 p L.poly_numelems)) :
    polyCmdLen L p
      = (sizeof_refCmdDrawStretchOrScenePoly_t L + tailBytes (polyBlocks L p) + 3) / 4 * 4 ∧
    polyCmdLen L p = polyLengthSpec L p := by
  have m1 := szMul_small _ sizeof_vec4_t hv (by decide)
  have m2 := szMul_small _ sizeof_vec2_t hv (by decide)
  have m3 := szMul_small _ sizeof_byte_vec4_t hv (by decide)
  have m4 := szMul_small _ sizeof_elem_t he (by decide)
  have hh : sizeof_refCmdDrawStretchOrScenePoly_t L < 4294967296 + 16 := by
    unfold sizeof_refCmdDrawStretchOrScenePoly_t; omega
  have hM : SIZE_MOD = 18446744073709551616 := rfl
  have b1 := ite_le_self (get64 p L.poly_verts ≠ 0)
    (szMul (intToSize (get32 p L.poly_numverts)) sizeof_vec4_t)
  have b2 := ite_le_self (get64 p L.poly_stcoords ≠ 0)
    (szMul (intToSize (get32 p L.poly_numverts)) sizeof_vec2_t)
  have b3 := ite_le_self (get64 p L.poly_normals ≠ 0)
    (szMul (intToSize (get32 p L.poly_numverts)) sizeof_vec4_t)
  have b4 := ite_le_self (get64 p L.poly_colors ≠ 0)
    (szMul (intToSize (get32 p L.poly_numverts)) sizeof_byte_vec4_t)
  have b5 := ite_le_self (get64 p L.poly_elems ≠ 0)
    (szMul (intToSize (get32 p L.poly_numelems)) sizeof_elem_t)
  have e1 := condAdd_step (get64 p L.poly_verts ≠ 0) (sizeof_refCmdDrawStretchOrScenePoly_t L)
    (szMul (intToSize (get32 p L.poly_numverts)) sizeof_vec4_t) _ rfl (by omega)
  have e2 := condAdd_step (get64 p L.poly_stcoords ≠ 0) _
    (szMul (intToSize (get32 p L.poly_numverts)) sizeof_vec2_t) _ e1 (by omega)
  have e3 := condAdd_step (get64 p L.poly_normals ≠ 0) _
    (szMul (intToSize (get32 p L.poly_numverts)) sizeof_vec4_t) _ e2 (by omega)
  have e4 := condAdd_step (get64 p L.poly_colors ≠ 0) _
    (szMul (intToSize (get32 p L.poly_numverts)) sizeof_byte_vec4_t) _ e3 (by omega)
  have e5 := condAdd_step (get64 p L.poly_elems ≠ 0) _
    (szMul (intToSize (get32 p L.poly_numelems)) sizeof_elem_t) _ e4 (by omega)
  have hA : polyCmdLen L p = ALIGN _ sizeof_float := rfl
  rw [e5, ALIGN_four_eq _ (by omega)] at hA
  have n1 := szMul_intToSize (get32 p L.poly_numverts) sizeof_vec4_t hv (by decide)
  have n2 := szMul_intToSize (get32 p L.poly_numverts) sizeof_vec2_t hv (by decide)
  have n3 := szMul_intToSize (get32 p L.poly_numverts) sizeof_byte_vec4_t hv (by decide)
  have n4 := szMul_intToSize (get32 p L.poly_numelems) sizeof_elem_t he (by decide)
  refine ⟨?_, ?_⟩
  · rw [hA]
    simp only [polyBlocks, tailBytes, decide_eq_true_eq, ne_eq]
    congr 2
    omega
  · rw [hA]
    unfold polyLengthSpec
    rw [n1, n2, n3, n4]

theorem laidOut_of_copied (mem : Mem) (base : Nat) (f : TailState) (orig : List Byte)
    (buf' : Mem) (blocks : List TailBlock) :
    ∀ a, Copied mem base f orig a blocks →
      (∀ k ∈ blocks, k.present = decide (get64 orig k.member ≠ 0) ∧
        k.src = get64 orig k.member) →
      (∀ i, a ≤ i → i < a + tailBytes blocks → buf' i = f.buf i) →
      base + (a + tailBytes blocks) < SIZE_MOD →
      LaidOut mem base buf' orig f.obj a (blocks.map (fun k => (k.member, k.n)))
        (a + tailBytes blocks) := by
  induction blocks with
  | nil => intro a _ _ _ _; rfl
  | cons k rest ih =>
    intro a hC hflag hbuf hwrap
    obtain ⟨h1, h2, h3⟩ := hC
    obtain ⟨hp, hsrc⟩ := hflag k (List.mem_cons_self _ _)
    have hrest : ∀ k' ∈ rest, k'.present = decide (get64 orig k'.member ≠ 0) ∧
        k'.src = get64 orig k'.member := fun k' hk' => hflag k' (List.mem_cons_of_mem _ hk')
    simp only [List.map_cons, LaidOut]
    by_cases hz : get64 orig k.member = 0
    · have hpf : k.present = false := by rw [hp]; simp [hz]
      rw [if_pos hz]
      refine ⟨by rw [h2 hpf, hz], ?_⟩
      have ht : tailBytes (k :: rest) = tailBytes rest := by
        simp only [tailBytes, hpf]; simp
      rw [ht] at hbuf hwrap ⊢
      rw [hpf] at h3
      simpa using ih a (by simpa using h3) hrest hbuf hwrap
    · have hpt : k.present = true := by rw [hp]; simp [hz]
      rw [if_neg hz]
      have ht : tailBytes (k :: rest) = k.n + tailBytes rest := by
        simp only [tailBytes, hpt, if_true]
      rw [ht] at hbuf hwrap ⊢
      rw [hpt] at h3
      simp only [if_true] at h3
      obtain ⟨c1, c2⟩ := h1 hpt
      refine ⟨?_, ?_, ?_⟩
      · rw [c1, U64_ofNat_val _ (by omega)]
      · rw [← hsrc, ← c2]
        exact readBytes_congr _ _ _ _ (fun i hi1 hi2 => hbuf i hi1 (by omega))
      · rw [← Nat.add_assoc]
        exact ih (a + k.n) h3 hrest (fun i hi1 hi2 => hbuf i (by omega) (by omega)) (by omega)

theorem poly_accepted (L : Layout) (hL : L.SizesOk) (mem : Mem) (b : ref_cmdbuf_t) (id : U32)
    (poly : Nat) (x_offset y_offset : U32) (hb : b.len ≤ L.sizeof_buf)
    (hv : 0 ≤ toInt (get32 (readBytes mem poly L.sizeof_poly_t) L.poly_numverts))
    (he : 0 ≤ toInt (get32 (readBytes mem poly L.sizeof_poly_t) L.poly_numelems))
    (hacc : (RF_IssueDrawStretchPolyOrAddPolyToSceneCmd L mem b id poly x_offset y_offset).len
      ≠ b.len) :
    b.len + polyCmdLen L (readBytes mem poly L.sizeof_poly_t) ≤ L.sizeof_buf := by
  obtain ⟨h1, h2⟩ := polyCmdLen_bounds L _ hL.2.1 hv he
  have hcap := hL.1
  have hsz : szAdd b.len (polyCmdLen L (readBytes mem poly L.sizeof_poly_t))
      = b.len + polyCmdLen L (readBytes mem poly L.sizeof_poly_t) :=
    szAdd_eq _ _ (by unfold SIZE_MOD; omega)
  revert hacc
  unfold RF_IssueDrawStretchPolyOrAddPolyToSceneCmd
  simp only [hsz]
  split_ifs with h3 h4
  · intro h; exact absurd rfl h
  · intro h; exact absurd rfl h
  · intro _; omega

/-- C24. Polygon record length: for every accepted polygon with `numverts > 0`,
`numelems >= 0` and a non-null shader, the `length` member of the record and the increase
of the buffer length both equal the size of the header plus the sizes of the arrays
whose pointer is non-null (`numverts` elements for `verts`, `stcoords`, `normals` and
`colors`, `numelems` elements for `elems`), rounded up to a multiple of 4; the arrays
that are present lie after the header in the order `verts`, `stcoords`, `normals`,
`colors`, `elems` without gaps, followed by fewer than 4 bytes of padding; and the
`length` member is the byte span from the start of this record to the start of the next
one: the record of the next accepted encoder call has its identifier at that offset. -/
theorem C24_polygon_record_length (L : Layout) (hL : L.SizesOk) (hP : L.PolyPointersOk)
    (mem : Mem) (b : ref_cmdbuf_t) (id : U32) (poly : Nat) (x_offset y_offset : U32)
    (hb : b.len ≤ L.sizeof_buf) (hbase : b.base + L.sizeof_buf < SIZE_MOD)
    (hnv : 0 < toInt (get32 (readBytes mem poly L.sizeof_poly_t) L.poly_numverts))
    (hne : 0 ≤ toInt (get32 (readBytes mem poly L.sizeof_poly_t) L.poly_numelems))
    (hsh : get64 (readBytes mem poly L.sizeof_poly_t) L.poly_shader ≠ 0)
    (hacc : (RF_IssueDrawStretchPolyOrAddPolyToSceneCmd L mem b id poly x_offset y_offset).len
      ≠ b.len) :
    (recordLength
      (RF_IssueDrawStretchPolyOrAddPolyToSceneCmd L mem b id poly x_offset y_offset).buf
      b.len).val = polyLengthSpec L (readBytes mem poly L.sizeof_poly_t) ∧
    (RF_IssueDrawStretchPolyOrAddPolyToSceneCmd L mem b id poly x_offset y_offset).len
      = b.len + polyLengthSpec L (readBytes mem poly L.sizeof_poly_t) ∧
    (∃ e, LaidOut mem b.base
        (RF_IssueDrawStretchPolyOrAddPolyToSceneCmd L mem b id poly x_offset y_offset).buf
        (readBytes mem poly L.sizeof_poly_t)
        (storedPoly L
          (RF_IssueDrawStretchPolyOrAddPolyToSceneCmd L mem b id poly x_offset y_offset).buf
          b.len)
        (b.len + sizeof_refCmdDrawStretchOrScenePoly_t L)
        [(L.poly_verts,
            (get32 (readBytes mem poly L.sizeof_poly_t) L.poly_numverts).val * sizeof_vec4_t),
         (L.poly_stcoords,
            (get32 (readBytes mem poly L.sizeof_poly_t) L.poly_numverts).val * sizeof_vec2_t),
         (L.poly_normals,
            (get32 (readBytes mem poly L.sizeof_poly_t) L.poly_numverts).val * sizeof_vec4_t),
         (L.poly_colors,
            (get32 (readBytes mem poly L.sizeof_poly_t) L.poly_numverts).val
              * sizeof_byte_vec4_t),
         (L.poly_elems,
            (get32 (readBytes mem poly L.sizeof_poly_t) L.poly_numelems).val * sizeof_elem_t)]
        e ∧
      e ≤ b.len + polyLengthSpec L (readBytes mem poly L.sizeof_poly_t) ∧
      b.len + polyLengthSpec L (readBytes mem poly L.sizeof_poly_t) < e + 4) ∧
    ∀ env' c', (issue L env'
        (RF_IssueDrawStretchPolyOrAddPolyToSceneCmd L mem b id poly x_offset y_offset) c').len
        ≠ (RF_IssueDrawStretchPolyOrAddPolyToSceneCmd L mem b id poly x_offset y_offset).len →
      recordIdent (issue L env'
        (RF_IssueDrawStretchPolyOrAddPolyToSceneCmd L mem b id poly x_offset y_offset) c').buf
        (b.len + (recordLength
          (RF_IssueDrawStretchPolyOrAddPolyToSceneCmd L mem b id poly x_offset y_offset).buf
          b.len).val) = c'.ident := by
  have hcap := hL.1
  have hv0 : 0 ≤ toInt (get32 (readBytes mem poly L.sizeof_poly_t) L.poly_numverts) := by omega
  have hfit := poly_accepted L hL mem b id poly x_offset y_offset hb hv0 hne hacc
  obtain ⟨heq, -⟩ := poly_issue_arrays L hL hP mem b id poly x_offset y_offset hbase hnv hne
    hsh hfit
  obtain ⟨hlen1, hlen2⟩ := polyCmdLen_eq L (readBytes mem poly L.sizeof_poly_t) hL.2.1 hv0 hne
  have n1 := szMul_intToSize (get32 (readBytes mem poly L.sizeof_poly_t) L.poly_numverts)
    sizeof_vec4_t hv0 (by decide)
  have n2 := szMul_intToSize (get32 (readBytes mem poly L.sizeof_poly_t) L.poly_numverts)
    sizeof_vec2_t hv0 (by decide)
  have n3 := szMul_intToSize (get32 (readBytes mem poly L.sizeof_poly_t) L.poly_numverts)
    sizeof_byte_vec4_t hv0 (by decide)
  have n4 := szMul_intToSize (get32 (readBytes mem poly L.sizeof_poly_t) L.poly_numelems)
    sizeof_elem_t hne (by decide)
  generalize hp : readBytes mem poly L.sizeof_poly_t = p at *
  have hplen : p.length = L.sizeof_poly_t := by rw [← hp, readBytes_length]
  have hM : SIZE_MOD = 18446744073709551616 := rfl
  have hrec : (refCmdDrawStretchOrScenePoly_t.toBytes
      { id := id, length := U32.ofNat (polyCmdLen L p), x_offset := x_offset,
        y_offset := y_offset, poly := (polyTail L mem b p).obj }).length
      = sizeof_refCmdDrawStretchOrScenePoly_t L :=
    refCmdDrawStretchOrScenePoly_t_toBytes_length L _ (by rw [polyTail_obj_length, hplen])
  have hfield : recordLength
      (RF_IssueDrawStretchPolyOrAddPolyToSceneCmd L mem b id poly x_offset y_offset).buf b.len
      = U32.ofNat (polyCmdLen L p) := by
    rw [heq]
    exact lengthField_memcpy _ _ _ _ _
  have hval : (U32.ofNat (polyCmdLen L p)).val = polyCmdLen L p :=
    U32_ofNat_val _ (by omega)
  have hstored : storedPoly L
      (RF_IssueDrawStretchPolyOrAddPolyToSceneCmd L mem b id poly x_offset y_offset).buf b.len
      = (polyTail L mem b p).obj := by
    rw [heq]
    unfold storedPoly
    show (refCmdDrawStretchOrScenePoly_t.ofBytes L (readBytes (memcpy _ _ _) _ _)).poly = _
    rw [readBytes_memcpy_same _ _ _ _ hrec,
      refCmdDrawStretchOrScenePoly_t_ofBytes_toBytes L _ (by rw [polyTail_obj_length, hplen])]
  refine ⟨by rw [hfield, hval, hlen2], by rw [heq]; show b.len + polyCmdLen L p = _; rw [hlen2],
    ?_, ?_⟩
  · obtain ⟨hC, -⟩ := copyTails_spec mem b.base (polyBlocks L p)
      { obj := p, buf := b.buf, pcmd := b.len + sizeof_refCmdDrawStretchOrScenePoly_t L }
      hP.2 (by
        intro k hk
        show k.member + 8 ≤ p.length
        rw [hplen]
        apply hP.1
        simp only [polyBlocks, List.mem_cons, List.mem_singleton, List.not_mem_nil, or_false]
          at hk
        rcases hk with rfl | rfl | rfl | rfl | rfl <;> simp)
    have hT : polyTail L mem b p = copyTails mem b.base (polyBlocks L p)
        { obj := p, buf := b.buf, pcmd := b.len + sizeof_refCmdDrawStretchOrScenePoly_t L } := rfl
    rw [← hT] at hC
    dsimp only at hC
    have hge := polyCmdLen_ge_tail L p hL.2.1 hv0 hne
    have hlo := laidOut_of_copied mem b.base (polyTail L mem b p) p
      (RF_IssueDrawStretchPolyOrAddPolyToSceneCmd L mem b id poly x_offset y_offset).buf
      (polyBlocks L p) (b.len + sizeof_refCmdDrawStretchOrScenePoly_t L) hC
      (by
        intro k hk
        simp only [polyBlocks, List.mem_cons, List.mem_singleton, List.not_mem_nil, or_false]
          at hk
        rcases hk with rfl | rfl | rfl | rfl | rfl <;> exact ⟨rfl, rfl⟩)
      (by
        intro i hi1 _
        rw [heq]
        exact memcpy_outside _ _ _ _ (Or.inr (by rw [hrec]; exact hi1)))
      (by omega)
    refine ⟨b.len + sizeof_refCmdDrawStretchOrScenePoly_t L + tailBytes (polyBlocks L p), ?_,
      by rw [← hlen2]; omega, ?_⟩
    · rw [hstored]
      have hmap : (polyBlocks L p).map (fun k => (k.member, k.n))
          = [(L.poly_verts, (get32 p L.poly_numverts).val * sizeof_vec4_t),
             (L.poly_stcoords, (get32 p L.poly_numverts).val * sizeof_vec2_t),
             (L.poly_normals, (get32 p L.poly_numverts).val * sizeof_vec4_t),
             (L.poly_colors, (get32 p L.poly_numverts).val * sizeof_byte_vec4_t),
             (L.poly_elems, (get32 p L.poly_numelems).val * sizeof_elem_t)] := by
        simp only [polyBlocks, List.map_cons, List.map_nil, n1, n2, n3, n4]
      rw [← hmap]
      exact hlo
    · rw [← hlen2, hlen1]
      omega
  · intro env' c' hacc'
    rw [hfield, hval]
    have := issue_identField L env'
      (RF_IssueDrawStretchPolyOrAddPolyToSceneCmd L mem b id poly x_offset y_offset) c' hacc'
    rw [heq] at this ⊢
    exact this

theorem C24_polygon_record_length_witness :
    exampleLayout.SizesOk ∧ exampleLayout.PolyPointersOk ∧
    (RF_CreateCmdBuf 4096).len ≤ exampleLayout.sizeof_buf ∧
    (RF_CreateCmdBuf 4096).base + exampleLayout.sizeof_buf < SIZE_MOD ∧
    0 < toInt (get32 (readBytes elemsPolyEnv.mem 64 exampleLayout.sizeof_poly_t)
      exampleLayout.poly_numverts) ∧
    0 ≤ toInt (get32 (readBytes elemsPolyEnv.mem 64 exampleLayout.sizeof_poly_t)
      exampleLayout.poly_numelems) ∧
    get64 (readBytes elemsPolyEnv.mem 64 exampleLayout.sizeof_poly_t)
      exampleLayout.poly_shader ≠ 0 ∧
    (RF_IssueDrawStretchPolyOrAddPolyToSceneCmd exampleLayout elemsPolyEnv.mem
      (RF_CreateCmdBuf 4096) REF_CMD_ADD_POLY_TO_SCENE 64 0 0).len ≠ (RF_CreateCmdBuf 4096).len ∧
    (recordLength (RF_IssueDrawStretchPolyOrAddPolyToSceneCmd exampleLayout elemsPolyEnv.mem
      (RF_CreateCmdBuf 4096) REF_CMD_ADD_POLY_TO_SCENE 64 0 0).buf
      (RF_CreateCmdBuf 4096).len).val
      = polyLengthSpec exampleLayout (readBytes elemsPolyEnv.mem 64 exampleLayout.sizeof_poly_t) ∧
    (RF_IssueDrawStretchPolyOrAddPolyToSceneCmd exampleLayout elemsPolyEnv.mem
      (RF_CreateCmdBuf 4096) REF_CMD_ADD_POLY_TO_SCENE 64 0 0).len
      = (RF_CreateCmdBuf 4096).len
        + polyLengthSpec exampleLayout
            (readBytes elemsPolyEnv.mem 64 exampleLayout.sizeof_poly_t) ∧
    polyLengthSpec exampleLayout (readBytes elemsPolyEnv.mem 64 exampleLayout.sizeof_poly_t)
      = 92 :=
  ⟨by decide, by decide, by decide, by decide, by decide, by decide, by decide, by decide,
    (C24_polygon_record_length exampleLayout (by decide) (by decide) elemsPolyEnv.mem
      (RF_CreateCmdBuf 4096) REF_CMD_ADD_POLY_TO_SCENE 64 0 0 (by decide) (by decide)
      (by decide) (by decide) (by decide) (by decide)).1,
    (C24_polygon_record_length exampleLayout (by decide) (by decide) elemsPolyEnv.mem
      (RF_CreateCmdBuf 4096) REF_CMD_ADD_POLY_TO_SCENE 64 0 0 (by decide) (by decide)
      (by decide) (by decide) (by decide) (by decide)).2.1,
    by decide⟩

/-! ### Entity records -/

theorem entity_accepted (L : Layout) (hL : L.SizesOk) (env : Env) (b : ref_cmdbuf_t)
    (ent : Nat) (hb : b.len ≤ L.sizeof_buf)
    (hn : 0 ≤ toInt (env.R_SkeletalGetNumBones
      (get64 (readBytes env.mem ent L.sizeof_entity_t) L.entity_model)))
    (hacc : (RF_IssueAddEntityToSceneCmd L env b ent).len ≠ b.len) :
    b.len + entityCmdLen L env (readBytes env.mem ent L.sizeof_entity_t) ≤ L.sizeof_buf := by
  obtain ⟨h1, h2⟩ := entityCmdLen_bounds L env (readBytes env.mem ent L.sizeof_entity_t)
    hL.2.2.1 hL.2.2.2.2 hn
  have hcap := hL.1
  have hsz : szAdd b.len (entityCmdLen L env (readBytes env.mem ent L.sizeof_entity_t))
      = b.len + entityCmdLen L env (readBytes env.mem ent L.sizeof_entity_t) :=
    szAdd_eq _ _ (by unfold SIZE_MOD; omega)
  revert hacc
  unfold RF_IssueAddEntityToSceneCmd
  simp only [hsz]
  split_ifs with h3
  · intro h; exact absurd rfl h
  · intro _; omega

/-- What an accepted call of `RF_IssueAddEntityToSceneCmd` leaves in the buffer. -/
theorem entity_issue_general (L : Layout) (hL : L.SizesOk) (hE : L.EntityPointersOk)
    (env : Env) (b : ref_cmdbuf_t) (ent : Nat)
    (hfit : b.len + entityCmdLen L env (readBytes env.mem ent L.sizeof_entity_t)
      ≤ L.sizeof_buf) :
    (RF_IssueAddEntityToSceneCmd L env b ent).len
      = b.len + entityCmdLen L env (readBytes env.mem ent L.sizeof_entity_t) ∧
    recordLength (RF_IssueAddEntityToSceneCmd L env b ent).buf b.len
      = U32.ofNat (entityCmdLen L env (readBytes env.mem ent L.sizeof_entity_t)) ∧
    storedEntity L (RF_IssueAddEntityToSceneCmd L env b ent).buf b.len
      = (entityTail L env b (readBytes env.mem ent L.sizeof_entity_t)).obj ∧
    storedNumBoneposes L (RF_IssueAddEntityToSceneCmd L env b ent).buf b.len
      = env.R_SkeletalGetNumBones
          (get64 (readBytes env.mem ent L.sizeof_entity_t) L.entity_model) ∧
    R_HandleAddEntityToSceneCmd L (RF_IssueAddEntityToSceneCmd L env b ent).buf b.len
      = ([.R_AddEntityToScene
            (entityTail L env b (readBytes env.mem ent L.sizeof_entity_t)).obj],
          entityCmdLen L env (readBytes env.mem ent L.sizeof_entity_t)) ∧
    Copied env.mem b.base (entityTail L env b (readBytes env.mem ent L.sizeof_entity_t))
      (readBytes env.mem ent L.sizeof_entity_t) (b.len + sizeof_refCmdAddEntityToScene_t L)
      (entityBlocks L env (readBytes env.mem ent L.sizeof_entity_t)) ∧
    ∀ i, b.len + sizeof_refCmdAddEntityToScene_t L ≤ i →
      (RF_IssueAddEntityToSceneCmd L env b ent).buf i
        = (entityTail L env b (readBytes env.mem ent L.sizeof_entity_t)).buf i := by
  have hcap := hL.1
  generalize he : readBytes env.mem ent L.sizeof_entity_t = e at *
  have helen : e.length = L.sizeof_entity_t := by rw [← he, readBytes_length]
  have hM : SIZE_MOD = 18446744073709551616 := rfl
  have hsz : szAdd b.len (entityCmdLen L env e) = b.len + entityCmdLen L env e :=
    szAdd_eq _ _ (by omega)
  have heq : RF_IssueAddEntityToSceneCmd L env b ent
      = { b with
          buf := memcpy (entityTail L env b e).buf b.len
            (refCmdAddEntityToScene_t.toBytes
              { refCmdAddEntityToScene_t.ofBytes L
                  (readBytes env.stack 0 (sizeof_refCmdAddEntityToScene_t L)) with
                id := REF_CMD_ADD_ENTITY_TO_SCENE, length := U32.ofNat (entityCmdLen L env e),
                entity := (entityTail L env b e).obj,
                numBoneposes := env.R_SkeletalGetNumBones (get64 e L.entity_model) }),
          len := b.len + entityCmdLen L env e } := by
    unfold RF_IssueAddEntityToSceneCmd
    simp only [he, hsz]
    rw [if_neg (by omega)]
  have hol : (entityTail L env b e).obj.length = L.sizeof_entity_t := by
    rw [entityTail_obj_length, helen]
  have hrec : (refCmdAddEntityToScene_t.toBytes
      { refCmdAddEntityToScene_t.ofBytes L
          (readBytes env.stack 0 (sizeof_refCmdAddEntityToScene_t L)) with
        id := REF_CMD_ADD_ENTITY_TO_SCENE, length := U32.ofNat (entityCmdLen L env e),
        entity := (entityTail L env b e).obj,
        numBoneposes := env.R_SkeletalGetNumBones (get64 e L.entity_model) }).length = sizeof_refCmdAddEntityToScene_t L :=
    refCmdAddEntityToScene_t_toBytes_length L _ hol
  obtain ⟨hC, -⟩ := copyTails_spec env.mem b.base (entityBlocks L env e)
    { obj := e, buf := b.buf, pcmd := b.len + sizeof_refCmdAddEntityToScene_t L }
    hE.2 (by
      intro k hk
      show k.member + 8 ≤ e.length
      rw [helen]
      apply hE.1
      simp only [entityBlocks, List.mem_cons, List.mem_singleton, List.not_mem_nil, or_false] at hk
      rcases hk with rfl | rfl <;> simp)
  have hT : entityTail L env b e = copyTails env.mem b.base (entityBlocks L env e)
      { obj := e, buf := b.buf, pcmd := b.len + sizeof_refCmdAddEntityToScene_t L } := rfl
  rw [← hT] at hC
  dsimp only at hC
  rw [heq]
  refine ⟨rfl, lengthField_memcpy _ _ _ _ _, ?_, ?_, ?_, hC, fun i hi => ?_⟩
  · unfold storedEntity
    show (refCmdAddEntityToScene_t.ofBytes L (readBytes (memcpy _ _ _) _ _)).entity = _
    rw [readBytes_memcpy_same _ _ _ _ hrec, refCmdAddEntityToScene_t_ofBytes_toBytes L _ hol]
  · unfold storedNumBoneposes
    show (refCmdAddEntityToScene_t.ofBytes L (readBytes (memcpy _ _ _) _ _)).numBoneposes = _
    rw [readBytes_memcpy_same _ _ _ _ hrec, refCmdAddEntityToScene_t_ofBytes_toBytes L _ hol]
  · unfold R_HandleAddEntityToSceneCmd
    show (_, (refCmdAddEntityToScene_t.ofBytes L (readBytes (memcpy _ _ _) _ _)).length.val) = _
    rw [readBytes_memcpy_same _ _ _ _ hrec, refCmdAddEntityToScene_t_ofBytes_toBytes L _ hol]
    simp only [U32_ofNat_val _ (show entityCmdLen L env e < 4294967296 by omega)]
  · exact memcpy_outside _ _ _ _ (Or.inr (by rw [hrec]; exact hi))

theorem entityCmdLen_spec (L : Layout) (hL : L.SizesOk) (env : Env) (e : List Byte)
    (hn : 0 ≤ toInt (env.R_SkeletalGetNumBones (get64 e L.entity_model))) :
    entityCmdLen L env e
      = entityLengthSpec L (env.R_SkeletalGetNumBones (get64 e L.entity_model)) e ∧
    szMul (intToSize (env.R_SkeletalGetNumBones (get64 e L.entity_model))) L.sizeof_bonepose_t
      = (env.R_SkeletalGetNumBones (get64 e L.entity_model)).val * L.sizeof_bonepose_t := by
  have n1 := szMul_intToSize (env.R_SkeletalGetNumBones (get64 e L.entity_model))
    L.sizeof_bonepose_t hn (by have := hL.2.2.2.2; omega)
  refine ⟨?_, n1⟩
  rw [entityCmdLen_eq_tail L env e hL.2.2.1 hL.2.2.2.2 hn]
  unfold entityLengthSpec
  simp only [entityBlocks, tailBytes, decide_eq_true_eq, n1]
  omega

/-- C25. Entity record length: for every accepted `AddEntityToScene` call, with `n` the
bone count `R_SkeletalGetNumBones( ent->model, NULL )`, `n >= 0`, the `length` member of
the record and the increase of the buffer length both equal the size of the header plus
`n` poses if `n != 0` and `boneposes` is non-null, plus `n` poses if `n != 0` and
`oldboneposes` is non-null; the record stores `n` as `numBoneposes`, and each array that
is copied has `n` poses, `boneposes` right after the header and `oldboneposes` after it,
the stored entity referring to the copies; the `length` member is not 0, and it is the
byte span to the start of the next record: the record of the next accepted encoder call
has its identifier at that offset. -/
theorem C25_entity_record_length (L : Layout) (hL : L.SizesOk) (hE : L.EntityPointersOk)
    (env : Env) (b : ref_cmdbuf_t) (ent : Nat)
    (hb : b.len ≤ L.sizeof_buf) (hbase : b.base + L.sizeof_buf < SIZE_MOD)
    (hn : 0 ≤ toInt (env.R_SkeletalGetNumBones
      (get64 (readBytes env.mem ent L.sizeof_entity_t) L.entity_model)))
    (hacc : (RF_IssueAddEntityToSceneCmd L env b ent).len ≠ b.len) :
    (recordLength (RF_IssueAddEntityToSceneCmd L env b ent).buf b.len).val
      = entityLengthSpec L (env.R_SkeletalGetNumBones
          (get64 (readBytes env.mem ent L.sizeof_entity_t) L.entity_model))
          (readBytes env.mem ent L.sizeof_entity_t) ∧
    (RF_IssueAddEntityToSceneCmd L env b ent).len
      = b.len + entityLengthSpec L (env.R_SkeletalGetNumBones
          (get64 (readBytes env.mem ent L.sizeof_entity_t) L.entity_model))
          (readBytes env.mem ent L.sizeof_entity_t) ∧
    storedNumBoneposes L (RF_IssueAddEntityToSceneCmd L env b ent).buf b.len
      = env.R_SkeletalGetNumBones
          (get64 (readBytes env.mem ent L.sizeof_entity_t) L.entity_model) ∧
    (env.R_SkeletalGetNumBones
        (get64 (readBytes env.mem ent L.sizeof_entity_t) L.entity_model) ≠ 0 ∧
      get64 (readBytes env.mem ent L.sizeof_entity_t) L.entity_boneposes ≠ 0 →
      (get64 (storedEntity L (RF_IssueAddEntityToSceneCmd L env b ent).buf b.len)
        L.entity_boneposes).val = b.base + (b.len + sizeof_refCmdAddEntityToScene_t L) ∧
      readBytes (RF_IssueAddEntityToSceneCmd L env b ent).buf
        (b.len + sizeof_refCmdAddEntityToScene_t L)
        ((env.R_SkeletalGetNumBones
          (get64 (readBytes env.mem ent L.sizeof_entity_t) L.entity_model)).val
          * L.sizeof_bonepose_t)
        = readBytes env.mem
            (get64 (readBytes env.mem ent L.sizeof_entity_t) L.entity_boneposes).val
            ((env.R_SkeletalGetNumBones
              (get64 (readBytes env.mem ent L.sizeof_entity_t) L.entity_model)).val
              * L.sizeof_bonepose_t)) ∧
    (env.R_SkeletalGetNumBones
        (get64 (readBytes env.mem ent L.sizeof_entity_t) L.entity_model) ≠ 0 ∧
      get64 (readBytes env.mem ent L.sizeof_entity_t) L.entity_oldboneposes ≠ 0 →
      (get64 (storedEntity L (RF_IssueAddEntityToSceneCmd L env b ent).buf b.len)
        L.entity_oldboneposes).val
        = b.base + (b.len + sizeof_refCmdAddEntityToScene_t L
            + (if get64 (readBytes env.mem ent L.sizeof_entity_t) L.entity_boneposes ≠ 0 then
                (env.R_SkeletalGetNumBones
                  (get64 (readBytes env.mem ent L.sizeof_entity_t) L.entity_model)).val
                  * L.sizeof_bonepose_t
               else 0)) ∧
      readBytes (RF_IssueAddEntityToSceneCmd L env b ent).buf
        (b.len + sizeof_refCmdAddEntityToScene_t L
          + (if get64 (readBytes env.mem ent L.sizeof_entity_t) L.entity_boneposes ≠ 0 then
              (env.R_SkeletalGetNumBones
                (get64 (readBytes env.mem ent L.sizeof_entity_t) L.entity_model)).val
                * L.sizeof_bonepose_t
             else 0))
        ((env.R_SkeletalGetNumBones
          (get64 (readBytes env.mem ent L.sizeof_entity_t) L.entity_model)).val
          * L.sizeof_bonepose_t)
        = readBytes env.mem
            (get64 (readBytes env.mem ent L.sizeof_entity_t) L.entity_oldboneposes).val
            ((env.R_SkeletalGetNumBones
              (get64 (readBytes env.mem ent L.sizeof_entity_t) L.entity_model)).val
              * L.sizeof_bonepose_t)) ∧
    recordLength (RF_IssueAddEntityToSceneCmd L env b ent).buf b.len ≠ 0 ∧
    ∀ env' c', (issue L env' (RF_IssueAddEntityToSceneCmd L env b ent) c').len
        ≠ (RF_IssueAddEntityToSceneCmd L env b ent).len →
      recordIdent (issue L env' (RF_IssueAddEntityToSceneCmd L env b ent) c').buf
        (b.len + (recordLength (RF_IssueAddEntityToSceneCmd L env b ent).buf b.len).val)
        = c'.ident := by
  have hcap := hL.1
  have hfit := entity_accepted L hL env b ent hb hn hacc
  obtain ⟨g1, g2, g3, g4, -, hC, g7⟩ := entity_issue_general L hL hE env b ent hfit
  obtain ⟨hspec, n1⟩ := entityCmdLen_spec L hL env (readBytes env.mem ent L.sizeof_entity_t) hn
  have htail := entityCmdLen_eq_tail L env (readBytes env.mem ent L.sizeof_entity_t)
    hL.2.2.1 hL.2.2.2.2 hn
  have hM : SIZE_MOD = 18446744073709551616 := rfl
  have hval : (U32.ofNat (entityCmdLen L env (readBytes env.mem ent L.sizeof_entity_t))).val
      = entityCmdLen L env (readBytes env.mem ent L.sizeof_entity_t) :=
    U32_ofNat_val _ (by omega)
  have h32 : 32 ≤ sizeof_refCmdAddEntityToScene_t L := by
    unfold sizeof_refCmdAddEntityToScene_t; omega
  have hge := (entityCmdLen_bounds L env (readBytes env.mem ent L.sizeof_entity_t)
    hL.2.2.1 hL.2.2.2.2 hn).1
  simp only [Copied, entityBlocks, n1, decide_eq_true_eq, decide_eq_false_iff_not] at hC
  simp only [entityBlocks, tailBytes, decide_eq_true_eq, n1] at htail
  obtain ⟨c1, -, c3, -, -⟩ := hC
  refine ⟨by rw [g2, hval, hspec], by rw [g1, hspec], g4, fun hp => ?_, fun hp => ?_, ?_,
    fun env' c' hacc' => ?_⟩
  · obtain ⟨d1, d2⟩ := c1 hp
    rw [g3, d1, U64_ofNat_val _ (by omega)]
    refine ⟨rfl, ?_⟩
    rw [← d2]
    exact readBytes_congr _ _ _ _ (fun i hi1 _ => g7 i hi1)
  · obtain ⟨d1, d2⟩ := c3 hp
    have hcond : (if env.R_SkeletalGetNumBones
          (get64 (readBytes env.mem ent L.sizeof_entity_t) L.entity_model) ≠ 0 ∧
        get64 (readBytes env.mem ent L.sizeof_entity_t) L.entity_boneposes ≠ 0 then
        (env.R_SkeletalGetNumBones
          (get64 (readBytes env.mem ent L.sizeof_entity_t) L.entity_model)).val
          * L.sizeof_bonepose_t else 0)
        = (if get64 (readBytes env.mem ent L.sizeof_entity_t) L.entity_boneposes ≠ 0 then
            (env.R_SkeletalGetNumBones
              (get64 (readBytes env.mem ent L.sizeof_entity_t) L.entity_model)).val
              * L.sizeof_bonepose_t else 0) := by
      simp only [hp.1, ne_eq, not_false_eq_true, true_and]
    rw [hcond] at d1 d2 htail
    have hle : (if get64 (readBytes env.mem ent L.sizeof_entity_t) L.entity_boneposes ≠ 0 then
        (env.R_SkeletalGetNumBones
          (get64 (readBytes env.mem ent L.sizeof_entity_t) L.entity_model)).val
          * L.sizeof_bonepose_t else 0)
        ≤ entityCmdLen L env (readBytes env.mem ent L.sizeof_entity_t) := by
      rw [htail]; omega
    rw [g3, d1, U64_ofNat_val _ (by omega)]
    refine ⟨rfl, ?_⟩
    rw [← d2]
    exact readBytes_congr _ _ _ _ (fun i hi1 _ => g7 i (by omega))
  · rw [g2]
    intro h0
    have := congrArg Fin.val h0
    rw [hval] at this
    have : entityCmdLen L env (readBytes env.mem ent L.sizeof_entity_t) = 0 := this
    omega
  · rw [g2, hval, ← g1]
    exact issue_identField L env' (RF_IssueAddEntityToSceneCmd L env b ent) c' hacc'

theorem C25_entity_record_length_witness :
    exampleLayout.SizesOk ∧ exampleLayout.EntityPointersOk ∧
    (RF_CreateCmdBuf 4096).len ≤ exampleLayout.sizeof_buf ∧
    (RF_CreateCmdBuf 4096).base + exampleLayout.sizeof_buf < SIZE_MOD ∧
    0 ≤ toInt (boneEnv.R_SkeletalGetNumBones
      (get64 (readBytes boneEnv.mem 64 exampleLayout.sizeof_entity_t)
        exampleLayout.entity_model)) ∧
    (RF_IssueAddEntityToSceneCmd exampleLayout boneEnv (RF_CreateCmdBuf 4096) 64).len
      ≠ (RF_CreateCmdBuf 4096).len ∧
    (recordLength (RF_IssueAddEntityToSceneCmd exampleLayout boneEnv (RF_CreateCmdBuf 4096)
      64).buf (RF_CreateCmdBuf 4096).len).val
      = entityLengthSpec exampleLayout (boneEnv.R_SkeletalGetNumBones
          (get64 (readBytes boneEnv.mem 64 exampleLayout.sizeof_entity_t)
            exampleLayout.entity_model))
          (readBytes boneEnv.mem 64 exampleLayout.sizeof_entity_t) ∧
    entityLengthSpec exampleLayout 32 (readBytes boneEnv.mem 64 exampleLayout.sizeof_entity_t)
      = 2112 :=
  ⟨by decide, by decide, by decide, by decide, by decide, by decide,
    (C25_entity_record_length exampleLayout (by decide) (by decide) boneEnv
      (RF_CreateCmdBuf 4096) 64 (by decide) (by decide) (by decide) (by decide)).1,
    by decide⟩

/-- C27 does not hold as stated: when the model of the entity has no bones, the encoder
redirects neither reference (both blocks are guarded by `cmd.numBoneposes &&`), so the
entity that the dispatcher hands to `R_AddEntityToScene` is the caller's, byte for byte:
its `boneposes` is still the address 256 of the caller's array, which is neither null nor
inside the 64 bytes of the record in the storage at address 4096. -/
theorem C27_counterexample :
    noBonesEnv.R_SkeletalGetNumBones
      (get64 (readBytes noBonesEnv.mem 64 exampleLayout.sizeof_entity_t)
        exampleLayout.entity_model) = 0 ∧
    get64 (readBytes noBonesEnv.mem 64 exampleLayout.sizeof_entity_t)
      exampleLayout.entity_boneposes = 256 ∧
    (RF_IssueAddEntityToSceneCmd exampleLayout noBonesEnv (RF_CreateCmdBuf 4096) 64).len = 64 ∧
    (RF_RunCmdBufProc exampleLayout exampleRsh
      (RF_IssueAddEntityToSceneCmd exampleLayout noBonesEnv (RF_CreateCmdBuf 4096) 64)).map
      RunResult.trace
      = some [.R_AddEntityToScene (readBytes noBonesEnv.mem 64 exampleLayout.sizeof_entity_t)] ∧
    (256 : U64) ≠ 0 ∧
    ¬ ((RF_CreateCmdBuf 4096).base ≤ 256 ∧ 256 < (RF_CreateCmdBuf 4096).base + 64) := by
  decide

/-- C27, amended. Bone-pose references of a model with bones never point at caller
memory: for every accepted `AddEntityToScene` call, the handler hands to
`R_AddEntityToScene` the entity stored in the record; when the bone count of the
entity's model is not 0, each of the `boneposes` and `oldboneposes` references of that
entity is either null or refers to the bytes of one array of poses that lie inside the
record's own span, after the header and before record start + `length`; when the bone
count is 0, both references are the ones the caller gave. -/
theorem C27_bonepose_references (L : Layout) (hL : L.SizesOk) (hE : L.EntityPointersOk)
    (env : Env) (b : ref_cmdbuf_t) (ent : Nat)
    (hb : b.len ≤ L.sizeof_buf) (hbase : b.base + L.sizeof_buf < SIZE_MOD)
    (hn : 0 ≤ toInt (env.R_SkeletalGetNumBones
      (get64 (readBytes env.mem ent L.sizeof_entity_t) L.entity_model)))
    (hacc : (RF_IssueAddEntityToSceneCmd L env b ent).len ≠ b.len) :
    R_HandleAddEntityToSceneCmd L (RF_IssueAddEntityToSceneCmd L env b ent).buf b.len
      = ([.R_AddEntityToScene
            (storedEntity L (RF_IssueAddEntityToSceneCmd L env b ent).buf b.len)],
          (recordLength (RF_IssueAddEntityToSceneCmd L env b ent).buf b.len).val) ∧
    (env.R_SkeletalGetNumBones
        (get64 (readBytes env.mem ent L.sizeof_entity_t) L.entity_model) ≠ 0 →
      ∀ m ∈ [L.entity_boneposes, L.entity_oldboneposes],
        get64 (storedEntity L (RF_IssueAddEntityToSceneCmd L env b ent).buf b.len) m = 0 ∨
        ∃ a, (get64 (storedEntity L (RF_IssueAddEntityToSceneCmd L env b ent).buf b.len) m).val
            = b.base + a ∧
          b.len + sizeof_refCmdAddEntityToScene_t L ≤ a ∧
          a + (env.R_SkeletalGetNumBones
              (get64 (readBytes env.mem ent L.sizeof_entity_t) L.entity_model)).val
            * L.sizeof_bonepose_t
            ≤ b.len + (recordLength (RF_IssueAddEntityToSceneCmd L env b ent).buf b.len).val) ∧
    (env.R_SkeletalGetNumBones
        (get64 (readBytes env.mem ent L.sizeof_entity_t) L.entity_model) = 0 →
      ∀ m ∈ [L.entity_boneposes, L.entity_oldboneposes],
        get64 (storedEntity L (RF_IssueAddEntityToSceneCmd L env b ent).buf b.len) m
          = get64 (readBytes env.mem ent L.sizeof_entity_t) m) := by
  have hcap := hL.1
  have hfit := entity_accepted L hL env b ent hb hn hacc
  obtain ⟨-, g2, g3, -, g5, hC, -⟩ := entity_issue_general L hL hE env b ent hfit
  obtain ⟨-, n1⟩ := entityCmdLen_spec L hL env (readBytes env.mem ent L.sizeof_entity_t) hn
  have htail := entityCmdLen_eq_tail L env (readBytes env.mem ent L.sizeof_entity_t)
    hL.2.2.1 hL.2.2.2.2 hn
  have hM : SIZE_MOD = 18446744073709551616 := rfl
  have hval : (U32.ofNat (entityCmdLen L env (readBytes env.mem ent L.sizeof_entity_t))).val
      = entityCmdLen L env (readBytes env.mem ent L.sizeof_entity_t) :=
    U32_ofNat_val _ (by omega)
  have hmem := Copied_mem env.mem b.base _ _ _ _ hC
  refine ⟨by rw [g5, g3, g2, hval], fun hnz m hm => ?_, fun hz m hm => ?_⟩
  · have key : ∀ k ∈ entityBlocks L env (readBytes env.mem ent L.sizeof_entity_t),
        k.present = decide (get64 (readBytes env.mem ent L.sizeof_entity_t) k.member ≠ 0) →
        k.n = (env.R_SkeletalGetNumBones
          (get64 (readBytes env.mem ent L.sizeof_entity_t) L.entity_model)).val
            * L.sizeof_bonepose_t →
        get64 (storedEntity L (RF_IssueAddEntityToSceneCmd L env b ent).buf b.len) k.member = 0 ∨
        ∃ a, (get64 (storedEntity L (RF_IssueAddEntityToSceneCmd L env b ent).buf b.len)
              k.member).val = b.base + a ∧
          b.len + sizeof_refCmdAddEntityToScene_t L ≤ a ∧
          a + (env.R_SkeletalGetNumBones
              (get64 (readBytes env.mem ent L.sizeof_entity_t) L.entity_model)).val
            * L.sizeof_bonepose_t
            ≤ b.len + (recordLength (RF_IssueAddEntityToSceneCmd L env b ent).buf b.len).val := by
      intro k hk hflag hkn
      obtain ⟨j1, j2⟩ := hmem k hk
      rw [g3, g2, hval]
      by_cases hz : get64 (readBytes env.mem ent L.sizeof_entity_t) k.member = 0
      · left
        rw [j2 (by rw [hflag]; simp [hz]), hz]
      · right
        obtain ⟨a', b1, b2, b3, -⟩ := j1 (by rw [hflag]; simp [hz])
        refine ⟨a', ?_, b1, ?_⟩
        · rw [b3, U64_ofNat_val _ (by omega)]
        · rw [← hkn, htail]; omega
    simp only [List.mem_cons, List.mem_singleton, List.not_mem_nil, or_false] at hm
    rcases hm with rfl | rfl
    · exact key _ (List.mem_cons_self _ _) (by simp [hnz]) n1
    · exact key _ (List.mem_cons_of_mem _ (List.mem_cons_self _ _)) (by simp [hnz]) n1
  · simp only [List.mem_cons, List.mem_singleton, List.not_mem_nil, or_false] at hm
    rw [g3]
    rcases hm with rfl | rfl
    · exact (hmem _ (List.mem_cons_self _ _)).2 (by simp [hz])
    · exact (hmem _ (List.mem_cons_of_mem _ (List.mem_cons_self _ _))).2 (by simp [hz])

theorem C27_bonepose_references_witness :
    exampleLayout.SizesOk ∧ exampleLayout.EntityPointersOk ∧
    (RF_CreateCmdBuf 4096).len ≤ exampleLayout.sizeof_buf ∧
    (RF_CreateCmdBuf 4096).base + exampleLayout.sizeof_buf < SIZE_MOD ∧
    0 ≤ toInt (boneEnv.R_SkeletalGetNumBones
      (get64 (readBytes boneEnv.mem 64 exampleLayout.sizeof_entity_t)
        exampleLayout.entity_model)) ∧
    (RF_IssueAddEntityToSceneCmd exampleLayout boneEnv (RF_CreateCmdBuf 4096) 64).len
      ≠ (RF_CreateCmdBuf 4096).len ∧
    R_HandleAddEntityToSceneCmd exampleLayout
      (RF_IssueAddEntityToSceneCmd exampleLayout boneEnv (RF_CreateCmdBuf 4096) 64).buf
      (RF_CreateCmdBuf 4096).len
      = ([.R_AddEntityToScene (storedEntity exampleLayout
            (RF_IssueAddEntityToSceneCmd exampleLayout boneEnv (RF_CreateCmdBuf 4096) 64).buf
            (RF_CreateCmdBuf 4096).len)],
          (recordLength
            (RF_IssueAddEntityToSceneCmd exampleLayout boneEnv (RF_CreateCmdBuf 4096) 64).buf
            (RF_CreateCmdBuf 4096).len).val) ∧
    get64 (storedEntity exampleLayout
      (RF_IssueAddEntityToSceneCmd exampleLayout boneEnv (RF_CreateCmdBuf 4096) 64).buf 0)
      exampleLayout.entity_boneposes = 4160 ∧
    get64 (storedEntity exampleLayout
      (RF_IssueAddEntityToSceneCmd exampleLayout boneEnv (RF_CreateCmdBuf 4096) 64).buf 0)
      exampleLayout.entity_oldboneposes = 5184 :=
  ⟨by decide, by decide, by decide, by decide, by decide, by decide,
    (C27_bonepose_references exampleLayout (by decide) (by decide) boneEnv
      (RF_CreateCmdBuf 4096) 64 (by decide) (by decide) (by decide) (by decide)).1,
    by decide, by decide⟩

/-! ### Render-scene records -/

theorem renderSceneAreabytes_val (L : Layout) (rsh : rsh_t) (r : List Byte)
    (hc : get64 r L.refdef_areabits ≠ 0 ∧ rsh.worldBrushModel ≠ 0)
    (hna : rsh.numareas.val + 7 < 2147483648) :
    (renderSceneAreabytes L rsh r).val = (rsh.numareas.val + 7) / 8 := by
  unfold renderSceneAreabytes
  rw [if_pos hc]
  have h1 : toInt rsh.numareas = (rsh.numareas.val : Int) := by
    unfold toInt
    rw [if_pos (by omega)]
  have h2 : ofInt (toInt rsh.numareas + 7) = U32.ofNat (rsh.numareas.val + 7) := by
    unfold ofInt
    rw [h1]
    congr 1
    omega
  have h3 : toInt (U32.ofNat (rsh.numareas.val + 7)) = ((rsh.numareas.val + 7 : Nat) : Int) := by
    unfold toInt
    rw [U32_ofNat_val _ (by omega), if_pos (by omega)]
  rw [h2, h3, Int.tdiv_eq_ediv (by omega) (by omega)]
  unfold ofInt
  have h4 : ((((rsh.numareas.val + 7 : Nat) : Int) / 8) % 4294967296).toNat
      = (rsh.numareas.val + 7) / 8 := by omega
  rw [h4]
  exact U32_ofNat_val _ (by omega)

theorem renderSceneCmdLen_spec (L : Layout) (hL : L.SizesOk) (rsh : rsh_t) (r : List Byte)
    (hna : rsh.worldBrushModel ≠ 0 → rsh.numareas.val + 7 < 2147483648) :
    renderSceneCmdLen L rsh r = renderSceneLengthSpec L rsh r := by
  have hs := hL.2.2.2.1
  have hM : SIZE_MOD = 18446744073709551616 := rfl
  have hh : sizeof_refCmdRenderScene_t L < 4294967296 + 24 := by
    unfold sizeof_refCmdRenderScene_t; omega
  unfold renderSceneCmdLen renderSceneLengthSpec
  by_cases hc : get64 r L.refdef_areabits ≠ 0 ∧ rsh.worldBrushModel ≠ 0
  · rw [if_pos hc, if_pos hc, renderSceneAreabytes_val L rsh r hc (hna hc.2),
      szAdd_eq _ _ (by omega), ALIGN_four_eq _ (by omega)]
  · rw [if_neg hc, if_neg hc]

theorem renderScene_accepted (L : Layout) (hL : L.SizesOk) (env : Env) (b : ref_cmdbuf_t)
    (fd : Nat) (hb : b.len ≤ L.sizeof_buf)
    (hacc : (RF_IssueRenderSceneCmd L env b fd).len ≠ b.len) :
    b.len + renderSceneCmdLen L env.rsh (readBytes env.mem fd L.sizeof_refdef_t)
      ≤ L.sizeof_buf := by
  obtain ⟨h1, h2⟩ := renderSceneCmdLen_bounds L env.rsh (readBytes env.mem fd L.sizeof_refdef_t)
    hL.2.2.2.1
  have hcap := hL.1
  have hsz : szAdd b.len (renderSceneCmdLen L env.rsh (readBytes env.mem fd L.sizeof_refdef_t))
      = b.len + renderSceneCmdLen L env.rsh (readBytes env.mem fd L.sizeof_refdef_t) :=
    szAdd_eq _ _ (by unfold SIZE_MOD; omega)
  by_cases hgt : b.len + renderSceneCmdLen L env.rsh (readBytes env.mem fd L.sizeof_refdef_t)
      > L.sizeof_buf
  · exfalso
    apply hacc
    unfold RF_IssueRenderSceneCmd
    simp only [hsz]
    rw [if_pos hgt]
  · omega

/-- What an accepted call of `RF_IssueRenderSceneCmd` leaves in the buffer. -/
theorem renderScene_issue_general (L : Layout) (hL : L.SizesOk) (env : Env)
    (b : ref_cmdbuf_t) (fd : Nat)
    (hfit : b.len + renderSceneCmdLen L env.rsh (readBytes env.mem fd L.sizeof_refdef_t)
      ≤ L.sizeof_buf) :
    recordLength (RF_IssueRenderSceneCmd L env b fd).buf b.len
      = U32.ofNat (renderSceneCmdLen L env.rsh (readBytes env.mem fd L.sizeof_refdef_t)) ∧
    storedRefdef L (RF_IssueRenderSceneCmd L env b fd).buf b.len = refdefStored L env b fd ∧
    ∀ i, b.len + sizeof_refCmdRenderScene_t L ≤ i →
      (RF_IssueRenderSceneCmd L env b fd).buf i
        = (if (renderSceneAreabytes L env.rsh (readBytes env.mem fd L.sizeof_refdef_t)).val > 0
           then memcpy b.buf (b.len + sizeof_refCmdRenderScene_t L)
             (readBytes env.mem
               (get64 (readBytes env.mem fd L.sizeof_refdef_t) L.refdef_areabits).val
               (renderSceneAreabytes L env.rsh (readBytes env.mem fd L.sizeof_refdef_t)).val)
           else b.buf) i := by
  have hcap := hL.1
  have hsz : szAdd b.len (renderSceneCmdLen L env.rsh (readBytes env.mem fd L.sizeof_refdef_t))
      = b.len + renderSceneCmdLen L env.rsh (readBytes env.mem fd L.sizeof_refdef_t) :=
    Nat.mod_eq_of_lt (by unfold SIZE_MOD; omega)
  have hrec : ∀ (len : U32) (ab : U64), (refCmdRenderScene_t.toBytes
      { id := REF_CMD_RENDER_SCENE, length := len,
        registrationSequence := env.rsh.registrationSequence,
        worldModelSequence := env.rsh.worldModelSequence,
        refdef := refdefStored L env b fd, areabits := ab }).length
      = sizeof_refCmdRenderScene_t L := fun len ab =>
    refCmdRenderScene_t_toBytes_length L _ (refdefStored_length L env b fd)
  unfold RF_IssueRenderSceneCmd
  simp only [hsz]
  rw [if_neg (by omega)]
  refine ⟨lengthField_memcpy _ _ _ _ _, ?_, fun i hi => ?_⟩
  · unfold storedRefdef
    show refCmdRenderScene_t.refdef (refCmdRenderScene_t.ofBytes L (readBytes (memcpy _ _
      (refCmdRenderScene_t.toBytes
        { refCmdRenderScene_t.ofBytes L
            (readBytes env.stack 0 (sizeof_refCmdRenderScene_t L)) with
          id := REF_CMD_RENDER_SCENE, length := _,
          registrationSequence := env.rsh.registrationSequence,
          worldModelSequence := env.rsh.worldModelSequence,
          refdef := refdefStored L env b fd })) _ _)) = _
    rw [readBytes_memcpy_same _ _ _ _ (hrec _ _),
      refCmdRenderScene_t_ofBytes_toBytes L _ (refdefStored_length L env b fd)]
  · show memcpy _ _ (refCmdRenderScene_t.toBytes
      { refCmdRenderScene_t.ofBytes L
          (readBytes env.stack 0 (sizeof_refCmdRenderScene_t L)) with
        id := REF_CMD_RENDER_SCENE, length := _,
        registrationSequence := env.rsh.registrationSequence,
        worldModelSequence := env.rsh.worldModelSequence,
        refdef := refdefStored L env b fd }) i = _
    rw [memcpy_outside _ _ _ _ (Or.inr (by rw [hrec]; exact hi))]

/-- C26. Render-scene visibility tail: for every accepted `RenderScene` call, the
`length` member of the record and the increase of the buffer length are the size of the
header plus `( numareas + 7 ) / 8` rounded up to a multiple of 4 if `fd->areabits` is
non-null and a world brush model with `numareas` areas is loaded, and exactly the size of
the header otherwise; the handler hands to `R_RenderScene`, when it runs it, the refdef
stored in the record; in the first case, when `( numareas + 7 ) / 8 > 0`, the `areabits`
of that refdef refers to the `( numareas + 7 ) / 8` bytes right after the header, which
equal the first `( numareas + 7 ) / 8` bytes of the caller's bitset; in the second case
no byte after the header is written and the stored refdef is the caller's. -/
theorem C26_render_scene_tail (L : Layout) (hL : L.SizesOk) (hR : L.RefdefOk) (env : Env)
    (b : ref_cmdbuf_t) (fd : Nat)
    (hb : b.len ≤ L.sizeof_buf) (hbase : b.base + L.sizeof_buf < SIZE_MOD)
    (hna : env.rsh.worldBrushModel ≠ 0 → env.rsh.numareas.val + 7 < 2147483648)
    (hacc : (RF_IssueRenderSceneCmd L env b fd).len ≠ b.len) :
    (recordLength (RF_IssueRenderSceneCmd L env b fd).buf b.len).val
      = renderSceneLengthSpec L env.rsh (readBytes env.mem fd L.sizeof_refdef_t) ∧
    (RF_IssueRenderSceneCmd L env b fd).len
      = b.len + renderSceneLengthSpec L env.rsh (readBytes env.mem fd L.sizeof_refdef_t) ∧
    (∀ rsh, R_HandleRenderSceneCmd L rsh (RF_IssueRenderSceneCmd L env b fd).buf b.len
      = (if renderSceneRuns L env.rsh rsh
            (storedRefdef L (RF_IssueRenderSceneCmd L env b fd).buf b.len)
         then [.R_RenderScene (storedRefdef L (RF_IssueRenderSceneCmd L env b fd).buf b.len)]
         else [],
         (recordLength (RF_IssueRenderSceneCmd L env b fd).buf b.len).val)) ∧
    (get64 (readBytes env.mem fd L.sizeof_refdef_t) L.refdef_areabits ≠ 0 ∧
      env.rsh.worldBrushModel ≠ 0 → 0 < (env.rsh.numareas.val + 7) / 8 →
      (get64 (storedRefdef L (RF_IssueRenderSceneCmd L env b fd).buf b.len)
        L.refdef_areabits).val = b.base + (b.len + sizeof_refCmdRenderScene_t L) ∧
      readBytes (RF_IssueRenderSceneCmd L env b fd).buf (b.len + sizeof_refCmdRenderScene_t L)
        ((env.rsh.numareas.val + 7) / 8)
        = readBytes env.mem
            (get64 (readBytes env.mem fd L.sizeof_refdef_t) L.refdef_areabits).val
            ((env.rsh.numareas.val + 7) / 8) ∧
      b.len + sizeof_refCmdRenderScene_t L + (env.rsh.numareas.val + 7) / 8
        ≤ b.len + (recordLength (RF_IssueRenderSceneCmd L env b fd).buf b.len).val) ∧
    (¬ (get64 (readBytes env.mem fd L.sizeof_refdef_t) L.refdef_areabits ≠ 0 ∧
        env.rsh.worldBrushModel ≠ 0) →
      (recordLength (RF_IssueRenderSceneCmd L env b fd).buf b.len).val
        = sizeof_refCmdRenderScene_t L ∧
      (∀ i, b.len + sizeof_refCmdRenderScene_t L ≤ i →
        (RF_IssueRenderSceneCmd L env b fd).buf i = b.buf i) ∧
      storedRefdef L (RF_IssueRenderSceneCmd L env b fd).buf b.len
        = readBytes env.mem fd L.sizeof_refdef_t) := by
  have hcap := hL.1
  have hfit := renderScene_accepted L hL env b fd hb hacc
  obtain ⟨g1, g2, g3⟩ := renderScene_issue_general L hL env b fd hfit
  have hspec := renderSceneCmdLen_spec L hL env.rsh (readBytes env.mem fd L.sizeof_refdef_t) hna
  have hM : SIZE_MOD = 18446744073709551616 := rfl
  have hval : (U32.ofNat (renderSceneCmdLen L env.rsh
      (readBytes env.mem fd L.sizeof_refdef_t))).val
      = renderSceneCmdLen L env.rsh (readBytes env.mem fd L.sizeof_refdef_t) :=
    U32_ofNat_val _ (by omega)
  obtain ⟨k1, k2⟩ := handleRenderScene_issue L hL env
    { registrationSequence := 0, worldModelSequence := 0, worldBrushModel := 0, numareas := 0 }
    b fd hfit
  refine ⟨by rw [g1, hval, hspec], by rw [k1, hspec], fun rsh => ?_, fun hc hpos => ?_,
    fun hc => ?_⟩
  · rw [g1, hval, g2]
    exact (handleRenderScene_issue L hL env rsh b fd hfit).2
  · have hab := renderSceneAreabytes_val L env.rsh (readBytes env.mem fd L.sizeof_refdef_t) hc
      (hna hc.2)
    have hwr := renderScene_written_le L env.rsh (readBytes env.mem fd L.sizeof_refdef_t)
      hL.2.2.2.1
    rw [hab] at hwr
    refine ⟨?_, ?_, by rw [g1, hval]; omega⟩
    · rw [g2]
      unfold refdefStored
      simp only
      rw [if_pos (by rw [hab]; exact hpos),
        get64_set64_same _ _ _ (by rw [readBytes_length]; exact hR.1),
        U64_ofNat_val _ (by omega)]
    · have : readBytes (RF_IssueRenderSceneCmd L env b fd).buf
          (b.len + sizeof_refCmdRenderScene_t L) ((env.rsh.numareas.val + 7) / 8)
          = readBytes (memcpy b.buf (b.len + sizeof_refCmdRenderScene_t L)
              (readBytes env.mem
                (get64 (readBytes env.mem fd L.sizeof_refdef_t) L.refdef_areabits).val
                ((env.rsh.numareas.val + 7) / 8)))
              (b.len + sizeof_refCmdRenderScene_t L) ((env.rsh.numareas.val + 7) / 8) := by
        apply readBytes_congr
        intro i hi1 _
        rw [g3 i hi1, hab, if_pos hpos]
      rw [this, readBytes_memcpy_same _ _ _ _ (readBytes_length _ _ _)]
  · have hlen : renderSceneCmdLen L env.rsh (readBytes env.mem fd L.sizeof_refdef_t)
        = sizeof_refCmdRenderScene_t L := by
      unfold renderSceneCmdLen
      rw [if_neg hc]
    have hab : renderSceneAreabytes L env.rsh (readBytes env.mem fd L.sizeof_refdef_t) = 0 := by
      unfold renderSceneAreabytes
      rw [if_neg hc]
    refine ⟨by rw [g1, hval, hlen], fun i hi => ?_, ?_⟩
    · rw [g3 i hi, hab]
      rfl
    · rw [g2]
      unfold refdefStored
      simp only [hab]
      rfl

theorem C26_render_scene_tail_witness :
    exampleLayout.SizesOk ∧ exampleLayout.RefdefOk ∧
    (RF_CreateCmdBuf 4096).len ≤ exampleLayout.sizeof_buf ∧
    (RF_CreateCmdBuf 4096).base + exampleLayout.sizeof_buf < SIZE_MOD ∧
    (areaEnv.rsh.worldBrushModel ≠ 0 → areaEnv.rsh.numareas.val + 7 < 2147483648) ∧
    (RF_IssueRenderSceneCmd exampleLayout areaEnv (RF_CreateCmdBuf 4096) 0).len
      ≠ (RF_CreateCmdBuf 4096).len ∧
    (recordLength (RF_IssueRenderSceneCmd exampleLayout areaEnv (RF_CreateCmdBuf 4096) 0).buf
      (RF_CreateCmdBuf 4096).len).val
      = renderSceneLengthSpec exampleLayout areaEnv.rsh
          (readBytes areaEnv.mem 0 exampleLayout.sizeof_refdef_t) ∧
    renderSceneLengthSpec exampleLayout areaEnv.rsh
      (readBytes areaEnv.mem 0 exampleLayout.sizeof_refdef_t) = 44 ∧
    readBytes (RF_IssueRenderSceneCmd exampleLayout areaEnv (RF_CreateCmdBuf 4096) 0).buf 40 2
      = [171, 205] :=
  ⟨by decide, by decide, by decide, by decide, by decide, by decide,
    (C26_render_scene_tail exampleLayout (by decide) (by decide) areaEnv (RF_CreateCmdBuf 4096) 0
      (by decide) (by decide) (by decide) (by decide)).1,
    by decide, by decide⟩

/-! ### Record sizes on the two sides of the pipe -/

theorem take_drop_append_left (r rest : List Byte) (k n : Nat) (h : k + n ≤ r.length) :
    ((r ++ rest).drop k).take n = (r.drop k).take n := by
  rw [List.drop_append_of_le_length (by omega),
    List.take_append_of_le_length (by rw [List.length_drop]; omega)]

theorem rdU32_drop_append_left (r rest : List Byte) (k : Nat) (h : k + 4 ≤ r.length) :
    rdU32 ((r ++ rest).drop k) = rdU32 (r.drop k) := by
  unfold rdU32
  rw [take_drop_append_left r rest k 4 h]

theorem rdU32_append_left (r rest : List Byte) (h : 4 ≤ r.length) :
    rdU32 (r ++ rest) = rdU32 r := by
  have := rdU32_drop_append_left r rest 0 (by omega)
  simpa using this

theorem headD_drop_append_left (r rest : List Byte) (k : Nat) (h : k < r.length) :
    ((r ++ rest).drop k).headD 0 = (r.drop k).headD 0 := by
  have e := take_drop_append_left r rest k 1 (by omega)
  have a : ∀ l : List Byte, l.headD 0 = (l.take 1).headD 0 := by
    intro l
    cases l <;> rfl
  rw [a, e, ← a]

theorem rdBool_drop_append_left (r rest : List Byte) (k : Nat) (h : k < r.length) :
    rdBool ((r ++ rest).drop k) = rdBool (r.drop k) := by
  unfold rdBool
  rw [headD_drop_append_left r rest k h]

/-- A handler of the table reads only the bytes of its record: when `record` has the
size that the handler returns, bytes after it do not change the result. -/
theorem handler_append (G : PipeEnv) (id : Nat) (record rest : List Byte)
    (h : (refPipeCmdHandlers G id record).2 = record.length) :
    refPipeCmdHandlers G id (record ++ rest) = refPipeCmdHandlers G id record := by
  match id with
  | 0 => rfl
  | 1 => rfl
  | 2 => rfl
  | 3 =>
    have h : 1116 = record.length := h
    simp only [refPipeCmdHandlers, R_HandleScreenShotReliableCmd,
      refReliableCmdScreenShot_t.ofBytes, List.drop_drop]
    rw [rdU32_drop_append_left record rest 12 (by omega),
      rdU32_drop_append_left record rest 16 (by omega),
      rdU32_drop_append_left record rest 20 (by omega),
      rdU32_drop_append_left record rest 24 (by omega),
      rdBool_drop_append_left record rest 8 (by omega),
      rdBool_drop_append_left record rest 9 (by omega),
      take_drop_append_left record rest _ 64 (by omega),
      take_drop_append_left record rest _ 512 (by omega),
      take_drop_append_left record rest _ 512 (by omega)]
  | 4 =>
    have h : 1116 = record.length := h
    simp only [refPipeCmdHandlers, R_HandleEnvShotReliableCmd,
      refReliableCmdScreenShot_t.ofBytes, List.drop_drop]
    rw [rdU32_drop_append_left record rest 4 (by omega),
      take_drop_append_left record rest _ 512 (by omega),
      take_drop_append_left record rest _ 512 (by omega)]
  | 5 => rfl
  | 6 => rfl
  | 7 =>
    have h : 20 = record.length := h
    simp only [refPipeCmdHandlers, R_HandleSetCustomColorReliableCmd,
      refReliableCmdSetCustomColor_t.ofBytes]
    rw [rdU32_drop_append_left record rest 4 (by omega),
      rdU32_drop_append_left record rest 8 (by omega),
      rdU32_drop_append_left record rest 12 (by omega),
      rdU32_drop_append_left record rest 16 (by omega)]
  | 8 =>
    have h : 28 = record.length := h
    simp only [refPipeCmdHandlers, R_HandleSetWallFloorColorsReliableCmd,
      refReliableCmdSetWallFloorColors_t.ofBytes]
    rw [rdU32_drop_append_left record rest 4 (by omega),
      rdU32_drop_append_left record rest 8 (by omega),
      rdU32_drop_append_left record rest 12 (by omega),
      rdU32_drop_append_left record rest 16 (by omega),
      rdU32_drop_append_left record rest 20 (by omega),
      rdU32_drop_append_left record rest 24 (by omega)]
  | 9 =>
    have h : 36 = record.length := h
    simp only [refPipeCmdHandlers, R_HandleSetDrawBufferReliableCmd,
      refReliableCmdSetDrawBuffer_t.ofBytes]
    rw [take_drop_append_left record rest 4 32 (by omega)]
  | 10 =>
    have h : 36 = record.length := h
    simp only [refPipeCmdHandlers, R_HandleSetTextureModeReliableCmd,
      refReliableCmdSetTextureMode_t.ofBytes]
    rw [take_drop_append_left record rest 4 32 (by omega)]
  | 11 =>
    have h : 8 = record.length := h
    simp only [refPipeCmdHandlers, R_HandleSetTextureFilterReliableCmd,
      refReliableCmdSetTextureFilter_t.ofBytes]
    rw [headD_drop_append_left record rest 4 (by omega)]
  | 12 =>
    have h : 8 = record.length := h
    simp only [refPipeCmdHandlers, R_HandleSetGammaReliableCmd,
      refReliableCmdSetGamma_t.ofBytes]
    rw [rdU32_drop_append_left record rest 4 (by omega)]
  | _ + 13 => rfl

theorem handler_size (G : PipeEnv) (c : ReliableCmd) (record : List Byte) :
    (refPipeCmdHandlers G c.ident.val record).2 = c.recordSize := by
  cases c <;> rfl

theorem recordSize_ge (c : ReliableCmd) : 4 ≤ c.recordSize := by
  cases c <;> simp only [ReliableCmd.recordSize] <;> decide

theorem issueReliable_wellSized (G : PipeEnv) (pipe : qbufPipe_t) (c : ReliableCmd) :
    ∃ record, issueReliable G pipe c = pipe ++ [record] ∧ record.length = c.recordSize ∧
      rdU32 record = c.ident ∧ WellSized G record := by
  obtain ⟨record, h1, h2, h3, -⟩ := issueReliable_spec G pipe c
  have h4 : 4 ≤ record.length := by rw [h2]; exact recordSize_ge c
  have h5 : (refPipeCmdHandlers G (rdU32 record).val record).2 = record.length := by
    rw [h3, h2]; exact handler_size G c record
  refine ⟨record, h1, h2, h3, h4, fun rest => ?_⟩
  rw [rdU32_append_left record rest h4, handler_append G _ record rest h5]
  exact Prod.ext rfl h5

theorem issueReliableAll_wellSized (G : PipeEnv) (cs : List ReliableCmd) :
    ∀ pipe : qbufPipe_t, (∀ r ∈ pipe, WellSized G r) →
      ∀ r ∈ issueReliableAll G pipe cs, WellSized G r := by
  induction cs with
  | nil => intro pipe h; exact h
  | cons c cs ih =>
    intro pipe h
    obtain ⟨record, h1, -, -, h4⟩ := issueReliable_wellSized G pipe c
    show ∀ r ∈ issueReliableAll G (issueReliable G pipe c) cs, WellSized G r
    apply ih
    rw [h1]
    intro r hr
    rcases List.mem_append.mp hr with hr | hr
    · exact h r hr
    · rw [List.mem_singleton.mp hr]; exact h4

theorem issueReliableAll_length (G : PipeEnv) (cs : List ReliableCmd) :
    ∀ pipe : qbufPipe_t, (issueReliableAll G pipe cs).length = pipe.length + cs.length := by
  induction cs with
  | nil => intro pipe; rfl
  | cons c cs ih =>
    intro pipe
    obtain ⟨record, h1, -⟩ := issueReliable_spec G pipe c
    show (issueReliableAll G (issueReliable G pipe c) cs).length = _
    rw [ih, h1]
    simp only [List.length_append, List.length_cons, List.length_nil]
    omega

/-- The reader, run on the bytes of well-sized records, visits exactly the starts of
the records and makes at each the calls of the record's handler. -/
theorem readPipe_flatten (G : PipeEnv) (pipe : qbufPipe_t) :
    (∀ r ∈ pipe, WellSized G r) → ∀ off k,
      readPipe G (pipe.length + 1 + k) off pipe.flatten
        = some ((pipeRecordStarts off pipe).map
            (fun p => (p.1, (refPipeCmdHandlers G (rdU32 p.2).val p.2).1))) := by
  induction pipe with
  | nil =>
    intro _ off k
    show readPipe G (0 + 1 + k) off [] = _
    rw [show 0 + 1 + k = k + 1 from by omega]
    rfl
  | cons r rs ih =>
    intro h off k
    obtain ⟨h4, hw⟩ := h r (List.mem_cons_self _ _)
    have hne : r ++ rs.flatten ≠ [] := by
      intro e
      have := congrArg List.length e
      simp only [List.length_append, List.length_nil] at this
      omega
    rw [show (r :: rs).length + 1 + k = (rs.length + 1 + k) + 1 from by
      simp only [List.length_cons]; omega]
    show readPipe G ((rs.length + 1 + k) + 1) off (r ++ rs.flatten) = _
    unfold readPipe
    rw [if_neg hne]
    simp only [hw rs.flatten, List.drop_left]
    rw [ih (fun x hx => h x (List.mem_cons_of_mem _ hx)) (off + r.length) k]
    rfl

/-- C31. Reliable record sizes agree on both sides: every public pipe encoder makes one
call `BufPipe_WriteCmd( pipe, cmd, n )` in which `n` is the size of the record `cmd`, and
the handler that `refPipeCmdHandlers` has at the identifier written in `cmd` returns `n`
(the handlers of the screenshot and of the env-shot identifier both return the size of
the shared screenshot record).  Hence a reader of the pipe's bytes that advances by the
handler's return value reaches the end of the bytes and visits exactly the starts of the
records, making at each the backend calls of that record. -/
theorem C31_reliable_record_sizes (G : PipeEnv) :
    (∀ (pipe : qbufPipe_t) (c : ReliableCmd), ∃ cmd n,
      issueReliable G pipe c = BufPipe_WriteCmd pipe cmd n ∧ cmd.length = n ∧
      n = c.recordSize ∧ rdU32 cmd = c.ident ∧
      (refPipeCmdHandlers G (rdU32 cmd).val cmd).2 = n) ∧
    (∀ pcmd, (refPipeCmdHandlers G REF_PIPE_CMD_SCREEN_SHOT.val pcmd).2
        = sizeof_refReliableCmdScreenShot_t ∧
      (refPipeCmdHandlers G REF_PIPE_CMD_ENV_SHOT.val pcmd).2
        = sizeof_refReliableCmdScreenShot_t) ∧
    (∀ (cs : List ReliableCmd) (k : Nat),
      readPipe G (cs.length + 1 + k) 0 (issueReliableAll G [] cs).flatten
        = some ((pipeRecordStarts 0 (issueReliableAll G [] cs)).map
            (fun p => (p.1, (refPipeCmdHandlers G (rdU32 p.2).val p.2).1))) ∧
      ((pipeRecordStarts 0 (issueReliableAll G [] cs)).flatMap
          (fun p => (refPipeCmdHandlers G (rdU32 p.2).val p.2).1))
        = drainPipe G (issueReliableAll G [] cs)) := by
  refine ⟨fun pipe c => ?_, fun pcmd => ⟨rfl, rfl⟩, fun cs k => ⟨?_, ?_⟩⟩
  · obtain ⟨record, h1, h2, h3, -⟩ := issueReliable_spec G pipe c
    refine ⟨record, c.recordSize, ?_, h2, rfl, h3, ?_⟩
    · rw [h1, write_eq pipe record _ h2]
    · rw [h3]; exact handler_size G c record
  · have hl := issueReliableAll_length G cs []
    have := readPipe_flatten G (issueReliableAll G [] cs)
      (issueReliableAll_wellSized G cs [] (fun r hr => absurd hr (List.not_mem_nil r))) 0 k
    rw [hl] at this
    simpa using this
  · have key : ∀ (pipe : qbufPipe_t) (off : Nat),
        (pipeRecordStarts off pipe).flatMap
          (fun p => (refPipeCmdHandlers G (rdU32 p.2).val p.2).1) = drainPipe G pipe := by
      intro pipe
      induction pipe with
      | nil => intro off; rfl
      | cons r rs ih =>
        intro off
        unfold drainPipe at ih ⊢
        simp only [pipeRecordStarts, List.flatMap_cons, ih]
    exact key _ 0

set_option maxRecDepth 100000 in
/-- The scenario of the specification, read back from the bytes of the pipe: the
`SetGamma` record of 8 bytes starts at offset 0 and the screenshot record of 1116 bytes
at offset 8, and the reader stops at the end of the 1124 bytes. -/
theorem readPipe_example :
    (issueReliableAll examplePipeEnv [] exampleReliable).flatten.length = 1124 ∧
    readPipe examplePipeEnv 3 0 (issueReliableAll examplePipeEnv [] exampleReliable).flatten
      = some [(0, [.R_SetGamma 1067030938]),
          (8, [.R_TakeScreenShot [47, 116, 109, 112] [115, 104, 111, 116] [37, 48, 52, 100]
            0 0 800 600 false true])] := by
  decide

/-! ### The visibility-bitset reference -/

/-- C32 does not hold as stated: with a non-null `fd->areabits` (the address 64) and no
world brush model loaded, `areabytes` stays 0, the block guarded by `if( areabytes > 0 )`
is skipped, and the refdef that the dispatcher hands to `R_RenderScene` is the caller's,
byte for byte: its `areabits` is still the address 64 of the caller's bitset, which is
not inside the 40 bytes of the record in the storage at address 4096.  The same happens
with a world model of 0 areas. -/
theorem C32_counterexample :
    get64 (readBytes noWorldAreaEnv.mem 0 exampleLayout.sizeof_refdef_t)
      exampleLayout.refdef_areabits = 64 ∧
    (64 : U64) ≠ 0 ∧
    noWorldAreaEnv.rsh.worldBrushModel = 0 ∧
    (RF_IssueRenderSceneCmd exampleLayout noWorldAreaEnv (RF_CreateCmdBuf 4096) 0).len = 40 ∧
    (RF_RunCmdBufProc exampleLayout exampleRsh
      (RF_IssueRenderSceneCmd exampleLayout noWorldAreaEnv (RF_CreateCmdBuf 4096) 0)).map
      RunResult.trace
      = some [.R_RenderScene (readBytes noWorldAreaEnv.mem 0 exampleLayout.sizeof_refdef_t)] ∧
    ¬ ((RF_CreateCmdBuf 4096).base ≤ 64 ∧ 64 < (RF_CreateCmdBuf 4096).base + 40) ∧
    noAreasEnv.rsh.worldBrushModel ≠ 0 ∧
    (RF_IssueRenderSceneCmd exampleLayout noAreasEnv (RF_CreateCmdBuf 4096) 0).len = 40 ∧
    (RF_RunCmdBufProc exampleLayout noAreasEnv.rsh
      (RF_IssueRenderSceneCmd exampleLayout noAreasEnv (RF_CreateCmdBuf 4096) 0)).map
      RunResult.trace
      = some [.R_RenderScene (readBytes noAreasEnv.mem 0 exampleLayout.sizeof_refdef_t)] := by
  decide

/-- C32, amended. Visibility-bitset reference of a copied bitset never points at caller
memory: for every accepted `RenderScene` call with a non-null `fd->areabits`, the handler
hands to `R_RenderScene`, when it runs it, the refdef stored in the record; when a world
brush model is loaded and the byte count `areabytes` that the encoder computes from its
area count, `( numareas + 7 ) / 8`, is greater than 0, the `areabits` reference of that
refdef refers to `areabytes` bytes inside the record's own span [record start, record
start + `length`), not to the caller-owned bitset; when no world brush model is loaded or
the byte count is 0, the reference is the one the caller gave. -/
theorem C32_areabits_reference (L : Layout) (hL : L.SizesOk) (hR : L.RefdefOk) (env : Env)
    (b : ref_cmdbuf_t) (fd : Nat)
    (hb : b.len ≤ L.sizeof_buf) (hbase : b.base + L.sizeof_buf < SIZE_MOD)
    (hnn : get64 (readBytes env.mem fd L.sizeof_refdef_t) L.refdef_areabits ≠ 0)
    (hacc : (RF_IssueRenderSceneCmd L env b fd).len ≠ b.len) :
    (∀ rsh, R_HandleRenderSceneCmd L rsh (RF_IssueRenderSceneCmd L env b fd).buf b.len
      = (if renderSceneRuns L env.rsh rsh
            (storedRefdef L (RF_IssueRenderSceneCmd L env b fd).buf b.len)
         then [.R_RenderScene (storedRefdef L (RF_IssueRenderSceneCmd L env b fd).buf b.len)]
         else [],
         (recordLength (RF_IssueRenderSceneCmd L env b fd).buf b.len).val)) ∧
    (env.rsh.worldBrushModel ≠ 0 →
      0 < (renderSceneAreabytes L env.rsh (readBytes env.mem fd L.sizeof_refdef_t)).val →
      ∃ a, (get64 (storedRefdef L (RF_IssueRenderSceneCmd L env b fd).buf b.len)
          L.refdef_areabits).val = b.base + a ∧
        b.len ≤ a ∧
        a + (renderSceneAreabytes L env.rsh (readBytes env.mem fd L.sizeof_refdef_t)).val
          ≤ b.len + (recordLength (RF_IssueRenderSceneCmd L env b fd).buf b.len).val) ∧
    (env.rsh.worldBrushModel ≠ 0 → env.rsh.numareas.val + 7 < 2147483648 →
      (renderSceneAreabytes L env.rsh (readBytes env.mem fd L.sizeof_refdef_t)).val
        = (env.rsh.numareas.val + 7) / 8) ∧
    (env.rsh.worldBrushModel = 0 ∨
        (renderSceneAreabytes L env.rsh (readBytes env.mem fd L.sizeof_refdef_t)).val = 0 →
      get64 (storedRefdef L (RF_IssueRenderSceneCmd L env b fd).buf b.len) L.refdef_areabits
        = get64 (readBytes env.mem fd L.sizeof_refdef_t) L.refdef_areabits) := by
  have hcap := hL.1
  have hfit := renderScene_accepted L hL env b fd hb hacc
  obtain ⟨g1, g2, -⟩ := renderScene_issue_general L hL env b fd hfit
  have hM : SIZE_MOD = 18446744073709551616 := rfl
  have hval : (U32.ofNat (renderSceneCmdLen L env.rsh
      (readBytes env.mem fd L.sizeof_refdef_t))).val
      = renderSceneCmdLen L env.rsh (readBytes env.mem fd L.sizeof_refdef_t) :=
    U32_ofNat_val _ (by omega)
  have hwr := renderScene_written_le L env.rsh (readBytes env.mem fd L.sizeof_refdef_t)
    hL.2.2.2.1
  refine ⟨fun rsh => ?_, fun _ hpos => ?_, fun hw hna => ?_, fun hz => ?_⟩
  · rw [g1, hval, g2]
    exact (handleRenderScene_issue L hL env rsh b fd hfit).2
  · refine ⟨b.len + sizeof_refCmdRenderScene_t L, ?_, by omega, by rw [g1, hval]; omega⟩
    rw [g2]
    unfold refdefStored
    simp only
    rw [if_pos hpos, get64_set64_same _ _ _ (by rw [readBytes_length]; exact hR.1),
      U64_ofNat_val _ (by omega)]
  · exact renderSceneAreabytes_val L env.rsh _ ⟨hnn, hw⟩ hna
  · have hab : (renderSceneAreabytes L env.rsh
        (readBytes env.mem fd L.sizeof_refdef_t)).val = 0 := by
      rcases hz with hz | hz
      · unfold renderSceneAreabytes
        rw [if_neg (fun h => h.2 hz)]
        rfl
      · exact hz
    rw [g2]
    unfold refdefStored
    simp only [hab]
    rfl

theorem C32_areabits_reference_witness :
    exampleLayout.SizesOk ∧ exampleLayout.RefdefOk ∧
    (RF_CreateCmdBuf 4096).len ≤ exampleLayout.sizeof_buf ∧
    (RF_CreateCmdBuf 4096).base + exampleLayout.sizeof_buf < SIZE_MOD ∧
    get64 (readBytes areaEnv.mem 0 exampleLayout.sizeof_refdef_t)
      exampleLayout.refdef_areabits ≠ 0 ∧
    (RF_IssueRenderSceneCmd exampleLayout areaEnv (RF_CreateCmdBuf 4096) 0).len
      ≠ (RF_CreateCmdBuf 4096).len ∧
    (∃ a, (get64 (storedRefdef exampleLayout
          (RF_IssueRenderSceneCmd exampleLayout areaEnv (RF_CreateCmdBuf 4096) 0).buf
          (RF_CreateCmdBuf 4096).len) exampleLayout.refdef_areabits).val
          = (RF_CreateCmdBuf 4096).base + a ∧
        (RF_CreateCmdBuf 4096).len ≤ a ∧
        a + (renderSceneAreabytes exampleLayout areaEnv.rsh
            (readBytes areaEnv.mem 0 exampleLayout.sizeof_refdef_t)).val
          ≤ (RF_CreateCmdBuf 4096).len + (recordLength
            (RF_IssueRenderSceneCmd exampleLayout areaEnv (RF_CreateCmdBuf 4096) 0).buf
            (RF_CreateCmdBuf 4096).len).val) ∧
    get64 (storedRefdef exampleLayout
      (RF_IssueRenderSceneCmd exampleLayout areaEnv (RF_CreateCmdBuf 4096) 0).buf 0)
      exampleLayout.refdef_areabits = 4136 ∧
    (renderSceneAreabytes exampleLayout areaEnv.rsh
      (readBytes areaEnv.mem 0 exampleLayout.sizeof_refdef_t)).val = 2 ∧
    (recordLength
      (RF_IssueRenderSceneCmd exampleLayout areaEnv (RF_CreateCmdBuf 4096) 0).buf 0).val = 44 ∧
    (RF_RunCmdBufProc exampleLayout areaEnv.rsh
      (RF_IssueRenderSceneCmd exampleLayout areaEnv (RF_CreateCmdBuf 4096) 0)).map
      RunResult.trace
      = some [.R_RenderScene (storedRefdef exampleLayout
          (RF_IssueRenderSceneCmd exampleLayout areaEnv (RF_CreateCmdBuf 4096) 0).buf 0)] :=
  ⟨by decide, by decide, by decide, by decide, by decide, by decide,
    (C32_areabits_reference exampleLayout (by decide) (by decide) areaEnv
      (RF_CreateCmdBuf 4096) 0 (by decide) (by decide) (by decide) (by decide)).2.1
      (by decide) (by decide),
    by decide, by decide, by decide, by decide⟩

/-! ### Server list -/

theorem tolower_eq_zero (c : Byte) : tolower c = 0 ↔ c = 0 := by
  unfold tolower
  split
  · rename_i h
    constructor
    · intro e
      have := congrArg Fin.val e
      simp at this
    · intro e
      rw [e] at h
      simp at h
  · rfl

theorem cString_nil : cString [] = [] := rfl

theorem cString_cons_zero (r : List Byte) : cString (0 :: r) = [] := by
  simp [cString]

theorem cString_cons_ne (c : Byte) (r : List Byte) (h : c ≠ 0) :
    cString (c :: r) = c :: cString r := by
  simp [cString, h]

theorem cString_eq_nil_iff (s : List Byte) : cString s = [] ↔ s.headD 0 = 0 := by
  cases s with
  | nil => simp [cString]
  | cons c r =>
    by_cases h : c = 0
    · subst h
      simp [cString_cons_zero]
    · simp [cString_cons_ne c r h, h]

theorem cString_nulfree (s : List Byte) : (0 : Byte) ∉ cString s := by
  intro h
  have := List.mem_takeWhile_imp h
  simp at this

theorem cString_Q_strncpyz (dest src : List Byte) (size : Nat) (h : 0 < size) :
    cString (Q_strncpyz dest src size) = (cString src).take (size - 1) := by
  unfold Q_strncpyz
  rw [if_neg (by omega)]
  exact cString_append_nul _ _
    (fun h0 => cString_nulfree src (List.mem_of_mem_take h0))

/-- The comparison `Q_stricmp` returns 0 exactly for strings that are equal
case-insensitively. -/
theorem Q_stricmp_eq_zero_iff (s1 : List Byte) :
    ∀ s2, Q_stricmp s1 s2 = 0 ↔ EqualIgnoringCase s1 s2 := by
  unfold EqualIgnoringCase
  induction s1 with
  | nil =>
    intro s2
    have e : Q_stricmp [] s2 = 0 - ((tolower (s2.headD 0)).val : Int) := by
      unfold Q_stricmp; rfl
    rw [e, cString_nil, List.map_nil]
    constructor
    · intro h
      have h1 : (tolower (s2.headD 0)).val = 0 := by omega
      have h2 : tolower (s2.headD 0) = 0 := Fin.ext h1
      rw [(cString_eq_nil_iff s2).mpr ((tolower_eq_zero _).mp h2)]
      rfl
    · intro h
      have h1 : cString s2 = [] := by
        cases hc : cString s2 with
        | nil => rfl
        | cons a b => rw [hc] at h; simp at h
      have h2 := (tolower_eq_zero _).mpr ((cString_eq_nil_iff s2).mp h1)
      rw [h2]
      rfl
  | cons c1 r1 ih =>
    intro s2
    have e : Q_stricmp (c1 :: r1) s2
        = if tolower c1 ≠ tolower (s2.headD 0) then
            ((tolower c1).val : Int) - ((tolower (s2.headD 0)).val : Int)
          else if c1 = 0 then 0 else Q_stricmp r1 s2.tail := by
      rw [Q_stricmp]
    rw [e]
    by_cases hne : tolower c1 ≠ tolower (s2.headD 0)
    · rw [if_pos hne]
      have hv : (tolower c1).val ≠ (tolower (s2.headD 0)).val := fun h => hne (Fin.ext h)
      constructor
      · intro h; exfalso; omega
      · intro h
        exfalso
        apply hne
        by_cases h1 : c1 = 0
        · subst h1
          rw [cString_cons_zero, List.map_nil] at h
          have h2 : cString s2 = [] := by
            cases hc : cString s2 with
            | nil => rfl
            | cons a b => rw [hc] at h; simp at h
          rw [(cString_eq_nil_iff s2).mp h2]
        · rw [cString_cons_ne c1 r1 h1] at h
          cases s2 with
          | nil => rw [cString_nil] at h; simp at h
          | cons c2 r2 =>
            by_cases h2 : c2 = 0
            · subst h2
              rw [cString_cons_zero] at h
              simp at h
            · rw [cString_cons_ne c2 r2 h2] at h
              simp only [List.map_cons, List.cons.injEq] at h
              exact h.1
    · rw [if_neg hne]
      have heq : tolower c1 = tolower (s2.headD 0) := not_not.mp hne
      by_cases h1 : c1 = 0
      · subst h1
        rw [if_pos rfl, cString_cons_zero, List.map_nil]
        have h2 : s2.headD 0 = 0 := (tolower_eq_zero _).mp (by rw [← heq]; rfl)
        rw [(cString_eq_nil_iff s2).mpr h2]
        simp
      · rw [if_neg h1, cString_cons_ne c1 r1 h1]
        cases s2 with
        | nil =>
          exfalso
          apply h1
          exact (tolower_eq_zero c1).mp (by rw [heq]; rfl)
        | cons c2 r2 =>
          have h2 : c2 ≠ 0 := by
            intro h2
            subst h2
            exact h1 ((tolower_eq_zero c1).mp (by rw [heq]; rfl))
          rw [cString_cons_ne c2 r2 h2, List.tail_cons, ih r2]
          have heq2 : tolower c1 = tolower c2 := heq
          simp only [List.map_cons, List.cons.injEq, heq2, true_and]

theorem equalIgnoringCase_symm (a b : List Byte) :
    EqualIgnoringCase a b ↔ EqualIgnoringCase b a := by
  unfold EqualIgnoringCase
  exact eq_comm

theorem equalIgnoringCase_congr_left (a a2 b : List Byte) (h : cString a = cString a2) :
    EqualIgnoringCase a b ↔ EqualIgnoringCase a2 b := by
  unfold EqualIgnoringCase
  rw [h]

theorem find_none_iff (l : List serverlist_t) (adr : List Byte) :
    CL_ServerFindInList l adr = none ↔ ∀ s ∈ l, ¬ EqualIgnoringCase s.address adr := by
  induction l with
  | nil => simp [CL_ServerFindInList]
  | cons s rest ih =>
    unfold CL_ServerFindInList
    by_cases h : Q_stricmp s.address adr = 0
    · rw [if_pos h]
      simp only [List.mem_cons, forall_eq_or_imp, false_iff, not_and, reduceCtorEq]
      intro h1
      exact absurd ((Q_stricmp_eq_zero_iff _ _).mp h) h1
    · rw [if_neg h, Option.map_eq_none', ih]
      simp only [List.mem_cons, forall_eq_or_imp]
      have : ¬ EqualIgnoringCase s.address adr := fun h1 =>
        h ((Q_stricmp_eq_zero_iff _ _).mpr h1)
      exact ⟨fun h2 => ⟨this, h2⟩, fun h2 => h2.2⟩

theorem updateEntry_address (f : serverlist_t → serverlist_t)
    (hf : ∀ s, (f s).address = s.address) (i : Nat) (l : List serverlist_t) :
    (updateEntry f i l).map serverlist_t.address = l.map serverlist_t.address := by
  induction l generalizing i with
  | nil => cases i <;> rfl
  | cons s rest ih =>
    cases i with
    | zero => simp only [updateEntry, List.map_cons, hf]
    | succ i => simp only [updateEntry, List.map_cons, ih]

/-- The two outcomes of a call of `CL_AddServerToList` with a non-empty string that
`NET_StringToAddress` accepts. -/
theorem add_cases (E : ServerEnv) (l : List serverlist_t) (adr : List Byte) (days : U32)
    (hne : cString adr ≠ []) (hacc : (E.NET_StringToAddress adr).isSome = true) :
    ((∀ s ∈ l, ¬ EqualIgnoringCase s.address adr) ∧
      ∃ newserv, CL_AddServerToList E l (some adr) days = (newserv :: l, true) ∧
        cString newserv.address = (cString adr).take 47) ∨
    ((¬ ∀ s ∈ l, ¬ EqualIgnoringCase s.address adr) ∧
      (CL_AddServerToList E l (some adr) days).2 = false ∧
      (CL_AddServerToList E l (some adr) days).1.map serverlist_t.address
        = l.map serverlist_t.address) := by
  obtain ⟨nadr, hn⟩ := Option.isSome_iff_exists.mp hacc
  have hlen : ¬ (cString adr).length = 0 := fun h => hne (List.length_eq_zero.mp h)
  cases hf : CL_ServerFindInList l adr with
  | none =>
    left
    refine ⟨(find_none_iff l adr).mp hf,
      { address := Q_strncpyz ((E.Mem_ZoneMalloc sizeof_serverlist_t).take sizeof_address)
          adr sizeof_address,
        pingTimeStamp := 0,
        lastValidPing := if days = 0 then E.Com_DaysSince1900 else days,
        lastUpdatedByMasterServer := E.Sys_Milliseconds 0,
        masterServerUpdateSeq := E.masterServerUpdateSeq,
        isLocal := E.NET_IsLocalAddress nadr }, ?_, ?_⟩
    · simp only [CL_AddServerToList, if_neg hlen, hn, hf]
    · exact cString_Q_strncpyz _ _ 48 (by decide)
  | some i =>
    right
    have hnot : ¬ ∀ s ∈ l, ¬ EqualIgnoringCase s.address adr := by
      intro h
      rw [(find_none_iff l adr).mpr h] at hf
      cases hf
    refine ⟨hnot, ?_, ?_⟩
    · simp only [CL_AddServerToList, if_neg hlen, hn, hf]
    · simp only [CL_AddServerToList, if_neg hlen, hn, hf]
      apply updateEntry_address
      intro s
      split
      · rfl
      · split <;> rfl

/-- A call of `CL_AddServerToList` that does not return true leaves the stored
addresses as they are. -/
theorem add_false_addresses (E : ServerEnv) (l : List serverlist_t) (adr : Option (List Byte))
    (days : U32) (h : (CL_AddServerToList E l adr days).2 = false) :
    (CL_AddServerToList E l adr days).1.map serverlist_t.address
      = l.map serverlist_t.address := by
  cases adr with
  | none => rfl
  | some adr =>
    by_cases hlen : (cString adr).length = 0
    · simp only [CL_AddServerToList, if_pos hlen]
    · cases hn : E.NET_StringToAddress adr with
      | none => simp only [CL_AddServerToList, if_neg hlen, hn]
      | some nadr =>
        have hne : cString adr ≠ [] := fun e => hlen (by rw [e]; rfl)
        rcases add_cases E l adr days hne (by rw [hn]; rfl) with ⟨-, _, h1, -⟩ | ⟨-, -, h2⟩
        · rw [h1] at h
          cases h
        · exact h2

/-- A call with an address that fits keeps the list free of duplicates. -/
theorem add_noDuplicates (c : AddCall) (l : List serverlist_t) (hl : NoDuplicates l)
    (hc : c.Fits) : NoDuplicates (CL_AddServerToList c.E l c.adr c.days).1 := by
  obtain ⟨E, adr, days⟩ := c
  show NoDuplicates (CL_AddServerToList E l adr days).1
  cases hb : (CL_AddServerToList E l adr days).2 with
  | false =>
    unfold NoDuplicates
    rw [add_false_addresses E l adr days hb]
    exact hl
  | true =>
    cases adr with
    | none => exact absurd hb (by simp [CL_AddServerToList])
    | some adr =>
      have hfit : (cString adr).length < 48 := hc
      by_cases hlen : (cString adr).length = 0
      · exact absurd hb (by simp [CL_AddServerToList, hlen])
      · cases hn : E.NET_StringToAddress adr with
        | none => exact absurd hb (by simp [CL_AddServerToList, hlen, hn])
        | some nadr =>
          have hne : cString adr ≠ [] := fun e => hlen (by rw [e]; rfl)
          rcases add_cases E l adr days hne (by rw [hn]; rfl) with
            ⟨h0, newserv, h1, h2⟩ | ⟨-, h3, -⟩
          · rw [h1]
            unfold NoDuplicates
            rw [List.map_cons, List.pairwise_cons]
            refine ⟨fun a ha => ?_, hl⟩
            obtain ⟨s, hs, rfl⟩ := List.mem_map.mp ha
            have h4 : cString newserv.address = cString adr := by
              rw [h2, List.take_of_length_le (by omega)]
            rw [equalIgnoringCase_congr_left _ adr _ h4, equalIgnoringCase_symm]
            exact h0 s hs
          · rw [h3] at hb
            cases hb

theorem addServers_noDuplicates (calls : List AddCall) :
    ∀ l, NoDuplicates l → (∀ c ∈ calls, c.Fits) → NoDuplicates (addServers l calls) := by
  induction calls with
  | nil => intro l hl _; exact hl
  | cons c rest ih =>
    intro l hl hc
    show NoDuplicates (addServers (CL_AddServerToList c.E l c.adr c.days).1 rest)
    exact ih _ (add_noDuplicates c l hl (hc c (List.mem_cons_self _ _)))
      (fun x hx => hc x (List.mem_cons_of_mem _ hx))

theorem memcpy_suffix (m : Mem) (dst : Nat) (pre h1 h2 : List Byte) (i : Nat)
    (hl : h1.length = h2.length)
    (hi : i < dst + pre.length ∨ dst + pre.length + h1.length ≤ i) :
    memcpy m dst (pre ++ h1) i = memcpy m dst (pre ++ h2) i := by
  unfold memcpy
  simp only [List.length_append, hl]
  by_cases hin : dst ≤ i ∧ i < dst + (pre.length + h2.length)
  · rw [if_pos hin, if_pos hin, List.getD_append _ _ _ _ (by omega),
      List.getD_append _ _ _ _ (by omega)]
  · rw [if_neg hin, if_neg hin]

theorem beginFrame_toBytes_split (c : refCmdBeginFrame_t) :
    c.toBytes = (c.id.bytes ++ (c.cameraSeparation.bytes ++ (boolBytes c.forceClear ++
      boolBytes c.forceVsync))) ++ [c.pad0, c.pad1] := by
  simp [refCmdBeginFrame_t.toBytes]

theorem addEntity_toBytes_split (c : refCmdAddEntityToScene_t) :
    c.toBytes = (c.id.bytes ++ (c.length.bytes ++ (c.entity ++ c.numBoneposes.bytes))) ++
      (c.pad.bytes ++ (c.boneposes.bytes ++ c.oldboneposes.bytes)) := by
  simp [refCmdAddEntityToScene_t.toBytes]

theorem renderScene_toBytes_split (c : refCmdRenderScene_t) :
    c.toBytes = (c.id.bytes ++ (c.length.bytes ++ (c.registrationSequence.bytes ++
      (c.worldModelSequence.bytes ++ c.refdef)))) ++ c.areabits.bytes := by
  simp [refCmdRenderScene_t.toBytes]

/-- What the stack holds when an encoder is entered decides nothing but the bytes of the
record that the encoder never assigns. -/
theorem issue_stack (L : Layout) (env : Env) (st : Mem) (b : ref_cmdbuf_t) (c : FrameCmd) :
    (issue L { env with stack := st } b c).len = (issue L env b c).len ∧
    ∀ i, (∀ h ∈ c.unassigned L, i < b.len + h.1 ∨ b.len + h.1 + h.2 ≤ i) →
      (issue L { env with stack := st } b c).buf i = (issue L env b c).buf i := by
  cases c with
  | BeginFrame cs fc fv =>
    simp only [issue, RF_IssueBeginFrameCmd]
    by_cases h : szAdd b.len sizeof_refCmdBeginFrame_t > L.sizeof_buf
    · rw [if_pos h, if_pos h]
      exact ⟨rfl, fun _ _ => rfl⟩
    · rw [if_neg h, if_neg h]
      refine ⟨rfl, fun i hi => ?_⟩
      have hh := hi (10, 2) (List.mem_singleton.2 rfl)
      dsimp only at hh
      show memcpy b.buf b.len (refCmdBeginFrame_t.toBytes _) i
        = memcpy b.buf b.len (refCmdBeginFrame_t.toBytes _) i
      rw [beginFrame_toBytes_split, beginFrame_toBytes_split]
      refine memcpy_suffix _ _ _ _ _ _ rfl ?_
      simp only [List.length_append, U32_bytes_length, boolBytes_length, List.length_cons,
        List.length_nil]
      omega
  | AddEntityToScene ent =>
    have hc : ∀ e, entityCmdLen L { env with stack := st } e = entityCmdLen L env e :=
      fun _ => rfl
    have ht : ∀ e, entityTail L { env with stack := st } b e = entityTail L env b e :=
      fun _ => rfl
    simp only [issue, RF_IssueAddEntityToSceneCmd, hc, ht]
    by_cases h : szAdd b.len (entityCmdLen L env (readBytes env.mem ent L.sizeof_entity_t))
        > L.sizeof_buf
    · rw [if_pos h, if_pos h]
      exact ⟨rfl, fun _ _ => rfl⟩
    · rw [if_neg h, if_neg h]
      refine ⟨rfl, fun i hi => ?_⟩
      have hh := hi (8 + L.sizeof_entity_t + 4, 20) (List.mem_singleton.2 rfl)
      dsimp only at hh
      show memcpy _ b.len (refCmdAddEntityToScene_t.toBytes _) i
        = memcpy _ b.len (refCmdAddEntityToScene_t.toBytes _) i
      rw [addEntity_toBytes_split, addEntity_toBytes_split]
      refine memcpy_suffix _ _ _ _ _ _ ?_ ?_
      · simp only [List.length_append, U32_bytes_length, U64_bytes_length]
      · simp only [List.length_append, U32_bytes_length, U64_bytes_length,
          entityTail_obj_length, readBytes_length]
        omega
  | RenderScene fd =>
    simp only [issue, RF_IssueRenderSceneCmd]
    by_cases h : szAdd b.len (renderSceneCmdLen L env.rsh
        (readBytes env.mem fd L.sizeof_refdef_t)) > L.sizeof_buf
    · rw [if_pos h, if_pos h]
      exact ⟨rfl, fun _ _ => rfl⟩
    · rw [if_neg h, if_neg h]
      refine ⟨rfl, fun i hi => ?_⟩
      have hh := hi (16 + L.sizeof_refdef_t, 8) (List.mem_singleton.2 rfl)
      dsimp only at hh
      show memcpy _ b.len (refCmdRenderScene_t.toBytes _) i
        = memcpy _ b.len (refCmdRenderScene_t.toBytes _) i
      rw [renderScene_toBytes_split, renderScene_toBytes_split]
      refine memcpy_suffix _ _ _ _ _ _ ?_ ?_
      · simp only [U64_bytes_length]
      · have hl : (if (renderSceneAreabytes L env.rsh
            (readBytes env.mem fd L.sizeof_refdef_t)).val > 0 then
            set64 (readBytes env.mem fd L.sizeof_refdef_t) L.refdef_areabits
              (U64.ofNat (b.base + (b.len + sizeof_refCmdRenderScene_t L)))
            else readBytes env.mem fd L.sizeof_refdef_t).length = L.sizeof_refdef_t := by
          split
          · rw [set64_length, readBytes_length]
          · exact readBytes_length _ _ _
        simp only [List.length_append, U32_bytes_length, U64_bytes_length, hl]
        omega
  | _ => exact ⟨rfl, fun _ _ => rfl⟩

theorem sameAssigned_of {base1 base2 cap : Nat} {m1 m2 m3 : Mem} {lo hi : Nat}
    {slots : List Nat} (holes : List (Nat × Nat))
    (h : SameRecordBytes base1 base2 cap m1 m2 lo hi slots)
    (h23 : ∀ i, (∀ h ∈ holes, i < lo + h.1 ∨ lo + h.1 + h.2 ≤ i) → m3 i = m2 i)
    (hd : ∀ s ∈ slots, ∀ h ∈ holes, s + 8 ≤ h.1 ∨ h.1 + h.2 ≤ s) :
    SameAssignedBytes base1 base2 cap m1 m3 lo hi slots holes := by
  obtain ⟨a, b, c⟩ := h
  refine ⟨a, fun i hi1 hi2 hs hh => ?_, fun s hs => ?_⟩
  · rw [h23 i hh]
    exact b i hi1 hi2 hs
  · rw [readBytes_congr m2 m3 (lo + s) 8 (fun i h1 h2 => h23 i (fun h hh => by
      have := hd s hs h hh
      omega))]
    exact c s hs

theorem SameAssignedBytes_congr {base1 base2 cap : Nat} {m1 m2 m1' m2' : Mem} {lo hi : Nat}
    {slots : List Nat} {holes : List (Nat × Nat)}
    (h : SameAssignedBytes base1 base2 cap m1 m2 lo hi slots holes)
    (h1 : ∀ i, i < hi → m1' i = m1 i) (h2 : ∀ i, i < hi → m2' i = m2 i) :
    SameAssignedBytes base1 base2 cap m1' m2' lo hi slots holes := by
  obtain ⟨a, b, c⟩ := h
  refine ⟨a, fun i hi1 hi2 hs hh => ?_, fun s hs => ?_⟩
  · rw [h1 i hi2, h2 i hi2]
    exact b i hi1 hi2 hs hh
  · have := a s hs
    rw [readBytes_congr m1 m1' (lo + s) 8 (fun i _ hi2 => h1 i (by omega)),
      readBytes_congr m2 m2' (lo + s) 8 (fun i _ hi2 => h2 i (by omega))]
    exact c s hs

theorem unassigned_apart (L : Layout) (hE : L.EntityPointersOk) (hR : L.RefdefOk)
    (c : FrameCmd) :
    ∀ s ∈ c.pointerMembers L, ∀ h ∈ c.unassigned L, s + 8 ≤ h.1 ∨ h.1 + h.2 ≤ s := by
  cases c with
  | AddEntityToScene ent =>
    intro s hs h hh
    simp only [FrameCmd.unassigned, List.mem_singleton] at hh
    subst hh
    simp only [FrameCmd.pointerMembers, List.mem_cons, List.mem_singleton, List.mem_nil_iff,
      or_false] at hs
    have h1 := hE.1 L.entity_boneposes (by simp)
    have h2 := hE.1 L.entity_oldboneposes (by simp)
    rcases hs with rfl | rfl <;> (dsimp only; omega)
  | RenderScene fd =>
    intro s hs h hh
    simp only [FrameCmd.unassigned, List.mem_singleton] at hh
    subst hh
    simp only [FrameCmd.pointerMembers, List.mem_singleton] at hs
    subst hs
    have h1 := hR.1
    dsimp only
    omega
  | BeginFrame cs fc fv =>
    intro s hs
    simp [FrameCmd.pointerMembers] at hs
  | _ =>
    intro s hs h hh
    simp [FrameCmd.unassigned] at hh

theorem reply_stack (L : Layout) (env : Env) (st : Mem) (rsh : rsh_t) (b : ref_cmdbuf_t)
    (c : FrameCmd) : reply L { env with stack := st } rsh b c = reply L env rsh b c := by
  cases c <;> rfl

theorem validCmd_stack (L : Layout) (env : Env) (st : Mem) (c : FrameCmd)
    (h : ValidCmd L env c) : ValidCmd L { env with stack := st } c := by
  cases c <;> exact h

theorem writtenLen_stack (L : Layout) (env : Env) (st : Mem) (c : FrameCmd) :
    writtenLen L { env with stack := st } c = writtenLen L env c := by
  cases c <;> rfl

theorem valid_restack (L : Layout) (cs : List (Env × FrameCmd)) :
    ∀ st : Nat → Mem, (∀ p ∈ cs, ValidCmd L p.1 p.2) →
      ∀ p ∈ restack st cs, ValidCmd L p.1 p.2 := by
  induction cs with
  | nil =>
    intro st _ p hp
    simp [restack] at hp
  | cons q rest ih =>
    obtain ⟨env, c⟩ := q
    intro st hv p hp
    simp only [restack, List.mem_cons] at hp
    rcases hp with rfl | hp
    · exact validCmd_stack L env (st 0) c (hv (env, c) (List.mem_cons_self _ _))
    · exact ih _ (fun p hp => hv p (List.mem_cons_of_mem _ hp)) p hp

/-- One encoder call on two buffers of the same length, entered with different stack
contents: the same decision, the same assigned bytes, the same backend calls. -/
theorem issue_same_stack (L : Layout) (hL : L.SizesOk) (hP : L.PolyPointersOk)
    (hE : L.EntityPointersOk) (hR : L.RefdefOk) (env : Env) (st : Mem) (rsh : rsh_t)
    (b1 b2 : ref_cmdbuf_t) (c : FrameCmd) (hlen : b1.len = b2.len)
    (hb : b1.len ≤ L.sizeof_buf) (hv : ValidCmd L env c) :
    (issue L env b1 c).len = (issue L { env with stack := st } b2 c).len ∧
    ((issue L env b1 c).len ≠ b1.len →
      SameAssignedBytes b1.base b2.base L.sizeof_buf (issue L env b1 c).buf
        (issue L { env with stack := st } b2 c).buf
        b1.len (b1.len + writtenLen L env c) (c.pointerMembers L) (c.unassigned L) ∧
      List.Forall₂ (SameCall L b1.base b2.base) (reply L env rsh b1 c)
        (reply L { env with stack := st } rsh b2 c)) := by
  obtain ⟨s1, s2⟩ := issue_same L hL hP hE hR env rsh b1 b2 c hlen hb hv
  obtain ⟨t1, t2⟩ := issue_stack L env st b2 c
  refine ⟨by rw [t1]; exact s1, fun hne => ⟨?_, ?_⟩⟩
  · refine sameAssigned_of (c.unassigned L) (s2 hne).1 (fun i hi => t2 i ?_)
      (unassigned_apart L hE hR c)
    rw [← hlen]
    exact hi
  · rw [reply_stack]
    exact (s2 hne).2

theorem issueAll_same_stack (L : Layout) (hL : L.SizesOk) (hP : L.PolyPointersOk)
    (hE : L.EntityPointersOk) (hR : L.RefdefOk) (rsh : rsh_t) (cs : List (Env × FrameCmd)) :
    ∀ (st : Nat → Mem) (b1 b2 : ref_cmdbuf_t), b1.len = b2.len → b1.len ≤ L.sizeof_buf →
      (∀ p ∈ cs, ValidCmd L p.1 p.2) →
      (issueAll L b1 cs).len = (issueAll L b2 (restack st cs)).len ∧
      decisions L b1 cs = decisions L b2 (restack st cs) ∧
      (records L b1 cs).map (fun r => (r.1, r.2.2))
        = (records L b2 (restack st cs)).map (fun r => (r.1, r.2.2)) ∧
      (∀ r ∈ records L b1 cs, SameAssignedBytes b1.base b2.base L.sizeof_buf
        (issueAll L b1 cs).buf (issueAll L b2 (restack st cs)).buf r.1
        (r.1 + writtenLen L r.2.1 r.2.2) (r.2.2.pointerMembers L) (r.2.2.unassigned L)) ∧
      List.Forall₂ (SameCall L b1.base b2.base)
        ((expectedLog L rsh b1 cs).flatMap (fun v => v.calls))
        ((expectedLog L rsh b2 (restack st cs)).flatMap (fun v => v.calls)) := by
  induction cs with
  | nil =>
    intro st b1 b2 hlen _ _
    exact ⟨hlen, rfl, rfl, fun r hr => by simp [records] at hr, List.Forall₂.nil⟩
  | cons p rest ih =>
    obtain ⟨env, c⟩ := p
    intro st b1 b2 hlen hb hv
    have hvc : ValidCmd L env c := hv (env, c) (List.mem_cons_self _ _)
    have hvr : ∀ p ∈ rest, ValidCmd L p.1 p.2 := fun p hp => hv p (List.mem_cons_of_mem _ hp)
    obtain ⟨s1, s2⟩ := issue_same_stack L hL hP hE hR env (st 0) rsh b1 b2 c hlen hb hvc
    have hb2 : b2.len ≤ L.sizeof_buf := by omega
    obtain ⟨k1, -, -, k4, k5⟩ := issue_spec L hL env rsh b1 c hb hvc
    obtain ⟨j1, -, -, -, -⟩ := issue_spec L hL { env with stack := st 0 } rsh b2 c hb2
      (validCmd_stack L env (st 0) c hvc)
    obtain ⟨f1, -, -, f4⟩ := issueAll_frame L hL rest (issue L env b1 c) k4 hvr
    obtain ⟨g1, -, -, g4⟩ := issueAll_frame L hL (restack (fun k => st (k + 1)) rest)
      (issue L { env with stack := st 0 } b2 c) (by rw [← s1]; exact k4)
      (valid_restack L rest _ hvr)
    obtain ⟨i1, i2, i3, i4, i5⟩ := ih (fun k => st (k + 1)) (issue L env b1 c)
      (issue L { env with stack := st 0 } b2 c) s1 k4 hvr
    rw [k1, j1] at i4 i5
    have hw := writtenLen_le L hL env c hvc
    simp only [restack, issueAll, decisions, records, expectedLog, List.flatMap_append,
      List.map_append]
    rw [← s1, ← hlen, i2, i3]
    refine ⟨i1, rfl, ?_, ?_, ?_⟩
    · by_cases hc : (issue L env b1 c).len = b1.len
      · rw [if_pos hc, if_pos hc]
      · rw [if_neg hc, if_neg hc]
        rfl
    · intro r hr
      rcases List.mem_append.1 hr with hr | hr
      · by_cases hc : (issue L env b1 c).len = b1.len
        · rw [if_pos hc] at hr
          simp at hr
        · rw [if_neg hc, List.mem_singleton] at hr
          subst hr
          have hlen' : (issue L env b1 c).len = b1.len + cmdLen L env c := by
            rcases k5 with h | h
            · exact absurd h hc
            · exact h.1
          refine SameAssignedBytes_congr (s2 hc).1 (fun i hi => f4 i ?_) (fun i hi => g4 i ?_)
          · dsimp only at hi; omega
          · dsimp only at hi; omega
      · exact i4 r hr
    · refine forall₂_append ?_ i5
      by_cases hc : (issue L env b1 c).len = b1.len
      · rw [if_pos hc, if_pos hc]
        exact List.Forall₂.nil
      · rw [if_neg hc, if_neg hc]
        simp only [List.flatMap_cons, List.flatMap_nil, List.append_nil]
        exact (s2 hc).2

theorem copyTails_beyond (mem : Mem) (base : Nat) (blocks : List TailBlock) :
    ∀ t : TailState, ∀ i, t.pcmd + tailBytes blocks ≤ i →
      (copyTails mem base blocks t).buf i = t.buf i := by
  induction blocks with
  | nil => intro t i _; rfl
  | cons k rest ih =>
    intro t i hi
    have hc : copyTails mem base (k :: rest) t
        = copyTails mem base rest (copyTail mem base k.present k.member k.src k.n t) := rfl
    rw [hc]
    simp only [tailBytes] at hi
    by_cases hp : k.present = true
    · have e : copyTail mem base k.present k.member k.src k.n t
          = { obj := set64 t.obj k.member (U64.ofNat (base + t.pcmd)),
              buf := memcpy t.buf t.pcmd (readBytes mem k.src.val k.n),
              pcmd := t.pcmd + k.n } := by
        unfold copyTail
        rw [if_pos hp]
      rw [if_pos hp] at hi
      rw [e, ih _ i (by dsimp only; omega)]
      exact memcpy_outside _ _ _ _ (Or.inr (by rw [readBytes_length]; omega))
    · have e : copyTail mem base k.present k.member k.src k.n t = t := by
        unfold copyTail
        rw [if_neg hp]
      rw [if_neg hp] at hi
      rw [e]
      exact ih t i (by omega)

theorem fixed_beyond (L : Layout) (b : ref_cmdbuf_t) (bytes : List Byte) (n : Nat)
    (hbl : bytes.length = n) (i : Nat) (hi : b.len + n ≤ i) :
    (if szAdd b.len n > L.sizeof_buf then b
      else { b with buf := memcpy b.buf b.len bytes, len := szAdd b.len n }).buf i = b.buf i := by
  split
  · rfl
  · exact memcpy_outside _ _ _ _ (Or.inr (by omega))

/-- An encoder call writes no byte past the header and the copied arrays of its
record. -/
theorem issue_beyond (L : Layout) (env : Env) (b : ref_cmdbuf_t) (c : FrameCmd) (i : Nat)
    (hi : b.len + writtenLen L env c ≤ i) : (issue L env b c).buf i = b.buf i := by
  have poly : ∀ (id : U32) (poly : Nat) (x y : U32),
      b.len + (sizeof_refCmdDrawStretchOrScenePoly_t L
        + tailBytes (polyBlocks L (readBytes env.mem poly L.sizeof_poly_t))) ≤ i →
      (RF_IssueDrawStretchPolyOrAddPolyToSceneCmd L env.mem b id poly x y).buf i = b.buf i := by
    intro id poly x y hi
    unfold RF_IssueDrawStretchPolyOrAddPolyToSceneCmd
    simp only
    split
    · rfl
    · split
      · rfl
      · have hT : polyTail L env.mem b (readBytes env.mem poly L.sizeof_poly_t)
            = copyTails env.mem b.base (polyBlocks L (readBytes env.mem poly L.sizeof_poly_t))
              { obj := readBytes env.mem poly L.sizeof_poly_t, buf := b.buf,
                pcmd := b.len + sizeof_refCmdDrawStretchOrScenePoly_t L } := by
          unfold polyTail polyBlocks copyTails
          simp [List.foldl]
        show memcpy _ b.len (refCmdDrawStretchOrScenePoly_t.toBytes _) i = b.buf i
        rw [memcpy_outside _ _ _ _ (Or.inr (by
          rw [refCmdDrawStretchOrScenePoly_t_toBytes_length L _
            (by rw [polyTail_obj_length, readBytes_length])]
          omega)), hT]
        exact copyTails_beyond _ _ _ _ i (by dsimp only; omega)
  cases c with
  | BeginFrame cs fc fv => exact fixed_beyond L b _ _ (refCmdBeginFrame_t_toBytes_length _) i hi
  | EndFrame => exact fixed_beyond L b _ _ (refCmdEndFrame_t_toBytes_length _) i hi
  | DrawRotatedStretchPic x y w h s1 t1 s2 t2 angle color shader =>
    exact fixed_beyond L b _ _ (refCmdDrawStretchPic_t_toBytes_length _) i hi
  | ClearScene => exact fixed_beyond L b _ _ (refCmdClearScene_t_toBytes_length _) i hi
  | AddLightToScene org intensity r g b' =>
    exact fixed_beyond L b _ _ (refCmdAddLightToScene_t_toBytes_length _) i hi
  | AddLightStyleToScene style r g b' =>
    exact fixed_beyond L b _ _ (refCmdAddLightStyleToScene_t_toBytes_length _) i hi
  | SetScissor x y w h => exact fixed_beyond L b _ _ (refCmdSetScissor_t_toBytes_length _) i hi
  | ResetScissor => exact fixed_beyond L b _ _ (refCmdResetScissor_t_toBytes_length _) i hi
  | DrawStretchRaw x y w h s1 t1 s2 t2 =>
    exact fixed_beyond L b _ _ (refCmdDrawStretchRaw_t_toBytes_length _) i hi
  | DrawStretchRawYUV x y w h s1 t1 s2 t2 =>
    exact fixed_beyond L b _ _ (refCmdDrawStretchRaw_t_toBytes_length _) i hi
  | DrawStretchPoly p x_offset y_offset => exact poly _ p x_offset y_offset hi
  | AddPolyToScene p => exact poly _ p 0 0 hi
  | AddEntityToScene ent =>
    simp only [writtenLen] at hi
    simp only [issue, RF_IssueAddEntityToSceneCmd]
    split
    · rfl
    · have hT : entityTail L env b (readBytes env.mem ent L.sizeof_entity_t)
          = copyTails env.mem b.base (entityBlocks L env (readBytes env.mem ent L.sizeof_entity_t))
            { obj := readBytes env.mem ent L.sizeof_entity_t, buf := b.buf,
              pcmd := b.len + sizeof_refCmdAddEntityToScene_t L } := by
        unfold entityTail entityBlocks copyTails
        simp [List.foldl]
      show memcpy _ b.len (refCmdAddEntityToScene_t.toBytes _) i = b.buf i
      rw [memcpy_outside _ _ _ _ (Or.inr (by
        rw [refCmdAddEntityToScene_t_toBytes_length L _
          (by rw [entityTail_obj_length, readBytes_length])]
        omega)), hT]
      exact copyTails_beyond _ _ _ _ i (by dsimp only; omega)
  | RenderScene fd =>
    simp only [writtenLen] at hi
    simp only [issue, RF_IssueRenderSceneCmd]
    split
    · rfl
    · have hl : (if (renderSceneAreabytes L env.rsh
          (readBytes env.mem fd L.sizeof_refdef_t)).val > 0 then
          set64 (readBytes env.mem fd L.sizeof_refdef_t) L.refdef_areabits
            (U64.ofNat (b.base + (b.len + sizeof_refCmdRenderScene_t L)))
          else readBytes env.mem fd L.sizeof_refdef_t).length = L.sizeof_refdef_t := by
        split
        · rw [set64_length, readBytes_length]
        · exact readBytes_length _ _ _
      show memcpy _ b.len (refCmdRenderScene_t.toBytes _) i = b.buf i
      rw [memcpy_outside _ _ _ _ (Or.inr (by
        rw [refCmdRenderScene_t_toBytes_length L _ hl]
        omega))]
      split
      · exact memcpy_outside _ _ _ _ (Or.inr (by rw [readBytes_length]; omega))
      · rfl

theorem issue_eq_or (L : Layout) (env : Env) (b : ref_cmdbuf_t) (c : FrameCmd) :
    issue L env b c = b ∨ (issue L env b c).len = szAdd b.len (cmdLen L env c) := by
  cases c <;>
    simp only [issue, cmdLen, RF_IssueBeginFrameCmd, RF_IssueEndFrameCmd,
      RF_IssueDrawRotatedStretchPicCmd, RF_IssueDrawStretchPolyCmd,
      RF_IssueDrawStretchPolyOrAddPolyToSceneCmd, RF_IssueClearSceneCmd,
      RF_IssueAddEntityToSceneCmd, RF_IssueAddLightToSceneCmd, RF_IssueAddPolyToSceneCmd,
      RF_IssueAddLightStyleToSceneCmd, RF_IssueRenderSceneCmd, RF_IssueSetScissorCmd,
      RF_IssueResetScissorCmd, RF_IssueDrawStretchRawCmd, RF_IssueDrawStretchRawYUVCmd,
      RF_IssueDrawStretchRawOrRawYUVCmd] <;>
    split_ifs <;> first | exact Or.inl rfl | exact Or.inr rfl

theorem cmdLen_bounds (L : Layout) (hL : L.SizesOk) (env : Env) (c : FrameCmd)
    (hv : ValidCmd L env c) :
    0 < cmdLen L env c ∧ cmdLen L env c < 18446744069414584320 := by
  cases c with
  | DrawStretchPoly poly x_offset y_offset =>
    have := polyCmdLen_bounds L (readBytes env.mem poly L.sizeof_poly_t) hL.2.1 hv.1 hv.2
    have : 0 < sizeof_refCmdDrawStretchOrScenePoly_t L := by
      unfold sizeof_refCmdDrawStretchOrScenePoly_t; omega
    simp only [cmdLen]
    omega
  | AddPolyToScene poly =>
    have := polyCmdLen_bounds L (readBytes env.mem poly L.sizeof_poly_t) hL.2.1 hv.1 hv.2
    have : 0 < sizeof_refCmdDrawStretchOrScenePoly_t L := by
      unfold sizeof_refCmdDrawStretchOrScenePoly_t; omega
    simp only [cmdLen]
    omega
  | AddEntityToScene ent =>
    have := entityCmdLen_bounds L env (readBytes env.mem ent L.sizeof_entity_t) hL.2.2.1
      hL.2.2.2.2 hv
    have : 0 < sizeof_refCmdAddEntityToScene_t L := by
      unfold sizeof_refCmdAddEntityToScene_t; omega
    simp only [cmdLen]
    omega
  | RenderScene fd =>
    have := renderSceneCmdLen_bounds L env.rsh (readBytes env.mem fd L.sizeof_refdef_t)
      hL.2.2.2.1
    have : 0 < sizeof_refCmdRenderScene_t L := by
      unfold sizeof_refCmdRenderScene_t; omega
    simp only [cmdLen]
    omega
  | _ => exact ⟨by simp only [cmdLen]; decide, by simp only [cmdLen]; decide⟩

theorem records_ge (L : Layout) (hL : L.SizesOk) (cs : List (Env × FrameCmd)) :
    ∀ b : ref_cmdbuf_t, b.len ≤ L.sizeof_buf → (∀ p ∈ cs, ValidCmd L p.1 p.2) →
      ∀ r ∈ records L b cs, b.len ≤ r.1 := by
  induction cs with
  | nil =>
    intro b _ _ r hr
    simp [records] at hr
  | cons p rest ih =>
    obtain ⟨env, c⟩ := p
    intro b hb hv r hr
    have hvc : ValidCmd L env c := hv (env, c) (List.mem_cons_self _ _)
    have hvr : ∀ p ∈ rest, ValidCmd L p.1 p.2 := fun p hp => hv p (List.mem_cons_of_mem _ hp)
    obtain ⟨-, -, -, k4, k5⟩ := issue_spec L hL env exampleRsh b c hb hvc
    simp only [records] at hr
    rcases List.mem_append.1 hr with hr | hr
    · split at hr
      · simp at hr
      · rw [List.mem_singleton] at hr
        subst hr
        exact Nat.le_refl _
    · have := ih (issue L env b c) k4 hvr r hr
      rcases k5 with h | h
      · omega
      · omega

/-- The alignment padding of every record that a sequence of encoder calls appended
holds what the storage held there before the sequence. -/
theorem issueAll_padding (L : Layout) (hL : L.SizesOk) (cs : List (Env × FrameCmd)) :
    ∀ b : ref_cmdbuf_t, b.len ≤ L.sizeof_buf → (∀ p ∈ cs, ValidCmd L p.1 p.2) →
      ∀ r ∈ records L b cs, ∀ i, r.1 + writtenLen L r.2.1 r.2.2 ≤ i →
        i < r.1 + cmdLen L r.2.1 r.2.2 → (issueAll L b cs).buf i = b.buf i := by
  induction cs with
  | nil =>
    intro b _ _ r hr
    simp [records] at hr
  | cons p rest ih =>
    obtain ⟨env, c⟩ := p
    intro b hb hv r hr i hi1 hi2
    have hvc : ValidCmd L env c := hv (env, c) (List.mem_cons_self _ _)
    have hvr : ∀ p ∈ rest, ValidCmd L p.1 p.2 := fun p hp => hv p (List.mem_cons_of_mem _ hp)
    obtain ⟨-, -, -, k4, k5⟩ := issue_spec L hL env exampleRsh b c hb hvc
    have hw := writtenLen_le L hL env c hvc
    simp only [records] at hr
    simp only [issueAll]
    rcases List.mem_append.1 hr with hr | hr
    · by_cases hc : (issue L env b c).len = b.len
      · rw [if_pos hc] at hr
        simp at hr
      · rw [if_neg hc, List.mem_singleton] at hr
        subst hr
        dsimp only at hi1 hi2
        have hlen' : (issue L env b c).len = b.len + cmdLen L env c := by
          rcases k5 with h | h
          · exact absurd h hc
          · exact h.1
        rw [(issueAll_frame L hL rest (issue L env b c) k4 hvr).2.2.2 i (by omega)]
        exact issue_beyond L env b c i hi1
    · rw [ih (issue L env b c) k4 hvr r hr i hi1 hi2]
      have hge := records_ge L hL rest (issue L env b c) k4 hvr r hr
      rcases issue_eq_or L env b c with h | h
      · rw [h]
      · have hcb := cmdLen_bounds L hL env c hvc
        have hcap := hL.1
        have hM : SIZE_MOD = 18446744073709551616 := rfl
        rw [szAdd_eq _ _ (by omega)] at h
        exact issue_beyond L env b c i (by omega)

/-- C16 does not hold as stated, for two kinds of bytes that no encoder assigns.  One
`AddPolyToScene` call, for a polygon with a single 16-bit element, appends a record of
92 bytes both to a cleared used buffer and to a fresh buffer at the same address, of
which the encoder writes 90; the byte at offset 90, alignment padding, is the old byte
255 of the used buffer and 0 in the fresh one.  One `BeginFrame` call appends a record
of 12 bytes to both, of which the last two are the padding of the encoder's local `cmd`,
copied as the stack held them: 170 in the call on the cleared buffer, 0 in the call on
the fresh one. -/
theorem C16_counterexample :
    (issueAll exampleLayout (RF_ClearCmdBuf staleBuf) [(elemsPolyEnv, .AddPolyToScene 64)]).len
      = 92 ∧
    (issueAll exampleLayout (RF_CreateCmdBuf 4096) [(elemsPolyEnv, .AddPolyToScene 64)]).len
      = 92 ∧
    (issueAll exampleLayout (RF_ClearCmdBuf staleBuf) [(elemsPolyEnv, .AddPolyToScene 64)]).buf 90
      ≠ (issueAll exampleLayout (RF_CreateCmdBuf 4096)
          [(elemsPolyEnv, .AddPolyToScene 64)]).buf 90 ∧
    (issueAll exampleLayout (RF_ClearCmdBuf staleBuf)
      [(usedStackEnv, .BeginFrame 0 true false)]).len = 12 ∧
    (issueAll exampleLayout (RF_CreateCmdBuf 4096)
      [(exampleEnv, .BeginFrame 0 true false)]).len = 12 ∧
    (issueAll exampleLayout (RF_ClearCmdBuf staleBuf)
      [(usedStackEnv, .BeginFrame 0 true false)]).buf 10 = 170 ∧
    (issueAll exampleLayout (RF_CreateCmdBuf 4096)
      [(exampleEnv, .BeginFrame 0 true false)]).buf 10 = 0 := by
  decide

/-- C16, amended. Clear is equivalent to a fresh buffer up to the bytes that no encoder
assigns: for every buffer state `b`, every finite sequence `cs` of encoder calls with
valid inputs and every content `st k` of the stack at the entry of call number `k` of a
second run, running `cs` on the cleared `b` and running the same calls with the stack
contents `st` on a freshly created buffer yields the same final `len`, the same
accept-or-drop decision for every call, records of the same calls at the same offsets,
and the same bytes in the part of every record that its encoder assigns, the header
without the members and padding that the encoder leaves unassigned and the copied
arrays, in-buffer references being compared as offsets from the address of the storage;
the alignment padding after the copied arrays of a record holds what the storage held
before the run, the old bytes of `b` in the cleared buffer and 0 in the fresh one; and a
dispatch pass returns on both buffers with the same backend calls, up to the same
comparison of in-buffer references. -/
theorem C16_clear_like_fresh (L : Layout) (hL : L.SizesOk) (hP : L.PolyPointersOk)
    (hE : L.EntityPointersOk) (hR : L.RefdefOk) (rsh : rsh_t) (b : ref_cmdbuf_t) (base' : Nat)
    (cs : List (Env × FrameCmd)) (st : Nat → Mem) (hv : ∀ p ∈ cs, ValidCmd L p.1 p.2) :
    (issueAll L (RF_ClearCmdBuf b) cs).len
      = (issueAll L (RF_CreateCmdBuf base') (restack st cs)).len ∧
    decisions L (RF_ClearCmdBuf b) cs = decisions L (RF_CreateCmdBuf base') (restack st cs) ∧
    (records L (RF_ClearCmdBuf b) cs).map (fun r => (r.1, r.2.2))
      = (records L (RF_CreateCmdBuf base') (restack st cs)).map (fun r => (r.1, r.2.2)) ∧
    (∀ r ∈ records L (RF_ClearCmdBuf b) cs, SameAssignedBytes b.base base' L.sizeof_buf
      (issueAll L (RF_ClearCmdBuf b) cs).buf
      (issueAll L (RF_CreateCmdBuf base') (restack st cs)).buf
      r.1 (r.1 + writtenLen L r.2.1 r.2.2) (r.2.2.pointerMembers L) (r.2.2.unassigned L)) ∧
    (∀ r ∈ records L (RF_ClearCmdBuf b) cs, ∀ i, r.1 + writtenLen L r.2.1 r.2.2 ≤ i →
      i < r.1 + cmdLen L r.2.1 r.2.2 → (issueAll L (RF_ClearCmdBuf b) cs).buf i = b.buf i) ∧
    (∀ r ∈ records L (RF_CreateCmdBuf base') (restack st cs), ∀ i,
      r.1 + writtenLen L r.2.1 r.2.2 ≤ i → i < r.1 + cmdLen L r.2.1 r.2.2 →
      (issueAll L (RF_CreateCmdBuf base') (restack st cs)).buf i = 0) ∧
    ∃ r1 r2, RF_RunCmdBufProc L rsh (issueAll L (RF_ClearCmdBuf b) cs) = some r1 ∧
      RF_RunCmdBufProc L rsh (issueAll L (RF_CreateCmdBuf base') (restack st cs)) = some r2 ∧
      List.Forall₂ (SameCall L b.base base') r1.trace r2.trace := by
  obtain ⟨h1, h2, h3, h4, h5⟩ := issueAll_same_stack L hL hP hE hR rsh cs st (RF_ClearCmdBuf b)
    (RF_CreateCmdBuf base') rfl (Nat.zero_le _) hv
  have hv2 := valid_restack L cs st hv
  exact ⟨h1, h2, h3, h4,
    issueAll_padding L hL cs (RF_ClearCmdBuf b) (Nat.zero_le _) hv,
    issueAll_padding L hL (restack st cs) (RF_CreateCmdBuf base') (Nat.zero_le _) hv2,
    _, _, run_issueAll L hL rsh (RF_ClearCmdBuf b) cs rfl hv,
    run_issueAll L hL rsh (RF_CreateCmdBuf base') (restack st cs) rfl hv2, h5⟩

/-- Witness of C16, amended: the three calls of `stackFrame`, run on the cleared
`staleBuf` (at address 4096) and, with the byte 85 all over the stack, on a fresh buffer
at address 8192. -/
theorem C16_clear_like_fresh_witness :
    exampleLayout.SizesOk ∧ exampleLayout.PolyPointersOk ∧ exampleLayout.EntityPointersOk ∧
    exampleLayout.RefdefOk ∧ (∀ p ∈ stackFrame, ValidCmd exampleLayout p.1 p.2) ∧
    (issueAll exampleLayout (RF_ClearCmdBuf staleBuf) stackFrame).len
      = (issueAll exampleLayout (RF_CreateCmdBuf 8192)
          (restack (fun _ _ => 85) stackFrame)).len ∧
    decisions exampleLayout (RF_ClearCmdBuf staleBuf) stackFrame
      = decisions exampleLayout (RF_CreateCmdBuf 8192) (restack (fun _ _ => 85) stackFrame) ∧
    (records exampleLayout (RF_ClearCmdBuf staleBuf) stackFrame).map (fun r => (r.1, r.2.2))
      = (records exampleLayout (RF_CreateCmdBuf 8192)
          (restack (fun _ _ => 85) stackFrame)).map (fun r => (r.1, r.2.2)) ∧
    (∀ r ∈ records exampleLayout (RF_ClearCmdBuf staleBuf) stackFrame,
      SameAssignedBytes staleBuf.base 8192 exampleLayout.sizeof_buf
        (issueAll exampleLayout (RF_ClearCmdBuf staleBuf) stackFrame).buf
        (issueAll exampleLayout (RF_CreateCmdBuf 8192) (restack (fun _ _ => 85) stackFrame)).buf
        r.1 (r.1 + writtenLen exampleLayout r.2.1 r.2.2)
        (r.2.2.pointerMembers exampleLayout) (r.2.2.unassigned exampleLayout)) ∧
    (∀ r ∈ records exampleLayout (RF_ClearCmdBuf staleBuf) stackFrame, ∀ i,
      r.1 + writtenLen exampleLayout r.2.1 r.2.2 ≤ i →
      i < r.1 + cmdLen exampleLayout r.2.1 r.2.2 →
      (issueAll exampleLayout (RF_ClearCmdBuf staleBuf) stackFrame).buf i = staleBuf.buf i) ∧
    (∀ r ∈ records exampleLayout (RF_CreateCmdBuf 8192) (restack (fun _ _ => 85) stackFrame),
      ∀ i, r.1 + writtenLen exampleLayout r.2.1 r.2.2 ≤ i →
      i < r.1 + cmdLen exampleLayout r.2.1 r.2.2 →
      (issueAll exampleLayout (RF_CreateCmdBuf 8192)
        (restack (fun _ _ => 85) stackFrame)).buf i = 0) ∧
    ∃ r1 r2, RF_RunCmdBufProc exampleLayout exampleRsh
        (issueAll exampleLayout (RF_ClearCmdBuf staleBuf) stackFrame) = some r1 ∧
      RF_RunCmdBufProc exampleLayout exampleRsh
        (issueAll exampleLayout (RF_CreateCmdBuf 8192)
          (restack (fun _ _ => 85) stackFrame)) = some r2 ∧
      List.Forall₂ (SameCall exampleLayout staleBuf.base 8192) r1.trace r2.trace :=
  ⟨by decide, by decide, by decide, by decide, by decide,
    C16_clear_like_fresh exampleLayout (by decide) (by decide) (by decide) (by decide)
      exampleRsh staleBuf 8192 stackFrame (fun _ _ => 85) (by decide)⟩

/-! ### The two channels -/

theorem step_frame (L : Layout) (G : PipeEnv) (s : Channels) (op : BufOp)
    (hcap : L.sizeof_buf + 4294967296 ≤ SIZE_MOD) (hb : s.cmdbuf.len ≤ L.sizeof_buf) :
    s.step L G (.frame op) = some { cmdbuf := applyOp L s.cmdbuf op, pipe := s.pipe } := by
  cases op with
  | encode env c => rfl
  | Clear => rfl
  | SetFrameId frameId => rfl
  | RunCmds rsh =>
    obtain ⟨res, hres⟩ := RunCmds_eq L rsh s.cmdbuf (by omega)
    simp only [Channels.step, hres, Option.map_some', applyOp]

theorem steps_spec (L : Layout) (G : PipeEnv) (hcap : L.sizeof_buf + 4294967296 ≤ SIZE_MOD)
    (ops : List ChannelOp) :
    ∀ s : Channels, s.cmdbuf.len ≤ L.sizeof_buf →
      Channels.steps L G s ops
        = some { cmdbuf := applyOps L s.cmdbuf (frameOps ops),
                 pipe := issueReliableEach G s.pipe (reliableCalls ops) } := by
  induction ops with
  | nil => intro s _; rfl
  | cons op rest ih =>
    intro s hb
    cases op with
    | frame op =>
      rw [Channels.steps, step_frame L G s op hcap hb, Option.some_bind,
        ih _ (applyOp_len_le L s.cmdbuf op hb)]
      rfl
    | reliable stack c =>
      rw [Channels.steps]
      show Channels.steps L G
        { s with pipe := issueReliable { G with stack := stack } s.pipe c } rest = _
      exact ih { s with pipe := issueReliable { G with stack := stack } s.pipe c } hb

theorem callsAlone_spec (cs : List (Mem × ReliableCmd)) :
    ∀ st : Nat → Mem, frameOps (callsAlone st cs) = [] ∧
      (reliableCalls (callsAlone st cs)).map Prod.snd = cs.map Prod.snd := by
  induction cs with
  | nil => intro st; exact ⟨rfl, rfl⟩
  | cons p rest ih =>
    obtain ⟨s0, c⟩ := p
    intro st
    obtain ⟨h1, h2⟩ := ih (fun k => st (k + 1))
    simp only [callsAlone, frameOps, reliableCalls, List.map_cons, h1, h2, and_self]

theorem issueReliable_append (G : PipeEnv) (pipe : qbufPipe_t) (c : ReliableCmd) :
    issueReliable G pipe c = pipe ++ issueReliable G [] c := by
  cases c <;> rfl

theorem take_strncpyz (d1 d2 src : List Byte) :
    (Q_strncpyz d1 src 32).take (min (cString src).length 31 + 1)
      = (Q_strncpyz d2 src 32).take (min (cString src).length 31 + 1) := by
  unfold Q_strncpyz
  rw [if_neg (by decide), if_neg (by decide)]
  have hl : ((cString src).take (32 - 1)).length = min (cString src).length 31 := by
    rw [List.length_take, Nat.min_comm]
  rw [List.take_append_eq_append_take, List.take_append_eq_append_take, hl]
  have : min (cString src).length 31 + 1 - min (cString src).length 31 = 1 := by omega
  rw [this]
  rfl

/-- One pipe encoder call entered with two stack contents: one record each, of the size
of the record type, with the same assigned bytes and the same backend calls. -/
theorem issueReliable_stack (G : PipeEnv) (st1 st2 : Mem) (c : ReliableCmd) :
    ∃ r1 r2, issueReliable { G with stack := st1 } [] c = [r1] ∧
      issueReliable { G with stack := st2 } [] c = [r2] ∧
      r1.length = c.recordSize ∧ r2.length = c.recordSize ∧
      r1.take c.assignedLen = r2.take c.assignedLen ∧
      ∀ G' : PipeEnv, (refPipeCmdHandlers G' (rdU32 r1).val r1).1
        = (refPipeCmdHandlers G' (rdU32 r2).val r2).1 := by
  have same : ∀ c : ReliableCmd,
      issueReliable { G with stack := st2 } [] c = issueReliable { G with stack := st1 } [] c →
      ∃ r1 r2, issueReliable { G with stack := st1 } [] c = [r1] ∧
        issueReliable { G with stack := st2 } [] c = [r2] ∧
        r1.length = c.recordSize ∧ r2.length = c.recordSize ∧
        r1.take c.assignedLen = r2.take c.assignedLen ∧
        ∀ G' : PipeEnv, (refPipeCmdHandlers G' (rdU32 r1).val r1).1
          = (refPipeCmdHandlers G' (rdU32 r2).val r2).1 := by
    intro c h
    obtain ⟨r, h1, h2, -, -⟩ := issueReliable_spec { G with stack := st1 } [] c
    exact ⟨r, r, h1, h.trans h1, h2, h2, rfl, fun _ => rfl⟩
  cases c with
  | SetDrawBuffer drawbuffer =>
    have l1 := Q_strncpyz_length _ drawbuffer 32 (uninit_drawbuffer_length st1)
    have l2 := Q_strncpyz_length _ drawbuffer 32 (uninit_drawbuffer_length st2)
    refine ⟨_, _, write_eq _ _ _ (refReliableCmdSetDrawBuffer_t_toBytes_length _ l1),
      write_eq _ _ _ (refReliableCmdSetDrawBuffer_t_toBytes_length _ l2),
      refReliableCmdSetDrawBuffer_t_toBytes_length _ l1,
      refReliableCmdSetDrawBuffer_t_toBytes_length _ l2, ?_, fun G' => ?_⟩
    · simp only [refReliableCmdSetDrawBuffer_t.toBytes, ReliableCmd.assignedLen]
      rw [List.take_append_eq_append_take, List.take_append_eq_append_take,
        U32_bytes_length, Nat.add_sub_cancel_left, take_strncpyz _ _ drawbuffer]
    · rw [setDrawBuffer_rdU32, setDrawBuffer_rdU32]
      show (R_HandleSetDrawBufferReliableCmd _).1 = (R_HandleSetDrawBufferReliableCmd _).1
      unfold R_HandleSetDrawBufferReliableCmd
      simp only
      rw [refReliableCmdSetDrawBuffer_t_ofBytes_toBytes _ l1,
        refReliableCmdSetDrawBuffer_t_ofBytes_toBytes _ l2]
      simp only
      rw [cString_Q_strncpyz _ _ _ (by decide), cString_Q_strncpyz _ _ _ (by decide)]
  | SetTextureMode texturemode =>
    have l1 := Q_strncpyz_length _ texturemode 32 (uninit_texturemode_length st1)
    have l2 := Q_strncpyz_length _ texturemode 32 (uninit_texturemode_length st2)
    refine ⟨_, _, write_eq _ _ _ (refReliableCmdSetTextureMode_t_toBytes_length _ l1),
      write_eq _ _ _ (refReliableCmdSetTextureMode_t_toBytes_length _ l2),
      refReliableCmdSetTextureMode_t_toBytes_length _ l1,
      refReliableCmdSetTextureMode_t_toBytes_length _ l2, ?_, fun G' => ?_⟩
    · simp only [refReliableCmdSetTextureMode_t.toBytes, ReliableCmd.assignedLen]
      rw [List.take_append_eq_append_take, List.take_append_eq_append_take,
        U32_bytes_length, Nat.add_sub_cancel_left, take_strncpyz _ _ texturemode]
    · rw [setTextureMode_rdU32, setTextureMode_rdU32]
      show (R_HandleSetTextureModeReliableCmd _).1 = (R_HandleSetTextureModeReliableCmd _).1
      unfold R_HandleSetTextureModeReliableCmd
      simp only
      rw [refReliableCmdSetTextureMode_t_ofBytes_toBytes _ l1,
        refReliableCmdSetTextureMode_t_ofBytes_toBytes _ l2]
      simp only
      rw [cString_Q_strncpyz _ _ _ (by decide), cString_Q_strncpyz _ _ _ (by decide)]
  | SetTextureFilter filter =>
    refine ⟨_, _, write_eq _ _ _ (refReliableCmdSetTextureFilter_t_toBytes_length _),
      write_eq _ _ _ (refReliableCmdSetTextureFilter_t_toBytes_length _),
      refReliableCmdSetTextureFilter_t_toBytes_length _,
      refReliableCmdSetTextureFilter_t_toBytes_length _, ?_, fun G' => ?_⟩
    · simp only [refReliableCmdSetTextureFilter_t.toBytes, ReliableCmd.assignedLen]
      rw [List.take_append_eq_append_take, List.take_append_eq_append_take,
        U32_bytes_length]
      rfl
    · rw [setTextureFilter_rdU32, setTextureFilter_rdU32]
      show (R_HandleSetTextureFilterReliableCmd G' _).1
        = (R_HandleSetTextureFilterReliableCmd G' _).1
      unfold R_HandleSetTextureFilterReliableCmd
      simp only
      rw [refReliableCmdSetTextureFilter_t_ofBytes_toBytes,
        refReliableCmdSetTextureFilter_t_ofBytes_toBytes]
  | _ => exact same _ rfl

theorem issueReliableEach_stack (G : PipeEnv) (cs : List (Mem × ReliableCmd)) :
    ∀ (st : Nat → Mem) (pipe1 pipe2 : qbufPipe_t), ∃ records1 records2,
      issueReliableEach G pipe1 cs = pipe1 ++ records1 ∧
      issueReliableEach G pipe2 (reliableCalls (callsAlone st cs)) = pipe2 ++ records2 ∧
      SamePipeRecords (cs.map Prod.snd) records1 records2 ∧
      ∀ G' : PipeEnv, drainPipe G' records1 = drainPipe G' records2 := by
  induction cs with
  | nil =>
    intro st pipe1 pipe2
    exact ⟨[], [], (List.append_nil _).symm, (List.append_nil _).symm, trivial, fun _ => rfl⟩
  | cons p rest ih =>
    obtain ⟨s0, c⟩ := p
    intro st pipe1 pipe2
    obtain ⟨r1, r2, h1, h2, h3, h4, h5, h6⟩ := issueReliable_stack G s0 (st 0) c
    obtain ⟨q1, q2, i1, i2, i3, i4⟩ := ih (fun k => st (k + 1)) (pipe1 ++ [r1]) (pipe2 ++ [r2])
    refine ⟨r1 :: q1, r2 :: q2, ?_, ?_, ⟨h3, h4, h5, i3⟩, fun G' => ?_⟩
    · show issueReliableEach G (issueReliable { G with stack := s0 } pipe1 c) rest = _
      rw [issueReliable_append, h1, i1, List.append_assoc]
      rfl
    · show issueReliableEach G (issueReliable { G with stack := st 0 } pipe2 c)
        (reliableCalls (callsAlone (fun k => st (k + 1)) rest)) = _
      rw [issueReliable_append, h2, i2, List.append_assoc]
      rfl
    · simp only [drainPipe, List.flatMap_cons]
      have := i4 G'
      simp only [drainPipe] at this
      rw [h6 G', this]

/-- C22 does not hold as stated: `SetDrawBuffer( "back" )` issued after a frame-buffer
call that has left the byte 170 all over the stack, and the same call issued alone on a
zeroed stack, put different contents into the pipe: the 27 bytes of the record after the
NUL of the name are copied from the encoder's unassigned local.  The drained backend
call is the same. -/
theorem C22_counterexample :
    (Channels.steps exampleLayout examplePipeEnv { cmdbuf := RF_CreateCmdBuf 4096, pipe := [] }
      [.frame (.encode exampleEnv (.BeginFrame 0 true false)),
       .reliable (fun _ => 170) (.SetDrawBuffer [98, 97, 99, 107])]).map (fun r => r.pipe)
      = some [[9, 0, 0, 0, 98, 97, 99, 107, 0] ++ List.replicate 27 170] ∧
    (Channels.steps exampleLayout examplePipeEnv { cmdbuf := RF_CreateCmdBuf 4096, pipe := [] }
      [.reliable (fun _ => 0) (.SetDrawBuffer [98, 97, 99, 107])]).map (fun r => r.pipe)
      = some [[9, 0, 0, 0, 98, 97, 99, 107, 0] ++ List.replicate 27 0] ∧
    [(9 : Byte), 0, 0, 0, 98, 97, 99, 107, 0] ++ List.replicate 27 170
      ≠ [9, 0, 0, 0, 98, 97, 99, 107, 0] ++ List.replicate 27 0 ∧
    drainPipe examplePipeEnv [[9, 0, 0, 0, 98, 97, 99, 107, 0] ++ List.replicate 27 170]
      = [.R_SetDrawBuffer [98, 97, 99, 107]] ∧
    drainPipe examplePipeEnv [[9, 0, 0, 0, 98, 97, 99, 107, 0] ++ List.replicate 27 0]
      = [.R_SetDrawBuffer [98, 97, 99, 107]] := by
  decide

/-- C22, amended. Independence of the two channels: over the explicit state (frame
buffer, reliable pipe), every frame-buffer operation (an encoder call, `Clear`,
`SetFrameId`, `RunCmds`) returns and leaves the pipe contents unchanged, and every pipe
encoder leaves the frame buffer (length, frame tag, bytes, address) unchanged; hence for
every interleaving of frame-buffer operations with pipe encoder calls, the calls return,
the frame buffer is the one produced by the frame-buffer operations alone, and the pipe
holds what its pipe encoder calls put there with the stack contents they found; compared
with the same pipe encoder calls made alone, whatever stack contents `st` those find,
the pipe holds one record per call in the same order, of the same sizes and with the
same assigned bytes, and draining the two pipes makes the same backend calls.  The bytes
of a record that its encoder never assigns may differ. -/
theorem C22_channel_independence (L : Layout) (G : PipeEnv) (s : Channels)
    (hcap : L.sizeof_buf + 4294967296 ≤ SIZE_MOD) (hb : s.cmdbuf.len ≤ L.sizeof_buf) :
    (∀ op, ∃ s', s.step L G (.frame op) = some s' ∧ s'.pipe = s.pipe) ∧
    (∀ stack c, ∃ s', s.step L G (.reliable stack c) = some s' ∧
      s'.pipe = issueReliable { G with stack := stack } s.pipe c ∧
      s'.cmdbuf.len = s.cmdbuf.len ∧ s'.cmdbuf.frameId = s.cmdbuf.frameId ∧
      s'.cmdbuf.buf = s.cmdbuf.buf ∧ s'.cmdbuf.base = s.cmdbuf.base) ∧
    (∀ ops st, ∃ s' alone records1 records2,
      Channels.steps L G s ops = some s' ∧
      Channels.steps L G s (callsAlone st (reliableCalls ops)) = some alone ∧
      s'.pipe = issueReliableEach G s.pipe (reliableCalls ops) ∧
      s'.pipe = s.pipe ++ records1 ∧ alone.pipe = s.pipe ++ records2 ∧
      SamePipeRecords ((reliableCalls ops).map Prod.snd) records1 records2 ∧
      (∀ G' : PipeEnv, drainPipe G' records1 = drainPipe G' records2) ∧
      s'.cmdbuf.len = (applyOps L s.cmdbuf (frameOps ops)).len ∧
      s'.cmdbuf.frameId = (applyOps L s.cmdbuf (frameOps ops)).frameId ∧
      s'.cmdbuf.buf = (applyOps L s.cmdbuf (frameOps ops)).buf) := by
  refine ⟨fun op => ⟨_, step_frame L G s op hcap hb, rfl⟩,
    fun stack c => ⟨_, rfl, rfl, rfl, rfl, rfl, rfl⟩, fun ops st => ?_⟩
  obtain ⟨q1, q2, i1, i2, i3, i4⟩ :=
    issueReliableEach_stack G (reliableCalls ops) st s.pipe s.pipe
  exact ⟨_, _, q1, q2, steps_spec L G hcap ops s hb, steps_spec L G hcap _ s hb, rfl, i1, i2,
    i3, i4, rfl, rfl, rfl⟩

set_option maxRecDepth 100000 in
/-- Witness of C22, amended: the calls of `exampleInterleaving` on a fresh buffer and an
empty pipe, compared with its three pipe encoder calls made alone on a zeroed stack. -/
theorem C22_channel_independence_witness :
    exampleLayout.sizeof_buf + 4294967296 ≤ SIZE_MOD ∧
    (RF_CreateCmdBuf 4096).len ≤ exampleLayout.sizeof_buf ∧
    (∃ s' alone records1 records2,
      Channels.steps exampleLayout examplePipeEnv
        { cmdbuf := RF_CreateCmdBuf 4096, pipe := [] } exampleInterleaving = some s' ∧
      Channels.steps exampleLayout examplePipeEnv
        { cmdbuf := RF_CreateCmdBuf 4096, pipe := [] }
        (callsAlone (fun _ _ => 0) (reliableCalls exampleInterleaving)) = some alone ∧
      s'.pipe = issueReliableEach examplePipeEnv [] (reliableCalls exampleInterleaving) ∧
      s'.pipe = [] ++ records1 ∧ alone.pipe = [] ++ records2 ∧
      SamePipeRecords ((reliableCalls exampleInterleaving).map Prod.snd) records1 records2 ∧
      (∀ G' : PipeEnv, drainPipe G' records1 = drainPipe G' records2) ∧
      s'.cmdbuf.len = (applyOps exampleLayout (RF_CreateCmdBuf 4096)
        (frameOps exampleInterleaving)).len ∧
      s'.cmdbuf.frameId = (applyOps exampleLayout (RF_CreateCmdBuf 4096)
        (frameOps exampleInterleaving)).frameId ∧
      s'.cmdbuf.buf = (applyOps exampleLayout (RF_CreateCmdBuf 4096)
        (frameOps exampleInterleaving)).buf) ∧
    (Channels.steps exampleLayout examplePipeEnv
      { cmdbuf := RF_CreateCmdBuf 4096, pipe := [] } exampleInterleaving).map
      (fun r => (drainPipe examplePipeEnv r.pipe, r.cmdbuf.len, r.cmdbuf.frameId))
      = some ([.R_SetGamma 1067030938, .R_SetDrawBuffer [98, 97, 99, 107],
          .R_TakeScreenShot [47, 116, 109, 112] [115, 104, 111, 116] [37, 48, 52, 100]
            0 0 800 600 false true], 12, 2) :=
  ⟨by decide, by decide,
    (C22_channel_independence exampleLayout examplePipeEnv
      { cmdbuf := RF_CreateCmdBuf 4096, pipe := [] } (by decide) (by decide)).2.2
      exampleInterleaving (fun _ _ => 0),
    by decide⟩

end RCmdQue
